import Mathlib

/-!
# ImmersiveUI interaction core: widget tree, pagination, hit testing, hover and hold gestures

A shallow embedding of the interaction core of the ImmersiveUI plugin
(`src/vrui/VRUIWidget.cpp`, `VRUIContainer.cpp`, `VRUIButton.cpp`, `VRUIToggleButton.cpp`,
`VRUISlider.cpp`, `VRUIPanel.cpp`, `VRMenuManager.cpp`).

Conventions of the embedding:

* C++ `float` values are rationals (`ℚ`); `±infinity` is an explicit extra value where the
  source uses it.  Where a comparison or a conversion to `int` depends on the result of a
  `float` operation, the result is rounded to binary32 (`F32.round`): in the page count,
  in the ray test, in the hover lock timer, in the hold timer and in the tolerance test of
  the slider.  Positions, sizes, scales and the fade timer of a panel are computed in exact
  arithmetic.  Results beyond the largest finite `float` and NaN are not modelled.
* C++ `int` values are `Int` (no wrap-around: the page arithmetic stays far below `2^31`
  for any child list that fits in memory).
* The widget tree is a value: every widget exclusively owns its children, so a widget
  occurs in one child list, once.  (The functions that build the tree from objects with
  parent links, `addChild` and `removeChild`, are embedded separately over a heap.)
* The scene-graph node of a widget is assumed to exist (`NiNode::Create` succeeded), so
  `setLocalPosition` and friends always take effect.
* `isVisible()` walks the parent chain; in the tree-as-value model the effective
  visibility of the parent is passed down as the Boolean argument `parentVisible`
  (`true` for a widget without parent).
-/

namespace vrui

/-! ## Single-precision arithmetic

The results of the `float` operations on which a comparison or an integer conversion of the
source depends are rounded to binary32 (IEEE 754 round-to-nearest, ties to even). -/

namespace F32

/-- Rounding of a rational to the nearest integer, a tie going to the even neighbour. -/
def roundHalfEven (q : ℚ) : Int :=
  if q - ⌊q⌋ < 1 / 2 then ⌊q⌋
  else if 1 / 2 < q - ⌊q⌋ then ⌊q⌋ + 1
  else if ⌊q⌋ % 2 = 0 then ⌊q⌋ else ⌊q⌋ + 1

/-- Exponent of the spacing of the binary32 values around `q`: 23 below the exponent of
`q` (24 significant bits), and -149 in the subnormal range. -/
def ulpExp (q : ℚ) : Int :=
  if q = 0 then -149 else max (Int.log 2 |q| - 23) (-149)

/-- The binary32 value nearest to `q`, a tie going to the value with even significand: the
result of a `float` operation whose exact result is `q`.  (The exponent is not bounded
above: results beyond the largest finite `float`, about `3.4e38`, are not modelled.) -/
def round (q : ℚ) : ℚ :=
  (roundHalfEven (q / 2 ^ ulpExp q) : ℚ) * 2 ^ ulpExp q

/-- The rational is a binary32 value: rounding leaves it as it is. -/
def IsFloat (q : ℚ) : Prop :=
  round q = q

instance (q : ℚ) : Decidable (IsFloat q) :=
  inferInstanceAs (Decidable (round q = q))

end F32

/-! ## Basic geometry and settings -/

/-- The `RE::NiPoint3` of the host: three float coordinates. -/
structure NiPoint3 where
  x : ℚ
  y : ℚ
  z : ℚ
deriving DecidableEq

/-- The `RE::NiPoint2` of the host: two float coordinates. -/
structure NiPoint2 where
  x : ℚ
  y : ℚ
deriving DecidableEq

/-- The tunables of `VRUISettings.h` that the interaction core reads. -/
structure VRUISettings where
  activationHoldTime : ℚ
  buttonMeshScale : ℚ
  invertGridX : Bool
  hitboxScale : ℚ
  hitTestDepth : ℚ
  raycastMaxDistance : ℚ

/-- The defaults of `VRUISettings.h`.  The hold time is the binary32 value of the literal
`0.3f`. -/
def VRUISettings.defaults : VRUISettings where
  activationHoldTime := 5033165 / 16777216
  buttonMeshScale := 2 / 100
  invertGridX := true
  hitboxScale := 1
  hitTestDepth := 1
  raycastMaxDistance := 250

/-! ## Widget tree -/

/-- Layout modes of `VRUIContainer.h`. -/
inductive ContainerLayout where
  | HorizontalCenter
  | VerticalDown
  | VerticalUp
  | Grid
  | Free
deriving DecidableEq

/-- The private members that `VRUIContainer` adds to `VRUIWidget`. -/
structure ContainerData where
  layoutDirty : Bool
  layout : ContainerLayout
  spacing : ℚ
  pageSize : Int
  currentPage : Int

/-- The members of `VRUIWidget` (name, logical size, visibility flag, the local transform
of its node, animation state), and the container members when the widget is a
`VRUIContainer`. -/
structure WidgetData where
  name : String
  width : ℚ
  height : ℚ
  visible : Bool
  localTranslate : NiPoint3
  localScale : ℚ
  baseScale : ℚ
  animProgress : ℚ
  animDelayFrames : Int
  container : Option ContainerData

/-- A widget together with the children it owns, in insertion order. -/
inductive VRUIWidget where
  | mk (data : WidgetData) (children : List VRUIWidget)

namespace VRUIWidget

/-- The member fields of a widget. -/
def data : VRUIWidget → WidgetData
  | mk d _ => d

/-- Member `_children`, as returned by `getChildren()`. -/
def children : VRUIWidget → List VRUIWidget
  | mk _ cs => cs

/-- Height of the tree below a widget: the longest chain of nested children. -/
def depth : VRUIWidget → Nat
  | mk _ cs => depthList cs
where
  /-- One more than the largest depth in a list of widgets, `0` for the empty list. -/
  depthList : List VRUIWidget → Nat
    | [] => 0
    | c :: cs => max (depth c + 1) (depthList cs)

/-- Method `VRUIWidget::setVisible`: writes the local flag. -/
def setVisible (visible : Bool) : VRUIWidget → VRUIWidget
  | mk d cs => mk { d with visible := visible } cs

/-- Method `VRUIWidget::setLocalPosition`: writes the node's local translation. -/
def setLocalPosition (pos : NiPoint3) : VRUIWidget → VRUIWidget
  | mk d cs => mk { d with localTranslate := pos } cs

/-- Method `VRUIWidget::startScaleAnimation`: sets the delay, resets progress and scale to 0. -/
def startScaleAnimation (delayFrames : Int) : VRUIWidget → VRUIWidget
  | mk d cs =>
    mk { d with animDelayFrames := delayFrames, animProgress := 0, localScale := 0 } cs

/-- Method `VRUIWidget::isVisible`: the local flag and, through the parent chain, the effective
visibility of the parent. -/
def isVisible (parentVisible : Bool) (w : VRUIWidget) : Bool :=
  if !w.data.visible then false else parentVisible

/-- Running bounding box of `VRUIContainer::calculateLogicalDimensions`. -/
structure Bounds where
  first : Bool
  minX : ℚ
  maxX : ℚ
  minZ : ℚ
  maxZ : ℚ

mutual
/-- The virtual `calculateLogicalDimensions`: `{_width, _height}` for a plain widget, the
bounding box of the visible children for a container.  `selfVisible` is `isVisible()` of
the widget itself. -/
def calculateLogicalDimensions (selfVisible : Bool) : VRUIWidget → NiPoint2
  | mk d cs =>
    match d.container with
    | none => ⟨d.width, d.height⟩
    | some _ =>
      if cs.isEmpty then ⟨0, 0⟩ else
      let b := boundsLoop selfVisible cs ⟨true, 0, 0, 0, 0⟩
      if b.first then ⟨0, 0⟩ else ⟨b.maxX - b.minX, b.maxZ - b.minZ⟩
/-- The loop over the children of `VRUIContainer::calculateLogicalDimensions`. -/
def boundsLoop (parentVisible : Bool) : List VRUIWidget → Bounds → Bounds
  | [], b => b
  | child :: rest, b =>
    if !child.isVisible parentVisible then
      boundsLoop parentVisible rest b
    else
      let pos := child.data.localTranslate
      let size := calculateLogicalDimensions (child.isVisible parentVisible) child
      let left := pos.x - size.x * (1 / 2)
      let right := pos.x + size.x * (1 / 2)
      let top := pos.z + size.y * (1 / 2)
      let bottom := pos.z - size.y * (1 / 2)
      if b.first then
        boundsLoop parentVisible rest ⟨false, left, right, bottom, top⟩
      else
        boundsLoop parentVisible rest
          ⟨false, min b.minX left, max b.maxX right, min b.minZ bottom, max b.maxZ top⟩
end

end VRUIWidget

/-! ## Container: layout and pagination (`VRUIContainer.cpp`) -/

namespace VRUIContainer

open VRUIWidget

/-- Member `_gridColumns`: initialised to 3 and never written. -/
def gridColumns : Int := 3

/-- The constructor `VRUIContainer(name, layout, spacing, scale)`: a widget of logical size
0 × 0, visible, animation finished, page size 0, page 0, scaled by `setLocalScale(scale)`. -/
def new (name : String) (layout : ContainerLayout) (spacing scale : ℚ) : VRUIWidget :=
  .mk { name := name, width := 0, height := 0, visible := true,
        localTranslate := ⟨0, 0, 0⟩, localScale := scale, baseScale := scale,
        animProgress := 1, animDelayFrames := 0,
        container := some { layoutDirty := true, layout := layout, spacing := spacing,
                            pageSize := 0, currentPage := 0 } } []

/-- Method `getTotalPages()`: 1 without pagination or without children, else
`ceil((float)numVisible / _pageSize)`: both counts are converted to `float`, the quotient
is a `float`, and its ceiling is converted back to `int`.  (A widget that is no container
has no such method; the embedding answers 1.) -/
def getTotalPages (w : VRUIWidget) : Int :=
  match w.data.container with
  | none => 1
  | some c =>
    if c.pageSize ≤ 0 then 1
    else
      let numVisible : Int := (w.children.length : Int)
      if numVisible = 0 then 1
      else ⌈F32.round (F32.round (numVisible : ℚ) / F32.round (c.pageSize : ℚ))⌉

/-- First loop of the `HorizontalCenter` case: total width and count of the visible
children. -/
def rowMeasure (selfVisible : Bool) : List VRUIWidget → ℚ × Int → ℚ × Int
  | [], acc => acc
  | child :: rest, acc =>
    if child.isVisible selfVisible then
      rowMeasure selfVisible rest
        (acc.1 + (child.calculateLogicalDimensions (child.isVisible selfVisible)).x, acc.2 + 1)
    else rowMeasure selfVisible rest acc

/-- Second loop of the `HorizontalCenter` case: visible children left to right. -/
def placeRow (selfVisible : Bool) (spacing : ℚ) : ℚ → List VRUIWidget → List VRUIWidget
  | _, [] => []
  | currentX, child :: rest =>
    if !child.isVisible selfVisible then child :: placeRow selfVisible spacing currentX rest
    else
      let childW := (child.calculateLogicalDimensions (child.isVisible selfVisible)).x
      child.setLocalPosition ⟨currentX + childW * (1 / 2), 0, 0⟩ ::
        placeRow selfVisible spacing (currentX + (childW + spacing)) rest

/-- Loop of the `VerticalDown` (`down = true`) and `VerticalUp` cases: visible children
stacked along local Z from 0. -/
def placeColumn (selfVisible : Bool) (spacing : ℚ) (down : Bool) :
    ℚ → List VRUIWidget → List VRUIWidget
  | _, [] => []
  | currentZ, child :: rest =>
    if !child.isVisible selfVisible then
      child :: placeColumn selfVisible spacing down currentZ rest
    else
      let childH := (child.calculateLogicalDimensions (child.isVisible selfVisible)).y
      if down then
        child.setLocalPosition ⟨0, 0, currentZ - childH * (1 / 2)⟩ ::
          placeColumn selfVisible spacing down (currentZ - (childH + spacing)) rest
      else
        child.setLocalPosition ⟨0, 0, currentZ + childH * (1 / 2)⟩ ::
          placeColumn selfVisible spacing down (currentZ + (childH + spacing)) rest

/-- Grid: "hide everything first", then `setVisible(true)` for the indices
`startIndex ≤ i < endIndex`; `idx` is the index of the head of the list. -/
def showPage (startIndex endIndex : Int) : Nat → List VRUIWidget → List VRUIWidget
  | _, [] => []
  | idx, child :: rest =>
    (if startIndex ≤ (idx : Int) ∧ (idx : Int) < endIndex then
        (child.setVisible false).setVisible true
      else child.setVisible false) :: showPage startIndex endIndex (idx + 1) rest

/-- Grid: local position of the `i`-th child of a page of `numInPage` children whose first
child is `first`. -/
def gridCell (s : VRUISettings) (spacing : ℚ) (numInPage : Int) (first : VRUIWidget)
    (i : Int) : NiPoint3 :=
  let rows : Int := ⌈(numInPage : ℚ) / (gridColumns : ℚ)⌉
  let cols : Int := min numInPage gridColumns
  let visualScale := s.buttonMeshScale
  let cellW := first.data.width * visualScale
  let cellH := first.data.height * visualScale
  let totalWidth := (cols : ℚ) * cellW + ((cols - 1 : Int) : ℚ) * spacing
  let totalHeight := (rows : ℚ) * cellH + ((rows - 1 : Int) : ℚ) * spacing
  let startX := -totalWidth * (1 / 2) + cellW * (1 / 2)
  let startZ := totalHeight * (1 / 2) - cellH * (1 / 2)
  let r : Int := Int.tdiv i gridColumns
  let c0 : Int := Int.tmod i gridColumns
  let c : Int := if s.invertGridX then (cols - 1) - c0 else c0
  ⟨startX + (c : ℚ) * (cellW + spacing), 0, startZ - (r : ℚ) * (cellH + spacing)⟩

/-- Grid: the placement loop over `pageChildren`, which are the children at the indices
`startIndex ≤ i < endIndex`. -/
def placeGrid (s : VRUISettings) (spacing : ℚ) (numInPage : Int) (first : VRUIWidget)
    (startIndex endIndex : Int) : Nat → List VRUIWidget → List VRUIWidget
  | _, [] => []
  | idx, child :: rest =>
    (if startIndex ≤ (idx : Int) ∧ (idx : Int) < endIndex then
        child.setLocalPosition (gridCell s spacing numInPage first ((idx : Int) - startIndex))
      else child) :: placeGrid s spacing numInPage first startIndex endIndex (idx + 1) rest

/-- The "FINAL DIMENSION UPDATE" of `recalculateLayout`: the container's own width and height
become its `calculateLogicalDimensions()`. -/
def updateDimensions (selfVisible : Bool) (d : WidgetData) (children : List VRUIWidget) :
    VRUIWidget :=
  let dims := (VRUIWidget.mk d children).calculateLogicalDimensions selfVisible
  .mk { d with width := dims.x, height := dims.y } children

/-- Local `startIndex` of the Grid case: `_currentPage * _pageSize` under pagination,
else 0. -/
def startIndex (c : ContainerData) : Int :=
  if c.pageSize > 0 then c.currentPage * c.pageSize else 0

/-- Local `endIndex` of the Grid case: `min(startIndex + _pageSize, numEligible)` under
pagination, else `numEligible`. -/
def endIndex (c : ContainerData) (numEligible : Int) : Int :=
  if c.pageSize > 0 then min (startIndex c + c.pageSize) numEligible else numEligible

/-- Grid: the test "current page is out of bounds" that triggers the reset to page 0. -/
def pageOutOfBounds (c : ContainerData) (numEligible : Int) : Bool :=
  decide (c.pageSize > 0 ∧ startIndex c ≥ numEligible ∧ c.currentPage > 0)

/-- The `HorizontalCenter` case: measure the visible children, then place them centred. -/
def layoutRow (selfVisible : Bool) (spacing : ℚ) (children : List VRUIWidget) :
    List VRUIWidget :=
  let m := rowMeasure selfVisible children (0, 0)
  let totalWidth := if m.2 > 1 then m.1 + spacing * ((m.2 - 1 : Int) : ℚ) else m.1
  placeRow selfVisible spacing (-totalWidth * (1 / 2)) children

/-- The Grid case after the bounds test: show the current page, hide the rest, place the
page's children in cells. -/
def layoutGrid (s : VRUISettings) (c : ContainerData) (children : List VRUIWidget) :
    List VRUIWidget :=
  let numEligible : Int := (children.length : Int)
  let shown := showPage (startIndex c) (endIndex c numEligible) 0 children
  let numInPage : Int := max 0 (endIndex c numEligible - startIndex c)
  if numInPage = 0 then shown
  else
    match shown.get? (startIndex c).toNat with
    | none => shown
    | some first =>
      placeGrid s c.spacing numInPage first (startIndex c) (endIndex c numEligible) 0 shown

/-- Method `recalculateLayout()` with a bound `fuel` on the depth of nested calls (each
call, to a child or to itself after a page reset, uses one unit; without fuel the widget is
returned as it is).  For a plain widget it is the empty `VRUIWidget::recalculateLayout`. -/
def recalculateLayoutAux (s : VRUISettings) : Nat → Bool → VRUIWidget → VRUIWidget
  | 0, _, w => w
  | fuel + 1, parentVisible, w =>
    match w.data.container with
    | none => w
    | some c0 =>
      let selfVisible := w.isVisible parentVisible
      let c : ContainerData := { c0 with layoutDirty := false }
      let d : WidgetData := { w.data with container := some c }
      let children := w.children.map (recalculateLayoutAux s fuel selfVisible)
      if children.isEmpty then .mk d children
      else
        match c.layout with
        | .HorizontalCenter =>
          updateDimensions selfVisible d (layoutRow selfVisible c.spacing children)
        | .VerticalDown =>
          updateDimensions selfVisible d (placeColumn selfVisible c.spacing true 0 children)
        | .VerticalUp =>
          updateDimensions selfVisible d (placeColumn selfVisible c.spacing false 0 children)
        | .Grid =>
          if pageOutOfBounds c (children.length : Int) then
            recalculateLayoutAux s fuel parentVisible
              (.mk { d with container := some { c with currentPage := 0 } } children)
          else updateDimensions selfVisible d (layoutGrid s c children)
        | .Free => updateDimensions selfVisible d children

/-- Method `recalculateLayout()`: the fuel covers every nested call on a tree of this depth
(`recalculateLayoutAux_fuel_stable`: more fuel gives the same result). -/
def recalculateLayout (s : VRUISettings) (parentVisible : Bool) (w : VRUIWidget) :
    VRUIWidget :=
  recalculateLayoutAux s (2 * w.depth + 2) parentVisible w

/-- Applies `f` to the container members of a widget (none for a plain widget). -/
def modifyContainer (f : ContainerData → ContainerData) (w : VRUIWidget) : VRUIWidget :=
  .mk { w.data with container := w.data.container.map f } w.children

/-- Member `_currentPage` (`getCurrentPage()`); 0 for a widget that is no container. -/
def getCurrentPage (w : VRUIWidget) : Int :=
  match w.data.container with
  | none => 0
  | some c => c.currentPage

/-- Member `_pageSize` (`getPageSize()`); 0 for a widget that is no container. -/
def getPageSize (w : VRUIWidget) : Int :=
  match w.data.container with
  | none => 0
  | some c => c.pageSize

/-- Member `_layout` (`getLayout()`), when the widget is a container. -/
def getLayout (w : VRUIWidget) : Option ContainerLayout :=
  w.data.container.map (·.layout)

/-- Method `VRUIWidget::addChild`: the child is appended to `_children`. -/
def addChild (child : VRUIWidget) (w : VRUIWidget) : VRUIWidget :=
  .mk w.data (w.children ++ [child])

/-- Method `VRUIWidget::removeChild`: `it` is the position `std::find` returns, a position past
the end standing for `end()` (child not found, nothing erased). -/
def removeChild (it : Nat) (w : VRUIWidget) : VRUIWidget :=
  .mk w.data (w.children.eraseIdx it)

/-- Method `addElement`: `addChild` then `recalculateLayout`. -/
def addElement (s : VRUISettings) (parentVisible : Bool) (element : VRUIWidget)
    (w : VRUIWidget) : VRUIWidget :=
  recalculateLayout s parentVisible (addChild element w)

/-- Method `removeElement`: `removeChild` then `recalculateLayout`. -/
def removeElement (s : VRUISettings) (parentVisible : Bool) (it : Nat) (w : VRUIWidget) :
    VRUIWidget :=
  recalculateLayout s parentVisible (removeChild it w)

/-- Method `clearElements`: `removeChild` for every element of a copy of the child list; each
child is found at the front of what is left.  No layout pass follows. -/
def clearElements (w : VRUIWidget) : VRUIWidget :=
  w.children.foldl (fun acc _ => removeChild 0 acc) w

/-- Method `setLayout`. -/
def setLayout (s : VRUISettings) (parentVisible : Bool) (layout : ContainerLayout)
    (w : VRUIWidget) : VRUIWidget :=
  recalculateLayout s parentVisible (modifyContainer (fun c => { c with layout := layout }) w)

/-- Method `setSpacing`. -/
def setSpacing (s : VRUISettings) (parentVisible : Bool) (spacing : ℚ) (w : VRUIWidget) :
    VRUIWidget :=
  recalculateLayout s parentVisible
    (modifyContainer (fun c => { c with spacing := spacing }) w)

/-- Method `setPageSize`: page size `max(0, size)`, page 0, then `recalculateLayout`. -/
def setPageSize (s : VRUISettings) (parentVisible : Bool) (size : Int) (w : VRUIWidget) :
    VRUIWidget :=
  recalculateLayout s parentVisible
    (modifyContainer (fun c => { c with pageSize := max 0 size, currentPage := 0 }) w)

/-- Function `std::clamp(v, lo, hi)`. -/
def clamp (v lo hi : Int) : Int :=
  if v < lo then lo else if hi < v then hi else v

/-- The loop at the end of `setPage`: cascade entrance animation on the visible children,
the `visibleIdx`-th of them delayed by `visibleIdx * 2` frames. -/
def cascade (selfVisible : Bool) : Int → List VRUIWidget → List VRUIWidget
  | _, [] => []
  | visibleIdx, child :: rest =>
    if child.isVisible selfVisible then
      child.startScaleAnimation (visibleIdx * 2) :: cascade selfVisible (visibleIdx + 1) rest
    else child :: cascade selfVisible visibleIdx rest

/-- Method `setPage`: clamp the page into `[0, total - 1]`, `recalculateLayout`, then the entrance
animation of the visible children. -/
def setPage (s : VRUISettings) (parentVisible : Bool) (page : Int) (w : VRUIWidget) :
    VRUIWidget :=
  let total := getTotalPages w
  let w1 := modifyContainer
    (fun c => { c with currentPage := if total > 0 then clamp page 0 (total - 1) else 0 }) w
  let w2 := recalculateLayout s parentVisible w1
  .mk w2.data (cascade (w2.isVisible parentVisible) 0 w2.children)

/-- Method `nextPage`: the next page, or page 0 after the last one. -/
def nextPage (s : VRUISettings) (parentVisible : Bool) (w : VRUIWidget) : VRUIWidget :=
  let total := getTotalPages w
  if getCurrentPage w + 1 < total then setPage s parentVisible (getCurrentPage w + 1) w
  else setPage s parentVisible 0 w

/-- Method `prevPage`: the previous page, or the last page before page 0. -/
def prevPage (s : VRUISettings) (parentVisible : Bool) (w : VRUIWidget) : VRUIWidget :=
  if getCurrentPage w > 0 then setPage s parentVisible (getCurrentPage w - 1) w
  else setPage s parentVisible (getTotalPages w - 1) w

/-- The public operations of a container that the pagination invariant ranges over. -/
inductive Op where
  | addElement (parentVisible : Bool) (element : VRUIWidget)
  | removeElement (parentVisible : Bool) (it : Nat)
  | clearElements
  | setLayout (parentVisible : Bool) (layout : ContainerLayout)
  | setSpacing (parentVisible : Bool) (spacing : ℚ)
  | setPageSize (parentVisible : Bool) (size : Int)
  | setPage (parentVisible : Bool) (page : Int)
  | nextPage (parentVisible : Bool)
  | prevPage (parentVisible : Bool)
  | recalculateLayout (parentVisible : Bool)

/-- Runs one operation on a container. -/
def Op.run (s : VRUISettings) (w : VRUIWidget) : Op → VRUIWidget
  | .addElement pv element => VRUIContainer.addElement s pv element w
  | .removeElement pv it => VRUIContainer.removeElement s pv it w
  | .clearElements => VRUIContainer.clearElements w
  | .setLayout pv layout => VRUIContainer.setLayout s pv layout w
  | .setSpacing pv spacing => VRUIContainer.setSpacing s pv spacing w
  | .setPageSize pv size => VRUIContainer.setPageSize s pv size w
  | .setPage pv page => VRUIContainer.setPage s pv page w
  | .nextPage pv => VRUIContainer.nextPage s pv w
  | .prevPage pv => VRUIContainer.prevPage s pv w
  | .recalculateLayout pv => VRUIContainer.recalculateLayout s pv w

/-- The container states reachable from a freshly constructed container by the public
operations. -/
inductive Reachable (s : VRUISettings) : VRUIWidget → Prop where
  | init (name : String) (layout : ContainerLayout) (spacing scale : ℚ) :
      Reachable s (VRUIContainer.new name layout spacing scale)
  | step {w : VRUIWidget} (op : Op) : Reachable s w → Reachable s (op.run s w)

/-- The pagination-relevant part of a container state. -/
structure PageView where
  layout : ContainerLayout
  pageSize : Int
  currentPage : Int
  count : Nat
deriving DecidableEq

/-- The pagination view of a widget, when it is a container. -/
def pageView (w : VRUIWidget) : Option PageView :=
  w.data.container.map
    (fun c => { layout := c.layout, pageSize := c.pageSize, currentPage := c.currentPage,
                count := w.children.length })

namespace PageView

/-- Method `getTotalPages()` on the view: the ceiling of the `float` quotient of the two
counts. -/
def totalPages (v : PageView) : Int :=
  if v.pageSize ≤ 0 then 1
  else if v.count = 0 then 1
  else ⌈F32.round (F32.round ((v.count : Int) : ℚ) / F32.round (v.pageSize : ℚ))⌉

/-- Method `recalculateLayout()` on the view: only a Grid with children resets an out-of-bounds
page. -/
def relayout (v : PageView) : PageView :=
  { v with
    currentPage :=
      if v.layout = .Grid ∧ v.count ≠ 0 ∧ v.pageSize > 0 ∧
          v.currentPage * v.pageSize ≥ (v.count : Int) ∧ v.currentPage > 0
        then 0 else v.currentPage }

/-- Method `setPage` on the view. -/
def setPage (page : Int) (v : PageView) : PageView :=
  relayout { v with
    currentPage := if v.totalPages > 0 then clamp page 0 (v.totalPages - 1) else 0 }

/-- One container operation on the view. -/
def step (v : PageView) : Op → PageView
  | .addElement _ _ => relayout { v with count := v.count + 1 }
  | .removeElement _ it => relayout { v with count := if it < v.count then v.count - 1 else v.count }
  | .clearElements => { v with count := 0 }
  | .setLayout _ layout => relayout { v with layout := layout }
  | .setSpacing _ _ => relayout v
  | .setPageSize _ size => relayout { v with pageSize := max 0 size, currentPage := 0 }
  | .setPage _ page => setPage page v
  | .nextPage _ =>
    if v.currentPage + 1 < v.totalPages then setPage (v.currentPage + 1) v else setPage 0 v
  | .prevPage _ =>
    if v.currentPage > 0 then setPage (v.currentPage - 1) v else setPage (v.totalPages - 1) v
  | .recalculateLayout _ => relayout v

end PageView

/-! ### Sample widgets -/

/-- The constructor `VRUIWidget(name, width, height)`: visible, unit scale, animation
finished, no children. -/
def plain (name : String) (width height : ℚ) : VRUIWidget :=
  .mk { name := name, width := width, height := height, visible := true,
        localTranslate := ⟨0, 0, 0⟩, localScale := 1, baseScale := 1,
        animProgress := 1, animDelayFrames := 0, container := none } []

/-- A Grid container on page `page` with page size `pageSize` and `n` plain children. -/
def sampleGrid (pageSize page : Int) (n : Nat) : VRUIWidget :=
  .mk { name := "Grid3x3", width := 0, height := 0, visible := true,
        localTranslate := ⟨0, 0, 0⟩, localScale := 1, baseScale := 1,
        animProgress := 1, animDelayFrames := 0,
        container := some { layoutDirty := true, layout := .Grid, spacing := 3 / 10,
                            pageSize := pageSize, currentPage := page } }
    (List.replicate n (plain "slot" 3 (3 / 2)))

/-- Runs a list of operations, first to last. -/
def runOps (s : VRUISettings) (w : VRUIWidget) (ops : List Op) : VRUIWidget :=
  ops.foldl (fun acc op => op.run s acc) w

/-- A Grid with page size 1 and two children, turned to page 1, then cleared. -/
def clearedGrid : VRUIWidget :=
  runOps VRUISettings.defaults (VRUIContainer.new "Grid3x3" .Grid (3 / 10) 1)
    [.setPageSize true 1, .addElement true (plain "a" 3 (3 / 2)),
     .addElement true (plain "b" 3 (3 / 2)), .setPage true 1, .clearElements]

/-- A column with page size 1 and two children, turned to page 1, then one child removed. -/
def shrunkColumn : VRUIWidget :=
  runOps VRUISettings.defaults (VRUIContainer.new "Column" .VerticalDown (3 / 10) 1)
    [.setPageSize true 1, .addElement true (plain "a" 3 (3 / 2)),
     .addElement true (plain "b" 3 (3 / 2)), .setPage true 1, .removeElement true 1]

/-- A Grid with page size 1 and two children, turned to page 1, then one child removed. -/
def shrunkGrid : VRUIWidget :=
  runOps VRUISettings.defaults (VRUIContainer.new "Grid3x3" .Grid (3 / 10) 1)
    [.setPageSize true 1, .addElement true (plain "a" 3 (3 / 2)),
     .addElement true (plain "b" 3 (3 / 2)), .setPage true 1, .removeElement true 1]

end VRUIContainer

/-! ## Hit testing (`VRUIWidget.cpp`) -/

/-- A `float` that may be `-infinity` or `+infinity` (NaN does not arise: the slab loop
never multiplies an infinity). -/
inductive XFloat where
  | negInf
  | fin (q : ℚ)
  | posInf
deriving DecidableEq

namespace XFloat

/-- The order `a <= b` of extended floats. -/
def le : XFloat → XFloat → Prop
  | negInf, _ => True
  | fin _, negInf => False
  | fin a, fin b => a ≤ b
  | fin _, posInf => True
  | posInf, posInf => True
  | posInf, _ => False

/-- The strict order `a < b` of extended floats. -/
def lt : XFloat → XFloat → Prop
  | negInf, negInf => False
  | negInf, _ => True
  | fin _, negInf => False
  | fin a, fin b => a < b
  | fin _, posInf => True
  | posInf, _ => False

instance : LE XFloat := ⟨le⟩

instance : LT XFloat := ⟨lt⟩

instance decLe : (a b : XFloat) → Decidable (a ≤ b)
  | negInf, _ => isTrue trivial
  | fin _, negInf => isFalse not_false
  | fin a, fin b => inferInstanceAs (Decidable (a ≤ b))
  | fin _, posInf => isTrue trivial
  | posInf, posInf => isTrue trivial
  | posInf, negInf => isFalse not_false
  | posInf, fin _ => isFalse not_false

instance decLt : (a b : XFloat) → Decidable (a < b)
  | negInf, negInf => isFalse not_false
  | negInf, fin _ => isTrue trivial
  | negInf, posInf => isTrue trivial
  | fin _, negInf => isFalse not_false
  | fin a, fin b => inferInstanceAs (Decidable (a < b))
  | fin _, posInf => isTrue trivial
  | posInf, _ => isFalse not_false

end XFloat

/-- The `AABB` of `VRUIWidget.h`. -/
structure AABB where
  min : NiPoint3
  max : NiPoint3

/-- One iteration's data in `AABB::intersectsRay`: `axes[i]`, `origins[i]`, `mins[i]`,
`maxs[i]`. -/
structure SlabAxis where
  direction : ℚ
  origin : ℚ
  min : ℚ
  max : ℚ

/-- The threshold `1e-8f` under which a direction component counts as parallel: the
binary32 value of the literal, `11258999 * 2^-50`. -/
def kParallelEpsilon : ℚ := 11258999 / 1125899906842624

/-- The loop of `AABB::intersectsRay` over the remaining axes, from the running
`(tmin, tmax)`; `none` is the early `return false`.  The reciprocal, the two differences
and the two products are `float` operations. -/
def slabLoop : List SlabAxis → XFloat × XFloat → Option (XFloat × XFloat)
  | [], st => some st
  | a :: rest, (tmin, tmax) =>
    if |a.direction| < kParallelEpsilon then
      if a.origin < a.min ∨ a.origin > a.max then none
      else slabLoop rest (tmin, tmax)
    else
      let invD : ℚ := F32.round (1 / a.direction)
      let t1 : ℚ := F32.round (F32.round (a.min - a.origin) * invD)
      let t2 : ℚ := F32.round (F32.round (a.max - a.origin) * invD)
      let t1' : ℚ := if t1 > t2 then t2 else t1
      let t2' : ℚ := if t1 > t2 then t1 else t2
      let tmin' : XFloat := if tmin > XFloat.fin t1' then tmin else XFloat.fin t1'
      let tmax' : XFloat := if tmax < XFloat.fin t2' then tmax else XFloat.fin t2'
      if tmin' > tmax' then none
      else slabLoop rest (tmin', tmax')

/-- The three axes `x, y, z` of a ray against a box, as the loop reads them. -/
def AABB.axes (box : AABB) (origin direction : NiPoint3) : List SlabAxis :=
  [⟨direction.x, origin.x, box.min.x, box.max.x⟩,
   ⟨direction.y, origin.y, box.min.y, box.max.y⟩,
   ⟨direction.z, origin.z, box.min.z, box.max.z⟩]

/-- Method `AABB::intersectsRay`: `some outDistance` when it returns `true`, `none` when it
returns `false`. -/
def AABB.intersectsRay (box : AABB) (origin direction : NiPoint3) : Option XFloat :=
  match slabLoop (box.axes origin direction) (XFloat.negInf, XFloat.posInf) with
  | none => none
  | some (tmin, tmax) =>
    let outDistance : XFloat := if tmin ≥ XFloat.fin 0 then tmin else tmax
    if outDistance ≥ XFloat.fin 0 then some outDistance else none

/-- The host's `RE::NiMatrix3`: `entry[i][j]`. -/
structure NiMatrix3 where
  entry : Fin 3 → Fin 3 → ℚ

/-- The host's `RE::NiTransform`: rotation, translation, uniform scale. -/
structure NiTransform where
  rotate : NiMatrix3
  translate : NiPoint3
  scale : ℚ

/-- The `float` expression `a*x + b*y + c*z`: three products, then two sums, left to
right, each rounded. -/
def F32.dot3 (a x b y c z : ℚ) : ℚ :=
  F32.round (F32.round (F32.round (a * x) + F32.round (b * y)) + F32.round (c * z))

/-- Step 1 of `hitTest`, the local `localOrigin`: the difference to the translation, the
transpose of the rotation applied to it, the quotient by the scale, in `float`
operations. -/
def NiTransform.localOrigin (t : NiTransform) (rayOriginWorld : NiPoint3) : NiPoint3 :=
  let diff : NiPoint3 :=
    ⟨F32.round (rayOriginWorld.x - t.translate.x), F32.round (rayOriginWorld.y - t.translate.y),
     F32.round (rayOriginWorld.z - t.translate.z)⟩
  ⟨F32.round (F32.dot3 (t.rotate.entry 0 0) diff.x (t.rotate.entry 1 0) diff.y
      (t.rotate.entry 2 0) diff.z / t.scale),
   F32.round (F32.dot3 (t.rotate.entry 0 1) diff.x (t.rotate.entry 1 1) diff.y
      (t.rotate.entry 2 1) diff.z / t.scale),
   F32.round (F32.dot3 (t.rotate.entry 0 2) diff.x (t.rotate.entry 1 2) diff.y
      (t.rotate.entry 2 2) diff.z / t.scale)⟩

/-- Step 2 of `hitTest`, the local `localDir`, in `float` operations. -/
def NiTransform.localDir (t : NiTransform) (rayDirWorld : NiPoint3) : NiPoint3 :=
  ⟨F32.round (F32.dot3 (t.rotate.entry 0 0) rayDirWorld.x (t.rotate.entry 1 0) rayDirWorld.y
      (t.rotate.entry 2 0) rayDirWorld.z / t.scale),
   F32.round (F32.dot3 (t.rotate.entry 0 1) rayDirWorld.x (t.rotate.entry 1 1) rayDirWorld.y
      (t.rotate.entry 2 1) rayDirWorld.z / t.scale),
   F32.round (F32.dot3 (t.rotate.entry 0 2) rayDirWorld.x (t.rotate.entry 1 2) rayDirWorld.y
      (t.rotate.entry 2 2) rayDirWorld.z / t.scale)⟩

/-- Step 3 of `hitTest`: the local interaction box from the logical size and the settings,
in `float` operations. -/
def hitBox (s : VRUISettings) (w : VRUIWidget) : AABB :=
  let hScale := s.hitboxScale
  let depthScale := s.hitTestDepth
  let halfW := F32.round (F32.round (w.data.width * hScale) * (1 / 2))
  let halfH := F32.round (F32.round (w.data.height * hScale) * (1 / 2))
  ⟨⟨-halfW, F32.round (-1 * depthScale), -halfH⟩, ⟨halfW, F32.round (1 * depthScale), halfH⟩⟩

/-- Method `VRUIWidget::hitTest` for a widget whose node has world transform `t`: `some distance`
on a hit. -/
def VRUIWidget.hitTest (s : VRUISettings) (t : NiTransform) (w : VRUIWidget)
    (rayOriginWorld rayDirWorld : NiPoint3) : Option XFloat :=
  (hitBox s w).intersectsRay (t.localOrigin rayOriginWorld) (t.localDir rayDirWorld)

/-- The closed box contains the point. -/
def AABB.contains (box : AABB) (p : NiPoint3) : Prop :=
  box.min.x ≤ p.x ∧ p.x ≤ box.max.x ∧ box.min.y ≤ p.y ∧ p.y ≤ box.max.y ∧
  box.min.z ≤ p.z ∧ p.z ≤ box.max.z

/-- The identity rotation. -/
def NiMatrix3.identity : NiMatrix3 := ⟨fun i j => if i = j then 1 else 0⟩

/-- An unrotated, unit-scale world transform at `p`. -/
def NiTransform.at (p : NiPoint3) : NiTransform := ⟨NiMatrix3.identity, p, 1⟩

/-- The box with half-extents (1, 1, 1) about the origin. -/
def unitBox : AABB := ⟨⟨-1, -1, -1⟩, ⟨1, 1, 1⟩⟩

/-- A plain widget of logical size 2 × 2: with the default settings its interaction box
has half-extents (1, 1, 1). -/
def unitWidget : VRUIWidget := VRUIContainer.plain "button" 2 2

/-! ### Vocabulary for the slab loop -/

/-- The `float` operations of the slab loop on this axis are exact: for a direction
component that is not 0, the reciprocal, the two differences and the two products are
binary32 values as they stand, of magnitude below `2^127`. -/
def SlabAxis.exact (a : SlabAxis) : Prop :=
  a.direction ≠ 0 →
    F32.round (1 / a.direction) = 1 / a.direction ∧
    F32.round (a.min - a.origin) = a.min - a.origin ∧
    F32.round (a.max - a.origin) = a.max - a.origin ∧
    F32.round ((a.min - a.origin) * (1 / a.direction)) = (a.min - a.origin) * (1 / a.direction) ∧
    F32.round ((a.max - a.origin) * (1 / a.direction)) = (a.max - a.origin) * (1 / a.direction) ∧
    |a.min - a.origin| < 2 ^ 127 ∧ |a.max - a.origin| < 2 ^ 127 ∧
    |(a.min - a.origin) * (1 / a.direction)| < 2 ^ 127 ∧
    |(a.max - a.origin) * (1 / a.direction)| < 2 ^ 127

/-- A call dispatched by the controller. -/
inductive Event (α : Type) where
  | rayEnter (w : α)
  | rayExit (w : α)
  | triggerPress (w : α)
  | triggerRelease (w : α)
  | toggleMenu
deriving DecidableEq

/-- Whether an event is a `toggleMenu()` call. -/
def Event.isToggle {α : Type} : Event α → Bool
  | .toggleMenu => true
  | _ => false

/-- What the controller reads and writes of a registered `VRUIPanel`: the active and shown
flags, the visibility flag, the fade timer, and whether its node is attached to the hand.
(The panel's widget subtree is not part of the controller state.) -/
structure PanelState where
  active : Bool
  shown : Bool
  visible : Bool
  fadeTimer : ℚ
  attached : Bool

/-- Constant `VRUIPanel::kFadeDuration`. -/
def kFadeDuration : ℚ := 2 / 10

/-- Method `VRUIPanel::show`, on the panel flags. -/
def PanelState.show (p : PanelState) : PanelState :=
  if !p.active then p
  else { p with fadeTimer := kFadeDuration, visible := true, shown := true }

/-- Method `VRUIPanel::hide`. -/
def PanelState.hide (p : PanelState) : PanelState :=
  if p.shown then { p with shown := false, fadeTimer := kFadeDuration } else p

/-- The members of `VRMenuManager` that the input processing uses, and the record of
dispatched calls. -/
structure VRMenuManager (α : Type) where
  menuOpen : Bool
  gripHoldTimer : ℚ
  gripWasHeld : Bool
  triggerPressed : Bool
  gripButtonDown : Bool
  triggerButtonDown : Bool
  hoveredWidget : Option α
  hoverLockTimer : ℚ
  panels : List PanelState
  events : List (Event α)

namespace VRMenuManager

variable {α : Type} [DecidableEq α]

/-- Constant `kHoverLockTime = 0.16f`, 160 ms minimum hover duration: the binary32 value of
the literal, `5368709 * 2^-25`. -/
def kHoverLockTime : ℚ := 5368709 / 33554432

/-- Method `onGripButtonChanged`: the external callback stores the grip signal. -/
def onGripButtonChanged (pressed : Bool) (m : VRMenuManager α) : VRMenuManager α :=
  { m with gripButtonDown := pressed }

/-- The "clear hover state" block of the close branch of `toggleMenu`. -/
def clearHoverState (m : VRMenuManager α) : VRMenuManager α :=
  let m1 : VRMenuManager α :=
    match m.hoveredWidget with
    | some h =>
      { m with
        events := m.events ++ [Event.rayExit h] ++
          (if m.triggerPressed then [Event.triggerRelease h] else []),
        hoveredWidget := none }
    | none => m
  { m1 with triggerPressed := false }

/-- The loop over `_panels` in `toggleMenu`, after `_menuOpen` was flipped; `done` are the
panels already visited. -/
def togglePanels (menuHandPresent : Bool) :
    List PanelState → List PanelState → VRMenuManager α → VRMenuManager α
  | [], done, m => { m with panels := done }
  | p :: rest, done, m =>
    if m.menuOpen then
      if !p.active then togglePanels menuHandPresent rest (done ++ [p]) m
      else
        let p1 := if menuHandPresent then { p with attached := true } else p
        togglePanels menuHandPresent rest (done ++ [p1.show]) m
    else
      let p1 := { p.hide with attached := false }
      togglePanels menuHandPresent rest (done ++ [p1]) (clearHoverState m)

/-- Method `toggleMenu`: flip `_menuOpen`, then show the active panels or hide all panels and
clear the hover state. -/
def toggleMenu (menuHandPresent : Bool) (m : VRMenuManager α) : VRMenuManager α :=
  let m1 : VRMenuManager α :=
    { m with menuOpen := !m.menuOpen, events := m.events ++ [Event.toggleMenu] }
  togglePanels menuHandPresent m1.panels [] m1

/-- Method `processActivationInput`: the hold-to-activate gesture.  `controlMapPresent` is the
outcome of the `ControlMap::GetSingleton()` null check.  The hold timer is a `float`
advanced by `+=`. -/
def processActivationInput (s : VRUISettings) (controlMapPresent menuHandPresent : Bool)
    (deltaTime : ℚ) (m : VRMenuManager α) : VRMenuManager α :=
  if !controlMapPresent then m
  else
    let gripHeld := m.gripButtonDown
    if gripHeld then
      let m1 : VRMenuManager α :=
        { m with gripHoldTimer := F32.round (m.gripHoldTimer + deltaTime) }
      if m1.gripHoldTimer ≥ s.activationHoldTime ∧ !m1.gripWasHeld then
        toggleMenu menuHandPresent { m1 with gripWasHeld := true }
      else m1
    else { m with gripHoldTimer := 0, gripWasHeld := false }

/-- One frame of the activation gesture: the grip signal that the callback left, and the
frame's inputs. -/
structure ActivationFrame where
  gripHeld : Bool
  deltaTime : ℚ
  controlMapPresent : Bool
  menuHandPresent : Bool

/-- The callback's last value is stored, then the frame tick samples it. -/
def activationStep (s : VRUISettings) (m : VRMenuManager α) (fr : ActivationFrame) :
    VRMenuManager α :=
  processActivationInput s fr.controlMapPresent fr.menuHandPresent fr.deltaTime
    (onGripButtonChanged fr.gripHeld m)

/-- Number of `toggleMenu()` calls recorded so far. -/
def toggleCount (m : VRMenuManager α) : Nat :=
  m.events.countP Event.isToggle

/-- The closest-hit loop of `processTouchInput` over `allButtons`, from the running
`(touchedWidget, closestDist)`.  `isVisible` and `hitTest` are the answers of
`widget->isVisible()` and of `widget->hitTest(rayOrigin, rayDir, hitDist)` this frame. -/
def closestHitLoop (isVisible : α → Bool) (hitTest : α → Option XFloat) :
    List (Option α) → Option α × XFloat → Option α × XFloat
  | [], st => st
  | none :: rest, st => closestHitLoop isVisible hitTest rest st
  | some widget :: rest, (touchedWidget, closestDist) =>
    if !isVisible widget then
      closestHitLoop isVisible hitTest rest (touchedWidget, closestDist)
    else
      match hitTest widget with
      | some hitDist =>
        if hitDist > XFloat.fin 0 ∧ hitDist < closestDist then
          closestHitLoop isVisible hitTest rest (some widget, hitDist)
        else closestHitLoop isVisible hitTest rest (touchedWidget, closestDist)
      | none => closestHitLoop isVisible hitTest rest (touchedWidget, closestDist)

/-- What the closest-hit loop guarantees for its result `r` on the candidates `l` from the
running state `(tw, cd)`: the bound did not grow; it is at most the distance of every
visible candidate with a hit distance `0 < d < cd`; and either there was no such candidate
and the state is unchanged, or the result is such a candidate together with its distance. -/
def ClosestSpec (isVisible : α → Bool) (hitTest : α → Option XFloat) (l : List (Option α))
    (tw : Option α) (cd : XFloat) (r : Option α × XFloat) : Prop :=
  r.2 ≤ cd ∧
  (∀ w' d', some w' ∈ l → isVisible w' = true → hitTest w' = some d' →
    XFloat.fin 0 < d' → d' < cd → r.2 ≤ d') ∧
  ((r = (tw, cd) ∧
      ∀ w' d', some w' ∈ l → isVisible w' = true → hitTest w' = some d' →
        ¬ (XFloat.fin 0 < d' ∧ d' < cd)) ∨
    ∃ w, r.1 = some w ∧ some w ∈ l ∧ isVisible w = true ∧ hitTest w = some r.2 ∧
      XFloat.fin 0 < r.2 ∧ r.2 < cd)

/-- The inputs of one `processTouchInput` call: the frame delta, whether the dominant hand
node was found, the buttons collected from the active and shown panel, and what
`isVisible()` and `hitTest` answer for them with this frame's ray. -/
structure TouchFrame (α : Type) where
  deltaTime : ℚ
  handPresent : Bool
  allButtons : List (Option α)
  isVisible : α → Bool
  hitTest : α → Option XFloat

/-- The raw touched widget of a frame: the result of the closest-hit loop started from
`(nullptr, raycastMaxDistance)`. -/
def rawTouched (s : VRUISettings) (fr : TouchFrame α) : Option α :=
  (closestHitLoop fr.isVisible fr.hitTest fr.allButtons
    (none, XFloat.fin s.raycastMaxDistance)).1

/-- The lock timer tick at the top of `processTouchInput`: a `float` decremented by
`-=`. -/
def tickLock (timer deltaTime : ℚ) : ℚ :=
  if timer > 0 then F32.round (timer - deltaTime) else timer

/-- The hysteresis and hover-change part of `processTouchInput`, after the lock timer was
ticked and the raw touched widget found. -/
def resolveHover (touchedWidget : Option α) (m : VRMenuManager α) : VRMenuManager α :=
  -- hover hysteresis
  let (touched, m1) : Option α × VRMenuManager α :=
    match m.hoveredWidget with
    | some _ =>
      if touchedWidget = m.hoveredWidget then
        (touchedWidget, { m with hoverLockTimer := kHoverLockTime })
      else if m.hoverLockTimer > 0 then (m.hoveredWidget, m)
      else (touchedWidget, m)
    | none => (touchedWidget, m)
  -- handle hover state changes
  if touched ≠ m1.hoveredWidget then
    let m2 : VRMenuManager α :=
      match m1.hoveredWidget with
      | some old => { m1 with events := m1.events ++ [Event.rayExit old] }
      | none => m1
    let m3 : VRMenuManager α := { m2 with hoveredWidget := touched }
    match touched with
    | some new =>
      { m3 with events := m3.events ++ [Event.rayEnter new], hoverLockTimer := kHoverLockTime }
    | none => m3
  else m1

/-- Method `processTouchInput`: nothing without the dominant hand; else tick the lock timer, find
the raw touched widget, resolve the hover. -/
def processTouchInput (s : VRUISettings) (m : VRMenuManager α) (fr : TouchFrame α) :
    VRMenuManager α :=
  if !fr.handPresent then m
  else
    resolveHover (rawTouched s fr)
      { m with hoverLockTimer := tickLock m.hoverLockTimer fr.deltaTime }

/-- A run of `processTouchInput` calls, one per frame. -/
def runTouch (s : VRUISettings) (m : VRMenuManager α) (frames : List (TouchFrame α)) :
    VRMenuManager α :=
  frames.foldl (processTouchInput s) m

/-- The lock timer after the ticks of the given frame deltas, when no hover refreshes it. -/
def lockAfter (timer : ℚ) (deltas : List ℚ) : ℚ :=
  deltas.foldl tickLock timer

/-- A run of activation frames. -/
def runActivation (s : VRUISettings) (m : VRMenuManager α) (frames : List ActivationFrame) :
    VRMenuManager α :=
  frames.foldl (activationStep s) m

/-- The hold timer after the first `n` frames of a hold that starts at 0: the frame
deltas added one by one in `float` arithmetic. -/
def heldTime (frames : List ActivationFrame) (n : Nat) : ℚ :=
  ((frames.take n).map (fun f => f.deltaTime)).foldl (fun t d => F32.round (t + d)) 0

/-- A controller with the menu closed, nothing hovered, nothing held. -/
def idle (panels : List PanelState) : VRMenuManager α :=
  { menuOpen := false, gripHoldTimer := 0, gripWasHeld := false, triggerPressed := false,
    gripButtonDown := false, triggerButtonDown := false, hoveredWidget := none,
    hoverLockTimer := 0, panels := panels, events := [] }

/-- A frame whose ray starts on the front face of the widget `0`, which has half-extents
(1, 1, 1) at the origin: the hit test reports distance 0. -/
def faceFrame : TouchFrame Nat :=
  { deltaTime := 1 / 60, handPresent := true, allButtons := [some 0],
    isVisible := fun _ => true,
    hitTest := fun _ =>
      unitWidget.hitTest VRUISettings.defaults (NiTransform.at ⟨0, 0, 0⟩) ⟨0, 0, -1⟩ ⟨0, 0, 1⟩ }

/-- A frame of `dt` s in which the ray is on widget `b` (or on none). -/
def frameFor (dt : ℚ) (b : Option Nat) : TouchFrame Nat :=
  { deltaTime := dt, handPresent := true, allButtons := [b],
    isVisible := fun _ => true, hitTest := fun _ => some (XFloat.fin 5) }

/-- A frame of 1/8 s in which the ray is on widget `b` (or on none). -/
def frameOn (b : Option Nat) : TouchFrame Nat :=
  frameFor (1 / 8) b

/-- A frame of `0.1f` s (the binary32 value `13421773 * 2^-27`) with the grip held. -/
def heldFrame : ActivationFrame :=
  { gripHeld := true, deltaTime := 13421773 / 134217728, controlMapPresent := true,
    menuHandPresent := true }

/-- A controller with the menu open, widget `a` hovered and the given lock timer. -/
def hovering (a : Nat) (timer : ℚ) : VRMenuManager Nat :=
  { menuOpen := true, gripHoldTimer := 0, gripWasHeld := false, triggerPressed := false,
    gripButtonDown := false, triggerButtonDown := false, hoveredWidget := some a,
    hoverLockTimer := timer, panels := [], events := [] }

end VRMenuManager

/-! ## Controller: trigger edges and whole frames (`VRMenuManager.cpp`) -/

/-- Method `VRUIPanel::update`, on the panel flags: the fade timer runs down and, when it
reaches zero on a panel that is not shown, the panel is made invisible.  (The transform
refresh and the children's animation are output only.) -/
def PanelState.update (deltaTime : ℚ) (p : PanelState) : PanelState :=
  if p.fadeTimer > 0 then
    let p1 : PanelState := { p with fadeTimer := p.fadeTimer - deltaTime }
    if p1.fadeTimer ≤ 0 then
      let p2 : PanelState := { p1 with fadeTimer := 0 }
      if !p2.shown then { p2 with visible := false } else p2
    else p1
  else p

/-- Method `VRUIPanel::setActive`: stores the flag and hides the panel when it is cleared. -/
def PanelState.setActive (active : Bool) (p : PanelState) : PanelState :=
  let p1 : PanelState := { p with active := active }
  if !active then p1.hide else p1

/-- Whether an event is an `onTriggerPress` call. -/
def Event.isPress {α : Type} : Event α → Bool
  | .triggerPress _ => true
  | _ => false

/-- Whether an event is an `onTriggerPress` or an `onTriggerRelease` call. -/
def Event.isTrigger {α : Type} : Event α → Bool
  | .triggerPress _ => true
  | .triggerRelease _ => true
  | _ => false

namespace VRMenuManager

variable {α : Type} [DecidableEq α]

/-- Method `onTriggerButtonChanged`: the external callback stores the trigger signal. -/
def onTriggerButtonChanged (pressed : Bool) (m : VRMenuManager α) : VRMenuManager α :=
  { m with triggerButtonDown := pressed }

/-- The dispatch of `call` to the hovered widget, when there is one. -/
def toHovered (call : α → Event α) (m : VRMenuManager α) : VRMenuManager α :=
  match m.hoveredWidget with
  | some h => { m with events := m.events ++ [call h] }
  | none => m

/-- Method `processTriggerInput`: edge detection of the sampled trigger signal against the
stored flag `_triggerPressed`; the press and the release go to the hovered widget.
`VRUIButton::onTriggerPress` sets the button state and then runs the button's
`_onPressHandler`, which reaches the controller through `VRMenuManager::get()`:
`onPress h` is what the press handler of the hovered widget `h` does to the controller
(the handlers of `main.cpp` call `toggleMenu()` or `switchToPanel`, those of
`VRUIMenuMCM.cpp` call `refreshActivePanels()`, others leave the controller alone).  No
release handler and no hover handler is installed anywhere in the plugin
(`setOnReleaseHandler` and `setOnHoverHandler` have no caller), so the other calls end in
the widget. -/
def processTriggerInput (onPress : α → VRMenuManager α → VRMenuManager α)
    (m : VRMenuManager α) : VRMenuManager α :=
  let triggerNowPressed := m.triggerButtonDown
  if triggerNowPressed ∧ !m.triggerPressed then
    -- trigger just pressed
    let m1 : VRMenuManager α := { m with triggerPressed := true }
    match m1.hoveredWidget with
    | some h => onPress h { m1 with events := m1.events ++ [Event.triggerPress h] }
    | none => m1
  else if !triggerNowPressed ∧ m.triggerPressed then
    -- trigger just released
    toHovered Event.triggerRelease { m with triggerPressed := false }
  else m

/-- The calls of one `processTriggerInput` call in closed form: a press to the hovered widget
on a rising edge, a release on a falling edge, nothing else. -/
def triggerEdge (m : VRMenuManager α) : List (Event α) :=
  if m.triggerButtonDown = true ∧ m.triggerPressed = false then
    (m.hoveredWidget.map Event.triggerPress).toList
  else if m.triggerButtonDown = false ∧ m.triggerPressed = true then
    (m.hoveredWidget.map Event.triggerRelease).toList
  else []

/-- The controller after the edge detection of `processTriggerInput`, at the moment a
press handler is called: the stored flag is the sampled signal and the calls of the edge
are recorded. -/
def afterEdge (m : VRMenuManager α) : VRMenuManager α :=
  { m with triggerPressed := m.triggerButtonDown, events := m.events ++ triggerEdge m }

/-- The inputs of one `onFrameUpdate` call: the frame delta, the last values the input
callbacks were given before the frame, the outcome of the null checks on the control map
and on the two hand nodes, the buttons that `collectButtons` gathers from the panels that
are active and shown (as a function of the panel flags at that moment), what
`isVisible()` and `hitTest` answer with this frame's ray, and what the press handler of
each button does to the controller when it runs in this frame. -/
structure Frame (α : Type) where
  deltaTime : ℚ
  gripHeld : Bool
  triggerDown : Bool
  controlMapPresent : Bool
  menuHandPresent : Bool
  handPresent : Bool
  gather : List PanelState → List (Option α)
  isVisible : α → Bool
  hitTest : α → Option XFloat
  onPress : α → VRMenuManager α → VRMenuManager α

/-- The press handlers of the frame change at most the flags of the registered panels, as
do the handlers that call `switchToPanel` or `refreshActivePanels()` and those that do not
call the controller. -/
def Frame.flagHandlers (fr : Frame α) : Prop :=
  ∀ (w : α) (m : VRMenuManager α), ∃ ps : List PanelState,
    ps.length = m.panels.length ∧ fr.onPress w m = { m with panels := ps }

/-- The press handlers of the frame are of the kinds that the plugin installs: they change
at most the flags of the registered panels, or they call `toggleMenu()`. -/
def Frame.pluginHandlers (fr : Frame α) : Prop :=
  ∀ (w : α) (m : VRMenuManager α),
    (∃ ps : List PanelState, ps.length = m.panels.length ∧
      fr.onPress w m = { m with panels := ps }) ∨
    ∃ mh : Bool, fr.onPress w m = toggleMenu mh m

/-- The inputs of the frame's `processTouchInput` call, for the given panel flags. -/
def Frame.touch (fr : Frame α) (panels : List PanelState) : TouchFrame α :=
  { deltaTime := fr.deltaTime, handPresent := fr.handPresent,
    allButtons := fr.gather panels, isVisible := fr.isVisible, hitTest := fr.hitTest }

/-- Method `onFrameUpdate`: nothing before `initialize()`; else the activation gesture, then,
with the menu open, touch and trigger input, then `update` of every panel.  (The settings
reload after the journal menu closes goes through the argument `s` of the next frame.) -/
def onFrameUpdate (s : VRUISettings) (initialized : Bool) (fr : Frame α)
    (m : VRMenuManager α) : VRMenuManager α :=
  if !initialized then m
  else
    let m1 := processActivationInput s fr.controlMapPresent fr.menuHandPresent fr.deltaTime m
    let m2 :=
      if m1.menuOpen then
        processTriggerInput fr.onPress (processTouchInput s m1 (fr.touch m1.panels))
      else m1
    { m2 with panels := m2.panels.map (PanelState.update fr.deltaTime) }

/-- One frame of an initialised controller: the input callbacks store the signals, then
`onFrameUpdate` runs. -/
def frameStep (s : VRUISettings) (m : VRMenuManager α) (fr : Frame α) : VRMenuManager α :=
  onFrameUpdate s true fr
    (onTriggerButtonChanged fr.triggerDown (onGripButtonChanged fr.gripHeld m))

/-- A run of frames. -/
def runFrames (s : VRUISettings) (m : VRMenuManager α) (frames : List (Frame α)) :
    VRMenuManager α :=
  frames.foldl (frameStep s) m

/-- The controller after the activation step of the frame `fr`, before touch and trigger
input. -/
def afterActivation (s : VRUISettings) (m : VRMenuManager α) (fr : Frame α) :
    VRMenuManager α :=
  processActivationInput s fr.controlMapPresent fr.menuHandPresent fr.deltaTime
    (onTriggerButtonChanged fr.triggerDown (onGripButtonChanged fr.gripHeld m))

/-- Every frame of the run is processed with the menu open: the menu is open when the
frame's touch and trigger input is due. -/
def OpenRun (s : VRUISettings) : VRMenuManager α → List (Frame α) → Prop
  | _, [] => True
  | m, fr :: rest =>
    (afterActivation s m fr).menuOpen = true ∧ OpenRun s (frameStep s m fr) rest

/-- Number of `onTriggerPress` calls recorded so far. -/
def pressCount (m : VRMenuManager α) : Nat :=
  m.events.countP Event.isPress

/-- The `onTriggerPress` and `onTriggerRelease` calls recorded so far, in order. -/
def triggerCalls (m : VRMenuManager α) : List (Event α) :=
  m.events.filter Event.isTrigger

/-- A frame of `dt` seconds with the grip released, the trigger signal `down`, and the ray
on widget `b` (or on none); the press handlers leave the controller alone. -/
def rayFrame (b : Option Nat) (down : Bool) (dt : ℚ) : Frame Nat :=
  { deltaTime := dt, gripHeld := false, triggerDown := down, controlMapPresent := true,
    menuHandPresent := true, handPresent := true, gather := fun _ => [b],
    isVisible := fun _ => true, hitTest := fun _ => some (XFloat.fin 5),
    onPress := fun _ m => m }

/-- A frame like `rayFrame` in which the buttons carry the press handler of the slot
"Close" of `main.cpp`, which calls `toggleMenu()`. -/
def closeFrame (b : Option Nat) (down : Bool) (dt : ℚ) : Frame Nat :=
  { rayFrame b down dt with onPress := fun _ m => toggleMenu true m }

/-- A frame of `dt` seconds with the grip held, the trigger signal `down`, and the ray on
widget `b` (or on none); the press handlers leave the controller alone. -/
def gripFrame (b : Option Nat) (down : Bool) (dt : ℚ) : Frame Nat :=
  { rayFrame b down dt with gripHeld := true }

/-- A controller without registered panels, menu open, widget 0 hovered and the trigger
flag set. -/
def heldOpen : VRMenuManager Nat :=
  { hovering 0 (16 / 100) with triggerPressed := true }

/-- A controller that never had a panel registered: the menu is toggled open, one frame
samples the trigger as held (nothing is hovered), and the menu is toggled again. -/
def closedWithoutPanels : VRMenuManager Nat :=
  toggleMenu true
    (frameStep VRUISettings.defaults (toggleMenu true (idle [])) (rayFrame none true (1 / 10)))

end VRMenuManager

/-! ## Button states (`VRUIButton.cpp`) -/

/-- Visual states of `VRUIButton.h`. -/
inductive ButtonState where
  | Normal
  | Hovered
  | Pressed
deriving DecidableEq

namespace VRUIButton

/-- Method `setState`, on the member `_state`: nothing when the state is the same, else the
new state is stored.  (The target scale is output only.) -/
def setState (newState : ButtonState) (state : ButtonState) : ButtonState :=
  if state = newState then state else newState

/-- Method `onRayEnter`: `Hovered` unless the button is pressed. -/
def onRayEnter (state : ButtonState) : ButtonState :=
  if state ≠ ButtonState.Pressed then setState ButtonState.Hovered state else state

/-- Method `onRayExit`: `Normal` unless the button is pressed. -/
def onRayExit (state : ButtonState) : ButtonState :=
  if state ≠ ButtonState.Pressed then setState ButtonState.Normal state else state

/-- Method `onTriggerPress`: `Pressed`. -/
def onTriggerPress (state : ButtonState) : ButtonState :=
  setState ButtonState.Pressed state

/-- Method `onTriggerRelease`: `Normal`. -/
def onTriggerRelease (state : ButtonState) : ButtonState :=
  setState ButtonState.Normal state

/-- The effect of one dispatched call on the state of button `b`: the method runs when the
call is addressed to `b`.  (What a press handler does to the controller is part of
`VRMenuManager.processTriggerInput`; the calls it causes there are recorded after the
press.) -/
def receive {α : Type} [DecidableEq α] (b : α) (state : ButtonState) :
    Event α → ButtonState
  | .rayEnter w => if w = b then onRayEnter state else state
  | .rayExit w => if w = b then onRayExit state else state
  | .triggerPress w => if w = b then onTriggerPress state else state
  | .triggerRelease w => if w = b then onTriggerRelease state else state
  | .toggleMenu => state

/-- Method `getState()` of button `b` after the recorded calls, from the constructor's
`Normal`. -/
def getState {α : Type} [DecidableEq α] (events : List (Event α)) (b : α) : ButtonState :=
  events.foldl (receive b) ButtonState.Normal

end VRUIButton

namespace VRMenuManager

/-- A panel that is active and not yet shown, as `VRUIPanel`'s constructor leaves it. -/
def freshPanel : PanelState :=
  { active := true, shown := false, visible := true, fadeTimer := 0, attached := false }

/-- One registered panel; the menu is opened, the ray enters widget 0, the trigger is
pressed on it, the ray moves to widget 1 for longer than the lock time while the trigger
stays held, and the menu is closed. -/
def draggedOff : VRMenuManager Nat :=
  toggleMenu true
    (runFrames VRUISettings.defaults (toggleMenu true (idle [freshPanel]))
      [rayFrame (some 0) false (1 / 10), rayFrame (some 0) true (1 / 10),
       rayFrame (some 1) true (2 / 10)])

/-- A button shows `Hovered` only while it is the hovered widget of the controller. -/
def HoverInv {α : Type} [DecidableEq α] (m : VRMenuManager α) : Prop :=
  ∀ b, VRUIButton.getState m.events b = ButtonState.Hovered → m.hoveredWidget = some b

/-- A controller with the menu open over one shown panel, before any call was dispatched. -/
def openIdle : VRMenuManager Nat :=
  { (idle [freshPanel.show] : VRMenuManager Nat) with menuOpen := true }

/-- A controller with the menu open over one shown panel, widget 0 hovered, trigger flag
clear. -/
def hoveringShown : VRMenuManager Nat :=
  { openIdle with hoveredWidget := some 0, hoverLockTimer := kHoverLockTime }

/-- The controller `hoveringShown` at the moment the press handler of widget 0 runs: the
trigger signal is stored, the flag is set and the press is recorded. -/
def pressedShown : VRMenuManager Nat :=
  { hoveringShown with
    triggerButtonDown := true, triggerPressed := true, events := [Event.triggerPress 0] }

end VRMenuManager

/-! ## Panels and their widget subtrees (`VRUIPanel.cpp`, `VRMenuManager.cpp`)

The controller reaches the widgets of a panel through `collectButtons`, which walks the
panel's subtree and tests the dynamic class of every object.  The subtree is modelled with
the identity and the class of each object. -/

/-- The dynamic class of a widget object. -/
inductive WidgetClass where
  | Widget
  | Container
  | Panel
  | Button
  | ToggleButton
  | Slider
deriving DecidableEq

/-- Outcome of `dynamic_cast<VRUIButton*>`: it succeeds for `VRUIButton` and for
`VRUIToggleButton`, which derives from it; `VRUISlider` derives from `VRUIWidget`. -/
def WidgetClass.isButton : WidgetClass → Bool
  | .Button => true
  | .ToggleButton => true
  | _ => false

/-- The classes that override the input handlers `onRayEnter`, `onRayExit`,
`onTriggerPress`, `onTriggerRelease`: buttons, toggle buttons and sliders. -/
def WidgetClass.isInteractive : WidgetClass → Bool
  | .Button => true
  | .ToggleButton => true
  | .Slider => true
  | _ => false

/-- A widget object with its identity, its class and the children it owns. -/
inductive WidgetObj (α : Type) where
  | mk (self : α) (cls : WidgetClass) (children : List (WidgetObj α))

namespace WidgetObj

variable {α : Type}

/-- Identity of the object. -/
def self : WidgetObj α → α
  | mk x _ _ => x

/-- Dynamic class of the object. -/
def cls : WidgetObj α → WidgetClass
  | mk _ c _ => c

mutual
/-- The objects of a subtree in pre-order: the object, then the subtrees of its children in
insertion order. -/
def subtree : WidgetObj α → List (WidgetObj α)
  | mk x c cs => mk x c cs :: subtrees cs
/-- The objects of a list of subtrees, in pre-order. -/
def subtrees : List (WidgetObj α) → List (WidgetObj α)
  | [] => []
  | c :: rest => subtree c ++ subtrees rest
end

end WidgetObj

namespace VRUIPanel

variable {α : Type}

mutual
/-- Method `collectButtonsRecursive`: the widget is pushed to `outButtons` when the cast to
`VRUIButton*` succeeds, then the children are visited in order. -/
def collectButtonsRecursive : WidgetObj α → List α → List α
  | .mk x c cs, outButtons =>
    collectChildren cs (if c.isButton then outButtons ++ [x] else outButtons)
/-- The loop over `getChildren()` in `collectButtonsRecursive`. -/
def collectChildren : List (WidgetObj α) → List α → List α
  | [], outButtons => outButtons
  | child :: rest, outButtons => collectChildren rest (collectButtonsRecursive child outButtons)
end

/-- Method `collectButtons`: the recursive collection from the panel itself. -/
def collectButtons (panel : WidgetObj α) (outButtons : List α) : List α :=
  collectButtonsRecursive panel outButtons

end VRUIPanel

/-- A registered `VRUIPanel` object: its name and its subtree.  Its flags are the entry at
the same position of `VRMenuManager.panels`. -/
structure PanelObj (α : Type) where
  name : String
  root : WidgetObj α

/-- The controller together with the panel objects behind `_panels`. -/
structure MenuSystem (α : Type) where
  manager : VRMenuManager α
  registry : List (PanelObj α)

namespace MenuSystem

variable {α : Type} [DecidableEq α]

/-- The loop of `processTouchInput` that fills `allButtons` from the panels that are active
and shown. -/
def gatherButtons : List PanelState → List (PanelObj α) → List α → List α
  | p :: ps, r :: rs, allButtons =>
    gatherButtons ps rs
      (if p.active ∧ p.shown then VRUIPanel.collectButtons r.root allButtons else allButtons)
  | _, _, allButtons => allButtons

/-- The frame inputs of the controller when `allButtons` is gathered from the registry. -/
def frameOf (sys : MenuSystem α) (fr : VRMenuManager.Frame α) : VRMenuManager.Frame α :=
  { fr with gather := fun flags => (gatherButtons flags sys.registry []).map some }

/-- Method `registerPanel`: the panel, with the flags it has at that moment, is appended. -/
def registerPanel (panel : PanelObj α) (flags : PanelState) (sys : MenuSystem α) :
    MenuSystem α :=
  { manager := { sys.manager with panels := sys.manager.panels ++ [flags] },
    registry := sys.registry ++ [panel] }

/-- Method `unregisterPanel`: `it` is the position `std::find` returns, a position past the end
standing for `end()`.  A panel that is found is hidden, detached and erased. -/
def unregisterPanel (it : Nat) (sys : MenuSystem α) : MenuSystem α :=
  if it < sys.manager.panels.length then
    { manager := { sys.manager with panels := sys.manager.panels.eraseIdx it },
      registry := sys.registry.eraseIdx it }
  else sys

/-- The first loop of `switchToPanel`: the last panel with the given name and the last
active panel, as positions; `idx` is the position of the head of the lists. -/
def findPanels (panelName : String) :
    Nat → List PanelState → List (PanelObj α) → Option Nat × Option Nat →
      Option Nat × Option Nat
  | idx, p :: ps, r :: rs, (targetPanel, currentPanel) =>
    findPanels panelName (idx + 1) ps rs
      (if r.name = panelName then some idx else targetPanel,
       if p.active then some idx else currentPanel)
  | _, _, _, found => found

/-- Applies a panel method to the panel at position `i`. -/
def applyAt (f : PanelState → PanelState) : Nat → List PanelState → List PanelState
  | _, [] => []
  | 0, p :: ps => f p :: ps
  | i + 1, p :: ps => p :: applyAt f i ps

/-- Method `switchToPanel`: when the target panel exists and is not the current one, the
current panel is deactivated, hidden and detached, the target is activated and, with the
menu open, attached (when the hand node is found) and shown. -/
def switchToPanel (menuHandPresent : Bool) (panelName : String) (sys : MenuSystem α) :
    MenuSystem α :=
  let (targetPanel, currentPanel) :=
    findPanels panelName 0 sys.manager.panels sys.registry (none, none)
  match targetPanel with
  | some target =>
    if some target ≠ currentPanel then
      let panels1 :=
        match currentPanel with
        | some current =>
          applyAt (fun p => { ((p.setActive false).hide) with attached := false }) current
            sys.manager.panels
        | none => sys.manager.panels
      let panels2 := applyAt (fun p => p.setActive true) target panels1
      let panels3 :=
        if sys.manager.menuOpen then
          applyAt (fun p => (if menuHandPresent then { p with attached := true } else p).show)
            target panels2
        else panels2
      { sys with manager := { sys.manager with panels := panels3 } }
    else sys
  | none => sys

/-- Method `toggleMenu` of the controller. -/
def toggleMenu (menuHandPresent : Bool) (sys : MenuSystem α) : MenuSystem α :=
  { sys with manager := VRMenuManager.toggleMenu menuHandPresent sys.manager }

/-- One frame: the callbacks store the signals, then `onFrameUpdate` runs with the buttons
gathered from the registry. -/
def onFrameUpdate (s : VRUISettings) (fr : VRMenuManager.Frame α) (sys : MenuSystem α) :
    MenuSystem α :=
  { sys with manager := VRMenuManager.frameStep s sys.manager (frameOf sys fr) }

/-- The buttons of the panels that are active and shown: for each such panel, in
registration order, the objects of its subtree that are of class `VRUIButton` or derived
from it, in pre-order. -/
def shownButtons (flags : List PanelState) (registry : List (PanelObj α)) : List α :=
  ((flags.zip registry).filter (fun pr => pr.1.active && pr.1.shown)).flatMap
    (fun pr => (pr.2.root.subtree.filter (fun n => n.cls.isButton)).map WidgetObj.self)

/-- Whether widget `w` is in the subtree of a registered panel that is active and shown. -/
def inShownPanel (sys : MenuSystem α) (w : α) : Bool :=
  (sys.manager.panels.zip sys.registry).any
    (fun pr => pr.1.active && pr.1.shown && (pr.2.root.subtree.map WidgetObj.self).contains w)

/-- Whether widget `w` is in the subtree of a registered panel. -/
def inRegisteredPanel (sys : MenuSystem α) (w : α) : Bool :=
  sys.registry.any (fun r => (r.root.subtree.map WidgetObj.self).contains w)

/-- The hovered widget, when there is one, is a button of a registered panel that is active
and shown, and every registered panel has its flags. -/
def HoverShown (sys : MenuSystem α) : Prop :=
  sys.manager.panels.length = sys.registry.length ∧
  ∀ h, sys.manager.hoveredWidget = some h →
    h ∈ shownButtons sys.manager.panels sys.registry

/-- The operations that keep `HoverShown`: registering a panel, toggling the menu, and the
frame update with press handlers that leave the controller alone or call
`toggleMenu()`. -/
inductive Reach (s : VRUISettings) : MenuSystem α → Prop where
  | start (registry : List (PanelObj α)) (flags : List PanelState)
      (h : flags.length = registry.length) :
      Reach s ⟨VRMenuManager.idle flags, registry⟩
  | registerPanel (sys : MenuSystem α) (panel : PanelObj α) (flags : PanelState) :
      Reach s sys → Reach s (registerPanel panel flags sys)
  | toggleMenu (sys : MenuSystem α) (menuHandPresent : Bool) :
      Reach s sys → Reach s (toggleMenu menuHandPresent sys)
  | onFrameUpdate (sys : MenuSystem α) (fr : VRMenuManager.Frame α)
      (h : ∀ (w : α) (m : VRMenuManager α),
        fr.onPress w m = m ∨ ∃ mh : Bool, fr.onPress w m = VRMenuManager.toggleMenu mh m) :
      Reach s sys → Reach s (onFrameUpdate s fr sys)

end MenuSystem

namespace MenuSystem

/-- A panel "main" (object 0) with one button, widget 7. -/
def mainPanel : PanelObj Nat :=
  ⟨"main", .mk 0 .Panel [.mk 7 .Button []]⟩

/-- A panel "other" (object 1) with one button, widget 9. -/
def otherPanel : PanelObj Nat :=
  ⟨"other", .mk 1 .Panel [.mk 9 .Button []]⟩

/-- A panel "settings" (object 0) with one slider, widget 3. -/
def sliderPanel : PanelObj Nat :=
  ⟨"settings", .mk 0 .Panel [.mk 3 .Slider []]⟩

/-- A controller without panels, menu closed. -/
def empty : MenuSystem Nat :=
  ⟨VRMenuManager.idle [], []⟩

/-- A frame of 0.1 s, grip and trigger released, in which the ray hits every widget it is
tested against at distance 5. -/
def hitFrame : VRMenuManager.Frame Nat :=
  VRMenuManager.rayFrame none false (1 / 10)

/-- Panel "main" is registered active, panel "other" inactive, and the menu is opened. -/
def openedMain : MenuSystem Nat :=
  toggleMenu true
    (registerPanel otherPanel { VRMenuManager.freshPanel with active := false }
      (registerPanel mainPanel VRMenuManager.freshPanel empty))

/-- After `openedMain`, one frame puts the ray on the button of "main". -/
def hoveringMain : MenuSystem Nat :=
  onFrameUpdate VRUISettings.defaults hitFrame openedMain

/-- Panel "settings" with its slider is registered, the menu is opened. -/
def sliderOpen : MenuSystem Nat :=
  toggleMenu true (registerPanel sliderPanel VRMenuManager.freshPanel empty)

end MenuSystem

/-! ## Layout: closed forms of the row and grid placement -/

namespace VRUIContainer

open VRUIWidget

/-- The offset of the `i`-th visible child from the left edge of the row: the widths of the
visible children before it, each followed by one gap. -/
def rowOffset (spacing : ℚ) (widths : List ℚ) (i : Nat) : ℚ :=
  ((widths.take i).map (fun w => w + spacing)).sum

/-- The logical widths of the visible children, in insertion order. -/
def visibleWidths (cs : List VRUIWidget) : List ℚ :=
  (cs.filter (fun x => x.data.visible)).map (fun x => (x.calculateLogicalDimensions true).x)

/-- The total width of a row: the widths of the visible children and one gap between
neighbours. -/
def rowTotal (spacing : ℚ) (widths : List ℚ) : ℚ :=
  widths.sum + spacing * ((widths.length : ℚ) - 1)

/-- The children whose visibility flag is set, in insertion order. -/
def visibleChildren (w : VRUIWidget) : List VRUIWidget :=
  w.children.filter (fun x => x.data.visible)

/-- A `HorizontalCenter` container with spacing 1 and two children of widths 2 and 4, before
any layout pass. -/
def sampleRow : VRUIWidget :=
  addChild (plain "b" 4 1) (addChild (plain "a" 2 1) (new "row" .HorizontalCenter 1 1))

/-- Number of children on the current page of a Grid with `n` children. -/
def pageCount (c : ContainerData) (n : Nat) : Nat :=
  (endIndex c (n : Int) - startIndex c).toNat

/-- Rows of a page of `m` children in 3 columns: `ceil(m / 3)`. -/
def gridRows (m : Nat) : Int :=
  ⌈(m : ℚ) / 3⌉

/-- Columns of a page of `m` children: `min(m, 3)`. -/
def gridCols (m : Nat) : Nat :=
  min m 3

/-- Extent of `count` cells of size `cell` with gaps `spacing` between them. -/
def gridSpan (count cell spacing : ℚ) : ℚ :=
  count * cell + (count - 1) * spacing

/-- Local X of the `i`-th cell of a page of `m` children, cells of width `cw`, gaps `sp`, no
column mirroring: `-W/2 + cw/2 + (i mod 3) * (cw + sp)` with `W` the extent of the columns. -/
def cellX (m : Nat) (cw sp : ℚ) (i : Nat) : ℚ :=
  -(gridSpan (gridCols m : ℚ) cw sp) / 2 + cw / 2 + ((i % 3 : Nat) : ℚ) * (cw + sp)

/-- Local Z of the `i`-th cell of a page of `m` children, cells of height `ch`, gaps `sp`:
`H/2 - ch/2 - (i div 3) * (ch + sp)` with `H` the extent of the rows. -/
def cellZ (m : Nat) (ch sp : ℚ) (i : Nat) : ℚ :=
  gridSpan (gridRows m : ℚ) ch sp / 2 - ch / 2 - ((i / 3 : Nat) : ℚ) * (ch + sp)

/-- The default settings with the column mirroring of the grid switched off. -/
def unmirrored : VRUISettings :=
  { VRUISettings.defaults with invertGridX := false }

/-- The container members of `sampleGrid pageSize page n`. -/
def sampleGridData (pageSize page : Int) : ContainerData :=
  { layoutDirty := true, layout := .Grid, spacing := 3 / 10, pageSize := pageSize,
    currentPage := page }

/-- A column that got one child of size 3 by 2 through `addElement`. -/
def filledBox : VRUIWidget :=
  addElement VRUISettings.defaults true (plain "a" 3 2) (new "box" .VerticalDown (3 / 10) 1)

/-- The column `filledBox` after `removeElement` of its only child. -/
def emptiedBox : VRUIWidget :=
  removeElement VRUISettings.defaults true 0 filledBox

end VRUIContainer

/-! ## Parent links (`VRUIWidget::addChild`, `removeChild`, `detachFromParent`)

The layout and search functions above take the widget tree as a value.  The functions that
build the tree work on objects that point to each other; here the objects are named by
numbers and a heap gives each object its links. -/

/-- The links of one widget object: the back-reference `_parent`, the list `_children`, and
the parent of its scene-graph node (`_node->parent`), each as object names. -/
structure Links where
  parent : Option Nat
  children : List Nat
  nodeParent : Option Nat
deriving DecidableEq

/-- The widget objects in memory, by name. -/
def Heap : Type := Nat → Links

namespace Heap

/-- Objects as their constructor leaves them: no parent, no children, node unattached. -/
def fresh : Heap := fun _ => ⟨none, [], none⟩

/-- The heap with the links of object `id` replaced. -/
def set (h : Heap) (id : Nat) (l : Links) : Heap :=
  fun i => if i = id then l else h i

/-- Method `VRUIWidget::detachFromParent`: the widget's node is detached from its parent node in
the scene graph.  `_parent` and the parent's `_children` are not touched. -/
def detachFromParent (self : Nat) (h : Heap) : Heap :=
  match (h self).nodeParent with
  | some _ => h.set self { h self with nodeParent := none }
  | none => h

/-- Method `VRUIWidget::addChild`: a child that has a parent is detached with
`detachFromParent()`, then `_parent` is set, the child is pushed to `_children`, and the
child's node is attached to this widget's node. -/
def addChild (self child : Nat) (h : Heap) : Heap :=
  let h1 := if (h child).parent.isSome then detachFromParent child h else h
  let h2 := h1.set child { h1 child with parent := some self }
  let h3 := h2.set self { h2 self with children := (h2 self).children ++ [child] }
  h3.set child { h3 child with nodeParent := some self }

/-- Method `VRUIWidget::removeChild`: when the child is found in `_children`, its `_parent` is
cleared, its node is detached from this widget's node (when attached there), and it is
erased from `_children`. -/
def removeChild (self child : Nat) (h : Heap) : Heap :=
  if child ∈ (h self).children then
    let h1 := h.set child { h child with parent := none }
    let h2 :=
      if (h1 child).nodeParent = some self then
        h1.set child { h1 child with nodeParent := none }
      else h1
    h2.set self { h2 self with children := (h2 self).children.erase child }
  else h

/-- Widget 2 is added to widget 0 and then to widget 1. -/
def reparented : Heap :=
  addChild 1 2 (addChild 0 2 fresh)

end Heap

/-! ## Search by name (`VRUIWidget::findWidgetByName`) -/

namespace VRUIWidget

mutual
/-- Method `findWidgetByName`: the widget itself when its name matches, else the first hit of
the recursive search in its children, in insertion order; `none` stands for `nullptr`. -/
def findWidgetByName (name : String) : VRUIWidget → Option VRUIWidget
  | mk d cs => if d.name = name then some (mk d cs) else findInChildren name cs
/-- The loop over `_children` in `findWidgetByName`. -/
def findInChildren (name : String) : List VRUIWidget → Option VRUIWidget
  | [] => none
  | child :: rest =>
    match findWidgetByName name child with
    | some found => some found
    | none => findInChildren name rest
end

mutual
/-- The widgets of a tree in pre-order: a widget before its children, the children in
insertion order. -/
def preorder : VRUIWidget → List VRUIWidget
  | mk d cs => mk d cs :: preorderList cs
/-- The widgets of a list of trees, in pre-order. -/
def preorderList : List VRUIWidget → List VRUIWidget
  | [] => []
  | child :: rest => preorder child ++ preorderList rest
end

/-- A tree in which the name "ok" occurs three times: root "menu" with a child "row" that
holds a widget "ok" of width 1, and a second child "ok" of width 2 holding a widget "ok" of
width 3. -/
def named : VRUIWidget :=
  .mk (VRUIContainer.plain "menu" 0 0).data
    [.mk (VRUIContainer.plain "row" 0 0).data [VRUIContainer.plain "ok" 1 1],
     .mk (VRUIContainer.plain "ok" 2 2).data [VRUIContainer.plain "ok" 3 3]]

end VRUIWidget

/-! ## Panel life cycle and the active panel (`VRUIPanel.h`, `VRMenuManager.cpp`) -/

/-- The calls that change the flags of a `VRUIPanel` after construction. -/
inductive PanelOp where
  | showPanel
  | hidePanel
  | setActive (active : Bool)

/-- Runs one call on the panel flags. -/
def PanelOp.run (p : PanelState) : PanelOp → PanelState
  | .showPanel => p.show
  | .hidePanel => p.hide
  | .setActive active => p.setActive active

/-- The panel flags after a list of calls, first to last. -/
def PanelState.runOps (p : PanelState) (ops : List PanelOp) : PanelState :=
  ops.foldl PanelOp.run p

namespace MenuSystem

variable {α : Type} [DecidableEq α]

/-- Number of registered panels whose `isActive()` is true. -/
def activeCount (sys : MenuSystem α) : Nat :=
  sys.manager.panels.countP (fun p => p.active)

/-- The controller states reached from a controller without panels through
`registerPanel`, `unregisterPanel`, `switchToPanel` and `toggleMenu`, where a panel that is
registered while another registered panel is active has been deactivated before (as
`main.cpp` does with `setActive(false)` for its second panel). -/
inductive Managed : MenuSystem α → Prop where
  | start : Managed ⟨VRMenuManager.idle [], []⟩
  | registerPanel (sys : MenuSystem α) (panel : PanelObj α) (flags : PanelState)
      (h : flags.active = true → activeCount sys = 0) :
      Managed sys → Managed (registerPanel panel flags sys)
  | unregisterPanel (sys : MenuSystem α) (it : Nat) :
      Managed sys → Managed (unregisterPanel it sys)
  | switchToPanel (sys : MenuSystem α) (menuHandPresent : Bool) (panelName : String) :
      Managed sys → Managed (switchToPanel menuHandPresent panelName sys)
  | toggleMenu (sys : MenuSystem α) (menuHandPresent : Bool) :
      Managed sys → Managed (toggleMenu menuHandPresent sys)

end MenuSystem

namespace MenuSystem

/-- Two panels, both as their constructor leaves them, are registered. -/
def twoFresh : MenuSystem Nat :=
  registerPanel otherPanel VRMenuManager.freshPanel
    (registerPanel mainPanel VRMenuManager.freshPanel empty)

/-- After `openedMain`, the active panel is switched to "other". -/
def switchedToOther : MenuSystem Nat :=
  switchToPanel true "other" openedMain

end MenuSystem

/-! ## Slider (`VRUISlider.cpp`) -/

/-- The members of `VRUISlider` that `setValue` reads and writes: the range, the stored
value, whether a value-changed callback is installed, and the record of the values the
callback was invoked with. -/
structure VRUISlider where
  minValue : ℚ
  maxValue : ℚ
  currentValue : ℚ
  hasOnValueChanged : Bool
  valueChanged : List ℚ

namespace VRUISlider

/-- The constructor `VRUISlider(name, minValue, maxValue, defaultValue)`: the three values are
stored as given; no callback is installed. -/
def new (minValue maxValue defaultValue : ℚ) : VRUISlider :=
  { minValue := minValue, maxValue := maxValue, currentValue := defaultValue,
    hasOnValueChanged := false, valueChanged := [] }

/-- Method `setOnValueChanged` with a callable callback. -/
def setOnValueChanged (sl : VRUISlider) : VRUISlider :=
  { sl with hasOnValueChanged := true }

/-- Method `getValue()`. -/
def getValue (sl : VRUISlider) : ℚ :=
  sl.currentValue

/-- Function `std::clamp(v, lo, hi)` on floats: `(v < lo) ? lo : (hi < v) ? hi : v`. -/
def clamp (v lo hi : ℚ) : ℚ :=
  if v < lo then lo else if hi < v then hi else v

/-- The literal `0.0001f` of `setValue`: the binary32 value `13743895 * 2^-37`, a little
below 1/10000. -/
def tolerance : ℚ := 13743895 / 137438953472

/-- The midpoint `0.0001f + 2^-38` between `0.0001f` and the next binary32 value: the least
magnitude that rounds to a `float` above `0.0001f`. -/
def toleranceEdge : ℚ := 27487791 / 274877906944

/-- Method `setValue(value, triggerCallback)`: the clamped value is stored, and the callback
invoked with it, when the `float` difference `_currentValue - clamped` exceeds `0.0001f` in
magnitude. -/
def setValue (value : ℚ) (triggerCallback : Bool) (sl : VRUISlider) : VRUISlider :=
  let clamped := clamp value sl.minValue sl.maxValue
  if |F32.round (sl.currentValue - clamped)| > tolerance then
    let sl1 : VRUISlider := { sl with currentValue := clamped }
    if triggerCallback ∧ sl1.hasOnValueChanged then
      { sl1 with valueChanged := sl1.valueChanged ++ [sl1.currentValue] }
    else sl1
  else sl

/-- A slider over [0, 1] constructed with the default value `1.00005f`, the binary32 value
`8389027 * 2^-23`. -/
def justAbove : VRUISlider :=
  new 0 1 (8389027 / 8388608)

/-- A slider over `[0, 5 * 2^-40]` constructed with the default value `1717987 * 2^-34`,
which exceeds the maximum by `109951163 * 2^-40`, more than 1/10000. -/
def nearTolerance : VRUISlider :=
  new 0 (5 / 1099511627776) (1717987 / 17179869184)

/-- A slider over [0, 1] constructed with the default value 5, with a callback installed. -/
def farAbove : VRUISlider :=
  setOnValueChanged (new 0 1 5)

/-- A slider over [0, 1] constructed with the default value 1/2, with a callback
installed. -/
def halfWay : VRUISlider :=
  setOnValueChanged (new 0 1 (1 / 2))

end VRUISlider

/-! ## Toggle button (`VRUIToggleButton.cpp`) -/

/-- What the member `_onPressHandler` of a button holds: nothing, the lambda that the
constructor of `VRUIToggleButton` installs (it calls `handlePress`), or another callback
installed later with `setOnPressHandler`. -/
inductive PressHandler where
  | empty
  | handlePress
  | custom
deriving DecidableEq

/-- The members of a `VRUIToggleButton`: the button state, the toggle flag, the press
handler, whether a toggle callback is installed, and the record of the states the toggle
callback was invoked with. -/
structure VRUIToggleButton where
  state : ButtonState
  toggled : Bool
  onPressHandler : PressHandler
  hasOnToggle : Bool
  toggleCalls : List Bool

namespace VRUIToggleButton

/-- The constructor `VRUIToggleButton(label, initialState, ...)`: the press handler is wired to
`handlePress`; no toggle callback is installed. -/
def new (initialState : Bool) : VRUIToggleButton :=
  { state := ButtonState.Normal, toggled := initialState,
    onPressHandler := PressHandler.handlePress, hasOnToggle := false, toggleCalls := [] }

/-- Method `setOnToggleHandler` with a callable callback. -/
def setOnToggleHandler (b : VRUIToggleButton) : VRUIToggleButton :=
  { b with hasOnToggle := true }

/-- Method `isToggled()`. -/
def isToggled (b : VRUIToggleButton) : Bool :=
  b.toggled

/-- Method `handlePress`: the flag is flipped and the toggle callback, when installed, is
invoked with the new state.  (The visual indicator is output only.) -/
def handlePress (b : VRUIToggleButton) : VRUIToggleButton :=
  let b1 : VRUIToggleButton := { b with toggled := !b.toggled }
  if b1.hasOnToggle then { b1 with toggleCalls := b1.toggleCalls ++ [b1.toggled] } else b1

/-- Method `VRUIButton::onTriggerPress` on a toggle button: the state becomes `Pressed`, then
the press handler runs. -/
def onTriggerPress (b : VRUIToggleButton) : VRUIToggleButton :=
  let b1 : VRUIToggleButton := { b with state := VRUIButton.onTriggerPress b.state }
  match b1.onPressHandler with
  | PressHandler.empty => b1
  | PressHandler.handlePress => handlePress b1
  | PressHandler.custom => b1

/-- The button after `n` calls of `onTriggerPress`. -/
def pressed (n : Nat) (b : VRUIToggleButton) : VRUIToggleButton :=
  Nat.iterate onTriggerPress n b

/-- The toggle flag after `k` presses from the flag `b`. -/
def flipped (b : Bool) (k : Nat) : Bool :=
  if k % 2 = 0 then b else !b

end VRUIToggleButton

/-! ## Entrance animation (`VRUIWidget::update`, `startScaleAnimation`) -/

namespace VRUIWidget

/-- The animation part of `VRUIWidget::update` on the members of one widget: while the delay
counter is positive it is decremented and the node is held at scale 0; else, while the
progress is below 1, it advances by `deltaTime * 4`, is capped at 1, and the node gets the
scale `_baseScale * (1 - (1 - t)^3)`. -/
def animate (deltaTime : ℚ) (d : WidgetData) : WidgetData :=
  if d.animDelayFrames > 0 then
    { d with animDelayFrames := d.animDelayFrames - 1, localScale := 0 }
  else if d.animProgress < 1 then
    let p0 := d.animProgress + deltaTime * 4
    let p := if p0 > 1 then 1 else p0
    { d with animProgress := p, localScale := d.baseScale * (1 - (1 - p) ^ 3) }
  else d

mutual
/-- Method `VRUIWidget::update`: the widget's own animation, then `update` of every child. -/
def update (deltaTime : ℚ) : VRUIWidget → VRUIWidget
  | mk d cs => mk (animate deltaTime d) (updateChildren deltaTime cs)
/-- The loop over `_children` in `update`. -/
def updateChildren (deltaTime : ℚ) : List VRUIWidget → List VRUIWidget
  | [] => []
  | child :: rest => update deltaTime child :: updateChildren deltaTime rest
end

/-- A run of `update` calls with the given frame deltas, first to last. -/
def runUpdates (w : VRUIWidget) (deltas : List ℚ) : VRUIWidget :=
  deltas.foldl (fun acc dt => update dt acc) w

/-- What holds of a widget from the end of the delay on: the counter is 0, the progress is
within [0, 1], and the node has the eased scale of the progress. -/
def Easing (base : ℚ) (d : WidgetData) : Prop :=
  d.animDelayFrames = 0 ∧ 0 ≤ d.animProgress ∧ d.animProgress ≤ 1 ∧ d.baseScale = base ∧
  d.localScale = base * (1 - (1 - d.animProgress) ^ 3)

end VRUIWidget

/-! ## Layout pass: nested calls and the page reset (`VRUIContainer::recalculateLayout`) -/

namespace VRUIContainer

open VRUIWidget

/-- The results of a list of calls, when every one of them returned. -/
def allSome {β : Type} : List (Option β) → Option (List β)
  | [] => some []
  | none :: _ => none
  | some x :: rest => (allSome rest).map (fun xs => x :: xs)

/-- Method `recalculateLayout()` run with a bound on the depth of nested calls, with the
branch taken on record.  Every call (to a child, or to itself after a page reset) uses one
unit of the bound; `none` is a call that did not return within the bound.  The result comes
with the number of times this call and its own re-runs took the page-reset branch of the
Grid case. -/
def recalculateLayoutFuel (s : VRUISettings) :
    Nat → Bool → VRUIWidget → Option (VRUIWidget × Nat)
  | 0, _, _ => none
  | fuel + 1, parentVisible, w =>
    match w.data.container with
    | none => some (w, 0)
    | some c0 =>
      let selfVisible := w.isVisible parentVisible
      let c : ContainerData := { c0 with layoutDirty := false }
      let d : WidgetData := { w.data with container := some c }
      match allSome (w.children.map
          (fun child => (recalculateLayoutFuel s fuel selfVisible child).map Prod.fst)) with
      | none => none
      | some children =>
        if children.isEmpty then some (.mk d children, 0)
        else
          match c.layout with
          | .HorizontalCenter =>
            some (updateDimensions selfVisible d (layoutRow selfVisible c.spacing children), 0)
          | .VerticalDown =>
            some (updateDimensions selfVisible d
              (placeColumn selfVisible c.spacing true 0 children), 0)
          | .VerticalUp =>
            some (updateDimensions selfVisible d
              (placeColumn selfVisible c.spacing false 0 children), 0)
          | .Grid =>
            if pageOutOfBounds c (children.length : Int) then
              (recalculateLayoutFuel s fuel parentVisible
                (.mk { d with container := some { c with currentPage := 0 } } children)).map
                (fun r => (r.1, r.2 + 1))
            else some (updateDimensions selfVisible d (layoutGrid s c children), 0)
          | .Free => some (updateDimensions selfVisible d children, 0)

/-- Whether a call of `recalculateLayout()` on `w` takes the page-reset branch: `w` is a Grid
container with children whose page index is out of bounds. -/
def resetDue (w : VRUIWidget) : Bool :=
  match w.data.container with
  | none => false
  | some c => decide (c.layout = .Grid) && !w.children.isEmpty &&
      pageOutOfBounds c (w.children.length : Int)

end VRUIContainer

/-! ## Layout pass: repeated calls -/

namespace VRUIContainer

open VRUIWidget

/-- The `switch (_layout)` of `recalculateLayout()` once the page is within bounds: the
children as the layout mode places them. -/
def place (s : VRUISettings) (selfVisible : Bool) (c : ContainerData)
    (children : List VRUIWidget) : List VRUIWidget :=
  match c.layout with
  | .HorizontalCenter => layoutRow selfVisible c.spacing children
  | .VerticalDown => placeColumn selfVisible c.spacing true 0 children
  | .VerticalUp => placeColumn selfVisible c.spacing false 0 children
  | .Grid => layoutGrid s c children
  | .Free => children

/-- Whether every Grid container that the layout pass reaches in the tree holds only widgets
that are not containers (buttons, sliders, plain widgets). -/
def gridsFlat : VRUIWidget → Bool
  | .mk d cs =>
    match d.container with
    | none => true
    | some c =>
      (decide (c.layout ≠ .Grid) || cs.all (fun x => x.data.container.isNone)) &&
        gridsFlatList cs
where
  /-- The same for every widget of a list. -/
  gridsFlatList : List VRUIWidget → Bool
    | [] => true
    | c :: cs => gridsFlat c && gridsFlatList cs

/-- A row container holding one widget "a" of size 3 by 2. -/
def rowOfOne (name : String) : VRUIWidget :=
  addChild (plain "a" 3 2) (new name .HorizontalCenter 0 1)

/-- A Grid with page size 1 on page 0 that holds two row containers, each with one widget;
everything visible, as constructed. -/
def pagedRows : VRUIWidget :=
  .mk { (new "pages" .Grid (3 / 10) 1).data with
        container := some { layoutDirty := true, layout := .Grid, spacing := 3 / 10,
                            pageSize := 1, currentPage := 0 } }
    [rowOfOne "row0", rowOfOne "row1"]

/-- A column that holds the row `sampleRow` and a Grid of four slots. -/
def nestedMenu : VRUIWidget :=
  .mk (new "menu" .VerticalDown (3 / 10) 1).data [sampleRow, sampleGrid 9 0 4]

end VRUIContainer

/-! # Theorems -/

/-! ## Single-precision arithmetic -/

namespace F32

theorem roundHalfEven_intCast (n : ℤ) : roundHalfEven (n : ℚ) = n := by
  simp [roundHalfEven]

theorem roundHalfEven_le {q : ℚ} {n : ℤ} (h : q ≤ n) : roundHalfEven q ≤ n := by
  have hf : ⌊q⌋ ≤ n := Int.floor_le_floor h |>.trans (by simp)
  have hfl : (⌊q⌋ : ℚ) ≤ q := Int.floor_le q
  unfold roundHalfEven
  by_cases hq : q - ⌊q⌋ < 1 / 2
  · simp only [hq, if_true]; exact hf
  · have hne : ⌊q⌋ ≠ n := by
      intro he
      rw [he] at hq
      apply hq
      linarith
    have : ⌊q⌋ + 1 ≤ n := by omega
    simp only [hq, if_false]
    split_ifs <;> omega

theorem le_roundHalfEven {q : ℚ} {n : ℤ} (h : (n : ℚ) ≤ q) : n ≤ roundHalfEven q := by
  have hf : n ≤ ⌊q⌋ := Int.le_floor.mpr h
  unfold roundHalfEven
  split_ifs <;> omega

theorem abs_roundHalfEven_sub_le (q : ℚ) : |(roundHalfEven q : ℚ) - q| ≤ 1 / 2 := by
  have hfl : (⌊q⌋ : ℚ) ≤ q := Int.floor_le q
  have hlt : q < ⌊q⌋ + 1 := Int.lt_floor_add_one q
  unfold roundHalfEven
  rw [abs_le]
  split_ifs with h1 h2 h3 <;> push_cast <;> constructor <;> linarith

theorem roundHalfEven_eq_of_lt {q : ℚ} {m : ℤ} (h : |q - m| < 1 / 2) : roundHalfEven q = m := by
  rw [abs_lt] at h
  have h1 := abs_le.mp (abs_roundHalfEven_sub_le q)
  have h2 : ((roundHalfEven q : ℤ) : ℚ) - m < 1 := by linarith [h.1, h.2, h1.1, h1.2]
  have h3 : (-1 : ℚ) < (roundHalfEven q : ℤ) - m := by linarith [h.1, h.2, h1.1, h1.2]
  have h4 : roundHalfEven q - m < 1 := by exact_mod_cast h2
  have h5 : -1 < roundHalfEven q - m := by exact_mod_cast h3
  omega

theorem roundHalfEven_tie_even {q : ℚ} {m : ℤ} (h : q = m + 1 / 2) (hm : m % 2 = 0) :
    roundHalfEven q = m := by
  have hf : ⌊q⌋ = m := by
    rw [Int.floor_eq_iff]; constructor <;> rw [h] <;> linarith
  unfold roundHalfEven
  rw [hf, h]
  norm_num [hm]

theorem roundHalfEven_tie_odd {q : ℚ} {m : ℤ} (h : q = m + 1 / 2) (hm : m % 2 = 1) :
    roundHalfEven q = m + 1 := by
  have hf : ⌊q⌋ = m := by
    rw [Int.floor_eq_iff]; constructor <;> rw [h] <;> linarith
  unfold roundHalfEven
  rw [hf, h]
  norm_num [hm]

theorem roundHalfEven_neg (q : ℚ) : roundHalfEven (-q) = -roundHalfEven q := by
  by_cases hint : (⌊q⌋ : ℚ) = q
  · rw [← hint, ← Int.cast_neg, roundHalfEven_intCast, roundHalfEven_intCast]
  · have hfl : (⌊q⌋ : ℚ) < q := lt_of_le_of_ne (Int.floor_le q) hint
    have hlt : q < ⌊q⌋ + 1 := Int.lt_floor_add_one q
    have hn : ⌊-q⌋ = -⌊q⌋ - 1 := by
      rw [Int.floor_eq_iff]; push_cast; constructor <;> linarith
    unfold roundHalfEven
    rw [hn]
    push_cast
    by_cases h1 : q - ⌊q⌋ < 1 / 2
    · have a1 : ¬ (-q - (-(⌊q⌋ : ℚ) - 1) < 1 / 2) := by linarith
      have a2 : 1 / 2 < -q - (-(⌊q⌋ : ℚ) - 1) := by linarith
      simp only [h1, a1, a2, if_true, if_false]; omega
    · by_cases h2 : 1 / 2 < q - ⌊q⌋
      · have a1 : -q - (-(⌊q⌋ : ℚ) - 1) < 1 / 2 := by linarith
        simp only [h1, h2, a1, if_true, if_false]; omega
      · have a1 : ¬ (-q - (-(⌊q⌋ : ℚ) - 1) < 1 / 2) := by linarith
        have a2 : ¬ (1 / 2 < -q - (-(⌊q⌋ : ℚ) - 1)) := by linarith
        simp only [h1, h2, a1, a2, if_false]
        split_ifs <;> omega


theorem two_zpow_pos (k : ℤ) : (0 : ℚ) < 2 ^ k := zpow_pos (by norm_num) k

theorem log_eq_of_binade {q : ℚ} {e : ℤ} (h1 : 2 ^ e ≤ |q|) (h2 : |q| < 2 ^ (e + 1)) :
    Int.log 2 |q| = e := by
  have hq : 0 < |q| := lt_of_lt_of_le (two_zpow_pos e) h1
  have a : e ≤ Int.log 2 |q| :=
    (Int.zpow_le_iff_le_log (by norm_num) hq).mp (by simpa using h1)
  have b : Int.log 2 |q| < e + 1 :=
    (Int.lt_zpow_iff_log_lt (by norm_num) hq).mp (by simpa using h2)
  omega

theorem zpow_log_le_abs {q : ℚ} (hq : q ≠ 0) : (2 : ℚ) ^ Int.log 2 |q| ≤ |q| := by
  have := Int.zpow_log_le_self (b := 2) (r := |q|) (by norm_num) (abs_pos.mpr hq)
  simpa using this

theorem abs_lt_zpow_log_succ (q : ℚ) : |q| < (2 : ℚ) ^ (Int.log 2 |q| + 1) := by
  have := Int.lt_zpow_succ_log_self (b := 2) (by norm_num) (|q|)
  simpa using this

theorem ulpExp_ge (q : ℚ) : -149 ≤ ulpExp q := by
  unfold ulpExp; split_ifs <;> simp

theorem ulpExp_neg (q : ℚ) : ulpExp (-q) = ulpExp q := by
  unfold ulpExp; simp

theorem ulpExp_mono {a b : ℚ} (h : |a| ≤ |b|) : ulpExp a ≤ ulpExp b := by
  by_cases ha : a = 0
  · rw [ha]; simpa [ulpExp] using ulpExp_ge b
  · have hb : b ≠ 0 := by
      intro hb; rw [hb, abs_zero] at h
      exact ha (abs_eq_zero.mp (le_antisymm h (abs_nonneg a)))
    have := Int.log_mono_right (b := 2) (abs_pos.mpr ha) h
    simp only [ulpExp, ha, hb, if_false]
    omega

theorem ulpExp_eq {q : ℚ} {e : ℤ} (h1 : 2 ^ e ≤ |q|) (h2 : |q| < 2 ^ (e + 1)) :
    ulpExp q = max (e - 23) (-149) := by
  have hq : q ≠ 0 := by
    intro h; rw [h, abs_zero] at h1; exact absurd h1 (not_le.mpr (two_zpow_pos e))
  simp only [ulpExp, hq, if_false, log_eq_of_binade h1 h2]

theorem ulpExp_le {q : ℚ} {e : ℤ} (he : -126 ≤ e) (h : |q| < 2 ^ (e + 1)) :
    ulpExp q ≤ e - 23 := by
  by_cases hq : q = 0
  · simp only [ulpExp, hq, if_true]; omega
  · have b : Int.log 2 |q| < e + 1 :=
      (Int.lt_zpow_iff_log_lt (by norm_num) (abs_pos.mpr hq)).mp (by simpa using h)
    simp only [ulpExp, hq, if_false]
    omega

theorem round_zero : round 0 = 0 := by
  simp [round, roundHalfEven]

theorem round_neg (q : ℚ) : round (-q) = -round q := by
  unfold round
  rw [ulpExp_neg, neg_div, roundHalfEven_neg]
  push_cast; ring

theorem abs_round_sub_le (q : ℚ) : |round q - q| ≤ 2 ^ ulpExp q / 2 := by
  have hu := two_zpow_pos (ulpExp q)
  have h := abs_roundHalfEven_sub_le (q / 2 ^ ulpExp q)
  have e : round q - q = ((roundHalfEven (q / 2 ^ ulpExp q) : ℚ) - q / 2 ^ ulpExp q) * 2 ^ ulpExp q := by
    unfold round; field_simp
  rw [e, abs_mul, abs_of_pos hu]
  calc _ ≤ 1 / 2 * 2 ^ ulpExp q := mul_le_mul_of_nonneg_right h hu.le
    _ = _ := by ring

theorem round_eq_of_near {q : ℚ} (e m : ℤ) (he : -126 ≤ e) (h1 : 2 ^ e ≤ |q|)
    (h2 : |q| < 2 ^ (e + 1)) (hm : |q / 2 ^ (e - 23) - m| < 1 / 2) :
    round q = m * 2 ^ (e - 23) := by
  have hu : ulpExp q = e - 23 := by rw [ulpExp_eq h1 h2]; omega
  unfold round
  rw [hu, roundHalfEven_eq_of_lt hm]

theorem round_nonneg {q : ℚ} (h : 0 ≤ q) : 0 ≤ round q := by
  unfold round
  have : (0 : ℤ) ≤ roundHalfEven (q / 2 ^ ulpExp q) :=
    le_roundHalfEven (by simpa using div_nonneg h (two_zpow_pos _).le)
  exact mul_nonneg (by exact_mod_cast this) (two_zpow_pos _).le

theorem round_nonpos {q : ℚ} (h : q ≤ 0) : round q ≤ 0 := by
  have := round_nonneg (q := -q) (by linarith)
  rw [round_neg] at this; linarith

theorem round_rep (m k : ℤ) (hm : |m| < 2 ^ 24) (hk : -149 ≤ k) :
    round (m * 2 ^ k) = m * 2 ^ k := by
  by_cases h0 : m = 0
  · simp [h0, round_zero]
  have hq : (m : ℚ) * 2 ^ k ≠ 0 := mul_ne_zero (by exact_mod_cast h0) (two_zpow_pos k).ne'
  have habs : |(m : ℚ) * 2 ^ k| < 2 ^ (k + 23 + 1) := by
    rw [abs_mul, abs_of_pos (two_zpow_pos k)]
    have : |(m : ℚ)| < 2 ^ 24 := by exact_mod_cast hm
    calc |(m : ℚ)| * 2 ^ k < 2 ^ 24 * 2 ^ k := mul_lt_mul_of_pos_right this (two_zpow_pos k)
      _ = 2 ^ (k + 23 + 1) := by
        rw [show k + 23 + 1 = (24 : ℤ) + k by ring, zpow_add₀ (by norm_num)]; norm_num
  have hu : ulpExp ((m : ℚ) * 2 ^ k) ≤ k := by
    by_cases hk2 : -126 ≤ k + 23
    · have := ulpExp_le hk2 habs; omega
    · have b : Int.log 2 |(m : ℚ) * 2 ^ k| < k + 23 + 1 :=
        (Int.lt_zpow_iff_log_lt (by norm_num) (abs_pos.mpr hq)).mp (by simpa using habs)
      simp only [ulpExp, hq, if_false]
      omega
  obtain ⟨d, hd⟩ : ∃ d : ℕ, k = ulpExp ((m : ℚ) * 2 ^ k) + d :=
    ⟨(k - ulpExp ((m : ℚ) * 2 ^ k)).toNat, by omega⟩
  have hy : (m : ℚ) * 2 ^ k / 2 ^ ulpExp ((m : ℚ) * 2 ^ k) = ((m * 2 ^ d : ℤ) : ℚ) := by
    have hu0 := (two_zpow_pos (ulpExp ((m : ℚ) * 2 ^ k))).ne'
    rw [div_eq_iff hu0]
    nth_rewrite 1 [hd]
    rw [zpow_add₀ (by norm_num)]
    push_cast
    rw [zpow_natCast]; ring
  unfold round
  rw [hy, roundHalfEven_intCast, ← hy]
  field_simp


theorem IsFloat.exists_int {x : ℚ} (hx : IsFloat x) : ∃ N : ℤ, x = N * 2 ^ ulpExp x :=
  ⟨roundHalfEven (x / 2 ^ ulpExp x), hx.symm⟩

theorem isFloat_rep (m k : ℤ) (hm : |m| < 2 ^ 24) (hk : -149 ≤ k) :
    IsFloat ((m : ℚ) * 2 ^ k) :=
  round_rep m k hm hk

theorem IsFloat.neg {x : ℚ} (hx : IsFloat x) : IsFloat (-x) := by
  unfold IsFloat at *; rw [round_neg, hx]

theorem isFloat_zero : IsFloat 0 := round_zero

/-- A multiple of the spacing around `q` that bounds `q` also bounds the rounded `q`. -/
theorem round_le_of_le_grid {q : ℚ} {N : ℤ} (h : q ≤ N * 2 ^ ulpExp q) :
    round q ≤ N * 2 ^ ulpExp q := by
  have hu := two_zpow_pos (ulpExp q)
  have : roundHalfEven (q / 2 ^ ulpExp q) ≤ N :=
    roundHalfEven_le (by rw [div_le_iff₀ hu]; exact h)
  unfold round
  exact mul_le_mul_of_nonneg_right (by exact_mod_cast this) hu.le

theorem round_le_of_le {q x : ℚ} (hx : IsFloat x) (h : q ≤ x) : round q ≤ x := by
  obtain ⟨N, hN⟩ := hx.exists_int
  by_cases hu : ulpExp q ≤ ulpExp x
  · obtain ⟨d, hd⟩ : ∃ d : ℕ, ulpExp x = ulpExp q + d := ⟨(ulpExp x - ulpExp q).toNat, by omega⟩
    have hx2 : x = ((N * 2 ^ d : ℤ) : ℚ) * 2 ^ ulpExp q := by
      nth_rewrite 1 [hN]
      rw [hd, zpow_add₀ (by norm_num)]
      push_cast
      rw [zpow_natCast]; ring
    rw [hx2] at h ⊢
    exact round_le_of_le_grid h
  · push_neg at hu
    have hqx : |x| < |q| := by
      by_contra hc
      exact absurd (ulpExp_mono (not_lt.mp hc)) (not_le.mpr hu)
    have hq0 : q ≠ 0 := by
      intro h0; rw [h0, abs_zero] at hqx; exact absurd (abs_nonneg x) (not_le.mpr hqx)
    have hqneg : q < 0 := by
      by_contra hc
      have h1 : 0 ≤ q := not_lt.mp hc
      rw [abs_of_nonneg h1, abs_of_nonneg (h1.trans h)] at hqx
      linarith
    have hux := ulpExp_ge x
    have huq : ulpExp q = Int.log 2 |q| - 23 := by
      have : ulpExp q = max (Int.log 2 |q| - 23) (-149) := by simp [ulpExp, hq0]
      omega
    have hpow : (2 : ℚ) ^ Int.log 2 |q| ≤ |q| := zpow_log_le_abs hq0
    have hxlt : |x| < 2 ^ Int.log 2 |q| := by
      by_cases hx0 : x = 0
      · rw [hx0, abs_zero]; exact two_zpow_pos _
      · have : ulpExp x = max (Int.log 2 |x| - 23) (-149) := by simp [ulpExp, hx0]
        have hl : Int.log 2 |x| < Int.log 2 |q| := by omega
        have := (Int.lt_zpow_iff_log_lt (R := ℚ) (b := 2) (by norm_num) (abs_pos.mpr hx0)).mpr hl
        simpa using this
    have key : ((-(2 ^ 23) : ℤ) : ℚ) * 2 ^ ulpExp q = -(2 ^ Int.log 2 |q|) := by
      rw [huq, zpow_sub₀ (by norm_num)]; push_cast; field_simp; norm_num; ring
    have hq' : |q| = -q := abs_of_neg hqneg
    have hgrid : q ≤ ((-(2 ^ 23) : ℤ) : ℚ) * 2 ^ ulpExp q := by
      rw [key]; linarith
    have h1 := round_le_of_le_grid hgrid
    rw [key] at h1
    have h3 : -|x| ≤ x := neg_abs_le x
    linarith

theorem le_round_of_le {q x : ℚ} (hx : IsFloat x) (h : x ≤ q) : x ≤ round q := by
  have := round_le_of_le hx.neg (neg_le_neg h)
  rw [round_neg] at this
  linarith

theorem abs_round_le_of_le {q x : ℚ} (hx : IsFloat x) (h : |q| ≤ x) : |round q| ≤ x := by
  rw [abs_le] at h ⊢
  exact ⟨le_round_of_le hx.neg h.1, round_le_of_le hx h.2⟩

theorem round_eq_of_tie_even {q : ℚ} (e m : ℤ) (he : -126 ≤ e) (h1 : 2 ^ e ≤ |q|)
    (h2 : |q| < 2 ^ (e + 1)) (hq : q / 2 ^ (e - 23) = m + 1 / 2) (hm : m % 2 = 0) :
    round q = m * 2 ^ (e - 23) := by
  have hu : ulpExp q = e - 23 := by rw [ulpExp_eq h1 h2]; omega
  unfold round
  rw [hu, roundHalfEven_tie_even hq hm]

theorem round_eq_of_tie_odd {q : ℚ} (e m : ℤ) (he : -126 ≤ e) (h1 : 2 ^ e ≤ |q|)
    (h2 : |q| < 2 ^ (e + 1)) (hq : q / 2 ^ (e - 23) = m + 1 / 2) (hm : m % 2 = 1) :
    round q = (m + 1) * 2 ^ (e - 23) := by
  have hu : ulpExp q = e - 23 := by rw [ulpExp_eq h1 h2]; omega
  unfold round
  rw [hu, roundHalfEven_tie_odd hq hm]
  push_cast; ring

theorem isFloat_intCast (n : ℤ) (h : |n| ≤ 2 ^ 24) : IsFloat (n : ℚ) := by
  by_cases h2 : |n| < 2 ^ 24
  · have := isFloat_rep n 0 h2 (by norm_num)
    simpa using this
  · have h3 : |n| = 2 ^ 24 := le_antisymm h (not_lt.mp h2)
    rcases abs_eq (by norm_num : (0 : ℤ) ≤ 2 ^ 24) |>.mp h3 with h4 | h4
    · have := isFloat_rep (2 ^ 23) 1 (by norm_num) (by norm_num)
      rw [h4]; convert this using 1; norm_num
    · have := isFloat_rep (-(2 ^ 23)) 1 (by norm_num) (by norm_num)
      rw [h4]; convert this using 1; norm_num

end F32
namespace F32

theorem isFloat_two_zpow (k : ℤ) (hk : -149 ≤ k) : IsFloat ((2 : ℚ) ^ k) := by
  have := isFloat_rep 1 k (by norm_num) hk
  simpa using this

theorem round_pos_of_le {q : ℚ} (k : ℤ) (hk : -149 ≤ k) (h : (2 : ℚ) ^ k ≤ q) : 0 < round q :=
  lt_of_lt_of_le (two_zpow_pos k) (le_round_of_le (isFloat_two_zpow k hk) h)

/-- The page count: for `0 < n ≤ 2^24` children and a page size `0 < p < 2^31`, the ceiling
of the `float` quotient is the ceiling of the exact quotient. -/
theorem ceil_round_div (n p : ℤ) (hn0 : 0 < n) (hn : n ≤ 2 ^ 24) (hp0 : 0 < p)
    (hp : p < 2 ^ 31) :
    ⌈round (round (n : ℚ) / round (p : ℚ))⌉ = ⌈(n : ℚ) / (p : ℚ)⌉ := by
  have hnf : round (n : ℚ) = n := isFloat_intCast n (by rw [abs_of_pos hn0]; exact hn)
  have hnq : (0 : ℚ) < n := by exact_mod_cast hn0
  have hpq : (0 : ℚ) < p := by exact_mod_cast hp0
  have hnq24 : (n : ℚ) ≤ 2 ^ 24 := by exact_mod_cast hn
  rw [hnf]
  by_cases hp24 : p ≤ 2 ^ 24
  · have hpf : round (p : ℚ) = p := isFloat_intCast p (by rw [abs_of_pos hp0]; exact hp24)
    rw [hpf]
    have hq0 : (0 : ℚ) < n / p := div_pos hnq hpq
    have hk1 : (n : ℚ) / p ≤ ⌈(n : ℚ) / p⌉ := Int.le_ceil _
    have hk2 : ((⌈(n : ℚ) / p⌉ : ℤ) : ℚ) - 1 < n / p := by
      have := Int.ceil_lt_add_one ((n : ℚ) / p); linarith
    have hkpos : 0 < ⌈(n : ℚ) / p⌉ := Int.ceil_pos.mpr hq0
    have hkn : ⌈(n : ℚ) / p⌉ ≤ n := by
      apply Int.ceil_le.mpr
      rw [div_le_iff₀ hpq]
      have : (1 : ℚ) ≤ p := by exact_mod_cast hp0
      nlinarith
    have hkf : IsFloat ((⌈(n : ℚ) / p⌉ : ℤ) : ℚ) :=
      isFloat_intCast _ (by rw [abs_of_pos hkpos]; omega)
    rw [Int.ceil_eq_iff]
    refine ⟨?_, round_le_of_le hkf hk1⟩
    -- the rounded quotient stays above k - 1
    by_cases hj : ⌈(n : ℚ) / p⌉ = 1
    · rw [hj]
      have hlow : (2 : ℚ) ^ (-31 : ℤ) ≤ n / p := by
        rw [le_div_iff₀ hpq]
        have h1 : (p : ℚ) < 2 ^ 31 := by exact_mod_cast hp
        have h2 : (1 : ℚ) ≤ n := by exact_mod_cast hn0
        have h3 : (2 : ℚ) ^ (-31 : ℤ) = 1 / 2 ^ 31 := by norm_num
        rw [h3]
        calc 1 / 2 ^ 31 * (p : ℚ) ≤ 1 / 2 ^ 31 * 2 ^ 31 := by
              apply mul_le_mul_of_nonneg_left h1.le; norm_num
          _ = 1 := by norm_num
          _ ≤ n := h2
      have := round_pos_of_le (-31) (by norm_num) hlow
      push_cast
      linarith
    · by_cases hint : (n : ℚ) / p = ⌈(n : ℚ) / p⌉
      · have e : round ((n : ℚ) / p) = n / p := by
          have := hkf; unfold IsFloat at this; rw [← hint] at this; exact this
        rw [e]; exact hk2
      · have hlt : (n : ℚ) / p < ⌈(n : ℚ) / p⌉ := lt_of_le_of_ne hk1 hint
        have hq1 : (1 : ℚ) ≤ n / p := by
          have : (2 : ℤ) ≤ ⌈(n : ℚ) / p⌉ := by omega
          have : (2 : ℚ) ≤ ((⌈(n : ℚ) / p⌉ : ℤ) : ℚ) := by exact_mod_cast this
          linarith
        have hqne : (n : ℚ) / p ≠ 0 := hq0.ne'
        have habs : |(n : ℚ) / p| = n / p := abs_of_pos hq0
        -- the binade of the quotient
        obtain ⟨e, he⟩ : ∃ e, e = Int.log 2 |(n : ℚ) / p| := ⟨_, rfl⟩
        have he1 : (2 : ℚ) ^ e ≤ n / p := by
          have := zpow_log_le_abs hqne; rw [← he, habs] at this; exact this
        have he2 : (n : ℚ) / p < 2 ^ (e + 1) := by
          have := abs_lt_zpow_log_succ ((n : ℚ) / p); rw [← he, habs] at this; exact this
        have he0 : 0 ≤ e := by
          rw [he]
          have := (Int.zpow_le_iff_le_log (R := ℚ) (b := 2) (x := 0) (by norm_num)
            (abs_pos.mpr hqne)).mp (by simpa [habs] using hq1)
          exact this
        obtain ⟨d, hd⟩ : ∃ d : ℕ, e = d := ⟨e.toNat, by omega⟩
        -- the quotient is no integer, so it is above the power of two
        have he1' : (2 : ℚ) ^ e < n / p := by
          refine lt_of_le_of_ne he1 ?_
          intro heq
          apply hint
          have : (n : ℚ) / p = ((2 ^ d : ℤ) : ℚ) := by
            rw [← heq, hd]; push_cast; rw [zpow_natCast]
          rw [this, Int.ceil_intCast]
        have hu : ulpExp ((n : ℚ) / p) ≤ e - 23 :=
          ulpExp_le (by omega) (by rw [habs]; exact he2)
        have herr := abs_round_sub_le ((n : ℚ) / p)
        have hpow : (2 : ℚ) ^ ulpExp ((n : ℚ) / p) ≤ 2 ^ (e - 23) :=
          zpow_le_zpow_right₀ (by norm_num) hu
        have hgap : (1 : ℚ) / p ≤ n / p - (((⌈(n : ℚ) / p⌉ : ℤ) : ℚ) - 1) := by
          have h1 : (⌈(n : ℚ) / p⌉ - 1) * p < n := by
            have : (((⌈(n : ℚ) / p⌉ - 1 : ℤ) : ℚ)) < n / p := by push_cast; exact hk2
            rw [lt_div_iff₀ hpq] at this
            exact_mod_cast this
          have h2 : (⌈(n : ℚ) / p⌉ - 1) * p + 1 ≤ n := by omega
          have h3 : ((((⌈(n : ℚ) / p⌉ : ℤ) : ℚ) - 1) * p + 1) ≤ n := by exact_mod_cast h2
          rw [div_sub' _ _ _ hpq.ne', div_le_div_iff_of_pos_right hpq]
          linarith
        have hsmall : (2 : ℚ) ^ (e - 23) / 2 < 1 / p := by
          have h1 : (2 : ℚ) ^ e * p < 2 ^ 24 := by
            have := (lt_div_iff₀ hpq).mp he1'
            linarith
          rw [zpow_sub₀ (by norm_num), lt_div_iff₀ hpq]
          have : (2 : ℚ) ^ e / 2 ^ (23 : ℤ) / 2 * p = (2 ^ e * p) / 2 ^ 24 := by
            norm_num; ring
          rw [this, div_lt_one (by norm_num)]
          exact h1
        have h4 := (abs_le.mp herr).1
        linarith
  · have hp24' : (2 : ℚ) ^ 24 ≤ p := by
      have : (2 : ℤ) ^ 24 ≤ p := by omega
      exact_mod_cast this
    have hp31 : (p : ℚ) ≤ 2 ^ 31 := by
      have : p ≤ (2 : ℤ) ^ 31 := by omega
      exact_mod_cast this
    have f24 : IsFloat ((2 : ℚ) ^ 24) := by
      have := isFloat_two_zpow ((24 : ℕ) : ℤ) (by norm_num); rwa [zpow_natCast] at this
    have f31 : IsFloat ((2 : ℚ) ^ 31) := by
      have := isFloat_two_zpow ((31 : ℕ) : ℤ) (by norm_num); rwa [zpow_natCast] at this
    have r1 := le_round_of_le f24 hp24'
    have r2 := round_le_of_le f31 hp31
    have rpos : (0 : ℚ) < round (p : ℚ) := by linarith
    have hc : ⌈(n : ℚ) / p⌉ = 1 := by
      rw [Int.ceil_eq_iff]
      push_cast
      constructor
      · simpa using div_pos hnq hpq
      · rw [div_le_one hpq]; linarith
    rw [hc, Int.ceil_eq_iff]
    push_cast
    have hlow : (2 : ℚ) ^ (-31 : ℤ) ≤ n / round (p : ℚ) := by
      rw [le_div_iff₀ rpos]
      have h2 : (1 : ℚ) ≤ n := by exact_mod_cast hn0
      have h3 : (2 : ℚ) ^ (-31 : ℤ) = 1 / 2 ^ 31 := by norm_num
      rw [h3]
      calc 1 / 2 ^ 31 * round (p : ℚ) ≤ 1 / 2 ^ 31 * 2 ^ 31 := by
            apply mul_le_mul_of_nonneg_left r2; norm_num
        _ = 1 := by norm_num
        _ ≤ n := h2
    have hhigh : (n : ℚ) / round (p : ℚ) ≤ 1 := by
      rw [div_le_one rpos]; linarith
    have f1 : IsFloat (1 : ℚ) := by
      have := isFloat_intCast 1 (by norm_num); simpa using this
    constructor
    · have := round_pos_of_le (-31) (by norm_num) hlow
      linarith
    · exact round_le_of_le f1 hhigh

end F32
namespace F32

theorem isFloat_round (q : ℚ) : IsFloat (round q) := by
  have hu := ulpExp_ge q
  have hpos := two_zpow_pos (ulpExp q)
  have hlt : |q| < 2 ^ (ulpExp q + 24) := by
    by_cases hq : q = 0
    · rw [hq, abs_zero]; exact two_zpow_pos _
    · have h1 := abs_lt_zpow_log_succ q
      have h2 : ulpExp q = max (Int.log 2 |q| - 23) (-149) := by simp [ulpExp, hq]
      have h3 : Int.log 2 |q| + 1 ≤ ulpExp q + 24 := by omega
      exact lt_of_lt_of_le h1 (zpow_le_zpow_right₀ (by norm_num) h3)
  have hy : |q / 2 ^ ulpExp q| < 2 ^ 24 := by
    rw [abs_div, abs_of_pos hpos, div_lt_iff₀ hpos]
    have : (2 : ℚ) ^ (ulpExp q + 24) = 2 ^ 24 * 2 ^ ulpExp q := by
      rw [add_comm, zpow_add₀ (by norm_num)]; norm_num
    rw [← this]; exact hlt
  rw [abs_lt] at hy
  have hN1 : roundHalfEven (q / 2 ^ ulpExp q) ≤ 2 ^ 24 :=
    roundHalfEven_le (by push_cast; linarith)
  have hN2 : -(2 ^ 24) ≤ roundHalfEven (q / 2 ^ ulpExp q) :=
    le_roundHalfEven (by push_cast; linarith)
  by_cases hN : |roundHalfEven (q / 2 ^ ulpExp q)| < 2 ^ 24
  · exact isFloat_rep _ _ hN hu
  · have h3 : roundHalfEven (q / 2 ^ ulpExp q) = 2 ^ 24 ∨
        roundHalfEven (q / 2 ^ ulpExp q) = -(2 ^ 24) := by
      rw [abs_lt] at hN
      omega
    rcases h3 with h | h
    · have := isFloat_rep (2 ^ 23) (ulpExp q + 1) (by norm_num) (by omega)
      have e : round q = ((2 ^ 23 : ℤ) : ℚ) * 2 ^ (ulpExp q + 1) := by
        unfold round
        rw [h, zpow_add₀ (by norm_num)]
        push_cast; ring
      rw [e]; exact this
    · have := isFloat_rep (-(2 ^ 23)) (ulpExp q + 1) (by norm_num) (by omega)
      have e : round q = ((-(2 ^ 23) : ℤ) : ℚ) * 2 ^ (ulpExp q + 1) := by
        unfold round
        rw [h, zpow_add₀ (by norm_num)]
        push_cast; ring
      rw [e]; exact this

@[simp] theorem round_round (q : ℚ) : round (round q) = round q := isFloat_round q

theorem round_of_eq (q : ℚ) (m k : ℤ) (h : q = m * 2 ^ k) (hm : |m| < 2 ^ 24)
    (hk : -149 ≤ k) : round q = q := by
  rw [h]; exact round_rep m k hm hk

@[simp] theorem round_one : round 1 = 1 := round_of_eq 1 1 0 (by norm_num) (by norm_num) (by norm_num)

@[simp] theorem round_neg_one : round (-1) = -1 :=
  round_of_eq (-1) (-1) 0 (by norm_num) (by norm_num) (by norm_num)

@[simp] theorem round_two : round 2 = 2 := round_of_eq 2 2 0 (by norm_num) (by norm_num) (by norm_num)

end F32

namespace F32

/-- Evaluation of a rounding: `q` lies in the binade of `2^e` and is nearer to the multiple
`m` of the spacing than to any other. -/
theorem round_eval {q : ℚ} (e m : ℤ) (r : ℚ) (he : -126 ≤ e) (h1 : 2 ^ e ≤ |q|)
    (h2 : |q| < 2 ^ (e + 1)) (hm : |q / 2 ^ (e - 23) - m| < 1 / 2)
    (hr : (m : ℚ) * 2 ^ (e - 23) = r) : round q = r := by
  rw [← hr]; exact round_eq_of_near e m he h1 h2 hm

end F32

namespace VRUIContainer

open VRUIWidget

/-! ## Pagination: auxiliary facts -/

@[simp] theorem data_mk (d : WidgetData) (cs : List VRUIWidget) :
    (VRUIWidget.mk d cs).data = d := rfl

@[simp] theorem children_mk (d : WidgetData) (cs : List VRUIWidget) :
    (VRUIWidget.mk d cs).children = cs := rfl

theorem updateDimensions_children (sv : Bool) (d : WidgetData) (cs : List VRUIWidget) :
    (updateDimensions sv d cs).children = cs := rfl

theorem updateDimensions_name (sv : Bool) (d : WidgetData) (cs : List VRUIWidget) :
    (updateDimensions sv d cs).data.name = d.name := rfl

theorem updateDimensions_visible (sv : Bool) (d : WidgetData) (cs : List VRUIWidget) :
    (updateDimensions sv d cs).data.visible = d.visible := rfl

theorem updateDimensions_container (sv : Bool) (d : WidgetData) (cs : List VRUIWidget) :
    (updateDimensions sv d cs).data.container = d.container := rfl

/-- Name and visibility flag of a widget: what the placement loops leave alone. -/
theorem ident_setLocalPosition (pos : NiPoint3) (w : VRUIWidget) :
    (w.setLocalPosition pos).data.name = w.data.name ∧
    (w.setLocalPosition pos).data.visible = w.data.visible := by
  cases w; exact ⟨rfl, rfl⟩

theorem ident_startScaleAnimation (delay : Int) (w : VRUIWidget) :
    (w.startScaleAnimation delay).data.name = w.data.name ∧
    (w.startScaleAnimation delay).data.visible = w.data.visible := by
  cases w; exact ⟨rfl, rfl⟩

theorem data_setVisible (v : Bool) (w : VRUIWidget) :
    (w.setVisible v).data.name = w.data.name ∧ (w.setVisible v).data.visible = v := by
  cases w; exact ⟨rfl, rfl⟩

theorem ident_placeRow (sv : Bool) (sp x : ℚ) (cs : List VRUIWidget) :
    (placeRow sv sp x cs).map (fun w => (w.data.name, w.data.visible))
      = cs.map (fun w => (w.data.name, w.data.visible)) := by
  induction cs generalizing x with
  | nil => rfl
  | cons c cs ih =>
    unfold placeRow
    split
    · simp [ih]
    · simp [ih, ident_setLocalPosition]

theorem ident_placeColumn (sv : Bool) (sp : ℚ) (down : Bool) (z : ℚ) (cs : List VRUIWidget) :
    (placeColumn sv sp down z cs).map (fun w => (w.data.name, w.data.visible))
      = cs.map (fun w => (w.data.name, w.data.visible)) := by
  induction cs generalizing z with
  | nil => rfl
  | cons c cs ih =>
    unfold placeColumn
    split
    · simp [ih]
    · split <;> simp [ih, ident_setLocalPosition]

theorem ident_placeGrid (s : VRUISettings) (sp : ℚ) (m : Int) (first : VRUIWidget)
    (a b : Int) (idx : Nat) (cs : List VRUIWidget) :
    (placeGrid s sp m first a b idx cs).map (fun w => (w.data.name, w.data.visible))
      = cs.map (fun w => (w.data.name, w.data.visible)) := by
  induction cs generalizing idx with
  | nil => rfl
  | cons c cs ih =>
    unfold placeGrid
    split <;> simp [ih, ident_setLocalPosition]

theorem ident_cascade (sv : Bool) (v : Int) (cs : List VRUIWidget) :
    (cascade sv v cs).map (fun w => (w.data.name, w.data.visible))
      = cs.map (fun w => (w.data.name, w.data.visible)) := by
  induction cs generalizing v with
  | nil => rfl
  | cons c cs ih =>
    unfold cascade
    split
    · simp [ih, ident_startScaleAnimation]
    · simp [ih]

theorem name_showPage (a b : Int) (idx : Nat) (cs : List VRUIWidget) :
    (showPage a b idx cs).map (fun w => w.data.name) = cs.map (fun w => w.data.name) := by
  induction cs generalizing idx with
  | nil => rfl
  | cons c cs ih =>
    unfold showPage
    split <;> simp [ih, data_setVisible]

theorem length_showPage (a b : Int) (idx : Nat) (cs : List VRUIWidget) :
    (showPage a b idx cs).length = cs.length := by
  simpa using congrArg List.length (name_showPage a b idx cs)

theorem ident_layoutRow (sv : Bool) (sp : ℚ) (cs : List VRUIWidget) :
    (layoutRow sv sp cs).map (fun w => (w.data.name, w.data.visible))
      = cs.map (fun w => (w.data.name, w.data.visible)) := by
  unfold layoutRow
  exact ident_placeRow _ _ _ _

theorem name_of_ident {cs cs' : List VRUIWidget}
    (h : cs'.map (fun w => (w.data.name, w.data.visible))
      = cs.map (fun w => (w.data.name, w.data.visible))) :
    cs'.map (fun w => w.data.name) = cs.map (fun w => w.data.name) := by
  have := congrArg (List.map Prod.fst) h
  simpa [List.map_map, Function.comp_def] using this

theorem length_of_name {cs cs' : List VRUIWidget}
    (h : cs'.map (fun w => w.data.name) = cs.map (fun w => w.data.name)) :
    cs'.length = cs.length := by
  simpa using congrArg List.length h

theorem name_layoutGrid (s : VRUISettings) (c : ContainerData) (cs : List VRUIWidget) :
    (layoutGrid s c cs).map (fun w => w.data.name) = cs.map (fun w => w.data.name) := by
  unfold layoutGrid
  simp only []
  split
  · exact name_showPage _ _ _ _
  · split
    · exact name_showPage _ _ _ _
    · rw [name_of_ident (ident_placeGrid _ _ _ _ _ _ _ _)]
      exact name_showPage _ _ _ _

/-- What a layout pass never touches, whatever the fuel: the widget's own name and flag, the
names and the number of its children, its layout mode and page size; the page stays or
becomes 0. -/
theorem recalculateLayoutAux_shell (s : VRUISettings) (fuel : Nat) (pv : Bool)
    (w : VRUIWidget) :
    (recalculateLayoutAux s fuel pv w).data.name = w.data.name ∧
    (recalculateLayoutAux s fuel pv w).data.visible = w.data.visible ∧
    (recalculateLayoutAux s fuel pv w).children.map (fun w => w.data.name)
      = w.children.map (fun w => w.data.name) ∧
    getLayout (recalculateLayoutAux s fuel pv w) = getLayout w ∧
    getPageSize (recalculateLayoutAux s fuel pv w) = getPageSize w ∧
    (getCurrentPage (recalculateLayoutAux s fuel pv w) = getCurrentPage w ∨
      getCurrentPage (recalculateLayoutAux s fuel pv w) = 0) ∧
    ((recalculateLayoutAux s fuel pv w).data.container.isSome = w.data.container.isSome) := by
  induction fuel generalizing pv w with
  | zero => simp [recalculateLayoutAux]
  | succ f ih =>
    have hmap : ∀ v, (w.children.map (recalculateLayoutAux s f v)).map (fun w => w.data.name)
        = w.children.map (fun w => w.data.name) := by
      intro v
      rw [List.map_map]
      apply List.map_congr_left
      intro a _
      exact (ih v a).1
    rw [recalculateLayoutAux]
    split
    · simp
    · rename_i c0 hc
      simp only []
      split
      · refine ⟨rfl, rfl, hmap _, ?_, ?_, ?_, ?_⟩ <;>
          simp [getLayout, getPageSize, getCurrentPage, data_mk, hc]
      · split
        · refine ⟨rfl, rfl, ?_, ?_, ?_, ?_, ?_⟩
          · rw [updateDimensions_children, name_of_ident (ident_layoutRow _ _ _)]; exact hmap _
          all_goals simp [getLayout, getPageSize, getCurrentPage, updateDimensions_container, hc]
        · refine ⟨rfl, rfl, ?_, ?_, ?_, ?_, ?_⟩
          · rw [updateDimensions_children, name_of_ident (ident_placeColumn _ _ _ _ _)]
            exact hmap _
          all_goals simp [getLayout, getPageSize, getCurrentPage, updateDimensions_container, hc]
        · refine ⟨rfl, rfl, ?_, ?_, ?_, ?_, ?_⟩
          · rw [updateDimensions_children, name_of_ident (ident_placeColumn _ _ _ _ _)]
            exact hmap _
          all_goals simp [getLayout, getPageSize, getCurrentPage, updateDimensions_container, hc]
        · split
          · have h := ih pv (.mk { w.data with container := some { c0 with layoutDirty := false, currentPage := 0 } } (w.children.map (recalculateLayoutAux s f (w.isVisible pv))))
            obtain ⟨h1, h2, h3, h4, h5, h6, h7⟩ := h
            refine ⟨h1, h2, ?_, ?_, ?_, ?_, ?_⟩
            · rw [h3]; exact hmap _
            · rw [h4]; simp [getLayout, data_mk, hc]
            · rw [h5]; simp [getPageSize, data_mk, hc]
            · right
              rcases h6 with h6 | h6
              · rw [h6]; simp [getCurrentPage, data_mk]
              · exact h6
            · rw [h7]; simp [data_mk, hc]
          · refine ⟨rfl, rfl, ?_, ?_, ?_, ?_, ?_⟩
            · rw [updateDimensions_children, name_layoutGrid]; exact hmap _
            all_goals simp [getLayout, getPageSize, getCurrentPage, updateDimensions_container, hc]
        · refine ⟨rfl, rfl, ?_, ?_, ?_, ?_, ?_⟩
          · rw [updateDimensions_children]; exact hmap _
          all_goals simp [getLayout, getPageSize, getCurrentPage, updateDimensions_container, hc]

theorem visible_map_recalculateLayoutAux (s : VRUISettings) (f : Nat) (v : Bool)
    (cs : List VRUIWidget) :
    (cs.map (recalculateLayoutAux s f v)).map (fun w => w.data.visible)
      = cs.map (fun w => w.data.visible) := by
  rw [List.map_map]
  apply List.map_congr_left
  intro a _
  exact (recalculateLayoutAux_shell s f v a).2.1

theorem name_map_recalculateLayoutAux (s : VRUISettings) (f : Nat) (v : Bool)
    (cs : List VRUIWidget) :
    (cs.map (recalculateLayoutAux s f v)).map (fun w => w.data.name)
      = cs.map (fun w => w.data.name) := by
  rw [List.map_map]
  apply List.map_congr_left
  intro a _
  exact (recalculateLayoutAux_shell s f v a).1

/-- The layout pass on a container without children: only the dirty flag is cleared. -/
theorem recalculateLayoutAux_empty (s : VRUISettings) (f : Nat) (pv : Bool) (w : VRUIWidget)
    (c : ContainerData) (hc : w.data.container = some c) (hne : w.children = []) :
    recalculateLayoutAux s (f + 1) pv w
      = .mk { w.data with container := some { c with layoutDirty := false } } [] := by
  rw [recalculateLayoutAux]
  simp [hc, hne]

/-- The layout pass on a Grid container with children whose page is in bounds: one pass of
`layoutGrid` over the laid-out children, then the dimension update. -/
theorem recalculateLayoutAux_grid (s : VRUISettings) (f : Nat) (pv : Bool) (w : VRUIWidget)
    (c : ContainerData) (hc : w.data.container = some c) (hl : c.layout = .Grid)
    (hne : w.children ≠ []) (hb : pageOutOfBounds c w.children.length = false) :
    recalculateLayoutAux s (f + 1) pv w
      = updateDimensions (w.isVisible pv)
          { w.data with container := some { c with layoutDirty := false } }
          (layoutGrid s { c with layoutDirty := false }
            (w.children.map (recalculateLayoutAux s f (w.isVisible pv)))) := by
  have hb' : ∀ l, pageOutOfBounds { c with layoutDirty := false, layout := l }
      w.children.length = false := fun _ => hb
  rw [recalculateLayoutAux]
  simp [hc, hl, hne, hb']

/-- The layout pass on a Grid container with children whose page is out of bounds: the page
is reset to 0 and the pass runs again. -/
theorem recalculateLayoutAux_reset (s : VRUISettings) (f : Nat) (pv : Bool) (w : VRUIWidget)
    (c : ContainerData) (hc : w.data.container = some c) (hl : c.layout = .Grid)
    (hne : w.children ≠ []) (hb : pageOutOfBounds c w.children.length = true) :
    recalculateLayoutAux s (f + 1) pv w
      = recalculateLayoutAux s f pv
          (.mk { w.data with
                 container := some { c with layoutDirty := false, currentPage := 0 } }
            (w.children.map (recalculateLayoutAux s f (w.isVisible pv)))) := by
  have hb' : ∀ l, pageOutOfBounds { c with layoutDirty := false, layout := l }
      w.children.length = true := fun _ => hb
  rw [recalculateLayoutAux]
  simp [hc, hl, hne, hb']

/-- The layout pass on a container that is not a Grid leaves the page index alone. -/
theorem getCurrentPage_recalculateLayoutAux_other (s : VRUISettings) (f : Nat) (pv : Bool)
    (w : VRUIWidget) (c : ContainerData) (hc : w.data.container = some c)
    (hl : c.layout ≠ .Grid) :
    getCurrentPage (recalculateLayoutAux s f pv w) = c.currentPage := by
  cases f with
  | zero => simp [recalculateLayoutAux, getCurrentPage, hc]
  | succ f =>
    rw [recalculateLayoutAux]
    simp only [hc]
    split
    · simp [getCurrentPage]
    · split
      · simp [getCurrentPage, updateDimensions_container]
      · simp [getCurrentPage, updateDimensions_container]
      · simp [getCurrentPage, updateDimensions_container]
      · rename_i h; exact absurd h hl
      · simp [getCurrentPage, updateDimensions_container]

/-! ### Counting pages -/

theorem lt_ceil_div_iff (k n p : Int) (hp : 0 < p) :
    k < ⌈(n : ℚ) / (p : ℚ)⌉ ↔ k * p < n := by
  have hp' : (0 : ℚ) < (p : ℚ) := by exact_mod_cast hp
  rw [Int.lt_ceil, lt_div_iff₀ hp']
  exact_mod_cast Iff.rfl

theorem ceil_div_le_iff (k n p : Int) (hp : 0 < p) :
    ⌈(n : ℚ) / (p : ℚ)⌉ ≤ k ↔ n ≤ k * p := by
  have := lt_ceil_div_iff k n p hp
  constructor
  · intro h
    by_contra hlt
    exact absurd (this.mpr (not_le.mp hlt)) (not_lt.mpr h)
  · intro h
    by_contra hlt
    exact absurd (this.mp (not_le.mp hlt)) (not_lt.mpr h)

theorem getTotalPages_unfold (w : VRUIWidget) (c : ContainerData)
    (hc : w.data.container = some c) :
    getTotalPages w =
      if c.pageSize ≤ 0 then 1
      else if (w.children.length : Int) = 0 then 1
      else ⌈F32.round (F32.round ((w.children.length : Int) : ℚ) /
        F32.round (c.pageSize : ℚ))⌉ := by
  simp [getTotalPages, hc]

/-- With at most `2^24` children and a page size in the range of `int`, the conversions to
`float` and the division lose nothing that the ceiling needs: the page count is the exact
ceiling. -/
theorem getTotalPages_small (w : VRUIWidget) (c : ContainerData)
    (hc : w.data.container = some c) (hn : w.children.length ≤ 2 ^ 24)
    (hp31 : c.pageSize < 2 ^ 31) :
    getTotalPages w =
      if c.pageSize ≤ 0 then 1
      else if (w.children.length : Int) = 0 then 1
      else ⌈((w.children.length : Int) : ℚ) / (c.pageSize : ℚ)⌉ := by
  rw [getTotalPages_unfold w c hc]
  split
  · rfl
  · rename_i hp
    split
    · rfl
    · rename_i hlen
      exact F32.ceil_round_div _ _ (by omega) (by exact_mod_cast hn) (not_le.mp hp) hp31

theorem getTotalPages_congr (w w' : VRUIWidget) (c c' : ContainerData)
    (hc : w.data.container = some c) (hc' : w'.data.container = some c')
    (hp : c'.pageSize = c.pageSize) (hn : w'.children.length = w.children.length) :
    getTotalPages w' = getTotalPages w := by
  rw [getTotalPages_unfold w c hc, getTotalPages_unfold w' c' hc', hp, hn]

/-- The page index after a layout pass with fuel for the pass and its re-run: 0 when a Grid
container with children finds its page out of bounds, else the page it had. -/
theorem getCurrentPage_recalculateLayoutAux (s : VRUISettings) (f : Nat) (pv : Bool)
    (w : VRUIWidget) (c : ContainerData) (hc : w.data.container = some c) :
    getCurrentPage (recalculateLayoutAux s (f + 1 + 1) pv w)
      = if c.layout = .Grid ∧ w.children.length ≠ 0 ∧
            pageOutOfBounds c w.children.length = true
          then 0 else c.currentPage := by
  by_cases hl : c.layout = .Grid
  · by_cases hne : w.children = []
    · rw [recalculateLayoutAux_empty s (f + 1) pv w c hc hne]
      simp [getCurrentPage, hne]
    · cases hb : pageOutOfBounds c w.children.length
      · rw [recalculateLayoutAux_grid s (f + 1) pv w c hc hl hne hb]
        simp [getCurrentPage, updateDimensions_container]
      · rw [recalculateLayoutAux_reset s (f + 1) pv w c hc hl hne hb]
        rw [if_pos ⟨hl, by simpa using hne, rfl⟩]
        have key : ∀ (d : WidgetData) (c' : ContainerData) (cs : List VRUIWidget),
            d.container = some c' → c'.layout = .Grid → c'.currentPage = 0 → cs ≠ [] →
            getCurrentPage (recalculateLayoutAux s (f + 1) pv (VRUIWidget.mk d cs)) = 0 := by
          intro d c' cs hd hl' h0 hcs
          have hb' : pageOutOfBounds c' ((VRUIWidget.mk d cs).children.length : Int) = false := by
            simp [pageOutOfBounds, h0]
          rw [recalculateLayoutAux_grid s f pv (VRUIWidget.mk d cs) c' hd hl' hcs hb']
          simp [getCurrentPage, updateDimensions_container, hd, h0]
        exact key _ _ _ rfl hl rfl (by simpa using hne)
  · rw [getCurrentPage_recalculateLayoutAux_other s _ pv w c hc hl]
    simp [hl]

theorem getLayout_eq_some (w : VRUIWidget) (l : ContainerLayout) (h : getLayout w = some l) :
    ∃ c, w.data.container = some c ∧ c.layout = l := by
  unfold getLayout at h
  cases hc : w.data.container with
  | none => simp [hc] at h
  | some c => exact ⟨c, rfl, by simpa [hc] using h⟩

/-- Layout mode, page size, page index and child count after `recalculateLayout()`. -/
theorem recalculateLayout_summary (s : VRUISettings) (pv : Bool) (w : VRUIWidget)
    (l : ContainerLayout) (hl : getLayout w = some l) :
    getLayout (recalculateLayout s pv w) = some l ∧
    getPageSize (recalculateLayout s pv w) = getPageSize w ∧
    (recalculateLayout s pv w).children.length = w.children.length ∧
    getCurrentPage (recalculateLayout s pv w)
      = if l = .Grid ∧ w.children.length ≠ 0 ∧ getPageSize w > 0 ∧
            getCurrentPage w * getPageSize w ≥ (w.children.length : Int) ∧ getCurrentPage w > 0
          then 0 else getCurrentPage w := by
  obtain ⟨c, hc, hcl⟩ := getLayout_eq_some w l hl
  have shell := recalculateLayoutAux_shell s (2 * w.depth + 2) pv w
  refine ⟨?_, ?_, ?_, ?_⟩
  · exact shell.2.2.2.1.trans hl
  · exact shell.2.2.2.2.1
  · exact length_of_name shell.2.2.1
  · have := getCurrentPage_recalculateLayoutAux s (2 * w.depth) pv w c hc
    have e : recalculateLayout s pv w = recalculateLayoutAux s (2 * w.depth + 1 + 1) pv w := rfl
    rw [e, this]
    have hps : getPageSize w = c.pageSize := by simp [getPageSize, hc]
    have hcp : getCurrentPage w = c.currentPage := by simp [getCurrentPage, hc]
    have hsi : c.pageSize > 0 → startIndex c = c.currentPage * c.pageSize := by
      intro h; simp [startIndex, h]
    rw [hps, hcp, ← hcl]
    apply if_congr _ rfl rfl
    simp only [pageOutOfBounds, decide_eq_true_eq, ne_eq]
    constructor
    · rintro ⟨h1, h2, h3, h4, h5⟩
      exact ⟨h1, h2, h3, by rw [← hsi h3]; exact h4, h5⟩
    · rintro ⟨h1, h2, h3, h4, h5⟩
      exact ⟨h1, h2, h3, by rw [hsi h3]; exact h4, h5⟩

/-! ### The operations on the pagination view -/

theorem ceil_div_eq (n p : Int) (hp : 0 < p) :
    ⌈(n : ℚ) / (p : ℚ)⌉ = (n + p - 1) / p := by
  apply le_antisymm
  · rw [ceil_div_le_iff _ _ _ hp]
    have h1 := Int.emod_add_ediv (n + p - 1) p
    have h2 := Int.emod_lt_of_pos (n + p - 1) hp
    have h3 : (n + p - 1) / p * p = p * ((n + p - 1) / p) := Int.mul_comm _ _
    omega
  · have h : (n + p - 1) / p - 1 < ⌈(n : ℚ) / (p : ℚ)⌉ := by
      rw [lt_ceil_div_iff _ _ _ hp]
      have h1 := Int.emod_add_ediv (n + p - 1) p
      have h2 := Int.emod_nonneg (n + p - 1) (ne_of_gt hp)
      have h3 : ((n + p - 1) / p - 1) * p = p * ((n + p - 1) / p) - p := by ring
      omega
    omega

theorem getTotalPages_pageView (w : VRUIWidget) (v : PageView) (h : pageView w = some v) :
    getTotalPages w = v.totalPages := by
  unfold pageView at h
  cases hc : w.data.container with
  | none => simp [hc] at h
  | some c =>
    simp only [hc, Option.map_some', Option.some.injEq] at h
    subst h
    rw [getTotalPages_unfold w c hc]
    unfold PageView.totalPages
    simp only []
    split
    · rfl
    · rename_i hp
      by_cases hn : w.children.length = 0
      · simp [hn]
      · have hn' : ¬ ((w.children.length : Int) = 0) := by omega
        rw [if_neg hn', if_neg hn]

theorem pageView_eq (w : VRUIWidget) (l : ContainerLayout)
    (hl : getLayout w = some l) :
    pageView w = some { layout := l, pageSize := getPageSize w,
                        currentPage := getCurrentPage w, count := w.children.length } := by
  obtain ⟨c, hc, hcl⟩ := getLayout_eq_some w l hl
  simp [pageView, getPageSize, getCurrentPage, hc, hcl]

theorem pageView_some (w : VRUIWidget) (v : PageView) (h : pageView w = some v) :
    getLayout w = some v.layout ∧ getPageSize w = v.pageSize ∧
    getCurrentPage w = v.currentPage ∧ w.children.length = v.count := by
  unfold pageView at h
  cases hc : w.data.container with
  | none => simp [hc] at h
  | some c =>
    simp only [hc, Option.map_some', Option.some.injEq] at h
    subst h
    simp [getLayout, getPageSize, getCurrentPage, hc]

theorem pageView_recalculateLayout (s : VRUISettings) (pv : Bool) (w : VRUIWidget)
    (v : PageView) (h : pageView w = some v) :
    pageView (recalculateLayout s pv w) = some v.relayout := by
  obtain ⟨h1, h2, h3, h4⟩ := pageView_some w v h
  obtain ⟨r1, r2, r3, r4⟩ := recalculateLayout_summary s pv w v.layout h1
  rw [pageView_eq _ _ r1, r2, r3, r4, h2, h3, h4]
  rfl

theorem pageView_modifyContainer (f : ContainerData → ContainerData) (w : VRUIWidget)
    (v : PageView) (h : pageView w = some v) :
    ∃ c, w.data.container = some c ∧
      pageView (modifyContainer f w)
        = some { layout := (f c).layout, pageSize := (f c).pageSize,
                 currentPage := (f c).currentPage, count := v.count } ∧
      v = { layout := c.layout, pageSize := c.pageSize, currentPage := c.currentPage,
            count := w.children.length } := by
  unfold pageView at h
  cases hc : w.data.container with
  | none => simp [hc] at h
  | some c =>
    simp only [hc, Option.map_some', Option.some.injEq] at h
    subst h
    exact ⟨c, rfl, by simp [pageView, modifyContainer, hc], rfl⟩

theorem pageView_congr (w w' : VRUIWidget) (hd : w'.data.container = w.data.container)
    (hn : w'.children.length = w.children.length) : pageView w' = pageView w := by
  simp [pageView, hd, hn]

theorem foldl_removeChild (l : List VRUIWidget) (w : VRUIWidget) :
    l.foldl (fun acc _ => removeChild 0 acc) w = .mk w.data (w.children.drop l.length) := by
  induction l generalizing w with
  | nil => cases w; rfl
  | cons a l ih =>
    rw [List.foldl_cons, ih]
    cases w with
    | mk d cs =>
      cases cs with
      | nil => simp [removeChild]
      | cons c cs => simp [removeChild]

/-- Method `clearElements` empties the child list and touches nothing else. -/
theorem clearElements_eq (w : VRUIWidget) : clearElements w = .mk w.data [] := by
  unfold clearElements
  rw [foldl_removeChild]
  simp

theorem length_cascade (sv : Bool) (i : Int) (cs : List VRUIWidget) :
    (cascade sv i cs).length = cs.length :=
  length_of_name (name_of_ident (ident_cascade sv i cs))

theorem pageView_setPage (s : VRUISettings) (pv : Bool) (page : Int) (w : VRUIWidget)
    (v : PageView) (h : pageView w = some v) :
    pageView (setPage s pv page w) = some (v.setPage page) := by
  obtain ⟨c, hc, hm, hv⟩ := pageView_modifyContainer
    (fun c => { c with currentPage :=
      if (getTotalPages w > 0) then clamp page 0 (getTotalPages w - 1) else 0 }) w v h
  have hr := pageView_recalculateLayout s pv _ _ hm
  have hcg : pageView (setPage s pv page w) = pageView (recalculateLayout s pv (modifyContainer
      (fun c => { c with currentPage :=
        if (getTotalPages w > 0) then clamp page 0 (getTotalPages w - 1) else 0 }) w)) := by
    apply pageView_congr
    · rfl
    · simp [setPage, length_cascade]
  rw [hcg, hr, getTotalPages_pageView w v h]
  subst hv
  rfl

/-- Every container operation acts on the pagination view as `PageView.step` says. -/
theorem pageView_run (s : VRUISettings) (w : VRUIWidget) (v : PageView) (op : Op)
    (h : pageView w = some v) : pageView (op.run s w) = some (v.step op) := by
  have hT := getTotalPages_pageView w v h
  obtain ⟨h1, h2, h3, h4⟩ := pageView_some w v h
  cases op with
  | addElement pv element =>
    have h' : pageView (addChild element w) = some { v with count := v.count + 1 } := by
      unfold pageView at h ⊢
      cases hc : w.data.container with
      | none => simp [hc] at h
      | some c =>
        simp only [hc, Option.map_some', Option.some.injEq] at h
        subst h
        simp [addChild, hc]
    exact pageView_recalculateLayout s pv _ _ h'
  | removeElement pv it =>
    have h' : pageView (removeChild it w)
        = some { v with count := if it < v.count then v.count - 1 else v.count } := by
      unfold pageView at h ⊢
      cases hc : w.data.container with
      | none => simp [hc] at h
      | some c =>
        simp only [hc, Option.map_some', Option.some.injEq] at h
        subst h
        simp [removeChild, hc, List.length_eraseIdx]
    exact pageView_recalculateLayout s pv _ _ h'
  | clearElements =>
    show pageView (clearElements w) = _
    rw [clearElements_eq]
    unfold pageView at h ⊢
    cases hc : w.data.container with
    | none => simp [hc] at h
    | some c =>
      simp only [hc, Option.map_some', Option.some.injEq] at h
      subst h
      simp [hc, PageView.step]
  | setLayout pv layout =>
    obtain ⟨c, hc, hm, hv⟩ := pageView_modifyContainer
      (fun c => { c with layout := layout }) w v h
    have := pageView_recalculateLayout s pv _ _ hm
    subst hv
    exact this
  | setSpacing pv spacing =>
    obtain ⟨c, hc, hm, hv⟩ := pageView_modifyContainer
      (fun c => { c with spacing := spacing }) w v h
    have := pageView_recalculateLayout s pv _ _ hm
    subst hv
    exact this
  | setPageSize pv size =>
    obtain ⟨c, hc, hm, hv⟩ := pageView_modifyContainer
      (fun c => { c with pageSize := max 0 size, currentPage := 0 }) w v h
    have := pageView_recalculateLayout s pv _ _ hm
    subst hv
    exact this
  | setPage pv page => exact pageView_setPage s pv page w v h
  | nextPage pv =>
    show pageView (nextPage s pv w) = _
    unfold nextPage PageView.step
    simp only [hT, h3]
    split
    · exact pageView_setPage s pv _ w v h
    · exact pageView_setPage s pv _ w v h
  | prevPage pv =>
    show pageView (prevPage s pv w) = _
    unfold prevPage PageView.step
    simp only [hT, h3]
    split
    · exact pageView_setPage s pv _ w v h
    · exact pageView_setPage s pv _ w v h
  | recalculateLayout pv => exact pageView_recalculateLayout s pv w v h

/-! ### Arithmetic of the pagination view -/

namespace PageView

/-- With at most `2^24` children and a page size in the range of `int`, the page count of
the view is the exact ceiling, written with integer division. -/
theorem totalPages_small (v : PageView) (hn24 : v.count ≤ 2 ^ 24)
    (hp31 : v.pageSize < 2 ^ 31) :
    v.totalPages =
      if v.pageSize ≤ 0 then 1
      else if v.count = 0 then 1
      else ((v.count : Int) + v.pageSize - 1) / v.pageSize := by
  unfold totalPages
  split
  · rfl
  · rename_i hp
    split
    · rfl
    · rename_i hn
      rw [F32.ceil_round_div _ _ (by omega) (by exact_mod_cast hn24) (not_le.mp hp) hp31]
      exact ceil_div_eq _ _ (not_le.mp hp)

theorem lt_totalPages_iff (v : PageView) (hp : 0 < v.pageSize) (hn : v.count ≠ 0)
    (hn24 : v.count ≤ 2 ^ 24) (hp31 : v.pageSize < 2 ^ 31) (k : Int) :
    k < v.totalPages ↔ k * v.pageSize < (v.count : Int) := by
  rw [totalPages_small v hn24 hp31, if_neg (not_le.mpr hp), if_neg hn, ← ceil_div_eq _ _ hp]
  exact lt_ceil_div_iff _ _ _ hp

theorem totalPages_pos (v : PageView) (hn24 : v.count ≤ 2 ^ 24) (hp31 : v.pageSize < 2 ^ 31) :
    1 ≤ v.totalPages := by
  by_cases hp : v.pageSize ≤ 0
  · simp [totalPages, hp]
  · by_cases hn : v.count = 0
    · simp [totalPages, hn]
    · have := (lt_totalPages_iff v (not_le.mp hp) hn hn24 hp31 0).mpr (by omega)
      omega

theorem totalPages_congr (v v' : PageView) (hp : v'.pageSize = v.pageSize)
    (hn : v'.count = v.count) : v'.totalPages = v.totalPages := by
  simp [totalPages, hp, hn]

/-- A page inside `[0, totalPages)` is never reset by the layout. -/
theorem relayout_of_valid (v : PageView) (hn24 : v.count ≤ 2 ^ 24)
    (hp31 : v.pageSize < 2 ^ 31) (h1 : v.currentPage < v.totalPages) :
    v.relayout = v := by
  unfold relayout
  rw [if_neg]
  rintro ⟨_, hn, hp, hge, _⟩
  have := (lt_totalPages_iff v hp hn hn24 hp31 v.currentPage).mp h1
  omega

theorem setPage_eq_of_valid (v : PageView) (k : Int) (hn24 : v.count ≤ 2 ^ 24)
    (hp31 : v.pageSize < 2 ^ 31) (h0 : 0 ≤ k) (h1 : k < v.totalPages) :
    v.setPage k = { v with currentPage := k } := by
  have hcl : clamp k 0 (v.totalPages - 1) = k := by
    unfold clamp
    rw [if_neg (by omega), if_neg (by omega)]
  unfold setPage
  rw [if_pos (by omega), hcl]
  have hT := totalPages_congr v { v with currentPage := k } rfl rfl
  exact relayout_of_valid _ hn24 hp31 (lt_of_lt_of_eq h1 hT.symm)

/-- The pagination invariant the layout maintains: the page is not negative, it is 0
without pagination, and on a Grid with children it starts inside the child list. -/
theorem relayout_inv (v : PageView) (h0 : 0 ≤ v.currentPage)
    (hz : v.pageSize ≤ 0 → v.currentPage = 0) :
    0 ≤ v.relayout.currentPage ∧ (v.relayout.pageSize ≤ 0 → v.relayout.currentPage = 0) ∧
    (v.relayout.layout = .Grid → v.relayout.count ≠ 0 → 0 < v.relayout.pageSize →
      v.relayout.currentPage * v.relayout.pageSize < (v.relayout.count : Int)) := by
  unfold relayout
  simp only []
  split
  · rename_i h
    refine ⟨le_refl _, fun _ => rfl, fun _ hn _ => ?_⟩
    omega
  · rename_i h
    refine ⟨h0, hz, fun hl hn hp' => ?_⟩
    by_cases hc : v.currentPage > 0
    · by_contra hlt
      exact h ⟨hl, hn, hp', by omega, hc⟩
    · have : v.currentPage = 0 := by omega
      rw [this]
      omega

theorem setPage_inv (v : PageView) (page : Int) :
    0 ≤ (v.setPage page).currentPage ∧
    ((v.setPage page).pageSize ≤ 0 → (v.setPage page).currentPage = 0) ∧
    ((v.setPage page).layout = .Grid → (v.setPage page).count ≠ 0 →
      0 < (v.setPage page).pageSize →
      (v.setPage page).currentPage * (v.setPage page).pageSize
        < ((v.setPage page).count : Int)) := by
  unfold setPage
  apply relayout_inv
  · simp only []
    split
    · unfold clamp
      split
      · exact le_refl _
      · split <;> omega
    · exact le_refl _
  · intro hp
    simp only [] at hp ⊢
    have hT : v.totalPages = 1 := by simp [totalPages, hp]
    rw [hT]
    simp [clamp]
    omega

/-- Every operation maintains: the page is not negative, it is 0 without pagination, and
it starts inside the child list whenever the container is a Grid with children. -/
theorem step_inv (v : PageView) (op : Op) (h0 : 0 ≤ v.currentPage)
    (hz : v.pageSize ≤ 0 → v.currentPage = 0) :
    0 ≤ (v.step op).currentPage ∧ ((v.step op).pageSize ≤ 0 → (v.step op).currentPage = 0) ∧
    ((v.step op).layout = .Grid → (v.step op).count ≠ 0 → 0 < (v.step op).pageSize →
      (v.step op).currentPage * (v.step op).pageSize < ((v.step op).count : Int)) := by
  cases op with
  | addElement pv element => exact relayout_inv _ h0 hz
  | removeElement pv it => exact relayout_inv _ h0 hz
  | clearElements => exact ⟨h0, hz, fun _ hn => absurd rfl hn⟩
  | setLayout pv layout => exact relayout_inv _ h0 hz
  | setSpacing pv spacing => exact relayout_inv _ h0 hz
  | setPageSize pv size => exact relayout_inv _ (le_refl _) (fun _ => rfl)
  | setPage pv page => exact setPage_inv v page
  | nextPage pv =>
    simp only [step]
    split <;> exact setPage_inv v _
  | prevPage pv =>
    simp only [step]
    split <;> exact setPage_inv v _
  | recalculateLayout pv => exact relayout_inv _ h0 hz

end PageView

/-! ### Runs of operations -/

theorem reachable_runOps (s : VRUISettings) (w : VRUIWidget) (ops : List Op)
    (h : Reachable s w) : Reachable s (runOps s w ops) := by
  induction ops generalizing w with
  | nil => exact h
  | cons op ops ih => exact ih _ (Reachable.step op h)

theorem pageView_runOps (s : VRUISettings) (w : VRUIWidget) (v : PageView) (ops : List Op)
    (h : pageView w = some v) :
    pageView (runOps s w ops) = some (ops.foldl PageView.step v) := by
  induction ops generalizing w v with
  | nil => exact h
  | cons op ops ih => exact ih _ _ (pageView_run s w v op h)

theorem pageView_new (name : String) (layout : ContainerLayout) (spacing scale : ℚ) :
    pageView (VRUIContainer.new name layout spacing scale)
      = some { layout := layout, pageSize := 0, currentPage := 0, count := 0 } := rfl

/-- The view after page size 1, two children and `setPage(1)`: page 1 of 2. -/
theorem pageView_pagedTwo (l : ContainerLayout) (a b : VRUIWidget) :
    List.foldl PageView.step { layout := l, pageSize := 0, currentPage := 0, count := 0 }
        [.setPageSize true 1, .addElement true a, .addElement true b, .setPage true 1]
      = { layout := l, pageSize := 1, currentPage := 1, count := 2 } := by
  have h3 : PageView.step (PageView.step (PageView.step
      { layout := l, pageSize := 0, currentPage := 0, count := 0 } (.setPageSize true 1))
      (.addElement true a)) (.addElement true b)
      = { layout := l, pageSize := 1, currentPage := 0, count := 2 } := by
    cases l <;> simp [PageView.step, PageView.relayout]
  simp only [List.foldl]
  rw [h3]
  show PageView.setPage 1 _ = _
  rw [PageView.setPage_eq_of_valid _ 1 (by norm_num) (by norm_num) (by norm_num)
    ((PageView.lt_totalPages_iff _ (by norm_num) (by norm_num) (by norm_num) (by norm_num)
      1).mpr (by norm_num))]

theorem pageView_clearedGrid :
    pageView clearedGrid
      = some { layout := .Grid, pageSize := 1, currentPage := 1, count := 0 } := by
  unfold clearedGrid
  rw [pageView_runOps _ _ _ _ (pageView_new _ _ _ _)]
  have h := pageView_pagedTwo .Grid (plain "a" 3 (3 / 2)) (plain "b" 3 (3 / 2))
  have e : ([.setPageSize true 1, .addElement true (plain "a" 3 (3 / 2)),
      .addElement true (plain "b" 3 (3 / 2)), .setPage true 1, .clearElements] : List Op)
      = [.setPageSize true 1, .addElement true (plain "a" 3 (3 / 2)),
      .addElement true (plain "b" 3 (3 / 2)), .setPage true 1] ++ [.clearElements] := rfl
  rw [e, List.foldl_append, h]
  rfl

theorem pageView_shrunkColumn :
    pageView shrunkColumn
      = some { layout := .VerticalDown, pageSize := 1, currentPage := 1, count := 1 } := by
  unfold shrunkColumn
  rw [pageView_runOps _ _ _ _ (pageView_new _ _ _ _)]
  have h := pageView_pagedTwo .VerticalDown (plain "a" 3 (3 / 2)) (plain "b" 3 (3 / 2))
  have e : ([.setPageSize true 1, .addElement true (plain "a" 3 (3 / 2)),
      .addElement true (plain "b" 3 (3 / 2)), .setPage true 1, .removeElement true 1] : List Op)
      = [.setPageSize true 1, .addElement true (plain "a" 3 (3 / 2)),
      .addElement true (plain "b" 3 (3 / 2)), .setPage true 1] ++ [.removeElement true 1] := rfl
  rw [e, List.foldl_append, h]
  decide

theorem pageView_shrunkGrid :
    pageView shrunkGrid
      = some { layout := .Grid, pageSize := 1, currentPage := 0, count := 1 } := by
  unfold shrunkGrid
  rw [pageView_runOps _ _ _ _ (pageView_new _ _ _ _)]
  have h := pageView_pagedTwo .Grid (plain "a" 3 (3 / 2)) (plain "b" 3 (3 / 2))
  have e : ([.setPageSize true 1, .addElement true (plain "a" 3 (3 / 2)),
      .addElement true (plain "b" 3 (3 / 2)), .setPage true 1, .removeElement true 1] : List Op)
      = [.setPageSize true 1, .addElement true (plain "a" 3 (3 / 2)),
      .addElement true (plain "b" 3 (3 / 2)), .setPage true 1] ++ [.removeElement true 1] := rfl
  rw [e, List.foldl_append, h]
  decide

theorem pageView_sampleGrid (pageSize page : Int) (n : Nat) :
    pageView (sampleGrid pageSize page n)
      = some { layout := .Grid, pageSize := pageSize, currentPage := page, count := n } := by
  simp [pageView, sampleGrid]

/-! ### Pagination: the claims -/

/-- The page count of a Grid with page size 1 and `2^24 + 1` children: the child count is
no binary32 value and is converted to `2^24`. -/
theorem getTotalPages_sampleGrid_big : getTotalPages (sampleGrid 1 0 16777217) = 16777216 := by
  have h1 : F32.round ((1 : Int) : ℚ) = 1 := by
    simp
  have h2 : F32.round (((16777217 : Nat) : Int) : ℚ) = 16777216 := by
    have := F32.round_eq_of_tie_even (q := 16777217) 24 8388608 (by norm_num)
      (by norm_num [abs_of_pos]) (by norm_num [abs_of_pos]) (by norm_num) (by norm_num)
    push_cast
    rw [this]; norm_num
  have h3 : F32.round (16777216 : ℚ) = 16777216 := by
    have := F32.isFloat_intCast 16777216 (by norm_num); simpa using this
  rw [getTotalPages_pageView _ _ (pageView_sampleGrid 1 0 16777217)]
  unfold PageView.totalPages
  simp only []
  rw [if_neg (by norm_num), if_neg (by norm_num), h1, h2, div_one, h3]
  norm_num

/-- C2 fails as stated: a paginated container without children reports 1 page, while
`ceil(0 / pageSize)` is 0; and with page size 1 and `2^24 + 1` children, a count that
`float` cannot hold, it reports `2^24` pages, while `ceil(n / pageSize)` is `2^24 + 1`. -/
theorem C2_counterexample :
    ((sampleGrid 1 0 0).children.length = 0 ∧ getPageSize (sampleGrid 1 0 0) = 1 ∧
      getTotalPages (sampleGrid 1 0 0) = 1 ∧
      ⌈(((sampleGrid 1 0 0).children.length : Int) : ℚ) /
          ((getPageSize (sampleGrid 1 0 0) : Int) : ℚ)⌉ = (0 : Int)) ∧
    ((sampleGrid 1 0 16777217).children.length = 16777217 ∧
      getPageSize (sampleGrid 1 0 16777217) = 1 ∧
      getTotalPages (sampleGrid 1 0 16777217) = 16777216 ∧
      ⌈(((sampleGrid 1 0 16777217).children.length : Int) : ℚ) /
          ((getPageSize (sampleGrid 1 0 16777217) : Int) : ℚ)⌉ = (16777217 : Int)) := by
  refine ⟨⟨rfl, rfl, ?_, ?_⟩, ⟨by simp only [sampleGrid, children_mk, List.length_replicate], rfl,
    getTotalPages_sampleGrid_big, ?_⟩⟩
  · rw [getTotalPages_pageView _ _ (pageView_sampleGrid 1 0 0)]; simp [PageView.totalPages]
  · simp [sampleGrid, getPageSize]
  · simp only [sampleGrid, getPageSize, children_mk, List.length_replicate, data_mk]
    norm_num

/-- C2, amended. For a page size `p > 0` (an `int`): with at least one and at most `2^24`
children `getTotalPages()` is `ceil(n / p)`, the least `T` with `n ≤ T * p`; without
children it is 1. -/
theorem C2_getTotalPages_ceil (w : VRUIWidget) (c : ContainerData) (p : Int)
    (hc : w.data.container = some c) (hp : c.pageSize = p) (hp0 : 0 < p)
    (hp31 : p < 2 ^ 31) :
    (w.children.length = 0 → getTotalPages w = 1) ∧
    (w.children.length ≠ 0 → w.children.length ≤ 2 ^ 24 →
      getTotalPages w = ⌈((w.children.length : Int) : ℚ) / (p : ℚ)⌉ ∧
      (w.children.length : Int) ≤ getTotalPages w * p ∧
      (getTotalPages w - 1) * p < (w.children.length : Int)) := by
  subst hp
  constructor
  · intro hn
    rw [getTotalPages_unfold w c hc, if_neg (not_le.mpr hp0), if_pos (by simp [hn])]
  · intro hn hn24
    have hu := getTotalPages_small w c hc hn24 hp31
    rw [if_neg (not_le.mpr hp0)] at hu
    have hn' : ¬ ((w.children.length : Int) = 0) := by omega
    rw [if_neg hn'] at hu
    refine ⟨hu, ?_, ?_⟩
    · rw [← ceil_div_le_iff _ _ _ hp0, hu]
    · rw [← lt_ceil_div_iff _ _ _ hp0, hu]; omega

/-- C2, at a sample: 36 children in pages of 9 are 4 pages. -/
theorem C2_getTotalPages_ceil_witness :
    (0 : Int) < 9 ∧ (9 : Int) < 2 ^ 31 ∧ getTotalPages (sampleGrid 9 0 36) = 4 := by
  have hn : (sampleGrid 9 0 36).children.length = 36 := by simp [sampleGrid]
  have h := (C2_getTotalPages_ceil (sampleGrid 9 0 36) _ 9 rfl rfl (by decide)
    (by norm_num)).2 (by simp [sampleGrid]) (by rw [hn]; norm_num)
  rw [hn] at h
  refine ⟨by decide, by norm_num, ?_⟩
  have h1 := h.2.1
  have h2 := h.2.2
  push_cast at h1 h2
  omega

namespace PageView

end PageView

/-- C4 fails as stated: after `clearElements()` a Grid that was on page 1 is still on page 1
of 1 page; and a column (not a Grid) that was on page 1 stays there when a removal leaves a
single page.  Both states are reachable and have a page index outside
`[0, getTotalPages() - 1]`. -/
theorem C4_counterexample :
    (Reachable VRUISettings.defaults clearedGrid ∧
      ¬ (0 ≤ getCurrentPage clearedGrid ∧
          getCurrentPage clearedGrid ≤ getTotalPages clearedGrid - 1)) ∧
    (Reachable VRUISettings.defaults shrunkColumn ∧
      ¬ (0 ≤ getCurrentPage shrunkColumn ∧
          getCurrentPage shrunkColumn ≤ getTotalPages shrunkColumn - 1)) := by
  refine ⟨⟨reachable_runOps _ _ _ (Reachable.init _ _ _ _), ?_⟩,
    ⟨reachable_runOps _ _ _ (Reachable.init _ _ _ _), ?_⟩⟩
  · rw [getTotalPages_pageView _ _ pageView_clearedGrid,
      (pageView_some _ _ pageView_clearedGrid).2.2.1,
      PageView.totalPages_small _ (by norm_num) (by norm_num)]
    decide
  · rw [getTotalPages_pageView _ _ pageView_shrunkColumn,
      (pageView_some _ _ pageView_shrunkColumn).2.2.1,
      PageView.totalPages_small _ (by norm_num) (by norm_num)]
    decide

/-- C4, amended. In every container state reachable from construction through the public
operations the page index is not negative; whenever the container has Grid layout, at
least one child and pagination, the page starts inside the child list
(`page * pageSize < n`); and whenever it has Grid layout and at least one and at most
`2^24` children (the page size being an `int`), the page index lies in
`[0, getTotalPages() - 1]`. -/
theorem C4_page_in_range_grid (s : VRUISettings) (w : VRUIWidget) (h : Reachable s w) :
    0 ≤ getCurrentPage w ∧
    (getLayout w = some .Grid → w.children.length ≠ 0 → 0 < getPageSize w →
      getCurrentPage w * getPageSize w < (w.children.length : Int)) ∧
    (getLayout w = some .Grid → w.children.length ≠ 0 → w.children.length ≤ 2 ^ 24 →
      getPageSize w < 2 ^ 31 → getCurrentPage w ≤ getTotalPages w - 1) := by
  have key : ∃ v, pageView w = some v ∧ 0 ≤ v.currentPage ∧
      (v.pageSize ≤ 0 → v.currentPage = 0) ∧
      (v.layout = .Grid → v.count ≠ 0 → 0 < v.pageSize →
        v.currentPage * v.pageSize < (v.count : Int)) := by
    induction h with
    | init name layout spacing scale =>
      exact ⟨_, pageView_new name layout spacing scale, le_refl _, fun _ => rfl,
        fun _ hn => absurd rfl hn⟩
    | step op _ ih =>
      obtain ⟨v, hv, i0, iz, _⟩ := ih
      exact ⟨_, pageView_run s _ v op hv, PageView.step_inv v op i0 iz⟩
  obtain ⟨v, hv, i0, iz, ig⟩ := key
  obtain ⟨e1, e2, e3, e4⟩ := pageView_some w v hv
  rw [getTotalPages_pageView w v hv, e2, e3, e4]
  have hl' : getLayout w = some .Grid → v.layout = .Grid := by
    intro hl
    rw [e1] at hl
    exact Option.some.inj hl
  refine ⟨i0, fun hl hn hp => ig (hl' hl) hn hp, fun hl hn hn24 hp31 => ?_⟩
  by_cases hp : v.pageSize ≤ 0
  · have hT : v.totalPages = 1 := by simp [PageView.totalPages, hp]
    rw [hT, iz hp]
    norm_num
  · have := (PageView.lt_totalPages_iff v (not_le.mp hp) hn hn24 hp31 v.currentPage).mpr
      (ig (hl' hl) hn (not_le.mp hp))
    omega

/-- C4, at a sample: a Grid with page size 1 that was on page 1 of 2 and lost a child is
reachable, has a child, and is on page 0 of 1. -/
theorem C4_page_in_range_grid_witness :
    Reachable VRUISettings.defaults shrunkGrid ∧
    shrunkGrid.children.length ≠ 0 ∧ shrunkGrid.children.length ≤ 2 ^ 24 ∧
    getPageSize shrunkGrid < 2 ^ 31 ∧ getLayout shrunkGrid = some .Grid ∧
    0 ≤ getCurrentPage shrunkGrid ∧
    getCurrentPage shrunkGrid ≤ getTotalPages shrunkGrid - 1 := by
  have hr : Reachable VRUISettings.defaults shrunkGrid :=
    reachable_runOps _ _ _ (Reachable.init _ _ _ _)
  have hv := pageView_some _ _ pageView_shrunkGrid
  have hn : shrunkGrid.children.length ≠ 0 := by rw [hv.2.2.2]; decide
  have hn24 : shrunkGrid.children.length ≤ 2 ^ 24 := by rw [hv.2.2.2]; norm_num
  have hp31 : getPageSize shrunkGrid < 2 ^ 31 := by rw [hv.2.1]; norm_num
  have h := C4_page_in_range_grid VRUISettings.defaults shrunkGrid hr
  exact ⟨hr, hn, hn24, hp31, hv.1, h.1, h.2.2 hv.1 hn hn24 hp31⟩

end VRUIContainer

/-! ## Hit testing -/

namespace XFloat

@[simp] theorem fin_le_fin (a b : ℚ) : (fin a ≤ fin b) ↔ a ≤ b := Iff.rfl

@[simp] theorem fin_lt_fin (a b : ℚ) : (fin a < fin b) ↔ a < b := Iff.rfl

@[simp] theorem negInf_le (a : XFloat) : negInf ≤ a := by cases a <;> trivial

@[simp] theorem not_fin_lt_negInf (a : ℚ) : ¬ (fin a < negInf) := not_false

@[simp] theorem not_posInf_lt (a : XFloat) : ¬ (posInf < a) := not_false

@[simp] theorem not_posInf_le_fin (a : ℚ) : ¬ (posInf ≤ fin a) := not_false

@[simp] theorem fin_lt_posInf (a : ℚ) : fin a < posInf := trivial

@[simp] theorem negInf_lt_fin (a : ℚ) : negInf < fin a := trivial

end XFloat

theorem slabLoop_parallel_inside (a : SlabAxis) (rest : List SlabAxis) (st : XFloat × XFloat)
    (hpar : |a.direction| < kParallelEpsilon) (h1 : a.min ≤ a.origin)
    (h2 : a.origin ≤ a.max) : slabLoop (a :: rest) st = slabLoop rest st := by
  obtain ⟨tmin, tmax⟩ := st
  rw [slabLoop, if_pos hpar, if_neg]
  rintro (h | h)
  · exact absurd h1 (not_le.mpr h)
  · exact absurd h2 (not_le.mpr h)

/-- One iteration on an axis with a direction component that is not parallel, the two
rounded plane parameters being `u1` and `u2`. -/
theorem slabLoop_crossing (a : SlabAxis) (rest : List SlabAxis) (tmin tmax : XFloat)
    (u1 u2 : ℚ) (hpar : ¬ |a.direction| < kParallelEpsilon)
    (h1 : F32.round (F32.round (a.min - a.origin) * F32.round (1 / a.direction)) = u1)
    (h2 : F32.round (F32.round (a.max - a.origin) * F32.round (1 / a.direction)) = u2) :
    slabLoop (a :: rest) (tmin, tmax)
      = if (if tmin > XFloat.fin (if u1 > u2 then u2 else u1) then tmin
            else XFloat.fin (if u1 > u2 then u2 else u1))
          > (if tmax < XFloat.fin (if u1 > u2 then u1 else u2) then tmax
            else XFloat.fin (if u1 > u2 then u1 else u2)) then none
        else slabLoop rest
          (if tmin > XFloat.fin (if u1 > u2 then u2 else u1) then tmin
            else XFloat.fin (if u1 > u2 then u2 else u1),
           if tmax < XFloat.fin (if u1 > u2 then u1 else u2) then tmax
            else XFloat.fin (if u1 > u2 then u1 else u2)) := by
  rw [slabLoop, if_neg hpar]
  simp only [h1, h2]

theorem slabLoop_first_crossing (a : SlabAxis) (rest : List SlabAxis) (t1 t2 : ℚ)
    (hpar : ¬ |a.direction| < kParallelEpsilon)
    (h1 : F32.round (F32.round (a.min - a.origin) * F32.round (1 / a.direction)) = t1)
    (h2 : F32.round (F32.round (a.max - a.origin) * F32.round (1 / a.direction)) = t2)
    (hle : t1 ≤ t2) :
    slabLoop (a :: rest) (XFloat.negInf, XFloat.posInf)
      = slabLoop rest (XFloat.fin t1, XFloat.fin t2) := by
  rw [slabLoop_crossing a rest _ _ t1 t2 hpar h1 h2]
  simp only [gt_iff_lt, if_neg (not_lt.mpr hle), XFloat.not_fin_lt_negInf,
    XFloat.not_posInf_lt, if_false, XFloat.fin_lt_fin]

theorem slabLoop_nil (st : XFloat × XFloat) : slabLoop [] st = some st := by
  rw [slabLoop]


theorem AABB.intersectsRay_of_loop_some (box : AABB) (origin direction : NiPoint3)
    (tmin tmax : XFloat)
    (h : slabLoop (box.axes origin direction) (XFloat.negInf, XFloat.posInf)
      = some (tmin, tmax)) :
    box.intersectsRay origin direction
      = if (if tmin ≥ XFloat.fin 0 then tmin else tmax) ≥ XFloat.fin 0
          then some (if tmin ≥ XFloat.fin 0 then tmin else tmax) else none := by
  unfold AABB.intersectsRay
  rw [h]

/-- Step 1 of `hitTest` for an unrotated unit-scale transform: the rounded differences. -/
theorem localOrigin_at (p q : NiPoint3) :
    (NiTransform.at p).localOrigin q
      = ⟨F32.round (q.x - p.x), F32.round (q.y - p.y), F32.round (q.z - p.z)⟩ := by
  simp [NiTransform.localOrigin, F32.dot3, NiTransform.at, NiMatrix3.identity, F32.round_zero]

/-- Step 2 of `hitTest` for an unrotated unit-scale transform: the rounded components. -/
theorem localDir_at (p d : NiPoint3) :
    (NiTransform.at p).localDir d = ⟨F32.round d.x, F32.round d.y, F32.round d.z⟩ := by
  simp [NiTransform.localDir, F32.dot3, NiTransform.at, NiMatrix3.identity, F32.round_zero]

theorem hitBox_unitWidget : hitBox VRUISettings.defaults unitWidget = unitBox := by
  norm_num [hitBox, unitWidget, VRUIContainer.plain, VRUISettings.defaults, unitBox]

theorem hitTest_eq (s : VRUISettings) (t : NiTransform) (w : VRUIWidget)
    (o d : NiPoint3) :
    w.hitTest s t o d = (hitBox s w).intersectsRay (t.localOrigin o) (t.localDir d) := rfl

theorem hitTest_unitWidget_onFace :
    unitWidget.hitTest VRUISettings.defaults (NiTransform.at ⟨0, 0, 0⟩) ⟨0, 0, -1⟩ ⟨0, 0, 1⟩
      = some (XFloat.fin 0) := by
  rw [hitTest_eq, hitBox_unitWidget, localOrigin_at, localDir_at]
  simp only [sub_zero, F32.round_zero, F32.round_one, F32.round_neg_one]
  rw [AABB.intersectsRay_of_loop_some _ _ _ (XFloat.fin 0) (XFloat.fin 2)]
  · simp
  · rw [AABB.axes,
      slabLoop_parallel_inside _ _ _ (by norm_num [kParallelEpsilon]) (by norm_num [unitBox])
        (by norm_num [unitBox]),
      slabLoop_parallel_inside _ _ _ (by norm_num [kParallelEpsilon]) (by norm_num [unitBox])
        (by norm_num [unitBox]),
      slabLoop_first_crossing _ _ 0 2 (by norm_num [kParallelEpsilon])
        (by norm_num [unitBox, F32.round_zero]) (by norm_num [unitBox]) (by norm_num),
      slabLoop_nil]

namespace XFloat

theorem le_refl' (a : XFloat) : a ≤ a := by
  cases a
  · trivial
  · exact (fin_le_fin _ _).mpr (le_refl _)
  · trivial

theorem le_trans' {a b c : XFloat} (h1 : a ≤ b) (h2 : b ≤ c) : a ≤ c := by
  cases a <;> cases b <;> cases c <;> first
    | trivial
    | exact absurd h1 not_false
    | exact absurd h2 not_false
    | exact (fin_le_fin _ _).mpr (le_trans ((fin_le_fin _ _).mp h1) ((fin_le_fin _ _).mp h2))

theorem le_of_lt' {a b : XFloat} (h : a < b) : a ≤ b := by
  cases a <;> cases b <;> first
    | trivial
    | exact absurd h not_false
    | exact (fin_le_fin _ _).mpr (le_of_lt ((fin_lt_fin _ _).mp h))

theorem le_of_not_lt' {a b : XFloat} (h : ¬ a < b) : b ≤ a := by
  cases a <;> cases b <;> first
    | trivial
    | exact absurd trivial h
    | exact (fin_le_fin _ _).mpr (not_lt.mp (fun h' => h ((fin_lt_fin _ _).mpr h')))

theorem lt_of_lt_of_le' {a b c : XFloat} (h1 : a < b) (h2 : b ≤ c) : a < c := by
  cases a <;> cases b <;> cases c <;> first
    | trivial
    | exact absurd h1 not_false
    | exact absurd h2 not_false
    | exact (fin_lt_fin _ _).mpr
        (lt_of_lt_of_le ((fin_lt_fin _ _).mp h1) ((fin_le_fin _ _).mp h2))

theorem lt_trans' {a b c : XFloat} (h1 : a < b) (h2 : b < c) : a < c :=
  lt_of_lt_of_le' h1 (le_of_lt' h2)

end XFloat

namespace VRMenuManager

variable {α : Type}

theorem closestSpec_skip (isVisible : α → Bool) (hitTest : α → Option XFloat)
    (x : Option α) (rest : List (Option α)) (tw : Option α) (cd : XFloat)
    (r : Option α × XFloat) (ih : ClosestSpec isVisible hitTest rest tw cd r)
    (hx : ∀ w' d', x = some w' → isVisible w' = true → hitTest w' = some d' →
      ¬ (XFloat.fin 0 < d' ∧ d' < cd)) :
    ClosestSpec isVisible hitTest (x :: rest) tw cd r := by
  obtain ⟨i1, i2, i3⟩ := ih
  refine ⟨i1, ?_, ?_⟩
  · intro w' d' hm hv hh h0 hlt
    rcases List.mem_cons.mp hm with hm | hm
    · exact absurd ⟨h0, hlt⟩ (hx w' d' hm.symm hv hh)
    · exact i2 w' d' hm hv hh h0 hlt
  · rcases i3 with ⟨e3, hno⟩ | ⟨w, h1, h2, h3, h4, h5, h6⟩
    · refine Or.inl ⟨e3, ?_⟩
      intro w' d' hm hv hh
      rcases List.mem_cons.mp hm with hm | hm
      · exact hx w' d' hm.symm hv hh
      · exact hno w' d' hm hv hh
    · exact Or.inr ⟨w, h1, List.mem_cons_of_mem _ h2, h3, h4, h5, h6⟩

/-- The closest-hit loop meets `ClosestSpec` from every running state. -/
theorem closestHitLoop_spec (isVisible : α → Bool) (hitTest : α → Option XFloat)
    (l : List (Option α)) (tw : Option α) (cd : XFloat) :
    ClosestSpec isVisible hitTest l tw cd (closestHitLoop isVisible hitTest l (tw, cd)) := by
  induction l generalizing tw cd with
  | nil =>
    refine ⟨XFloat.le_refl' _, ?_, Or.inl ⟨rfl, ?_⟩⟩
    · intro w' d' h; simp at h
    · intro w' d' h; simp at h
  | cons x rest ih =>
    cases x with
    | none =>
      have e : closestHitLoop isVisible hitTest (none :: rest) (tw, cd)
          = closestHitLoop isVisible hitTest rest (tw, cd) := by rw [closestHitLoop]
      rw [e]
      exact closestSpec_skip _ _ _ _ _ _ _ (ih tw cd) (by intro w' d' h; simp at h)
    | some widget =>
      by_cases hv : isVisible widget = true
      · cases hh : hitTest widget with
        | none =>
          have e : closestHitLoop isVisible hitTest (some widget :: rest) (tw, cd)
              = closestHitLoop isVisible hitTest rest (tw, cd) := by
            rw [closestHitLoop]; simp [hv, hh]
          rw [e]
          refine closestSpec_skip _ _ _ _ _ _ _ (ih tw cd) ?_
          intro w' d' e hv' hh'
          have : w' = widget := (Option.some.inj e).symm
          subst this
          rw [hh] at hh'; simp at hh'
        | some d =>
          by_cases hq : d > XFloat.fin 0 ∧ d < cd
          · have e : closestHitLoop isVisible hitTest (some widget :: rest) (tw, cd)
                = closestHitLoop isVisible hitTest rest (some widget, d) := by
              rw [closestHitLoop]; simp [hv, hh, hq]
            rw [e]
            obtain ⟨i1, i2, i3⟩ := ih (some widget) d
            refine ⟨XFloat.le_trans' i1 (XFloat.le_of_lt' hq.2), ?_, Or.inr ?_⟩
            · intro w' d' hm hv' hh' h0 hlt
              rcases List.mem_cons.mp hm with hm | hm
              · have : w' = widget := Option.some.inj hm
                subst this
                rw [hh] at hh'
                rw [← Option.some.inj hh']
                exact i1
              · by_cases hlt' : d' < d
                · exact i2 w' d' hm hv' hh' h0 hlt'
                · exact XFloat.le_trans' i1 (XFloat.le_of_not_lt' hlt')
            · rcases i3 with ⟨e3, _⟩ | ⟨w, h1, h2, h3, h4, h5, h6⟩
              · rw [e3]
                exact ⟨widget, rfl, List.mem_cons_self _ _, hv, hh, hq.1, hq.2⟩
              · exact ⟨w, h1, List.mem_cons_of_mem _ h2, h3, h4, h5,
                  XFloat.lt_trans' h6 hq.2⟩
          · have e : closestHitLoop isVisible hitTest (some widget :: rest) (tw, cd)
                = closestHitLoop isVisible hitTest rest (tw, cd) := by
              rw [closestHitLoop]; simp [hv, hh, hq]
            rw [e]
            refine closestSpec_skip _ _ _ _ _ _ _ (ih tw cd) ?_
            intro w' d' e hv' hh'
            have : w' = widget := (Option.some.inj e).symm
            subst this
            rw [hh] at hh'
            rw [← Option.some.inj hh']
            exact hq
      · have e : closestHitLoop isVisible hitTest (some widget :: rest) (tw, cd)
            = closestHitLoop isVisible hitTest rest (tw, cd) := by
          rw [closestHitLoop]; simp [hv]
        rw [e]
        refine closestSpec_skip _ _ _ _ _ _ _ (ih tw cd) ?_
        intro w' d' e hv'
        have : w' = widget := (Option.some.inj e).symm
        subst this
        exact absurd hv' hv

/-- C7 fails as stated: a visible candidate whose hit test reports the valid distance 0
(the ray starts on the front face of its box), well inside `raycastMaxDistance`, is not
chosen: the raw touched widget is none. -/
theorem C7_counterexample :
    some 0 ∈ faceFrame.allButtons ∧ faceFrame.isVisible 0 = true ∧
    faceFrame.hitTest 0 = some (XFloat.fin 0) ∧
    XFloat.fin 0 ≥ XFloat.fin 0 ∧
    XFloat.fin 0 < XFloat.fin VRUISettings.defaults.raycastMaxDistance ∧
    rawTouched VRUISettings.defaults faceFrame = none := by
  have hh : faceFrame.hitTest 0 = some (XFloat.fin 0) := hitTest_unitWidget_onFace
  refine ⟨by simp [faceFrame], rfl, hh, by simp, by simp [VRUISettings.defaults], ?_⟩
  unfold rawTouched
  have hl : faceFrame.allButtons = [some 0] := rfl
  have hv : faceFrame.isVisible 0 = true := rfl
  rw [hl, closestHitLoop]
  simp [hv, hh, closestHitLoop]

/-- C7, amended. The raw touched widget is chosen by minimum distance only, among the
visible candidates whose hit test reports a distance `d` with `0 < d` and
`d < raycastMaxDistance`: it is such a candidate, its distance is at most that of every
such candidate, and it is none exactly when there is no such candidate. -/
theorem C7_raw_touched_closest (s : VRUISettings) (fr : TouchFrame α) :
    (∀ w, rawTouched s fr = some w →
      some w ∈ fr.allButtons ∧ fr.isVisible w = true ∧
      ∃ d, fr.hitTest w = some d ∧ XFloat.fin 0 < d ∧ d < XFloat.fin s.raycastMaxDistance ∧
        ∀ w' d', some w' ∈ fr.allButtons → fr.isVisible w' = true →
          fr.hitTest w' = some d' → XFloat.fin 0 < d' →
          d' < XFloat.fin s.raycastMaxDistance → d ≤ d') ∧
    (rawTouched s fr = none ↔
      ∀ w' d', some w' ∈ fr.allButtons → fr.isVisible w' = true →
        fr.hitTest w' = some d' →
        ¬ (XFloat.fin 0 < d' ∧ d' < XFloat.fin s.raycastMaxDistance)) := by
  obtain ⟨_, i2, i3⟩ := closestHitLoop_spec fr.isVisible fr.hitTest fr.allButtons none
    (XFloat.fin s.raycastMaxDistance)
  unfold rawTouched
  constructor
  · intro w hw
    rcases i3 with ⟨e, _⟩ | ⟨w2, h1, h2, h3, h4, h5, h6⟩
    · rw [e] at hw; simp at hw
    · rw [h1] at hw
      have : w2 = w := Option.some.inj hw
      subst this
      exact ⟨h2, h3, _, h4, h5, h6, i2⟩
  · constructor
    · intro hn
      rcases i3 with ⟨_, hno⟩ | ⟨w2, h1, _⟩
      · exact hno
      · rw [h1] at hn; simp at hn
    · intro hno
      rcases i3 with ⟨e, _⟩ | ⟨w2, _, h2, h3, h4, h5, h6⟩
      · rw [e]
      · exact absurd ⟨h5, h6⟩ (hno w2 _ h2 h3 h4)

/-! ### Hover hysteresis -/

/-- The ray is on the hovered widget: only the lock timer is refreshed. -/
theorem resolveHover_same [DecidableEq α] (m : VRMenuManager α) (h : α)
    (hh : m.hoveredWidget = some h) :
    resolveHover (some h) m = { m with hoverLockTimer := kHoverLockTime } := by
  unfold resolveHover
  simp [hh]

/-- The ray left the hovered widget but the lock has not expired: nothing changes. -/
theorem resolveHover_locked [DecidableEq α] (touched : Option α) (m : VRMenuManager α)
    (h : α) (hh : m.hoveredWidget = some h) (hne : touched ≠ some h)
    (hlock : 0 < m.hoverLockTimer) : resolveHover touched m = m := by
  unfold resolveHover
  simp [hh, hne, hlock]

/-- The ray left the hovered widget and the lock has expired: exit, new hover, and for a
new widget enter and a fresh lock. -/
theorem resolveHover_expired [DecidableEq α] (touched : Option α) (m : VRMenuManager α)
    (h : α) (hh : m.hoveredWidget = some h) (hne : touched ≠ some h)
    (hexp : m.hoverLockTimer ≤ 0) :
    resolveHover touched m =
      match touched with
      | some new =>
        { m with events := m.events ++ [Event.rayExit h] ++ [Event.rayEnter new],
                 hoveredWidget := some new, hoverLockTimer := kHoverLockTime }
      | none => { m with events := m.events ++ [Event.rayExit h], hoveredWidget := none } := by
  unfold resolveHover
  cases touched with
  | none => simp [hh, not_lt.mpr hexp]
  | some new => simp [hh, hne, not_lt.mpr hexp]

/-- Nothing hovered and the ray on nothing: nothing changes. -/
theorem resolveHover_none [DecidableEq α] (m : VRMenuManager α)
    (hh : m.hoveredWidget = none) : resolveHover none m = m := by
  unfold resolveHover
  simp [hh]

/-- One hover-resolution step under lock: the hovered widget and the dispatched calls are
unchanged, and the lock timer afterwards is the ticked one or a fresh one. -/
theorem processTouchInput_locked [DecidableEq α] (s : VRUISettings) (m : VRMenuManager α)
    (fr : TouchFrame α) (h : α) (hh : m.hoveredWidget = some h)
    (hlock : 0 < tickLock m.hoverLockTimer fr.deltaTime) :
    (processTouchInput s m fr).hoveredWidget = some h ∧
    (processTouchInput s m fr).events = m.events ∧
    (fr.handPresent = true →
      (processTouchInput s m fr).hoverLockTimer = tickLock m.hoverLockTimer fr.deltaTime ∨
      (processTouchInput s m fr).hoverLockTimer = kHoverLockTime) ∧
    (fr.handPresent = false → processTouchInput s m fr = m) := by
  unfold processTouchInput
  cases hp : fr.handPresent with
  | false => simp [hh]
  | true =>
    simp only [Bool.not_true, Bool.false_eq_true, if_false]
    have hh1 : ({ m with hoverLockTimer := tickLock m.hoverLockTimer fr.deltaTime } :
        VRMenuManager α).hoveredWidget = some h := hh
    by_cases ht : rawTouched s fr = some h
    · rw [ht, resolveHover_same _ h hh1]
      simp [hh]
    · rw [resolveHover_locked _ _ h hh1 ht hlock]
      simp [hh]

theorem processTouchInput_of_hand [DecidableEq α] (s : VRUISettings) (m : VRMenuManager α)
    (fr : TouchFrame α) (hp : fr.handPresent = true) :
    processTouchInput s m fr
      = resolveHover (rawTouched s fr)
          { m with hoverLockTimer := tickLock m.hoverLockTimer fr.deltaTime } := by
  unfold processTouchInput
  simp [hp]

theorem runTouch_cons [DecidableEq α] (s : VRUISettings) (m : VRMenuManager α)
    (fr : TouchFrame α) (rest : List (TouchFrame α)) :
    runTouch s m (fr :: rest) = runTouch s (processTouchInput s m fr) rest := rfl

theorem runTouch_append [DecidableEq α] (s : VRUISettings) (m : VRMenuManager α)
    (l l' : List (TouchFrame α)) :
    runTouch s m (l ++ l') = runTouch s (runTouch s m l) l' := by
  unfold runTouch
  rw [List.foldl_append]

theorem isFloat_kHoverLockTime : F32.IsFloat kHoverLockTime := by
  have h := F32.isFloat_rep 5368709 (-25) (by norm_num) (by norm_num)
  have e : ((5368709 : ℤ) : ℚ) * 2 ^ (-25 : ℤ) = kHoverLockTime := by
    norm_num [kHoverLockTime]
  rwa [e] at h

theorem tickLock_of_pos (timer dt : ℚ) (h : 0 < timer) :
    tickLock timer dt = F32.round (timer - dt) := by
  unfold tickLock
  rw [if_pos h]

/-- One tick of a lock timer in `(0, 0.16f]` by a frame delta between 0 and the timer: the
new timer is at most `0.16f` and at least the exact difference less `2^-27`. -/
theorem tickLock_bounds (timer dt : ℚ) (h0 : 0 < timer) (hmax : timer ≤ kHoverLockTime)
    (hdt : 0 ≤ dt) (hlt : dt ≤ timer) :
    tickLock timer dt ≤ kHoverLockTime ∧
    timer - dt - 1 / 134217728 ≤ tickLock timer dt := by
  rw [tickLock_of_pos timer dt h0]
  refine ⟨F32.round_le_of_le isFloat_kHoverLockTime (by linarith), ?_⟩
  have hK : kHoverLockTime < 2 ^ ((-3 : ℤ) + 1) := by norm_num [kHoverLockTime]
  have habs : |timer - dt| < 2 ^ ((-3 : ℤ) + 1) := by
    rw [abs_of_nonneg (by linarith)]
    linarith
  have hu : F32.ulpExp (timer - dt) ≤ -3 - 23 := F32.ulpExp_le (by norm_num) habs
  have hb := (abs_le.mp (F32.abs_round_sub_le (timer - dt))).1
  have hp : (2 : ℚ) ^ F32.ulpExp (timer - dt) ≤ 1 / 67108864 :=
    (zpow_le_zpow_right₀ (by norm_num) (by omega : F32.ulpExp (timer - dt) ≤ -26)).trans
      (by norm_num)
  linarith

/-- While the frame deltas, with `2^-27` s added per frame for the rounding of the timer,
sum to less than the remaining lock time, the hovered widget and the dispatched calls do
not change. -/
theorem runTouch_locked [DecidableEq α] (s : VRUISettings) (h : α)
    (frames : List (TouchFrame α)) (m : VRMenuManager α)
    (hh : m.hoveredWidget = some h) (hmax : m.hoverLockTimer ≤ kHoverLockTime)
    (hdt : ∀ fr ∈ frames, 0 ≤ fr.deltaTime)
    (hsum : (frames.map (fun fr => fr.deltaTime)).sum + (frames.length : ℚ) / 134217728
      < m.hoverLockTimer) :
    (runTouch s m frames).hoveredWidget = some h ∧ (runTouch s m frames).events = m.events := by
  induction frames generalizing m with
  | nil => exact ⟨hh, rfl⟩
  | cons fr rest ih =>
    have hfr : 0 ≤ fr.deltaTime := hdt fr (List.mem_cons_self _ _)
    have hrest : ∀ f ∈ rest, 0 ≤ f.deltaTime := fun f hf => hdt f (List.mem_cons_of_mem _ hf)
    have hs0 : 0 ≤ (rest.map (fun fr => fr.deltaTime)).sum := by
      apply List.sum_nonneg
      intro x hx
      obtain ⟨f, hf, rfl⟩ := List.mem_map.mp hx
      exact hrest f hf
    have hn0 : (0 : ℚ) ≤ (rest.length : ℚ) := Nat.cast_nonneg _
    simp only [List.map_cons, List.sum_cons, List.length_cons, Nat.cast_add, Nat.cast_one]
      at hsum
    obtain ⟨b1, b2⟩ := tickLock_bounds m.hoverLockTimer fr.deltaTime (by linarith) hmax hfr
      (by linarith)
    obtain ⟨p1, p2, p3, p4⟩ := processTouchInput_locked s m fr h hh (by linarith)
    rw [runTouch_cons]
    cases hp : fr.handPresent with
    | false =>
      rw [p4 hp]
      exact ih m hh hmax hrest (by linarith)
    | true =>
      have := ih (processTouchInput s m fr) p1
      rw [p2] at this
      rcases p3 hp with e | e
      · exact this (by rw [e]; exact b1) hrest (by rw [e]; linarith)
      · exact this (by rw [e]) hrest (by rw [e]; linarith)

theorem rawTouched_frameFor (dt : ℚ) (b : Option Nat) :
    rawTouched VRUISettings.defaults (frameFor dt b) = b := by
  cases b with
  | none => simp [rawTouched, frameFor, closestHitLoop]
  | some x => norm_num [rawTouched, frameFor, closestHitLoop, VRUISettings.defaults]

theorem rawTouched_frameOn (b : Option Nat) :
    rawTouched VRUISettings.defaults (frameOn b) = b :=
  rawTouched_frameFor _ b

/-- The lock time `0.16f` less 1/8 s is a binary32 value. -/
theorem tickLock_eighth : tickLock kHoverLockTime (1 / 8) = 1174405 / 33554432 := by
  rw [tickLock_of_pos _ _ (by norm_num [kHoverLockTime]),
    F32.round_of_eq _ 1174405 (-25) (by norm_num [kHoverLockTime]) (by norm_num)
      (by norm_num)]
  norm_num [kHoverLockTime]

/-- A frame of `dt` s with the ray off the hovered widget, while the lock lasts. -/
theorem processTouchInput_frameFor_locked (dt t t' : ℚ) (a b : Nat) (hab : b ≠ a)
    (ht : tickLock t dt = t') (hpos : 0 < t') :
    processTouchInput VRUISettings.defaults (hovering a t) (frameFor dt (some b))
      = hovering a t' := by
  rw [processTouchInput_of_hand _ _ _ rfl, rawTouched_frameFor]
  have e : ({ hovering a t with
      hoverLockTimer := tickLock (hovering a t).hoverLockTimer (frameFor dt (some b)).deltaTime } :
      VRMenuManager Nat) = hovering a t' := by
    rw [← ht]; rfl
  rw [e]
  exact resolveHover_locked _ _ a rfl (by simpa using hab) hpos

/-- A frame of `dt` s with the ray on another widget, when the lock has run down. -/
theorem processTouchInput_frameFor_expired (dt t t' : ℚ) (a b : Nat) (hab : b ≠ a)
    (ht : tickLock t dt = t') (hexp : t' ≤ 0) :
    processTouchInput VRUISettings.defaults (hovering a t) (frameFor dt (some b))
      = { hovering b kHoverLockTime with events := [Event.rayExit a, Event.rayEnter b] } := by
  rw [processTouchInput_of_hand _ _ _ rfl, rawTouched_frameFor]
  have e : ({ hovering a t with
      hoverLockTimer := tickLock (hovering a t).hoverLockTimer (frameFor dt (some b)).deltaTime } :
      VRMenuManager Nat) = hovering a t' := by
    rw [← ht]; rfl
  rw [e, resolveHover_expired _ _ a rfl (by simpa using hab) hexp]
  rfl

/-- A frame of `dt` s with the ray on the hovered widget refreshes the lock. -/
theorem processTouchInput_frameFor_same (dt t : ℚ) (a : Nat) :
    processTouchInput VRUISettings.defaults (hovering a t) (frameFor dt (some a))
      = hovering a kHoverLockTime := by
  rw [processTouchInput_of_hand _ _ _ rfl, rawTouched_frameFor,
    resolveHover_same _ a rfl]
  rfl

/-- C8 fails as stated: widget 1 is hovered and a frame has the ray on it, which sets the
lock timer to `0.16f = 42949672 * 2^-28`.  Two frames follow with the ray on widget 2, of
`3 * 2^-28` s and `42949668 * 2^-28` s, which sum to less than the lock time.  The first
tick leaves the `float` timer at `round (42949669 * 2^-28) = 42949668 * 2^-28`, the second
at 0, and the hover changes to widget 2. -/
theorem C8_counterexample :
    (hovering 1 kHoverLockTime).hoveredWidget = some 1 ∧
    (frameOn (some 1)).handPresent = true ∧
    rawTouched VRUISettings.defaults (frameOn (some 1)) = some 1 ∧
    (∀ fr ∈ [frameFor (3 / 268435456) (some 2), frameFor (10737417 / 67108864) (some 2)],
      0 ≤ fr.deltaTime) ∧
    ([frameFor (3 / 268435456) (some 2), frameFor (10737417 / 67108864) (some 2)].map
      (fun fr => fr.deltaTime)).sum < kHoverLockTime ∧
    (runTouch VRUISettings.defaults
      (processTouchInput VRUISettings.defaults (hovering 1 kHoverLockTime) (frameOn (some 1)))
      [frameFor (3 / 268435456) (some 2), frameFor (10737417 / 67108864) (some 2)]).hoveredWidget
        = some 2 := by
  have t1 : tickLock kHoverLockTime (3 / 268435456) = 10737417 / 67108864 := by
    rw [tickLock_of_pos _ _ (by norm_num [kHoverLockTime])]
    exact F32.round_eval (-3) 10737417 _ (by norm_num)
      (by norm_num [kHoverLockTime, abs_of_pos]) (by norm_num [kHoverLockTime, abs_of_pos])
      (by norm_num [kHoverLockTime]; rw [abs_lt]; constructor <;> norm_num) (by norm_num)
  have t2 : tickLock (10737417 / 67108864) (10737417 / 67108864) = 0 := by
    rw [tickLock_of_pos _ _ (by norm_num), sub_self, F32.round_zero]
  refine ⟨rfl, rfl, rawTouched_frameOn _, ?_, ?_, ?_⟩
  · intro fr hfr
    simp only [List.mem_cons, List.mem_singleton, List.not_mem_nil, or_false] at hfr
    rcases hfr with e | e <;> subst e <;> norm_num [frameFor]
  · norm_num [frameFor, kHoverLockTime]
  · have e0 : processTouchInput VRUISettings.defaults (hovering 1 kHoverLockTime)
        (frameOn (some 1)) = hovering 1 kHoverLockTime :=
      processTouchInput_frameFor_same _ _ 1
    rw [e0, runTouch_cons,
      processTouchInput_frameFor_locked _ _ _ 1 2 (by decide) t1 (by norm_num),
      runTouch_cons,
      processTouchInput_frameFor_expired _ _ _ 1 2 (by decide) t2 (le_refl _)]
    rfl

/-- C8, amended. Hover lock: in a hover-resolution step in which a widget is hovered and the
`float` lock timer is still positive after the tick, the hovered widget is unchanged and
no `onRayExit` or `onRayEnter` is dispatched, whatever the ray touches.  Hence, after a
frame in which the ray was on the hovered widget, no run of frames whose deltas (none
negative), with `2^-27` s added per frame for the rounding of the timer, sum to less than
the lock time `0.16f` changes the hovered widget or dispatches an enter or exit. -/
theorem C8_hover_lock [DecidableEq α] (s : VRUISettings) (m : VRMenuManager α) (h : α)
    (hh : m.hoveredWidget = some h) :
    (∀ fr : TouchFrame α, 0 < tickLock m.hoverLockTimer fr.deltaTime →
      (processTouchInput s m fr).hoveredWidget = some h ∧
      (processTouchInput s m fr).events = m.events) ∧
    (∀ (fr0 : TouchFrame α) (frames : List (TouchFrame α)),
      fr0.handPresent = true → rawTouched s fr0 = some h →
      (∀ fr ∈ frames, 0 ≤ fr.deltaTime) →
      (frames.map (fun fr => fr.deltaTime)).sum + (frames.length : ℚ) / 134217728
        < kHoverLockTime →
      (runTouch s (processTouchInput s m fr0) frames).hoveredWidget = some h ∧
      (runTouch s (processTouchInput s m fr0) frames).events = m.events) := by
  constructor
  · intro fr hlock
    obtain ⟨p1, p2, _, _⟩ := processTouchInput_locked s m fr h hh hlock
    exact ⟨p1, p2⟩
  · intro fr0 frames hp hraw hdt hsum
    have e : processTouchInput s m fr0
        = { m with hoverLockTimer := kHoverLockTime } := by
      rw [processTouchInput_of_hand s m fr0 hp, hraw,
        resolveHover_same { m with hoverLockTimer := tickLock m.hoverLockTimer fr0.deltaTime }
          h hh]
    rw [e]
    exact runTouch_locked s h frames _ hh (le_refl _) hdt hsum

/-- C8, at a sample: widget 1 is hovered with the full lock time `0.16f` left; a frame of
1/8 s with the ray on widget 2 leaves widget 1 hovered and dispatches nothing.  And after
a frame with the ray on widget 1, two frames of 1/16 s with the ray on widget 2 (deltas
that sum to `1/8 < 0.16f - 2 * 2^-27`) leave widget 1 hovered. -/
theorem C8_hover_lock_witness :
    (hovering 1 kHoverLockTime).hoveredWidget = some 1 ∧
    0 < tickLock (hovering 1 kHoverLockTime).hoverLockTimer (frameOn (some 2)).deltaTime ∧
    rawTouched VRUISettings.defaults (frameOn (some 2)) = some 2 ∧
    (processTouchInput VRUISettings.defaults (hovering 1 kHoverLockTime)
      (frameOn (some 2))).hoveredWidget = some 1 ∧
    (processTouchInput VRUISettings.defaults (hovering 1 kHoverLockTime)
      (frameOn (some 2))).events = [] ∧
    (([frameFor (1 / 16) (some 2), frameFor (1 / 16) (some 2)].map
        (fun fr => fr.deltaTime)).sum
      + (([frameFor (1 / 16) (some 2), frameFor (1 / 16) (some 2)].length : Nat) : ℚ)
          / 134217728 < kHoverLockTime) ∧
    (runTouch VRUISettings.defaults
      (processTouchInput VRUISettings.defaults (hovering 1 kHoverLockTime) (frameOn (some 1)))
      [frameFor (1 / 16) (some 2), frameFor (1 / 16) (some 2)]).hoveredWidget = some 1 := by
  have hl : 0 < tickLock (hovering 1 kHoverLockTime).hoverLockTimer
      (frameOn (some 2)).deltaTime := by
    have e : tickLock (hovering 1 kHoverLockTime).hoverLockTimer (frameOn (some 2)).deltaTime
        = tickLock kHoverLockTime (1 / 8) := rfl
    rw [e, tickLock_eighth]
    norm_num
  have hsum : ([frameFor (1 / 16) (some 2), frameFor (1 / 16) (some 2)].map
        (fun fr => fr.deltaTime)).sum
      + (([frameFor (1 / 16) (some 2), frameFor (1 / 16) (some 2)].length : Nat) : ℚ)
          / 134217728 < kHoverLockTime := by
    norm_num [frameFor, kHoverLockTime]
  have h := C8_hover_lock VRUISettings.defaults (hovering 1 kHoverLockTime) 1 rfl
  have h1 := h.1 (frameOn (some 2)) hl
  have h2 := h.2 (frameOn (some 1))
    [frameFor (1 / 16) (some 2), frameFor (1 / 16) (some 2)] rfl (rawTouched_frameOn _)
    (by
      intro fr hfr
      simp only [List.mem_cons, List.mem_singleton, List.not_mem_nil, or_false, or_self] at hfr
      rw [hfr]
      norm_num [frameFor])
    hsum
  exact ⟨rfl, hl, rawTouched_frameOn _, h1.1, h1.2, hsum, h2.1⟩

/-- While the lock timer stays positive after each tick and the ray stays off the hovered
widget, a run of frames only ticks the lock timer. -/
theorem runTouch_waiting [DecidableEq α] (s : VRUISettings) (a : α) (b : Option α)
    (hb : b ≠ some a) (pre : List (TouchFrame α)) (m : VRMenuManager α)
    (ha : m.hoveredWidget = some a)
    (hraw : ∀ f ∈ pre, f.handPresent = true ∧ rawTouched s f = b)
    (hpre : ∀ n, n < pre.length →
      0 < lockAfter m.hoverLockTimer ((pre.take (n + 1)).map (fun f => f.deltaTime))) :
    runTouch s m pre
      = { m with hoverLockTimer :=
            lockAfter m.hoverLockTimer (pre.map (fun f => f.deltaTime)) } := by
  induction pre generalizing m with
  | nil => rfl
  | cons p ps ih =>
    obtain ⟨hp, hr⟩ := hraw p (List.mem_cons_self _ _)
    have h0 : 0 < tickLock m.hoverLockTimer p.deltaTime := by
      have := hpre 0 (by simp)
      simpa [lockAfter] using this
    have e : processTouchInput s m p
        = { m with hoverLockTimer := tickLock m.hoverLockTimer p.deltaTime } := by
      rw [processTouchInput_of_hand s m p hp, hr]
      exact resolveHover_locked b _ a ha hb h0
    rw [runTouch_cons, e,
      ih { m with hoverLockTimer := tickLock m.hoverLockTimer p.deltaTime } ha
        (fun f hf => hraw f (List.mem_cons_of_mem _ hf))]
    · simp [lockAfter]
    · intro n hn
      have := hpre (n + 1) (by simpa using hn)
      simpa [lockAfter] using this

/-- Once the hovered widget equals what the ray touches in every frame, a run of frames
changes neither the hovered widget nor the dispatched calls. -/
theorem runTouch_steady [DecidableEq α] (s : VRUISettings) (b : Option α)
    (post : List (TouchFrame α)) (m : VRMenuManager α) (hm : m.hoveredWidget = b)
    (hraw : ∀ f ∈ post, rawTouched s f = b) :
    (runTouch s m post).hoveredWidget = b ∧ (runTouch s m post).events = m.events := by
  induction post generalizing m with
  | nil => exact ⟨hm, rfl⟩
  | cons p ps ih =>
    have hr := hraw p (List.mem_cons_self _ _)
    have hps : ∀ f ∈ ps, rawTouched s f = b := fun f hf => hraw f (List.mem_cons_of_mem _ hf)
    rw [runTouch_cons]
    cases hp : p.handPresent with
    | false =>
      have e : processTouchInput s m p = m := by
        unfold processTouchInput; simp [hp]
      rw [e]
      exact ih m hm hps
    | true =>
      rw [processTouchInput_of_hand s m p hp, hr]
      cases b with
      | none =>
        rw [resolveHover_none
          { m with hoverLockTimer := tickLock m.hoverLockTimer p.deltaTime } hm]
        exact ih { m with hoverLockTimer := tickLock m.hoverLockTimer p.deltaTime } hm hps
      | some x =>
        rw [resolveHover_same { m with hoverLockTimer := tickLock m.hoverLockTimer p.deltaTime }
          x hm]
        exact ih { m with hoverLockTimer := kHoverLockTime } hm hps

/-- C9. Starting from a hovered widget `a`, over frames in which the ray is constantly on
the same `b ≠ a` (`b` possibly none): through the frames `pre`, after each of which the
`float` lock timer is still positive, nothing changes; on the first frame `fr` at which
the lock timer has run down to `≤ 0` the controller dispatches `onRayExit` to `a`, sets the hovered
widget to `b`, and if `b` is a widget dispatches `onRayEnter` to it after the exit and
restarts the lock timer at `0.16f` s; through all later frames `post` the hovered widget
stays `b` and nothing more is dispatched. -/
theorem C9_hover_switch_once [DecidableEq α] (s : VRUISettings) (m : VRMenuManager α)
    (a : α) (b : Option α) (pre post : List (TouchFrame α)) (fr : TouchFrame α)
    (ha : m.hoveredWidget = some a) (hb : b ≠ some a)
    (hraw : ∀ f ∈ pre ++ fr :: post, f.handPresent = true ∧ rawTouched s f = b)
    (hpre : ∀ n, n < pre.length →
      0 < lockAfter m.hoverLockTimer ((pre.take (n + 1)).map (fun f => f.deltaTime)))
    (hfr : lockAfter m.hoverLockTimer ((pre ++ [fr]).map (fun f => f.deltaTime)) ≤ 0) :
    (∀ n, n ≤ pre.length →
      (runTouch s m (pre.take n)).hoveredWidget = some a ∧
      (runTouch s m (pre.take n)).events = m.events) ∧
    ((runTouch s m (pre ++ [fr])).hoveredWidget = b ∧
      (runTouch s m (pre ++ [fr])).events
        = m.events ++ Event.rayExit a :: (b.map Event.rayEnter).toList ∧
      (b.isSome = true → (runTouch s m (pre ++ [fr])).hoverLockTimer = kHoverLockTime)) ∧
    (∀ n, n ≤ post.length →
      (runTouch s m (pre ++ fr :: post.take n)).hoveredWidget = b ∧
      (runTouch s m (pre ++ fr :: post.take n)).events
        = (runTouch s m (pre ++ [fr])).events) := by
  have hrawPre : ∀ f ∈ pre, f.handPresent = true ∧ rawTouched s f = b :=
    fun f hf => hraw f (List.mem_append_left _ hf)
  have hrawFr := hraw fr (List.mem_append_right _ (List.mem_cons_self _ _))
  have hrawPost : ∀ f ∈ post, rawTouched s f = b :=
    fun f hf => (hraw f (List.mem_append_right _ (List.mem_cons_of_mem _ hf))).2
  -- the switching frame
  have hsw : runTouch s m (pre ++ [fr])
      = resolveHover b
          { m with
            hoverLockTimer :=
              lockAfter m.hoverLockTimer ((pre ++ [fr]).map (fun f => f.deltaTime)) } := by
    rw [runTouch_append, runTouch_waiting s a b hb pre m ha hrawPre hpre, runTouch_cons,
      processTouchInput_of_hand _ _ _ hrawFr.1, hrawFr.2]
    simp [runTouch, lockAfter]
  have hexp := resolveHover_expired b
    { m with
      hoverLockTimer :=
        lockAfter m.hoverLockTimer ((pre ++ [fr]).map (fun f => f.deltaTime)) } a ha hb hfr
  have part2 : (runTouch s m (pre ++ [fr])).hoveredWidget = b ∧
      (runTouch s m (pre ++ [fr])).events
        = m.events ++ Event.rayExit a :: (b.map Event.rayEnter).toList ∧
      (b.isSome = true → (runTouch s m (pre ++ [fr])).hoverLockTimer = kHoverLockTime) := by
    rw [hsw, hexp]
    cases b with
    | none => simp
    | some new => simp
  refine ⟨?_, part2, ?_⟩
  · intro n hn
    have hw := runTouch_waiting s a b hb (pre.take n) m ha
      (fun f hf => hrawPre f (List.mem_of_mem_take hf))
      (by
        intro k hk
        have hk' : k < n := by
          rw [List.length_take] at hk
          omega
        have := hpre k (by omega)
        rwa [List.take_take, min_eq_left (by omega)])
    rw [hw]
    exact ⟨ha, rfl⟩
  · intro n hn
    have e : pre ++ fr :: post.take n = (pre ++ [fr]) ++ post.take n := by simp
    rw [e, runTouch_append]
    exact runTouch_steady s b (post.take n) _ part2.1
      (fun f hf => hrawPost f (List.mem_of_mem_take hf))

/-- C9, at a sample: widget 1 hovered with the full lock time `0.16f`, the ray constantly
on widget 2 in frames of 1/8 s.  The first frame leaves `0.16f - 1/8` s of lock; the
second runs it down, exits 1, enters 2; the third changes nothing. -/
theorem C9_hover_switch_once_witness :
    (runTouch VRUISettings.defaults (hovering 1 kHoverLockTime)
      [frameOn (some 2)]).hoveredWidget = some 1 ∧
    (runTouch VRUISettings.defaults (hovering 1 kHoverLockTime)
      ([frameOn (some 2)] ++ [frameOn (some 2)])).hoveredWidget = some 2 ∧
    (runTouch VRUISettings.defaults (hovering 1 kHoverLockTime)
      ([frameOn (some 2)] ++ [frameOn (some 2)])).events
        = [Event.rayExit 1, Event.rayEnter 2] ∧
    (runTouch VRUISettings.defaults (hovering 1 kHoverLockTime)
      ([frameOn (some 2)] ++ frameOn (some 2) :: [frameOn (some 2)])).events
        = [Event.rayExit 1, Event.rayEnter 2] := by
  have l1 : lockAfter (hovering 1 kHoverLockTime).hoverLockTimer
      ((List.take (0 + 1) [frameOn (some 2)]).map (fun f => f.deltaTime))
      = tickLock kHoverLockTime (1 / 8) := rfl
  have l2 : lockAfter (hovering 1 kHoverLockTime).hoverLockTimer
      (([frameOn (some 2)] ++ [frameOn (some 2)]).map (fun f => f.deltaTime))
      = tickLock (tickLock kHoverLockTime (1 / 8)) (1 / 8) := rfl
  have h := C9_hover_switch_once VRUISettings.defaults (hovering 1 kHoverLockTime) 1 (some 2)
    [frameOn (some 2)] [frameOn (some 2)] (frameOn (some 2)) rfl (by decide)
    (by
      intro f hf
      have : f = frameOn (some 2) := by
        simp only [List.mem_append, List.mem_cons, List.mem_singleton, List.not_mem_nil,
          or_false, or_self] at hf
        exact hf
      rw [this]
      exact ⟨rfl, rawTouched_frameOn _⟩)
    (by
      intro n hn
      have : n = 0 := by simpa using hn
      subst this
      rw [l1, tickLock_eighth]
      norm_num)
    (by
      rw [l2, tickLock_eighth, tickLock_of_pos _ _ (by norm_num)]
      exact F32.round_nonpos (by norm_num))
  obtain ⟨h1, h2, h3⟩ := h
  refine ⟨(h1 1 (by simp)).1, h2.1, ?_, ?_⟩
  · have := h2.2.1
    simpa [hovering] using this
  · have := (h3 1 (by simp)).2
    rw [h2.2.1] at this
    simpa [hovering] using this

/-! ## Hold-to-activate -/

theorem clearHoverState_fields [DecidableEq α] (m : VRMenuManager α) :
    (clearHoverState m).gripHoldTimer = m.gripHoldTimer ∧
    (clearHoverState m).gripWasHeld = m.gripWasHeld ∧
    (clearHoverState m).gripButtonDown = m.gripButtonDown ∧
    (clearHoverState m).menuOpen = m.menuOpen ∧
    toggleCount (clearHoverState m) = toggleCount m := by
  unfold clearHoverState toggleCount
  cases hh : m.hoveredWidget with
  | none => simp
  | some h =>
    cases ht : m.triggerPressed <;> simp [List.countP_append, List.countP_cons, Event.isToggle]

theorem togglePanels_fields [DecidableEq α] (mh : Bool) (ps done : List PanelState)
    (m : VRMenuManager α) :
    (togglePanels mh ps done m).gripHoldTimer = m.gripHoldTimer ∧
    (togglePanels mh ps done m).gripWasHeld = m.gripWasHeld ∧
    (togglePanels mh ps done m).gripButtonDown = m.gripButtonDown ∧
    (togglePanels mh ps done m).menuOpen = m.menuOpen ∧
    toggleCount (togglePanels mh ps done m) = toggleCount m := by
  induction ps generalizing done m with
  | nil => exact ⟨rfl, rfl, rfl, rfl, rfl⟩
  | cons p rest ih =>
    rw [togglePanels]
    split
    · split
      · exact ih _ m
      · exact ih _ m
    · obtain ⟨c1, c2, c3, c4, c5⟩ := clearHoverState_fields m
      obtain ⟨i1, i2, i3, i4, i5⟩ := ih (done ++ [{ p.hide with attached := false }])
        (clearHoverState m)
      exact ⟨i1.trans c1, i2.trans c2, i3.trans c3, i4.trans c4, i5.trans c5⟩

/-- Method `toggleMenu` flips the open flag, is recorded once, and leaves the grip state alone. -/
theorem toggleMenu_fields [DecidableEq α] (mh : Bool) (m : VRMenuManager α) :
    (toggleMenu mh m).gripHoldTimer = m.gripHoldTimer ∧
    (toggleMenu mh m).gripWasHeld = m.gripWasHeld ∧
    (toggleMenu mh m).gripButtonDown = m.gripButtonDown ∧
    (toggleMenu mh m).menuOpen = !m.menuOpen ∧
    toggleCount (toggleMenu mh m) = toggleCount m + 1 := by
  unfold toggleMenu
  obtain ⟨i1, i2, i3, i4, i5⟩ := togglePanels_fields mh m.panels []
    { m with menuOpen := !m.menuOpen, events := m.events ++ [Event.toggleMenu] }
  refine ⟨i1, i2, i3, i4, ?_⟩
  rw [i5]
  simp [toggleCount, List.countP_append, Event.isToggle]

/-- One frame with the grip held: the `float` timer accumulates the delta; `toggleMenu` is
called exactly when the timer has reached the hold time and the gesture has not fired
yet. -/
theorem activationStep_held [DecidableEq α] (s : VRUISettings) (m : VRMenuManager α)
    (fr : ActivationFrame) (hg : fr.gripHeld = true) (hcm : fr.controlMapPresent = true) :
    (activationStep s m fr).gripHoldTimer = F32.round (m.gripHoldTimer + fr.deltaTime) ∧
    ((s.activationHoldTime ≤ F32.round (m.gripHoldTimer + fr.deltaTime) ∧
        m.gripWasHeld = false) →
      (activationStep s m fr).gripWasHeld = true ∧
      toggleCount (activationStep s m fr) = toggleCount m + 1 ∧
      (activationStep s m fr).menuOpen = !m.menuOpen) ∧
    (¬ (s.activationHoldTime ≤ F32.round (m.gripHoldTimer + fr.deltaTime) ∧
        m.gripWasHeld = false) →
      (activationStep s m fr).gripWasHeld = m.gripWasHeld ∧
      toggleCount (activationStep s m fr) = toggleCount m ∧
      (activationStep s m fr).menuOpen = m.menuOpen) := by
  unfold activationStep processActivationInput onGripButtonChanged
  simp only [hg, hcm, Bool.not_true, Bool.false_eq_true, if_false, if_true, ge_iff_le,
    Bool.not_eq_true']
  by_cases hfire : s.activationHoldTime ≤ F32.round (m.gripHoldTimer + fr.deltaTime) ∧
      m.gripWasHeld = false
  · rw [if_pos hfire]
    obtain ⟨t1, t2, _, t4, t5⟩ := toggleMenu_fields fr.menuHandPresent
      { m with gripButtonDown := true,
               gripHoldTimer := F32.round (m.gripHoldTimer + fr.deltaTime),
               gripWasHeld := true }
    refine ⟨t1, fun _ => ⟨t2, ?_, t4⟩, fun h => absurd hfire h⟩
    rw [t5]; rfl
  · rw [if_neg hfire]
    exact ⟨rfl, fun h => absurd h hfire, fun _ => ⟨rfl, rfl, rfl⟩⟩

/-- One frame with the grip released: timer 0, flag clear, no `toggleMenu`. -/
theorem activationStep_released [DecidableEq α] (s : VRUISettings) (m : VRMenuManager α)
    (fr : ActivationFrame) (hg : fr.gripHeld = false) (hcm : fr.controlMapPresent = true) :
    (activationStep s m fr).gripHoldTimer = 0 ∧
    (activationStep s m fr).gripWasHeld = false ∧
    toggleCount (activationStep s m fr) = toggleCount m ∧
    (activationStep s m fr).menuOpen = m.menuOpen := by
  refine ⟨?_, ?_, ?_, ?_⟩ <;>
    simp [activationStep, processActivationInput, onGripButtonChanged, hg, hcm, toggleCount]

theorem runActivation_take_succ [DecidableEq α] (s : VRUISettings) (m : VRMenuManager α)
    (frames : List ActivationFrame) (n : Nat) (hn : n < frames.length) :
    runActivation s m (frames.take (n + 1))
      = activationStep s (runActivation s m (frames.take n)) (frames.get ⟨n, hn⟩) := by
  unfold runActivation
  rw [List.take_succ, List.foldl_append, List.getElem?_eq_getElem hn]
  rfl

theorem heldTime_zero (frames : List ActivationFrame) : heldTime frames 0 = 0 := rfl

theorem heldTime_succ (frames : List ActivationFrame) (n : Nat) (hn : n < frames.length) :
    heldTime frames (n + 1)
      = F32.round (heldTime frames n + (frames.get ⟨n, hn⟩).deltaTime) := by
  unfold heldTime
  rw [List.take_succ, List.getElem?_eq_getElem hn]
  simp only [Option.toList, List.map_append, List.foldl_append, List.map_cons, List.map_nil,
    List.foldl_cons, List.foldl_nil]
  rfl

/-- Over a run of held frames from the released state: the timer is the accumulated time,
and the gesture has not fired yet exactly when no accumulated time so far reached the hold
time. -/
theorem runActivation_held [DecidableEq α] (s : VRUISettings) (m : VRMenuManager α)
    (frames : List ActivationFrame) (h0 : m.gripHoldTimer = 0) (hf : m.gripWasHeld = false)
    (hheld : ∀ f ∈ frames, f.gripHeld = true ∧ f.controlMapPresent = true)
    (n : Nat) (hn : n ≤ frames.length) :
    (runActivation s m (frames.take n)).gripHoldTimer = heldTime frames n ∧
    ((runActivation s m (frames.take n)).gripWasHeld = false ↔
      ∀ j, 1 ≤ j → j ≤ n → heldTime frames j < s.activationHoldTime) := by
  induction n with
  | zero =>
    refine ⟨by simp [runActivation, heldTime, h0], ?_⟩
    simp only [List.take_zero, runActivation, List.foldl_nil, hf, true_iff]
    intro j h1 h2
    omega
  | succ n ih =>
    have hlt : n < frames.length := by omega
    obtain ⟨i1, i2⟩ := ih (by omega)
    obtain ⟨hg, hcm⟩ := hheld _ (List.get_mem frames n hlt)
    obtain ⟨a1, a2, a3⟩ := activationStep_held s (runActivation s m (frames.take n))
      (frames.get ⟨n, hlt⟩) hg hcm
    rw [runActivation_take_succ s m frames n hlt]
    refine ⟨by rw [a1, i1, heldTime_succ frames n hlt], ?_⟩
    rw [i1, ← heldTime_succ frames n hlt] at a2 a3
    by_cases hfire : s.activationHoldTime ≤ heldTime frames (n + 1) ∧
        (runActivation s m (frames.take n)).gripWasHeld = false
    · rw [(a2 hfire).1]
      simp only [Bool.true_eq_false, false_iff]
      intro hall
      have := hall (n + 1) (by omega) (le_refl _)
      linarith [hfire.1]
    · rw [(a3 hfire).1, i2]
      constructor
      · intro hall j hj1 hj2
        by_cases hj : j ≤ n
        · exact hall j hj1 hj
        · have : j = n + 1 := by omega
          subst this
          by_contra hge
          exact hfire ⟨not_lt.mp hge, i2.mpr hall⟩
      · intro hall j hj1 hj2
        exact hall j hj1 (by omega)

/-- Over a run of held frames from the released state, `toggleMenu` is called on frame
`n + 1` exactly when the `float` hold timer reaches the hold time there for the first
time. -/
theorem runActivation_fires [DecidableEq α] (s : VRUISettings) (m : VRMenuManager α)
    (frames : List ActivationFrame) (h0 : m.gripHoldTimer = 0) (hf : m.gripWasHeld = false)
    (hheld : ∀ f ∈ frames, f.gripHeld = true ∧ f.controlMapPresent = true)
    (n : Nat) (hn : n < frames.length) :
    ((s.activationHoldTime ≤ heldTime frames (n + 1) ∧
        ∀ j, 1 ≤ j → j ≤ n → heldTime frames j < s.activationHoldTime) →
      toggleCount (runActivation s m (frames.take (n + 1)))
        = toggleCount (runActivation s m (frames.take n)) + 1 ∧
      (runActivation s m (frames.take (n + 1))).menuOpen
        = !(runActivation s m (frames.take n)).menuOpen) ∧
    (¬ (s.activationHoldTime ≤ heldTime frames (n + 1) ∧
        ∀ j, 1 ≤ j → j ≤ n → heldTime frames j < s.activationHoldTime) →
      toggleCount (runActivation s m (frames.take (n + 1)))
        = toggleCount (runActivation s m (frames.take n)) ∧
      (runActivation s m (frames.take (n + 1))).menuOpen
        = (runActivation s m (frames.take n)).menuOpen) := by
  obtain ⟨i1, i2⟩ := runActivation_held s m frames h0 hf hheld n (by omega)
  obtain ⟨hg, hcm⟩ := hheld _ (List.get_mem frames n hn)
  obtain ⟨_, a2, a3⟩ := activationStep_held s (runActivation s m (frames.take n))
    (frames.get ⟨n, hn⟩) hg hcm
  rw [i1, ← heldTime_succ frames n hn, i2] at a2 a3
  rw [runActivation_take_succ s m frames n hn]
  exact ⟨fun h => (a2 h).2, fun h => (a3 h).2⟩

/-- The `float` hold timer over frames of `0.1f` s: `0.1f`, `0.2f`, and then
`round (40265319 * 2^-27) = 40265320 * 2^-27`, which is `0.3f`. -/
theorem heldTime_heldFrames :
    heldTime [heldFrame, heldFrame, heldFrame, heldFrame] 1 = 13421773 / 134217728 ∧
    heldTime [heldFrame, heldFrame, heldFrame, heldFrame] 2 = 13421773 / 67108864 ∧
    heldTime [heldFrame, heldFrame, heldFrame, heldFrame] 3 = 5033165 / 16777216 := by
  have d : ∀ (n : Nat) (hn : n < [heldFrame, heldFrame, heldFrame, heldFrame].length),
      ([heldFrame, heldFrame, heldFrame, heldFrame].get ⟨n, hn⟩).deltaTime
        = 13421773 / 134217728 := by
    intro n hn
    have hm := List.get_mem [heldFrame, heldFrame, heldFrame, heldFrame] n hn
    simp only [List.mem_cons, List.mem_singleton, List.not_mem_nil, or_false, or_self] at hm
    rw [hm]; rfl
  have r1 : F32.round (0 + 13421773 / 134217728 : ℚ) = 13421773 / 134217728 := by
    rw [F32.round_of_eq _ 13421773 (-27) (by norm_num) (by norm_num) (by norm_num)]
    norm_num
  have r2 : F32.round (13421773 / 134217728 + 13421773 / 134217728 : ℚ)
      = 13421773 / 67108864 := by
    rw [F32.round_of_eq _ 13421773 (-26) (by norm_num) (by norm_num) (by norm_num)]
    norm_num
  have r3 : F32.round (13421773 / 67108864 + 13421773 / 134217728 : ℚ)
      = 5033165 / 16777216 :=
    F32.round_eval (-2) 10066330 _ (by norm_num) (by norm_num [abs_of_pos])
      (by norm_num [abs_of_pos]) (by rw [abs_lt]; constructor <;> norm_num) (by norm_num)
  have t1 : heldTime [heldFrame, heldFrame, heldFrame, heldFrame] 1
      = 13421773 / 134217728 := by
    rw [heldTime_succ _ 0 (by decide), heldTime_zero, d, r1]
  have t2 : heldTime [heldFrame, heldFrame, heldFrame, heldFrame] 2
      = 13421773 / 67108864 := by
    rw [heldTime_succ _ 1 (by decide), t1, d, r2]
  refine ⟨t1, t2, ?_⟩
  rw [heldTime_succ _ 2 (by decide), t2, d, r3]

/-- The toggle counts over four held frames of `0.1f` s with the hold time `0.3f`. -/
theorem toggleCount_heldFrames :
    toggleCount (runActivation VRUISettings.defaults (idle [] : VRMenuManager Nat)
      (List.take 2 [heldFrame, heldFrame, heldFrame, heldFrame])) = 0 ∧
    toggleCount (runActivation VRUISettings.defaults (idle [] : VRMenuManager Nat)
      (List.take 3 [heldFrame, heldFrame, heldFrame, heldFrame])) = 1 ∧
    toggleCount (runActivation VRUISettings.defaults (idle [] : VRMenuManager Nat)
      (List.take 4 [heldFrame, heldFrame, heldFrame, heldFrame])) = 1 := by
  have h := runActivation_fires VRUISettings.defaults (idle [] : VRMenuManager Nat)
    [heldFrame, heldFrame, heldFrame, heldFrame] rfl rfl
    (by
      intro f hf
      have : f = heldFrame := by simpa using hf
      rw [this]
      exact ⟨rfl, rfl⟩)
  have t0 : toggleCount (runActivation VRUISettings.defaults (idle [] : VRMenuManager Nat)
      (List.take 0 [heldFrame, heldFrame, heldFrame, heldFrame])) = 0 := rfl
  obtain ⟨ht1, ht2, ht3⟩ := heldTime_heldFrames
  have hH : VRUISettings.defaults.activationHoldTime = 5033165 / 16777216 := rfl
  have s1 := (h 0 (by simp)).2 (by rw [ht1, hH]; norm_num)
  have s2 := (h 1 (by simp)).2 (by rw [ht2, hH]; norm_num)
  have s3 := (h 2 (by simp)).1 (by
    rw [ht3, hH]
    refine ⟨le_refl _, ?_⟩
    intro j h1 h2
    have : j = 1 ∨ j = 2 := by omega
    rcases this with e | e <;> subst e
    · rw [ht1]; norm_num
    · rw [ht2]; norm_num)
  have s4 := (h 3 (by simp)).2 (by
    rw [hH]
    intro hc
    have := hc.2 3 (by omega) (by omega)
    rw [ht3] at this
    exact absurd this (lt_irrefl _))
  refine ⟨?_, ?_, ?_⟩
  · rw [s2.1, s1.1, t0]
  · rw [s3.1, s2.1, s1.1, t0]
  · rw [s4.1, s3.1, s2.1, s1.1, t0]

/-- C10 fails as stated: with the hold time `0.3f` and held frames of `0.1f` s from the
released state, the frame deltas accumulated over three frames are `40265319 * 2^-27`,
less than the hold time `40265320 * 2^-27`, and those over four frames exceed it; but
the `float` hold timer reaches the hold time on the third frame, where `toggleMenu` is
called, and the fourth frame calls nothing. -/
theorem C10_counterexample :
    (∀ f ∈ [heldFrame, heldFrame, heldFrame, heldFrame],
      f.gripHeld = true ∧ f.controlMapPresent = true) ∧
    (((List.take 3 [heldFrame, heldFrame, heldFrame, heldFrame]).map
      (fun f => f.deltaTime)).sum < VRUISettings.defaults.activationHoldTime) ∧
    (VRUISettings.defaults.activationHoldTime ≤
      ((List.take 4 [heldFrame, heldFrame, heldFrame, heldFrame]).map
        (fun f => f.deltaTime)).sum) ∧
    toggleCount (runActivation VRUISettings.defaults (idle [] : VRMenuManager Nat)
      (List.take 2 [heldFrame, heldFrame, heldFrame, heldFrame])) = 0 ∧
    toggleCount (runActivation VRUISettings.defaults (idle [] : VRMenuManager Nat)
      (List.take 3 [heldFrame, heldFrame, heldFrame, heldFrame])) = 1 ∧
    toggleCount (runActivation VRUISettings.defaults (idle [] : VRMenuManager Nat)
      (List.take 4 [heldFrame, heldFrame, heldFrame, heldFrame])) = 1 := by
  refine ⟨?_, ?_, ?_, toggleCount_heldFrames⟩
  · intro f hf
    have : f = heldFrame := by simpa using hf
    rw [this]
    exact ⟨rfl, rfl⟩
  · norm_num [heldFrame, VRUISettings.defaults]
  · norm_num [heldFrame, VRUISettings.defaults]

/-- C10, amended. Hold-to-activate fires once per hold: over a run of frames that sample the
grip as held, from a released state (timer 0, already-fired flag clear), `toggleMenu` is
called on frame `n + 1` exactly when the hold timer, which adds up the frame deltas in
`float` arithmetic (`heldTime`), reaches `activationHoldTime` there for the first time (it
is then called once, and flips the menu), and on no other frame; a frame that samples the
grip as released resets the hold timer to 0, clears the already-fired flag and calls no
`toggleMenu`. -/
theorem C10_hold_fires_once [DecidableEq α] (s : VRUISettings) (m : VRMenuManager α)
    (frames : List ActivationFrame) (h0 : m.gripHoldTimer = 0) (hf : m.gripWasHeld = false)
    (hheld : ∀ f ∈ frames, f.gripHeld = true ∧ f.controlMapPresent = true) :
    (∀ n, n < frames.length →
      ((s.activationHoldTime ≤ heldTime frames (n + 1) ∧
          ∀ j, 1 ≤ j → j ≤ n → heldTime frames j < s.activationHoldTime) →
        toggleCount (runActivation s m (frames.take (n + 1)))
          = toggleCount (runActivation s m (frames.take n)) + 1 ∧
        (runActivation s m (frames.take (n + 1))).menuOpen
          = !(runActivation s m (frames.take n)).menuOpen) ∧
      (¬ (s.activationHoldTime ≤ heldTime frames (n + 1) ∧
          ∀ j, 1 ≤ j → j ≤ n → heldTime frames j < s.activationHoldTime) →
        toggleCount (runActivation s m (frames.take (n + 1)))
          = toggleCount (runActivation s m (frames.take n)) ∧
        (runActivation s m (frames.take (n + 1))).menuOpen
          = (runActivation s m (frames.take n)).menuOpen)) ∧
    (∀ (m' : VRMenuManager α) (fr : ActivationFrame),
      fr.gripHeld = false → fr.controlMapPresent = true →
      (activationStep s m' fr).gripHoldTimer = 0 ∧
      (activationStep s m' fr).gripWasHeld = false ∧
      toggleCount (activationStep s m' fr) = toggleCount m') := by
  constructor
  · intro n hn
    exact runActivation_fires s m frames h0 hf hheld n hn
  · intro m' fr hg hcm
    obtain ⟨r1, r2, r3, _⟩ := activationStep_released s m' fr hg hcm
    exact ⟨r1, r2, r3⟩

/-- C10, at a sample: hold time `0.3f`, frames of `0.1f` s with the grip held, menu closed.
The `float` hold timer is `0.1f`, `0.2f`, `0.3f` after the first three frames: the third
frame calls `toggleMenu`, which flips the menu open. -/
theorem C10_hold_fires_once_witness :
    (VRUISettings.defaults.activationHoldTime
        ≤ heldTime [heldFrame, heldFrame, heldFrame, heldFrame] (2 + 1) ∧
      ∀ j, 1 ≤ j → j ≤ 2 →
        heldTime [heldFrame, heldFrame, heldFrame, heldFrame] j
          < VRUISettings.defaults.activationHoldTime) ∧
    toggleCount (runActivation VRUISettings.defaults (idle [] : VRMenuManager Nat)
      (List.take (2 + 1) [heldFrame, heldFrame, heldFrame, heldFrame]))
      = toggleCount (runActivation VRUISettings.defaults (idle [] : VRMenuManager Nat)
          (List.take 2 [heldFrame, heldFrame, heldFrame, heldFrame])) + 1 ∧
    (runActivation VRUISettings.defaults (idle [] : VRMenuManager Nat)
      (List.take (2 + 1) [heldFrame, heldFrame, heldFrame, heldFrame])).menuOpen
      = !(runActivation VRUISettings.defaults (idle [] : VRMenuManager Nat)
          (List.take 2 [heldFrame, heldFrame, heldFrame, heldFrame])).menuOpen := by
  have hfire : VRUISettings.defaults.activationHoldTime
        ≤ heldTime [heldFrame, heldFrame, heldFrame, heldFrame] (2 + 1) ∧
      ∀ j, 1 ≤ j → j ≤ 2 →
        heldTime [heldFrame, heldFrame, heldFrame, heldFrame] j
          < VRUISettings.defaults.activationHoldTime := by
    obtain ⟨ht1, ht2, ht3⟩ := heldTime_heldFrames
    have hH : VRUISettings.defaults.activationHoldTime = 5033165 / 16777216 := rfl
    rw [hH]
    refine ⟨by rw [ht3], ?_⟩
    intro j h1 h2
    have : j = 1 ∨ j = 2 := by omega
    rcases this with e | e <;> subst e
    · rw [ht1]; norm_num
    · rw [ht2]; norm_num
  exact ⟨hfire,
    ((C10_hold_fires_once VRUISettings.defaults (idle [] : VRMenuManager Nat)
      [heldFrame, heldFrame, heldFrame, heldFrame] rfl rfl
      (by
        intro f hf
        have : f = heldFrame := by simpa using hf
        rw [this]
        exact ⟨rfl, rfl⟩)).1 2 (by decide)).1 hfire⟩

end VRMenuManager

/-! ## The fuel of `recalculateLayout` is enough -/

namespace VRUIContainer

open VRUIWidget

theorem depth_eq (w : VRUIWidget) : w.depth = VRUIWidget.depth.depthList w.children := by
  cases w; rfl

theorem depthList_congr (cs cs' : List VRUIWidget)
    (h : cs'.map (fun w => w.children) = cs.map (fun w => w.children)) :
    VRUIWidget.depth.depthList cs' = VRUIWidget.depth.depthList cs := by
  induction cs generalizing cs' with
  | nil =>
    have : cs' = [] := by simpa using h
    rw [this]
  | cons c cs ih =>
    cases cs' with
    | nil => simp at h
    | cons c' cs' =>
      simp only [List.map_cons, List.cons.injEq] at h
      simp only [VRUIWidget.depth.depthList]
      rw [depth_eq c', depth_eq c, h.1, ih cs' h.2]

theorem depthList_map (g : VRUIWidget → VRUIWidget) (cs : List VRUIWidget)
    (h : ∀ c ∈ cs, (g c).depth = c.depth) :
    VRUIWidget.depth.depthList (cs.map g) = VRUIWidget.depth.depthList cs := by
  induction cs with
  | nil => rfl
  | cons c cs ih =>
    simp only [List.map_cons, VRUIWidget.depth.depthList]
    rw [h c (List.mem_cons_self _ _), ih (fun x hx => h x (List.mem_cons_of_mem _ hx))]

theorem depth_lt_of_mem (cs : List VRUIWidget) (c : VRUIWidget) (h : c ∈ cs) :
    c.depth + 1 ≤ VRUIWidget.depth.depthList cs := by
  induction cs with
  | nil => simp at h
  | cons x xs ih =>
    simp only [VRUIWidget.depth.depthList]
    rcases List.mem_cons.mp h with e | e
    · rw [e]; exact le_max_left _ _
    · exact le_trans (ih e) (le_max_right _ _)

theorem children_setLocalPosition (pos : NiPoint3) (w : VRUIWidget) :
    (w.setLocalPosition pos).children = w.children := by cases w; rfl

theorem children_setVisible (v : Bool) (w : VRUIWidget) :
    (w.setVisible v).children = w.children := by cases w; rfl

theorem children_placeRow (sv : Bool) (sp x : ℚ) (cs : List VRUIWidget) :
    (placeRow sv sp x cs).map (fun w => w.children) = cs.map (fun w => w.children) := by
  induction cs generalizing x with
  | nil => rfl
  | cons c cs ih =>
    unfold placeRow
    split
    · simp [ih]
    · simp [ih, children_setLocalPosition]

theorem children_placeColumn (sv : Bool) (sp : ℚ) (down : Bool) (z : ℚ)
    (cs : List VRUIWidget) :
    (placeColumn sv sp down z cs).map (fun w => w.children)
      = cs.map (fun w => w.children) := by
  induction cs generalizing z with
  | nil => rfl
  | cons c cs ih =>
    unfold placeColumn
    split
    · simp [ih]
    · split <;> simp [ih, children_setLocalPosition]

theorem children_showPage (a b : Int) (idx : Nat) (cs : List VRUIWidget) :
    (showPage a b idx cs).map (fun w => w.children) = cs.map (fun w => w.children) := by
  induction cs generalizing idx with
  | nil => rfl
  | cons c cs ih =>
    unfold showPage
    split <;> simp [ih, children_setVisible]

theorem children_placeGrid (s : VRUISettings) (sp : ℚ) (m : Int) (first : VRUIWidget)
    (a b : Int) (idx : Nat) (cs : List VRUIWidget) :
    (placeGrid s sp m first a b idx cs).map (fun w => w.children)
      = cs.map (fun w => w.children) := by
  induction cs generalizing idx with
  | nil => rfl
  | cons c cs ih =>
    unfold placeGrid
    split <;> simp [ih, children_setLocalPosition]

theorem children_layoutGrid (s : VRUISettings) (c : ContainerData) (cs : List VRUIWidget) :
    (layoutGrid s c cs).map (fun w => w.children) = cs.map (fun w => w.children) := by
  unfold layoutGrid
  simp only []
  split
  · exact children_showPage _ _ _ _
  · split
    · exact children_showPage _ _ _ _
    · rw [children_placeGrid]
      exact children_showPage _ _ _ _

/-- A layout pass does not change the depth of the tree. -/
theorem depth_recalculateLayoutAux (s : VRUISettings) (f : Nat) (pv : Bool) (w : VRUIWidget) :
    (recalculateLayoutAux s f pv w).depth = w.depth := by
  induction f generalizing pv w with
  | zero => rfl
  | succ f ih =>
    have hmap : ∀ v, VRUIWidget.depth.depthList (w.children.map (recalculateLayoutAux s f v))
        = w.depth := by
      intro v
      rw [depthList_map _ _ (fun c _ => ih v c), depth_eq]
    rw [recalculateLayoutAux]
    split
    · rfl
    · simp only []
      split
      · rw [depth_eq]; exact hmap _
      · split
        · rw [depth_eq, updateDimensions_children, layoutRow,
            depthList_congr _ _ (children_placeRow _ _ _ _)]
          exact hmap _
        · rw [depth_eq, updateDimensions_children,
            depthList_congr _ _ (children_placeColumn _ _ _ _ _)]
          exact hmap _
        · rw [depth_eq, updateDimensions_children,
            depthList_congr _ _ (children_placeColumn _ _ _ _ _)]
          exact hmap _
        · split
          · rw [ih, depth_eq]; exact hmap _
          · rw [depth_eq, updateDimensions_children,
              depthList_congr _ _ (children_layoutGrid _ _ _)]
            exact hmap _
        · rw [depth_eq, updateDimensions_children]; exact hmap _

/-- With fuel `2 * depth + 2` or more, one more unit of fuel changes nothing: no nested call
of the layout pass runs out of fuel. -/
theorem recalculateLayoutAux_succ_stable (s : VRUISettings) (f : Nat) :
    ∀ (pv : Bool) (w : VRUIWidget), 2 * w.depth + 2 ≤ f →
      recalculateLayoutAux s (f + 1) pv w = recalculateLayoutAux s f pv w := by
  induction f using Nat.strong_induction_on with
  | _ f ih =>
    intro pv w hf
    obtain ⟨e, rfl⟩ : ∃ e, f = e + 1 := ⟨f - 1, by omega⟩
    -- the children are laid out alike with fuel `e + 1` and `e`
    have hchild : ∀ v, w.children.map (recalculateLayoutAux s (e + 1) v)
        = w.children.map (recalculateLayoutAux s e v) := by
      intro v
      apply List.map_congr_left
      intro c hc
      have := depth_lt_of_mem _ c hc
      rw [← depth_eq] at this
      exact ih e (by omega) v c (by omega)
    cases hcont : w.data.container with
    | none =>
      rw [recalculateLayoutAux, recalculateLayoutAux]
      simp [hcont]
    | some c =>
      by_cases hne : w.children = []
      · rw [recalculateLayoutAux_empty s (e + 1) pv w c hcont hne,
          recalculateLayoutAux_empty s e pv w c hcont hne]
      · by_cases hl : c.layout = .Grid
        · cases hb : pageOutOfBounds c w.children.length
          · rw [recalculateLayoutAux_grid s (e + 1) pv w c hcont hl hne hb,
              recalculateLayoutAux_grid s e pv w c hcont hl hne hb, hchild]
          · rw [recalculateLayoutAux_reset s (e + 1) pv w c hcont hl hne hb,
              recalculateLayoutAux_reset s e pv w c hcont hl hne hb, hchild]
            -- the re-run starts from page 0 and does not reset again
            obtain ⟨e', rfl⟩ : ∃ e', e = e' + 1 := by
              have hd : 1 ≤ w.depth := by
                cases hw : w.children with
                | nil => exact absurd hw hne
                | cons x xs =>
                  have := depth_lt_of_mem w.children x (by rw [hw]; exact List.mem_cons_self _ _)
                  rw [← depth_eq] at this
                  omega
              exact ⟨e - 1, by omega⟩
            have key : ∀ (g : Nat) (d : WidgetData) (c' : ContainerData)
                (cs : List VRUIWidget), d.container = some c' → c'.layout = .Grid →
                c'.currentPage = 0 → cs ≠ [] →
                recalculateLayoutAux s (g + 1) pv (VRUIWidget.mk d cs)
                  = updateDimensions ((VRUIWidget.mk d cs).isVisible pv)
                      { d with container := some { c' with layoutDirty := false } }
                      (layoutGrid s { c' with layoutDirty := false }
                        (cs.map (recalculateLayoutAux s g ((VRUIWidget.mk d cs).isVisible pv)))) := by
              intro g d c' cs hd hl' h0 hcs
              have hb' : pageOutOfBounds c' ((VRUIWidget.mk d cs).children.length : Int)
                  = false := by
                simp [pageOutOfBounds, h0]
              exact recalculateLayoutAux_grid s g pv (VRUIWidget.mk d cs) c' hd hl' hcs hb'
            have hcs : w.children.map (recalculateLayoutAux s (e' + 1) (w.isVisible pv)) ≠ [] := by
              simpa using hne
            rw [key (e' + 1) _ { c with layoutDirty := false, currentPage := 0 } _ rfl hl rfl hcs,
              key e' _ { c with layoutDirty := false, currentPage := 0 } _ rfl hl rfl hcs]
            congr 2
            apply List.map_congr_left
            intro c1 hc1
            obtain ⟨c0, hc0, rfl⟩ := List.mem_map.mp hc1
            have h1 := depth_lt_of_mem _ c0 hc0
            rw [← depth_eq] at h1
            have h2 := depth_recalculateLayoutAux s (e' + 1) (w.isVisible pv) c0
            exact ih e' (by omega) _ _ (by omega)
        · have hbody : ∀ g, recalculateLayoutAux s (g + 1) pv w
              = (match c.layout with
                | .HorizontalCenter =>
                  updateDimensions (w.isVisible pv)
                    { w.data with container := some { c with layoutDirty := false } }
                    (layoutRow (w.isVisible pv) c.spacing
                      (w.children.map (recalculateLayoutAux s g (w.isVisible pv))))
                | .VerticalDown =>
                  updateDimensions (w.isVisible pv)
                    { w.data with container := some { c with layoutDirty := false } }
                    (placeColumn (w.isVisible pv) c.spacing true 0
                      (w.children.map (recalculateLayoutAux s g (w.isVisible pv))))
                | .VerticalUp =>
                  updateDimensions (w.isVisible pv)
                    { w.data with container := some { c with layoutDirty := false } }
                    (placeColumn (w.isVisible pv) c.spacing false 0
                      (w.children.map (recalculateLayoutAux s g (w.isVisible pv))))
                | .Grid => w
                | .Free =>
                  updateDimensions (w.isVisible pv)
                    { w.data with container := some { c with layoutDirty := false } }
                    (w.children.map (recalculateLayoutAux s g (w.isVisible pv)))) := by
            intro g
            rw [recalculateLayoutAux]
            simp only [hcont]
            rw [if_neg (by simpa using hne)]
            cases hlay : c.layout <;> first
              | rfl
              | exact absurd hlay hl
          rw [hbody (e + 1), hbody e, hchild]

/-- The result of `recalculateLayout` is the result of the layout pass with any larger
fuel. -/
theorem recalculateLayoutAux_fuel_stable (s : VRUISettings) (pv : Bool) (w : VRUIWidget)
    (f : Nat) (hf : 2 * w.depth + 2 ≤ f) :
    recalculateLayoutAux s f pv w = recalculateLayout s pv w := by
  unfold recalculateLayout
  induction f with
  | zero => omega
  | succ f ih =>
    by_cases h : 2 * w.depth + 2 ≤ f
    · rw [recalculateLayoutAux_succ_stable s f pv w h]
      exact ih h
    · have : f + 1 = 2 * w.depth + 2 := by omega
      rw [this]

end VRUIContainer

/-! ## Trigger edges and whole frames -/

namespace VRMenuManager

variable {α : Type}

theorem toHovered_fields [DecidableEq α] (call : α → Event α) (m : VRMenuManager α) :
    (toHovered call m).events = m.events ++ (m.hoveredWidget.map call).toList ∧
    (toHovered call m).triggerPressed = m.triggerPressed ∧
    (toHovered call m).hoveredWidget = m.hoveredWidget ∧
    (toHovered call m).menuOpen = m.menuOpen ∧
    (toHovered call m).panels = m.panels ∧
    (toHovered call m).triggerButtonDown = m.triggerButtonDown := by
  unfold toHovered
  cases h : m.hoveredWidget <;> simp [h]

/-- Method `processTriggerInput` in closed form: the edge detection, and on a rising edge
with a hovered widget the press handler of that widget on the state it left. -/
theorem processTriggerInput_eq [DecidableEq α]
    (onPress : α → VRMenuManager α → VRMenuManager α) (m : VRMenuManager α) :
    processTriggerInput onPress m =
      match (if m.triggerButtonDown = true ∧ m.triggerPressed = false then m.hoveredWidget
        else none) with
      | some h => onPress h (afterEdge m)
      | none => afterEdge m := by
  obtain ⟨mo, ght, gwh, tp, gbd, tbd, hw, hlt, ps, ev⟩ := m
  cases tp <;> cases tbd <;> cases hw <;>
    simp [processTriggerInput, afterEdge, triggerEdge, toHovered]

theorem processTriggerInput_inert [DecidableEq α]
    (onPress : α → VRMenuManager α → VRMenuManager α) (m : VRMenuManager α)
    (hin : ∀ w m', onPress w m' = m') : processTriggerInput onPress m = afterEdge m := by
  rw [processTriggerInput_eq]
  split
  · exact hin _ _
  · rfl

/-- With press handlers that change at most panel flags, or call `toggleMenu()`, the
trigger input ends in the state of the edge detection with other panel flags, or in that
state after `toggleMenu()`. -/
theorem processTriggerInput_plugin [DecidableEq α]
    (onPress : α → VRMenuManager α → VRMenuManager α) (m : VRMenuManager α)
    (h : ∀ (w : α) (m' : VRMenuManager α),
      (∃ ps : List PanelState, ps.length = m'.panels.length ∧
        onPress w m' = { m' with panels := ps }) ∨
      ∃ mh : Bool, onPress w m' = toggleMenu mh m') :
    (∃ ps : List PanelState, ps.length = m.panels.length ∧
      processTriggerInput onPress m = { afterEdge m with panels := ps }) ∨
    ∃ mh : Bool, processTriggerInput onPress m = toggleMenu mh (afterEdge m) := by
  rw [processTriggerInput_eq]
  split
  · rename_i w _
    rcases h w (afterEdge m) with ⟨ps, hl, e⟩ | ⟨mh, e⟩
    · exact Or.inl ⟨ps, hl, e⟩
    · exact Or.inr ⟨mh, e⟩
  · exact Or.inl ⟨m.panels, rfl, rfl⟩

theorem processTriggerInput_spec [DecidableEq α]
    (onPress : α → VRMenuManager α → VRMenuManager α) (m : VRMenuManager α)
    (hf : ∀ (w : α) (m' : VRMenuManager α), ∃ ps : List PanelState,
      ps.length = m'.panels.length ∧ onPress w m' = { m' with panels := ps }) :
    (processTriggerInput onPress m).events = m.events ++ triggerEdge m ∧
    (processTriggerInput onPress m).triggerPressed = m.triggerButtonDown ∧
    (processTriggerInput onPress m).hoveredWidget = m.hoveredWidget ∧
    (processTriggerInput onPress m).menuOpen = m.menuOpen ∧
    (processTriggerInput onPress m).panels.length = m.panels.length ∧
    (processTriggerInput onPress m).triggerButtonDown = m.triggerButtonDown := by
  rcases processTriggerInput_plugin onPress m (fun w m' => Or.inl (hf w m')) with
    ⟨ps, hl, e⟩ | ⟨mh, e⟩
  · rw [e]
    exact ⟨rfl, rfl, rfl, rfl, hl, rfl⟩
  · exfalso
    rw [processTriggerInput_eq] at e
    split at e
    · rename_i w _
      obtain ⟨ps, _, e2⟩ := hf w (afterEdge m)
      rw [e2] at e
      have h1 := congrArg VRMenuManager.menuOpen e
      rw [(toggleMenu_fields mh (afterEdge m)).2.2.2.1] at h1
      revert h1
      cases (afterEdge m).menuOpen <;> simp
    · have h1 := congrArg VRMenuManager.menuOpen e
      rw [(toggleMenu_fields mh (afterEdge m)).2.2.2.1] at h1
      revert h1
      cases (afterEdge m).menuOpen <;> simp

theorem processTriggerInput_inert_panels [DecidableEq α]
    (onPress : α → VRMenuManager α → VRMenuManager α) (m : VRMenuManager α)
    (hin : ∀ w m', onPress w m' = m') : (processTriggerInput onPress m).panels = m.panels := by
  rw [processTriggerInput_inert onPress m hin]
  rfl

theorem rayFrame_flagHandlers (b : Option Nat) (down : Bool) (dt : ℚ) :
    (rayFrame b down dt).flagHandlers :=
  fun _ m => ⟨m.panels, rfl, rfl⟩

theorem rayFrame_pluginHandlers (b : Option Nat) (down : Bool) (dt : ℚ) :
    (rayFrame b down dt).pluginHandlers :=
  fun _ m => Or.inl ⟨m.panels, rfl, rfl⟩

theorem clearHoverState_keeps [DecidableEq α] (m : VRMenuManager α) :
    (clearHoverState m).triggerButtonDown = m.triggerButtonDown ∧
    (clearHoverState m).panels = m.panels ∧
    pressCount (clearHoverState m) = pressCount m := by
  unfold clearHoverState pressCount
  cases hh : m.hoveredWidget with
  | none => simp
  | some h =>
    cases ht : m.triggerPressed <;> simp [List.countP_append, List.countP_cons, Event.isPress]

theorem togglePanels_keeps [DecidableEq α] (mh : Bool) (ps done : List PanelState)
    (m : VRMenuManager α) :
    (togglePanels mh ps done m).triggerButtonDown = m.triggerButtonDown ∧
    (togglePanels mh ps done m).panels.length = done.length + ps.length ∧
    pressCount (togglePanels mh ps done m) = pressCount m := by
  induction ps generalizing done m with
  | nil => exact ⟨rfl, by simp [togglePanels], rfl⟩
  | cons p rest ih =>
    rw [togglePanels]
    split
    · split
      · obtain ⟨i1, i2, i3⟩ := ih (done ++ [p]) m
        refine ⟨i1, ?_, i3⟩
        rw [i2]; simp; omega
      · obtain ⟨i1, i2, i3⟩ := ih (done ++ [(if mh then { p with attached := true } else p).show]) m
        refine ⟨i1, ?_, i3⟩
        rw [i2]; simp; omega
    · obtain ⟨c1, _, c3⟩ := clearHoverState_keeps m
      obtain ⟨i1, i2, i3⟩ := ih (done ++ [{ p.hide with attached := false }])
        (clearHoverState m)
      refine ⟨i1.trans c1, ?_, i3.trans c3⟩
      rw [i2]; simp; omega

/-- The open branch of the panel loop leaves the interaction state alone. -/
theorem togglePanels_open [DecidableEq α] (mh : Bool) (ps done : List PanelState)
    (m : VRMenuManager α) (ho : m.menuOpen = true) :
    (togglePanels mh ps done m).triggerPressed = m.triggerPressed ∧
    (togglePanels mh ps done m).hoveredWidget = m.hoveredWidget ∧
    (togglePanels mh ps done m).events = m.events := by
  induction ps generalizing done with
  | nil => exact ⟨rfl, rfl, rfl⟩
  | cons p rest ih =>
    rw [togglePanels]
    simp only [ho, if_true]
    split
    · exact ih _
    · exact ih _

theorem toggleMenu_keeps [DecidableEq α] (mh : Bool) (m : VRMenuManager α) :
    (toggleMenu mh m).triggerButtonDown = m.triggerButtonDown ∧
    (toggleMenu mh m).panels.length = m.panels.length ∧
    pressCount (toggleMenu mh m) = pressCount m ∧
    ((toggleMenu mh m).menuOpen = true → (toggleMenu mh m).triggerPressed = m.triggerPressed ∧
      (toggleMenu mh m).hoveredWidget = m.hoveredWidget ∧
      triggerCalls (toggleMenu mh m) = triggerCalls m) := by
  obtain ⟨_, _, _, f4, _⟩ := toggleMenu_fields mh m
  rw [f4]
  unfold toggleMenu
  obtain ⟨i1, i2, i3⟩ := togglePanels_keeps mh m.panels []
    { m with menuOpen := !m.menuOpen, events := m.events ++ [Event.toggleMenu] }
  refine ⟨i1, by simpa using i2, ?_, ?_⟩
  · rw [i3]; simp [pressCount, List.countP_append, Event.isPress]
  · intro ho
    obtain ⟨o1, o2, o3⟩ := togglePanels_open mh m.panels []
      { m with menuOpen := !m.menuOpen, events := m.events ++ [Event.toggleMenu] } ho
    refine ⟨o1, o2, ?_⟩
    unfold triggerCalls
    rw [o3]
    simp [List.filter_append, Event.isTrigger]

/-- The activation step either only writes the grip timer and flag, or does so and then
calls `toggleMenu`. -/
theorem processActivationInput_cases [DecidableEq α] (s : VRUISettings) (cm mh : Bool)
    (dt : ℚ) (m : VRMenuManager α) :
    ∃ t w, processActivationInput s cm mh dt m = { m with gripHoldTimer := t, gripWasHeld := w } ∨
      processActivationInput s cm mh dt m =
        toggleMenu mh { m with gripHoldTimer := t, gripWasHeld := w } := by
  unfold processActivationInput
  by_cases hcm : cm = true
  · by_cases hg : m.gripButtonDown = true
    · by_cases hf : F32.round (m.gripHoldTimer + dt) ≥ s.activationHoldTime ∧
          (!m.gripWasHeld) = true
      · exact ⟨F32.round (m.gripHoldTimer + dt), true,
          Or.inr (by simp only [hcm, hg, hf]; simp)⟩
      · exact ⟨F32.round (m.gripHoldTimer + dt), m.gripWasHeld,
          Or.inl (by simp only [hcm, hg, hf]; simp)⟩
    · exact ⟨0, false, Or.inl (by simp [hcm, hg])⟩
  · exact ⟨m.gripHoldTimer, m.gripWasHeld, Or.inl (by simp [hcm])⟩

theorem processActivationInput_keeps [DecidableEq α] (s : VRUISettings) (cm mh : Bool)
    (dt : ℚ) (m : VRMenuManager α) :
    (processActivationInput s cm mh dt m).triggerButtonDown = m.triggerButtonDown ∧
    (processActivationInput s cm mh dt m).panels.length = m.panels.length ∧
    pressCount (processActivationInput s cm mh dt m) = pressCount m ∧
    ((processActivationInput s cm mh dt m).menuOpen = true →
      (processActivationInput s cm mh dt m).triggerPressed = m.triggerPressed ∧
      (processActivationInput s cm mh dt m).hoveredWidget = m.hoveredWidget ∧
      triggerCalls (processActivationInput s cm mh dt m) = triggerCalls m) := by
  obtain ⟨t, w, h | h⟩ := processActivationInput_cases s cm mh dt m
  · rw [h]; exact ⟨rfl, rfl, rfl, fun _ => ⟨rfl, rfl, rfl⟩⟩
  · rw [h]; exact toggleMenu_keeps mh _

/-- The hover resolution either only writes the lock timer, or moves the hover from the old
widget to a different one, with an exit to the old and an enter to the new widget. -/
theorem resolveHover_cases [DecidableEq α] (t : Option α) (m : VRMenuManager α) :
    ∃ x, resolveHover t m = { m with hoverLockTimer := x } ∨
      (t ≠ m.hoveredWidget ∧ resolveHover t m =
        { m with events := m.events ++ (m.hoveredWidget.map Event.rayExit).toList ++
                   (t.map Event.rayEnter).toList,
                 hoveredWidget := t, hoverLockTimer := x }) := by
  obtain hh | ⟨h, hh⟩ := Option.eq_none_or_eq_some m.hoveredWidget
  · cases t with
    | none => exact ⟨m.hoverLockTimer, Or.inl (resolveHover_none m hh)⟩
    | some n =>
      refine ⟨kHoverLockTime, Or.inr ⟨by simp [hh], ?_⟩⟩
      unfold resolveHover
      simp [hh]
  · by_cases h1 : t = some h
    · subst h1
      exact ⟨kHoverLockTime, Or.inl (resolveHover_same m h hh)⟩
    · by_cases h2 : 0 < m.hoverLockTimer
      · exact ⟨m.hoverLockTimer, Or.inl (resolveHover_locked t m h hh h1 h2)⟩
      · rw [resolveHover_expired t m h hh h1 (not_lt.mp h2)]
        cases t with
        | none => exact ⟨m.hoverLockTimer, Or.inr ⟨by simp [hh], by simp [hh]⟩⟩
        | some n => exact ⟨kHoverLockTime, Or.inr ⟨by rw [hh]; exact h1, by simp [hh]⟩⟩

theorem resolveHover_keeps [DecidableEq α] (t : Option α) (m : VRMenuManager α) :
    (resolveHover t m).triggerButtonDown = m.triggerButtonDown ∧
    (resolveHover t m).triggerPressed = m.triggerPressed ∧
    (resolveHover t m).menuOpen = m.menuOpen ∧
    (resolveHover t m).panels = m.panels ∧
    pressCount (resolveHover t m) = pressCount m ∧
    triggerCalls (resolveHover t m) = triggerCalls m := by
  obtain ⟨x, h | ⟨_, h⟩⟩ := resolveHover_cases t m
  · rw [h]; exact ⟨rfl, rfl, rfl, rfl, rfl, rfl⟩
  · rw [h]
    refine ⟨rfl, rfl, rfl, rfl, ?_, ?_⟩
    · cases m.hoveredWidget <;> cases t <;>
        simp [pressCount, List.countP_append, List.countP_cons, Event.isPress]
    · cases m.hoveredWidget <;> cases t <;>
        simp [triggerCalls, List.filter_append, List.filter_cons, Event.isTrigger]

theorem processTouchInput_keeps [DecidableEq α] (s : VRUISettings) (m : VRMenuManager α)
    (fr : TouchFrame α) :
    (processTouchInput s m fr).triggerButtonDown = m.triggerButtonDown ∧
    (processTouchInput s m fr).triggerPressed = m.triggerPressed ∧
    (processTouchInput s m fr).menuOpen = m.menuOpen ∧
    (processTouchInput s m fr).panels = m.panels ∧
    pressCount (processTouchInput s m fr) = pressCount m ∧
    triggerCalls (processTouchInput s m fr) = triggerCalls m := by
  unfold processTouchInput
  split
  · exact ⟨rfl, rfl, rfl, rfl, rfl, rfl⟩
  · exact resolveHover_keeps _ _

theorem frameStep_open [DecidableEq α] (s : VRUISettings) (m : VRMenuManager α)
    (fr : Frame α) (ho : (afterActivation s m fr).menuOpen = true) :
    frameStep s m fr =
      { processTriggerInput fr.onPress (processTouchInput s (afterActivation s m fr)
          (fr.touch (afterActivation s m fr).panels)) with
        panels := (processTriggerInput fr.onPress
          (processTouchInput s (afterActivation s m fr)
            (fr.touch (afterActivation s m fr).panels))).panels.map
              (PanelState.update fr.deltaTime) } := by
  unfold afterActivation at ho
  simp only [frameStep, onFrameUpdate, afterActivation, ho, Bool.not_true, Bool.false_eq_true,
    if_false, if_true]

theorem frameStep_closed [DecidableEq α] (s : VRUISettings) (m : VRMenuManager α)
    (fr : Frame α) (ho : (afterActivation s m fr).menuOpen = false) :
    frameStep s m fr =
      { afterActivation s m fr with
        panels := (afterActivation s m fr).panels.map (PanelState.update fr.deltaTime) } := by
  unfold afterActivation at ho
  simp only [frameStep, onFrameUpdate, afterActivation, ho, Bool.not_true, Bool.false_eq_true,
    if_false]

/-- The controller when the trigger input of a frame is due carries the sampled signal and
the stored flag of the frame start, and no trigger call has been dispatched in the frame. -/
theorem due_fields [DecidableEq α] (s : VRUISettings) (m : VRMenuManager α)
    (fr : Frame α) (ho : (afterActivation s m fr).menuOpen = true) :
    (processTouchInput s (afterActivation s m fr)
      (fr.touch (afterActivation s m fr).panels)).triggerButtonDown = fr.triggerDown ∧
    (processTouchInput s (afterActivation s m fr)
      (fr.touch (afterActivation s m fr).panels)).triggerPressed = m.triggerPressed ∧
    triggerCalls (processTouchInput s (afterActivation s m fr)
      (fr.touch (afterActivation s m fr).panels)) = triggerCalls m ∧
    pressCount (processTouchInput s (afterActivation s m fr)
      (fr.touch (afterActivation s m fr).panels)) = pressCount m := by
  obtain ⟨t1, t2, _, _, t5, t6⟩ := processTouchInput_keeps s (afterActivation s m fr)
    (fr.touch (afterActivation s m fr).panels)
  obtain ⟨a1, _, a3, a4⟩ := processActivationInput_keeps s fr.controlMapPresent
    fr.menuHandPresent fr.deltaTime
    (onTriggerButtonChanged fr.triggerDown (onGripButtonChanged fr.gripHeld m))
  obtain ⟨a5, _, a6⟩ := a4 ho
  exact ⟨t1.trans a1, t2.trans a5, t6.trans a6, t5.trans a3⟩

/-- The trigger calls of a frame processed with the menu open are those of the edge
detection, which sees the hovered widget that the frame's hover resolution left. -/
theorem frameStep_triggerCalls [DecidableEq α] (s : VRUISettings) (m : VRMenuManager α)
    (fr : Frame α) (ho : (afterActivation s m fr).menuOpen = true) (hf : fr.flagHandlers) :
    triggerCalls (frameStep s m fr) = triggerCalls m ++
      (if fr.triggerDown = true ∧ m.triggerPressed = false then
        ((processTouchInput s (afterActivation s m fr)
          (fr.touch (afterActivation s m fr).panels)).hoveredWidget.map
            Event.triggerPress).toList
      else if fr.triggerDown = false ∧ m.triggerPressed = true then
        ((processTouchInput s (afterActivation s m fr)
          (fr.touch (afterActivation s m fr).panels)).hoveredWidget.map
            Event.triggerRelease).toList
      else []) ∧
    (frameStep s m fr).hoveredWidget = (processTouchInput s (afterActivation s m fr)
      (fr.touch (afterActivation s m fr).panels)).hoveredWidget ∧
    (frameStep s m fr).triggerPressed = fr.triggerDown := by
  obtain ⟨d1, d2, d3, _⟩ := due_fields s m fr ho
  obtain ⟨p1, p2, p3, _, _, _⟩ := processTriggerInput_spec fr.onPress (processTouchInput s
    (afterActivation s m fr) (fr.touch (afterActivation s m fr).panels)) hf
  rw [frameStep_open s m fr ho]
  refine ⟨?_, p3, p2.trans d1⟩
  show List.filter Event.isTrigger (processTriggerInput _ _).events = _
  rw [p1, List.filter_append]
  unfold triggerCalls at d3
  rw [d3]
  congr 1
  unfold triggerEdge
  rw [d1, d2]
  cases (processTouchInput s (afterActivation s m fr)
      (fr.touch (afterActivation s m fr).panels)).hoveredWidget <;>
    cases fr.triggerDown <;> cases m.triggerPressed <;> simp [Event.isTrigger]

theorem frameStep_press [DecidableEq α] (s : VRUISettings) (m : VRMenuManager α)
    (fr : Frame α) (ho : (afterActivation s m fr).menuOpen = true) (hf : fr.flagHandlers)
    (hd : fr.triggerDown = true) :
    (frameStep s m fr).triggerPressed = true ∧
    pressCount (frameStep s m fr) ≤ pressCount m + 1 ∧
    (m.triggerPressed = true → pressCount (frameStep s m fr) = pressCount m) := by
  obtain ⟨d1, d2, _, d4⟩ := due_fields s m fr ho
  obtain ⟨p1, p2, _, _, _, _⟩ := processTriggerInput_spec fr.onPress (processTouchInput s
    (afterActivation s m fr) (fr.touch (afterActivation s m fr).panels)) hf
  rw [frameStep_open s m fr ho]
  have hc : pressCount ({ processTriggerInput fr.onPress
          (processTouchInput s (afterActivation s m fr)
            (fr.touch (afterActivation s m fr).panels)) with
        panels := (processTriggerInput fr.onPress
          (processTouchInput s (afterActivation s m fr)
            (fr.touch (afterActivation s m fr).panels))).panels.map
              (PanelState.update fr.deltaTime) } : VRMenuManager α) =
      pressCount m + (triggerEdge (processTouchInput s (afterActivation s m fr)
          (fr.touch (afterActivation s m fr).panels))).countP Event.isPress := by
    show List.countP Event.isPress (processTriggerInput _ _).events = _
    rw [p1, List.countP_append]
    unfold pressCount at d4
    rw [d4]
    rfl
  refine ⟨by rw [← hd]; exact p2.trans d1, ?_, ?_⟩
  · rw [hc]
    unfold triggerEdge
    rw [d1, d2, hd]
    cases (processTouchInput s (afterActivation s m fr)
        (fr.touch (afterActivation s m fr).panels)).hoveredWidget <;>
      cases m.triggerPressed <;> simp [Event.isPress]
  · intro hp
    rw [hc]
    unfold triggerEdge
    rw [d1, d2, hd, hp]
    simp

/-- Over frames processed with the menu open and the trigger held throughout, with press
handlers that change at most panel flags, at most one press is dispatched, and none when
the stored flag was already set. -/
theorem openRun_held [DecidableEq α] (s : VRUISettings) (frames : List (Frame α)) :
    ∀ m : VRMenuManager α, OpenRun s m frames → (∀ f ∈ frames, f.flagHandlers) →
      (∀ f ∈ frames, f.triggerDown = true) →
      pressCount (runFrames s m frames) ≤ pressCount m + 1 ∧
      (m.triggerPressed = true → pressCount (runFrames s m frames) = pressCount m) := by
  induction frames with
  | nil => intro m _ _ _; exact ⟨Nat.le_succ _, fun _ => rfl⟩
  | cons fr rest ih =>
    intro m ho hfl hh
    obtain ⟨ho1, ho2⟩ := ho
    obtain ⟨f1, f2, f3⟩ := frameStep_press s m fr ho1 (hfl fr (List.mem_cons_self _ _))
      (hh fr (List.mem_cons_self _ _))
    obtain ⟨_, i2⟩ := ih (frameStep s m fr) ho2 (fun f hf => hfl f (List.mem_cons_of_mem _ hf))
      (fun f hf => hh f (List.mem_cons_of_mem _ hf))
    have hrun : runFrames s m (fr :: rest) = runFrames s (frameStep s m fr) rest := rfl
    rw [hrun, i2 f1]
    exact ⟨f2, f3⟩

theorem afterActivation_released [DecidableEq α] (s : VRUISettings) (m : VRMenuManager α)
    (fr : Frame α) (hg : fr.gripHeld = false) (hcm : fr.controlMapPresent = true) :
    afterActivation s m fr =
      { m with gripButtonDown := false, triggerButtonDown := fr.triggerDown,
               gripHoldTimer := 0, gripWasHeld := false } := by
  simp [afterActivation, processActivationInput, onTriggerButtonChanged, onGripButtonChanged,
    hg, hcm]

theorem frameStep_menuOpen_released [DecidableEq α] (s : VRUISettings) (m : VRMenuManager α)
    (fr : Frame α) (hg : fr.gripHeld = false) (hcm : fr.controlMapPresent = true)
    (hf : fr.flagHandlers) :
    (frameStep s m fr).menuOpen = m.menuOpen := by
  have ha : (afterActivation s m fr).menuOpen = m.menuOpen := by
    rw [afterActivation_released s m fr hg hcm]
  cases ho : m.menuOpen with
  | true =>
    rw [frameStep_open s m fr (ha.trans ho)]
    obtain ⟨_, _, _, p4, _, _⟩ := processTriggerInput_spec fr.onPress (processTouchInput s
      (afterActivation s m fr) (fr.touch (afterActivation s m fr).panels)) hf
    obtain ⟨_, _, t3, _, _, _⟩ := processTouchInput_keeps s (afterActivation s m fr)
      (fr.touch (afterActivation s m fr).panels)
    exact p4.trans (t3.trans (ha.trans ho))
  | false =>
    rw [frameStep_closed s m fr (ha.trans ho)]
    exact ha.trans ho

theorem rawTouched_rayFrame (b : Option Nat) (down : Bool) (dt : ℚ) (ps : List PanelState) :
    rawTouched VRUISettings.defaults ((rayFrame b down dt).touch ps) = b := by
  cases b with
  | none => rfl
  | some w =>
    simp only [rawTouched, Frame.touch, rayFrame, closestHitLoop, VRUISettings.defaults]
    norm_num

/-! ## Menu close and button states -/

theorem frameStep_rayFrame (m : VRMenuManager Nat) (b : Option Nat) (down : Bool) (dt : ℚ)
    (ho : m.menuOpen = true) :
    frameStep VRUISettings.defaults m (rayFrame b down dt) =
      { processTriggerInput (fun _ m => m) (resolveHover b
          { m with gripButtonDown := false, triggerButtonDown := down, gripHoldTimer := 0,
                   gripWasHeld := false,
                   hoverLockTimer := tickLock m.hoverLockTimer dt }) with
        panels := m.panels.map (PanelState.update dt) } := by
  have ha := afterActivation_released VRUISettings.defaults m (rayFrame b down dt) rfl rfl
  have ho1 : (afterActivation VRUISettings.defaults m (rayFrame b down dt)).menuOpen = true := by
    rw [ha]; exact ho
  rw [frameStep_open _ _ _ ho1, ha]
  have p5 := processTriggerInput_inert_panels (rayFrame b down dt).onPress
    (processTouchInput VRUISettings.defaults
      { m with gripButtonDown := false, triggerButtonDown := (rayFrame b down dt).triggerDown,
               gripHoldTimer := 0, gripWasHeld := false }
      ((rayFrame b down dt).touch m.panels)) (fun _ _ => rfl)
  obtain ⟨_, _, _, t4, _⟩ := processTouchInput_keeps VRUISettings.defaults
    { m with gripButtonDown := false, triggerButtonDown := (rayFrame b down dt).triggerDown,
             gripHoldTimer := 0, gripWasHeld := false }
    ((rayFrame b down dt).touch m.panels)
  show (_ : VRMenuManager Nat) = _
  rw [p5, t4]
  unfold processTouchInput
  rw [rawTouched_rayFrame]
  rfl

theorem opened_eq : toggleMenu true (idle [freshPanel] : VRMenuManager Nat) =
    { menuOpen := true, gripHoldTimer := 0, gripWasHeld := false, triggerPressed := false,
      gripButtonDown := false, triggerButtonDown := false, hoveredWidget := none,
      hoverLockTimer := 0, panels := [⟨true, true, true, kFadeDuration, true⟩],
      events := [Event.toggleMenu] } := rfl

theorem resolveHover_enter [DecidableEq α] (m : VRMenuManager α) (n : α)
    (hh : m.hoveredWidget = none) :
    resolveHover (some n) m =
      { m with events := m.events ++ [Event.rayEnter n], hoveredWidget := some n,
               hoverLockTimer := kHoverLockTime } := by
  unfold resolveHover
  simp [hh]

/-- What the close branch dispatches to the still-hovered widget: an exit, then a release
when the trigger flag is set. -/
theorem clearHoverState_spec [DecidableEq α] (m : VRMenuManager α) :
    (clearHoverState m).events = m.events ++
      (match m.hoveredWidget with
        | some h => Event.rayExit h :: (if m.triggerPressed then [Event.triggerRelease h] else [])
        | none => []) ∧
    (clearHoverState m).hoveredWidget = none ∧
    (clearHoverState m).triggerPressed = false ∧
    (clearHoverState m).menuOpen = m.menuOpen := by
  unfold clearHoverState
  obtain hh | ⟨h, hh⟩ := Option.eq_none_or_eq_some m.hoveredWidget
  · simp [hh]
  · simp [hh]

/-- The close branch of the panel loop on a controller whose hover state is already clear
dispatches nothing more. -/
theorem togglePanels_cleared [DecidableEq α] (mh : Bool) (ps done : List PanelState)
    (m : VRMenuManager α) (ho : m.menuOpen = false) (hh : m.hoveredWidget = none)
    (ht : m.triggerPressed = false) :
    (togglePanels mh ps done m).events = m.events ∧
    (togglePanels mh ps done m).hoveredWidget = none ∧
    (togglePanels mh ps done m).triggerPressed = false := by
  induction ps generalizing done m with
  | nil => exact ⟨rfl, hh, ht⟩
  | cons p rest ih =>
    rw [togglePanels]
    simp only [ho, Bool.false_eq_true, if_false]
    obtain ⟨c1, c2, c3, c4⟩ := clearHoverState_spec m
    obtain ⟨i1, i2, i3⟩ := ih (done ++ [{ p.hide with attached := false }]) (clearHoverState m)
      (c4.trans ho) c2 c3
    refine ⟨?_, i2, i3⟩
    rw [i1, c1, hh]
    simp

/-- The close branch of the panel loop over at least one panel clears the hover state. -/
theorem togglePanels_close [DecidableEq α] (mh : Bool) (ps done : List PanelState)
    (m : VRMenuManager α) (ho : m.menuOpen = false) (hp : ps ≠ []) :
    (togglePanels mh ps done m).events = m.events ++
      (match m.hoveredWidget with
        | some h => Event.rayExit h :: (if m.triggerPressed then [Event.triggerRelease h] else [])
        | none => []) ∧
    (togglePanels mh ps done m).hoveredWidget = none ∧
    (togglePanels mh ps done m).triggerPressed = false := by
  obtain ⟨p, rest, rfl⟩ := List.exists_cons_of_ne_nil hp
  rw [togglePanels]
  simp only [ho, Bool.false_eq_true, if_false]
  obtain ⟨c1, c2, c3, c4⟩ := clearHoverState_spec m
  obtain ⟨i1, i2, i3⟩ := togglePanels_cleared mh rest (done ++ [{ p.hide with attached := false }])
    (clearHoverState m) (c4.trans ho) c2 c3
  exact ⟨i1.trans c1, i2, i3⟩

/-- Closing the menu of a controller with at least one registered panel: the call is
recorded, the still-hovered widget gets an exit and (with the trigger flag set) a release,
and the hover state is clear afterwards. -/
theorem toggleMenu_close [DecidableEq α] (mh : Bool) (m : VRMenuManager α)
    (ho : m.menuOpen = true) (hp : m.panels ≠ []) :
    (toggleMenu mh m).events = m.events ++ [Event.toggleMenu] ++
      (match m.hoveredWidget with
        | some h => Event.rayExit h :: (if m.triggerPressed then [Event.triggerRelease h] else [])
        | none => []) ∧
    (toggleMenu mh m).hoveredWidget = none ∧
    (toggleMenu mh m).triggerPressed = false ∧
    (toggleMenu mh m).menuOpen = false := by
  obtain ⟨_, _, _, f4, _⟩ := toggleMenu_fields mh m
  rw [f4, ho]
  obtain ⟨i1, i2, i3⟩ := togglePanels_close mh m.panels []
    ({ m with menuOpen := !m.menuOpen, events := m.events ++ [Event.toggleMenu] } :
      VRMenuManager α) (by simp [ho]) hp
  exact ⟨i1, i2, i3, rfl⟩

/-- Toggling the menu of a controller without registered panels only flips the open flag
and records the call. -/
theorem toggleMenu_noPanels [DecidableEq α] (mh : Bool) (m : VRMenuManager α)
    (hp : m.panels = []) :
    toggleMenu mh m = { m with menuOpen := !m.menuOpen, events := m.events ++ [Event.toggleMenu] } := by
  unfold toggleMenu
  simp only [hp]
  rw [togglePanels]

/-- A frame of `closeFrame` with the menu open: the lock timer is ticked, the hover
resolved, the trigger edge processed with the press handler that calls `toggleMenu()`,
and the panels updated. -/
theorem frameStep_closeFrame (m : VRMenuManager Nat) (b : Option Nat) (down : Bool) (dt : ℚ)
    (ho : m.menuOpen = true) :
    frameStep VRUISettings.defaults m (closeFrame b down dt) =
      { processTriggerInput (fun _ m' => toggleMenu true m') (resolveHover b
          { m with gripButtonDown := false, triggerButtonDown := down, gripHoldTimer := 0,
                   gripWasHeld := false,
                   hoverLockTimer := tickLock m.hoverLockTimer dt }) with
        panels := (processTriggerInput (fun _ m' => toggleMenu true m') (resolveHover b
          { m with gripButtonDown := false, triggerButtonDown := down, gripHoldTimer := 0,
                   gripWasHeld := false,
                   hoverLockTimer := tickLock m.hoverLockTimer dt })).panels.map
            (PanelState.update dt) } := by
  have ha := afterActivation_released VRUISettings.defaults m (closeFrame b down dt) rfl rfl
  have ho1 : (afterActivation VRUISettings.defaults m (closeFrame b down dt)).menuOpen
      = true := by
    rw [ha]; exact ho
  have ht : processTouchInput VRUISettings.defaults
      { m with gripButtonDown := false, triggerButtonDown := (closeFrame b down dt).triggerDown,
               gripHoldTimer := 0, gripWasHeld := false }
      ((closeFrame b down dt).touch m.panels)
      = resolveHover b
          { m with gripButtonDown := false, triggerButtonDown := down, gripHoldTimer := 0,
                   gripWasHeld := false,
                   hoverLockTimer := tickLock m.hoverLockTimer dt } := by
    unfold processTouchInput
    have hr : rawTouched VRUISettings.defaults ((closeFrame b down dt).touch m.panels) = b :=
      rawTouched_rayFrame b down dt m.panels
    rw [hr]
    rfl
  rw [frameStep_open _ _ _ ho1, ha]
  show (_ : VRMenuManager Nat) = _
  rw [ht]
  rfl

/-- The frame in which the trigger is pressed on the hovered "Close" button: the handler
runs `toggleMenu()` on the state that the edge detection left. -/
theorem frameStep_close_hovering :
    frameStep VRUISettings.defaults hoveringShown (closeFrame (some 0) true (1 / 8)) =
      { toggleMenu true pressedShown with
        panels := (toggleMenu true pressedShown).panels.map (PanelState.update (1 / 8)) } := by
  rw [frameStep_closeFrame _ _ _ _ rfl, resolveHover_same _ 0 rfl, processTriggerInput_eq]
  rfl

/-- The state after that frame: menu closed, nothing hovered, flag clear, and the calls
press, exit, release recorded for widget 0. -/
theorem frameStep_close_hovering_fields :
    (frameStep VRUISettings.defaults hoveringShown
      (closeFrame (some 0) true (1 / 8))).menuOpen = false ∧
    (frameStep VRUISettings.defaults hoveringShown
      (closeFrame (some 0) true (1 / 8))).hoveredWidget = none ∧
    (frameStep VRUISettings.defaults hoveringShown
      (closeFrame (some 0) true (1 / 8))).triggerPressed = false ∧
    (frameStep VRUISettings.defaults hoveringShown
      (closeFrame (some 0) true (1 / 8))).gripHoldTimer = 0 ∧
    (frameStep VRUISettings.defaults hoveringShown
      (closeFrame (some 0) true (1 / 8))).gripWasHeld = false ∧
    (frameStep VRUISettings.defaults hoveringShown
      (closeFrame (some 0) true (1 / 8))).events =
        [Event.triggerPress 0, Event.toggleMenu, Event.rayExit 0, Event.triggerRelease 0] := by
  obtain ⟨c1, c2, c3, c4⟩ := toggleMenu_close true pressedShown rfl
    (by simp [pressedShown, hoveringShown, openIdle, idle])
  obtain ⟨f1, f2, _, _, _⟩ := toggleMenu_fields true pressedShown
  rw [frameStep_close_hovering]
  exact ⟨c4, c2, c3, f1, f2, c1⟩

/-- The activation step of a frame in which the `float` hold timer reaches the hold time
for the first time of the hold. -/
theorem processActivationInput_fire [DecidableEq α] (s : VRUISettings) (mh : Bool) (dt : ℚ)
    (m : VRMenuManager α) (hg : m.gripButtonDown = true)
    (hfire : s.activationHoldTime ≤ F32.round (m.gripHoldTimer + dt))
    (hw : m.gripWasHeld = false) :
    processActivationInput s true mh dt m =
      toggleMenu mh
        { m with gripHoldTimer := F32.round (m.gripHoldTimer + dt), gripWasHeld := true } := by
  unfold processActivationInput
  simp [hg, hfire, hw]

theorem round_half : F32.round (0 + 1 / 2 : ℚ) = 1 / 2 := by
  rw [F32.round_of_eq _ 1 (-1) (by norm_num) (by norm_num) (by norm_num)]
  norm_num

/-- A frame of 1/2 s with the grip held, on a closed menu with nothing hovered and the
trigger flag clear while the trigger signal is held: the hold gesture opens the menu, the
ray enters widget 0, and a press is dispatched. -/
theorem frameStep_gripFrame_reopen (m : VRMenuManager Nat) (hm : m.menuOpen = false)
    (hh : m.hoveredWidget = none) (ht : m.triggerPressed = false) (h0 : m.gripHoldTimer = 0)
    (hw : m.gripWasHeld = false) :
    (afterActivation VRUISettings.defaults m (gripFrame (some 0) true (1 / 2))).menuOpen
      = true ∧
    pressCount (frameStep VRUISettings.defaults m (gripFrame (some 0) true (1 / 2)))
      = pressCount m + 1 := by
  have hact : afterActivation VRUISettings.defaults m (gripFrame (some 0) true (1 / 2))
      = toggleMenu true
          { m with gripButtonDown := true, triggerButtonDown := true,
                   gripHoldTimer := F32.round (m.gripHoldTimer + 1 / 2),
                   gripWasHeld := true } := by
    have hge : VRUISettings.defaults.activationHoldTime
        ≤ F32.round (m.gripHoldTimer + 1 / 2) := by
      rw [h0, round_half]
      norm_num [VRUISettings.defaults]
    exact processActivationInput_fire VRUISettings.defaults true (1 / 2)
      (onTriggerButtonChanged true (onGripButtonChanged true m)) rfl hge hw
  obtain ⟨_, _, _, f4, _⟩ := toggleMenu_fields true
    ({ m with gripButtonDown := true, triggerButtonDown := true,
              gripHoldTimer := F32.round (m.gripHoldTimer + 1 / 2),
              gripWasHeld := true } : VRMenuManager Nat)
  have hopen : (afterActivation VRUISettings.defaults m
      (gripFrame (some 0) true (1 / 2))).menuOpen = true := by
    rw [hact, f4]
    show (!m.menuOpen) = true
    rw [hm]; rfl
  obtain ⟨k1, _, k3, k4⟩ := toggleMenu_keeps true
    ({ m with gripButtonDown := true, triggerButtonDown := true,
              gripHoldTimer := F32.round (m.gripHoldTimer + 1 / 2),
              gripWasHeld := true } : VRMenuManager Nat)
  rw [← hact] at k1 k3 k4
  obtain ⟨k5, k6, _⟩ := k4 hopen
  obtain ⟨t1, t2, _, _, t5, _⟩ := processTouchInput_keeps VRUISettings.defaults
    (afterActivation VRUISettings.defaults m (gripFrame (some 0) true (1 / 2)))
    ((gripFrame (some 0) true (1 / 2)).touch
      (afterActivation VRUISettings.defaults m (gripFrame (some 0) true (1 / 2))).panels)
  have hhov : (processTouchInput VRUISettings.defaults
      (afterActivation VRUISettings.defaults m (gripFrame (some 0) true (1 / 2)))
      ((gripFrame (some 0) true (1 / 2)).touch
        (afterActivation VRUISettings.defaults m
          (gripFrame (some 0) true (1 / 2))).panels)).hoveredWidget = some 0 := by
    rw [processTouchInput_of_hand _ _ _ rfl]
    have hr : rawTouched VRUISettings.defaults ((gripFrame (some 0) true (1 / 2)).touch
        (afterActivation VRUISettings.defaults m
          (gripFrame (some 0) true (1 / 2))).panels) = some 0 :=
      rawTouched_rayFrame (some 0) true (1 / 2)
        (afterActivation VRUISettings.defaults m (gripFrame (some 0) true (1 / 2))).panels
    rw [hr, resolveHover_enter]
    exact k6.trans hh
  refine ⟨hopen, ?_⟩
  rw [frameStep_open _ _ _ hopen]
  show pressCount (processTriggerInput (gripFrame (some 0) true (1 / 2)).onPress _) = _
  rw [processTriggerInput_inert (gripFrame (some 0) true (1 / 2)).onPress _ (fun _ _ => rfl)]
  show List.countP Event.isPress (_ ++ triggerEdge _) = _
  have hedge : triggerEdge (processTouchInput VRUISettings.defaults
      (afterActivation VRUISettings.defaults m (gripFrame (some 0) true (1 / 2)))
      ((gripFrame (some 0) true (1 / 2)).touch
        (afterActivation VRUISettings.defaults m
          (gripFrame (some 0) true (1 / 2))).panels)) = [Event.triggerPress 0] := by
    unfold triggerEdge
    rw [t1, t2, k1, k5, ht, hhov]
    rfl
  rw [hedge, List.countP_append]
  unfold pressCount at t5 k3
  rw [t5, k3]
  rfl

/-- C11 fails as stated: the menu is open over one panel, the button 0 with the press
handler of the "Close" slot is hovered, the stored flag is clear, and a frame samples the
trigger as held.  The press is dispatched, its handler calls `toggleMenu()`, and the close
dispatches an exit and a release to the button and clears the flag: a release is
dispatched in a frame that samples the signal as true, and the stored flag is false
afterwards.  In the next frame the grip gesture re-opens the menu while the trigger is
still held, and a second press is dispatched. -/
theorem C11_counterexample :
    OpenRun VRUISettings.defaults hoveringShown
      [closeFrame (some 0) true (1 / 8), gripFrame (some 0) true (1 / 2)] ∧
    (∀ f ∈ [closeFrame (some 0) true (1 / 8), gripFrame (some 0) true (1 / 2)],
      f.triggerDown = true) ∧
    hoveringShown.triggerPressed = false ∧
    (frameStep VRUISettings.defaults hoveringShown
      (closeFrame (some 0) true (1 / 8))).triggerPressed = false ∧
    triggerCalls (frameStep VRUISettings.defaults hoveringShown
      (closeFrame (some 0) true (1 / 8))) = [Event.triggerPress 0, Event.triggerRelease 0] ∧
    pressCount (runFrames VRUISettings.defaults hoveringShown
      [closeFrame (some 0) true (1 / 8), gripFrame (some 0) true (1 / 2)]) = 2 := by
  obtain ⟨e1, e2, e3, e4, e5, e6⟩ := frameStep_close_hovering_fields
  obtain ⟨g1, g2⟩ := frameStep_gripFrame_reopen _ e1 e2 e3 e4 e5
  have ho1 : (afterActivation VRUISettings.defaults hoveringShown
      (closeFrame (some 0) true (1 / 8))).menuOpen = true := by
    rw [afterActivation_released _ _ _ rfl rfl]; rfl
  refine ⟨⟨ho1, g1, trivial⟩, ?_, rfl, e3, ?_, ?_⟩
  · intro f hf
    simp only [List.mem_cons, List.mem_singleton, List.not_mem_nil, or_false] at hf
    rcases hf with e | e <;> rw [e] <;> rfl
  · unfold triggerCalls
    rw [e6]; rfl
  · show pressCount (frameStep _ (frameStep _ _ _) _) = 2
    rw [g2]
    unfold pressCount
    rw [e6]; rfl

/-- C11, amended: in a frame processed with the menu open whose press handlers change at
most panel flags (they do not call `toggleMenu()`), the trigger calls dispatched are
exactly those of the edge detection: `onTriggerPress` to the hovered widget when the
sampled signal is true and the stored flag false, `onTriggerRelease` to the hovered widget
when the signal is false and the flag true, none otherwise (and none without a hovered
widget); the stored flag equals the sampled signal afterwards; and over further such
frames processed with the menu open while the trigger stays held, at most one press is
dispatched in all. -/
theorem C11_trigger_edges [DecidableEq α] (s : VRUISettings) (m : VRMenuManager α)
    (fr : Frame α) (frames : List (Frame α)) (hopen : OpenRun s m (fr :: frames))
    (hflags : ∀ f ∈ fr :: frames, f.flagHandlers)
    (hheld : ∀ f ∈ frames, f.triggerDown = true) :
    triggerCalls (frameStep s m fr) = triggerCalls m ++
      (if fr.triggerDown = true ∧ m.triggerPressed = false then
        ((processTouchInput s (afterActivation s m fr)
          (fr.touch (afterActivation s m fr).panels)).hoveredWidget.map
            Event.triggerPress).toList
      else if fr.triggerDown = false ∧ m.triggerPressed = true then
        ((processTouchInput s (afterActivation s m fr)
          (fr.touch (afterActivation s m fr).panels)).hoveredWidget.map
            Event.triggerRelease).toList
      else []) ∧
    (frameStep s m fr).hoveredWidget = (processTouchInput s (afterActivation s m fr)
      (fr.touch (afterActivation s m fr).panels)).hoveredWidget ∧
    (frameStep s m fr).triggerPressed = fr.triggerDown ∧
    (fr.triggerDown = true →
      pressCount (runFrames s m (fr :: frames)) ≤ pressCount m + 1) := by
  obtain ⟨t1, t2, t3⟩ := frameStep_triggerCalls s m fr hopen.1
    (hflags fr (List.mem_cons_self _ _))
  refine ⟨t1, t2, t3, fun hd => ?_⟩
  refine (openRun_held s (fr :: frames) m hopen hflags ?_).1
  intro f hf
  rcases List.mem_cons.mp hf with h | h
  · rw [h]; exact hd
  · exact hheld f h

/-- C11, at a sample: widget 0 is hovered, the stored flag is clear, and two frames of 1/8 s
keep the ray on widget 0 with the trigger held, the press handlers leaving the controller
alone: the first frame dispatches one press to widget 0, and both frames together dispatch
one press. -/
theorem C11_trigger_edges_witness :
    OpenRun VRUISettings.defaults (hovering 0 kHoverLockTime)
      [rayFrame (some 0) true (1 / 8), rayFrame (some 0) true (1 / 8)] ∧
    (∀ f ∈ [rayFrame (some 0) true (1 / 8), rayFrame (some 0) true (1 / 8)],
      f.flagHandlers) ∧
    triggerCalls (frameStep VRUISettings.defaults (hovering 0 kHoverLockTime)
      (rayFrame (some 0) true (1 / 8))) = [Event.triggerPress 0] ∧
    pressCount (runFrames VRUISettings.defaults (hovering 0 kHoverLockTime)
      [rayFrame (some 0) true (1 / 8), rayFrame (some 0) true (1 / 8)]) ≤ 1 := by
  have ha : afterActivation VRUISettings.defaults (hovering 0 kHoverLockTime)
      (rayFrame (some 0) true (1 / 8)) =
      { hovering 0 kHoverLockTime with triggerButtonDown := true } :=
    afterActivation_released _ _ _ rfl rfl
  have ho : OpenRun VRUISettings.defaults (hovering 0 kHoverLockTime)
      [rayFrame (some 0) true (1 / 8), rayFrame (some 0) true (1 / 8)] := by
    refine ⟨by rw [ha]; rfl, ?_, trivial⟩
    rw [afterActivation_released _ _ _ rfl rfl]
    exact frameStep_menuOpen_released _ _ _ rfl rfl (rayFrame_flagHandlers _ _ _)
  have hfl : ∀ f ∈ [rayFrame (some 0) true (1 / 8), rayFrame (some 0) true (1 / 8)],
      f.flagHandlers := by
    intro f hf
    simp only [List.mem_cons, List.mem_singleton, List.not_mem_nil, or_false, or_self] at hf
    rw [hf]
    exact rayFrame_flagHandlers _ _ _
  have h := C11_trigger_edges VRUISettings.defaults (hovering 0 kHoverLockTime)
    (rayFrame (some 0) true (1 / 8)) [rayFrame (some 0) true (1 / 8)] ho hfl
    (by intro f hf; rw [List.mem_singleton.mp hf]; rfl)
  have hdue : (processTouchInput VRUISettings.defaults
      (afterActivation VRUISettings.defaults (hovering 0 kHoverLockTime)
        (rayFrame (some 0) true (1 / 8)))
      ((rayFrame (some 0) true (1 / 8)).touch
        (afterActivation VRUISettings.defaults (hovering 0 kHoverLockTime)
          (rayFrame (some 0) true (1 / 8))).panels)).hoveredWidget = some 0 := by
    rw [ha]
    refine (processTouchInput_locked _ _ _ 0 rfl ?_).1
    show 0 < tickLock kHoverLockTime (1 / 8)
    rw [tickLock_eighth]
    norm_num
  refine ⟨ho, hfl, ?_, h.2.2.2 rfl⟩
  rw [h.1, hdue]
  rfl

/-- C12, evaluated on controllers without a registered panel.  With widget 0 hovered and the
trigger flag set (`heldOpen`), `toggleMenu()` closes the menu but the hovered widget is
still widget 0 and the flag is still set.  The same for a controller that never had a
panel (`closedWithoutPanels`): the menu is opened, a frame samples the trigger as held, the
menu is closed, and the stored trigger flag is still set. -/
theorem C12_close_without_panels :
    heldOpen.menuOpen = true ∧ heldOpen.panels = [] ∧
    (toggleMenu true heldOpen).menuOpen = false ∧
    (toggleMenu true heldOpen).hoveredWidget = some 0 ∧
    (toggleMenu true heldOpen).triggerPressed = true ∧
    closedWithoutPanels.menuOpen = false ∧
    closedWithoutPanels.hoveredWidget = none ∧
    closedWithoutPanels.triggerPressed = true := by
  refine ⟨rfl, rfl, rfl, rfl, rfl, ?_, ?_, ?_⟩
  all_goals
    rw [closedWithoutPanels, toggleMenu_noPanels true (idle []) rfl,
      frameStep_rayFrame _ _ _ _ rfl, resolveHover_none _ rfl]
    simp [toggleMenu, togglePanels, processTriggerInput, toHovered, idle]

end VRMenuManager
namespace VRUIButton

variable {α : Type}

theorem getState_append [DecidableEq α] (l l' : List (Event α)) (b : α) :
    getState (l ++ l') b = l'.foldl (receive b) (getState l b) := by
  simp [getState, List.foldl_append]

/-- An exit leaves no button `Hovered` that it is addressed to. -/
theorem receive_rayExit_self [DecidableEq α] (b : α) (st : ButtonState) :
    receive b st (Event.rayExit b) ≠ ButtonState.Hovered := by
  cases st <;> simp [receive, onRayExit, setState]

theorem receive_other [DecidableEq α] (b : α) (st : ButtonState) (e : Event α)
    (h : ∀ w, e ≠ Event.rayEnter w) (hst : st ≠ ButtonState.Hovered) :
    receive b st e ≠ ButtonState.Hovered := by
  cases e with
  | rayEnter w => exact absurd rfl (h w)
  | rayExit w => cases st <;> by_cases hw : w = b <;> simp_all [receive, onRayExit, setState]
  | triggerPress w =>
    cases st <;> by_cases hw : w = b <;> simp_all [receive, onTriggerPress, setState]
  | triggerRelease w =>
    cases st <;> by_cases hw : w = b <;> simp_all [receive, onTriggerRelease, setState]
  | toggleMenu => simpa [receive] using hst

end VRUIButton

namespace VRMenuManager

variable {α : Type}

open VRUIButton

theorem hoverInv_congr [DecidableEq α] (m m' : VRMenuManager α) (hInv : HoverInv m)
    (he : m'.events = m.events) (hh : m'.hoveredWidget = m.hoveredWidget) : HoverInv m' := by
  intro b hb
  rw [he] at hb
  rw [hh]
  exact hInv b hb

theorem hoverInv_resolveHover [DecidableEq α] (t : Option α) (m : VRMenuManager α)
    (hInv : HoverInv m) : HoverInv (resolveHover t m) := by
  obtain ⟨x, h | ⟨hne, h⟩⟩ := resolveHover_cases t m
  · rw [h]; exact hoverInv_congr m _ hInv rfl rfl
  · rw [h]
    intro b hb
    have hI := hInv b
    simp only [getState_append] at hb
    show t = some b
    obtain ho | ⟨o, ho⟩ := Option.eq_none_or_eq_some m.hoveredWidget
    · rw [ho] at hb hne hI
      cases t with
      | none => exact absurd rfl hne
      | some n =>
        by_cases hn : n = b
        · rw [hn]
        · cases hst : getState m.events b <;>
            simp_all [receive, onRayEnter, setState]
    · rw [ho] at hb hne hI
      cases t with
      | none =>
        by_cases hob : o = b
        · cases hst : getState m.events b <;>
            simp_all [receive, onRayExit, setState]
        · cases hst : getState m.events b <;>
            simp_all [receive, onRayExit, setState]
      | some n =>
        by_cases hn : n = b
        · rw [hn]
        · by_cases hob : o = b
          · cases hst : getState m.events b <;>
              simp_all [receive, onRayExit, onRayEnter, setState]
          · cases hst : getState m.events b <;>
              simp_all [receive, onRayExit, onRayEnter, setState]

theorem hoverInv_processTouchInput [DecidableEq α] (s : VRUISettings) (m : VRMenuManager α)
    (fr : TouchFrame α) (hInv : HoverInv m) : HoverInv (processTouchInput s m fr) := by
  unfold processTouchInput
  split
  · exact hInv
  · exact hoverInv_resolveHover _ _ (hoverInv_congr m _ hInv rfl rfl)

theorem hoverInv_afterEdge [DecidableEq α] (m : VRMenuManager α)
    (hInv : HoverInv m) : HoverInv (afterEdge m) := by
  have p1 : (afterEdge m).events = m.events ++ triggerEdge m := rfl
  have p3 : (afterEdge m).hoveredWidget = m.hoveredWidget := rfl
  intro b hb
  rw [p3]
  rw [p1, getState_append] at hb
  have hI := hInv b
  unfold triggerEdge at hb
  obtain ho | ⟨o, ho⟩ := Option.eq_none_or_eq_some m.hoveredWidget
  · rw [ho] at hb
    apply hI
    cases m.triggerButtonDown <;> cases m.triggerPressed <;> simpa using hb
  · rw [ho] at hb ⊢
    by_cases hob : o = b
    · rw [hob]
    · rw [ho] at hI
      cases hd : m.triggerButtonDown <;> cases hp : m.triggerPressed <;>
        cases hst : getState m.events b <;>
        simp_all [receive, onTriggerPress, onTriggerRelease, setState]

theorem hoverInv_toggleMenu [DecidableEq α] (mh : Bool) (m : VRMenuManager α)
    (hInv : HoverInv m) : HoverInv (toggleMenu mh m) := by
  have hInv1 : HoverInv
      ({ m with menuOpen := !m.menuOpen, events := m.events ++ [Event.toggleMenu] } :
        VRMenuManager α) := by
    intro b hb
    apply hInv b
    simpa [getState_append, receive] using hb
  cases ho : m.menuOpen with
  | false =>
    obtain ⟨_, o2, o3⟩ := togglePanels_open mh m.panels []
      ({ m with menuOpen := !m.menuOpen, events := m.events ++ [Event.toggleMenu] } :
        VRMenuManager α) (by simp [ho])
    exact hoverInv_congr _ _ hInv1 o3 o2
  | true =>
    by_cases hp : m.panels = []
    · rw [toggleMenu_noPanels mh m hp]
      exact hInv1
    · obtain ⟨c1, c2, _, _⟩ := toggleMenu_close mh m ho hp
      intro b hb
      exfalso
      rw [c1, getState_append, getState_append] at hb
      have hI := hInv b
      obtain hh | ⟨o, hh⟩ := Option.eq_none_or_eq_some m.hoveredWidget
      · rw [hh] at hb hI
        cases hst : getState m.events b <;> simp_all [receive]
      · rw [hh] at hb hI
        by_cases hob : o = b
        · cases hst : getState m.events b <;> cases htp : m.triggerPressed <;>
            simp_all [receive, onRayExit, onTriggerRelease, setState]
        · cases hst : getState m.events b <;> cases htp : m.triggerPressed <;>
            simp_all [receive, onRayExit, onTriggerRelease, setState]

theorem hoverInv_processTriggerInput [DecidableEq α]
    (onPress : α → VRMenuManager α → VRMenuManager α) (m : VRMenuManager α)
    (h : ∀ (w : α) (m' : VRMenuManager α),
      (∃ ps : List PanelState, ps.length = m'.panels.length ∧
        onPress w m' = { m' with panels := ps }) ∨
      ∃ mh : Bool, onPress w m' = toggleMenu mh m')
    (hInv : HoverInv m) : HoverInv (processTriggerInput onPress m) := by
  rcases processTriggerInput_plugin onPress m h with ⟨ps, _, e⟩ | ⟨mh, e⟩
  · rw [e]
    exact hoverInv_congr _ _ (hoverInv_afterEdge m hInv) rfl rfl
  · rw [e]
    exact hoverInv_toggleMenu mh _ (hoverInv_afterEdge m hInv)

theorem hoverInv_processActivationInput [DecidableEq α] (s : VRUISettings) (cm mh : Bool)
    (dt : ℚ) (m : VRMenuManager α) (hInv : HoverInv m) :
    HoverInv (processActivationInput s cm mh dt m) := by
  obtain ⟨t, w, h | h⟩ := processActivationInput_cases s cm mh dt m
  · rw [h]; exact hoverInv_congr m _ hInv rfl rfl
  · rw [h]; exact hoverInv_toggleMenu mh _ (hoverInv_congr m _ hInv rfl rfl)

theorem hoverInv_frameStep [DecidableEq α] (s : VRUISettings) (m : VRMenuManager α)
    (fr : Frame α) (hpl : fr.pluginHandlers) (hInv : HoverInv m) :
    HoverInv (frameStep s m fr) := by
  have ha : HoverInv (afterActivation s m fr) :=
    hoverInv_processActivationInput s _ _ _ _ (hoverInv_congr m _ hInv rfl rfl)
  cases ho : (afterActivation s m fr).menuOpen with
  | true =>
    rw [frameStep_open s m fr ho]
    exact hoverInv_congr _ _
      (hoverInv_processTriggerInput _ _ hpl (hoverInv_processTouchInput s _ _ ha)) rfl rfl
  | false =>
    rw [frameStep_closed s m fr ho]
    exact hoverInv_congr _ _ ha rfl rfl

theorem hoverInv_runFrames [DecidableEq α] (s : VRUISettings) (frames : List (Frame α)) :
    ∀ m : VRMenuManager α, (∀ f ∈ frames, f.pluginHandlers) → HoverInv m →
      HoverInv (runFrames s m frames) := by
  induction frames with
  | nil => intro m _ h; exact h
  | cons fr rest ih =>
    intro m hpl h
    exact ih _ (fun f hf => hpl f (List.mem_cons_of_mem _ hf))
      (hoverInv_frameStep s m fr (hpl fr (List.mem_cons_self _ _)) h)

theorem frameStep_panels_length [DecidableEq α] (s : VRUISettings) (m : VRMenuManager α)
    (fr : Frame α) (hpl : fr.pluginHandlers) :
    (frameStep s m fr).panels.length = m.panels.length := by
  obtain ⟨_, a2, _, _⟩ := processActivationInput_keeps s fr.controlMapPresent
    fr.menuHandPresent fr.deltaTime
    (onTriggerButtonChanged fr.triggerDown (onGripButtonChanged fr.gripHeld m))
  have ha : (afterActivation s m fr).panels.length = m.panels.length := a2
  cases ho : (afterActivation s m fr).menuOpen with
  | true =>
    rw [frameStep_open s m fr ho]
    have p5 : (processTriggerInput fr.onPress (processTouchInput s
        (afterActivation s m fr) (fr.touch (afterActivation s m fr).panels))).panels.length
        = (processTouchInput s (afterActivation s m fr)
          (fr.touch (afterActivation s m fr).panels)).panels.length := by
      rcases processTriggerInput_plugin fr.onPress (processTouchInput s
        (afterActivation s m fr) (fr.touch (afterActivation s m fr).panels)) hpl with
        ⟨ps, hl, e⟩ | ⟨mh, e⟩
      · rw [e]; exact hl
      · rw [e]; exact (toggleMenu_keeps mh _).2.1
    obtain ⟨_, _, _, t4, _, _⟩ := processTouchInput_keeps s (afterActivation s m fr)
      (fr.touch (afterActivation s m fr).panels)
    show (List.map _ _).length = _
    rw [List.length_map, p5, t4, ha]
  | false =>
    rw [frameStep_closed s m fr ho]
    show (List.map _ _).length = _
    rw [List.length_map, ha]

theorem runFrames_panels_length [DecidableEq α] (s : VRUISettings) (frames : List (Frame α)) :
    ∀ m : VRMenuManager α, (∀ f ∈ frames, f.pluginHandlers) →
      (runFrames s m frames).panels.length = m.panels.length := by
  induction frames with
  | nil => intro m _; rfl
  | cons fr rest ih =>
    intro m hpl
    exact (ih (frameStep s m fr) (fun f hf => hpl f (List.mem_cons_of_mem _ hf))).trans
      (frameStep_panels_length s m fr (hpl fr (List.mem_cons_self _ _)))

theorem draggedOff_before_close :
    runFrames VRUISettings.defaults (toggleMenu true (idle [freshPanel]))
      [rayFrame (some 0) false (1 / 10), rayFrame (some 0) true (1 / 10),
       rayFrame (some 1) true (2 / 10)] =
    { menuOpen := true, gripHoldTimer := 0, gripWasHeld := false, triggerPressed := true,
      gripButtonDown := false, triggerButtonDown := true, hoveredWidget := some 1,
      hoverLockTimer := kHoverLockTime,
      panels := (([⟨true, true, true, kFadeDuration, true⟩].map
        (PanelState.update (1 / 10))).map (PanelState.update (1 / 10))).map
          (PanelState.update (2 / 10)),
      events := [Event.toggleMenu, Event.rayEnter 0, Event.triggerPress 0, Event.rayExit 0,
        Event.rayEnter 1] } := by
  have step1 : ∀ ps : List PanelState, frameStep VRUISettings.defaults
      { menuOpen := true, gripHoldTimer := 0, gripWasHeld := false, triggerPressed := false,
        gripButtonDown := false, triggerButtonDown := false, hoveredWidget := none,
        hoverLockTimer := 0, panels := ps, events := [Event.toggleMenu] }
      (rayFrame (some 0) false (1 / 10)) =
      { menuOpen := true, gripHoldTimer := 0, gripWasHeld := false, triggerPressed := false,
        gripButtonDown := false, triggerButtonDown := false, hoveredWidget := some 0,
        hoverLockTimer := kHoverLockTime, panels := ps.map (PanelState.update (1 / 10)),
        events := [Event.toggleMenu, Event.rayEnter 0] } := by
    intro ps
    rw [frameStep_rayFrame _ _ _ _ rfl, resolveHover_enter _ _ rfl]
    simp [processTriggerInput, toHovered]
  have step2 : ∀ ps : List PanelState, frameStep VRUISettings.defaults
      { menuOpen := true, gripHoldTimer := 0, gripWasHeld := false, triggerPressed := false,
        gripButtonDown := false, triggerButtonDown := false, hoveredWidget := some 0,
        hoverLockTimer := kHoverLockTime, panels := ps,
        events := [Event.toggleMenu, Event.rayEnter 0] }
      (rayFrame (some 0) true (1 / 10)) =
      { menuOpen := true, gripHoldTimer := 0, gripWasHeld := false, triggerPressed := true,
        gripButtonDown := false, triggerButtonDown := true, hoveredWidget := some 0,
        hoverLockTimer := kHoverLockTime, panels := ps.map (PanelState.update (1 / 10)),
        events := [Event.toggleMenu, Event.rayEnter 0, Event.triggerPress 0] } := by
    intro ps
    rw [frameStep_rayFrame _ _ _ _ rfl, resolveHover_same _ 0 rfl]
    simp [processTriggerInput, toHovered]
  have step3 : ∀ ps : List PanelState, frameStep VRUISettings.defaults
      { menuOpen := true, gripHoldTimer := 0, gripWasHeld := false, triggerPressed := true,
        gripButtonDown := false, triggerButtonDown := true, hoveredWidget := some 0,
        hoverLockTimer := kHoverLockTime, panels := ps,
        events := [Event.toggleMenu, Event.rayEnter 0, Event.triggerPress 0] }
      (rayFrame (some 1) true (2 / 10)) =
      { menuOpen := true, gripHoldTimer := 0, gripWasHeld := false, triggerPressed := true,
        gripButtonDown := false, triggerButtonDown := true, hoveredWidget := some 1,
        hoverLockTimer := kHoverLockTime, panels := ps.map (PanelState.update (2 / 10)),
        events := [Event.toggleMenu, Event.rayEnter 0, Event.triggerPress 0, Event.rayExit 0,
          Event.rayEnter 1] } := by
    intro ps
    have hexp : tickLock kHoverLockTime (2 / 10) ≤ 0 := by
      rw [tickLock_of_pos _ _ (by norm_num [kHoverLockTime])]
      exact F32.round_nonpos (by norm_num [kHoverLockTime])
    rw [frameStep_rayFrame _ _ _ _ rfl, resolveHover_expired _ _ 0 rfl (by simp) hexp]
    simp [processTriggerInput, toHovered]
  show frameStep _ (frameStep _ (frameStep _ _ _) _) _ = _
  rw [opened_eq, step1, step2, step3]

/-- C13 fails as stated: with one registered panel, the ray enters button 0, the trigger is
pressed on it, the ray moves on to button 1 while the trigger stays held, and the menu is
closed.  The close sends the exit and the release to button 1; button 0, which got its exit
while pressed, is still in state `Pressed` after the close. -/
theorem C13_counterexample :
    draggedOff.menuOpen = false ∧ draggedOff.hoveredWidget = none ∧
    draggedOff.events =
      [Event.toggleMenu, Event.rayEnter 0, Event.triggerPress 0, Event.rayExit 0,
        Event.rayEnter 1, Event.toggleMenu, Event.rayExit 1, Event.triggerRelease 1] ∧
    VRUIButton.getState draggedOff.events 0 = ButtonState.Pressed ∧
    VRUIButton.getState draggedOff.events 0 ≠ ButtonState.Normal := by
  have hb := draggedOff_before_close
  obtain ⟨c1, c2, _, c4⟩ := toggleMenu_close true
    (runFrames VRUISettings.defaults (toggleMenu true (idle [freshPanel]))
      [rayFrame (some 0) false (1 / 10), rayFrame (some 0) true (1 / 10),
       rayFrame (some 1) true (2 / 10)]) (by rw [hb]) (by rw [hb]; simp)
  have he : draggedOff.events =
      [Event.toggleMenu, Event.rayEnter 0, Event.triggerPress 0, Event.rayExit 0,
        Event.rayEnter 1, Event.toggleMenu, Event.rayExit 1, Event.triggerRelease 1] := by
    rw [draggedOff, c1, hb]
    rfl
  refine ⟨c4, c2, he, ?_, ?_⟩
  · rw [he]; decide
  · rw [he]; decide

/-- C13, amended: after any run of frames, with press handlers that change at most panel
flags or call `toggleMenu()`, from a controller with at least one registered panel and no
call dispatched yet, a `toggleMenu()` that closes the menu dispatches an exit
to the still-hovered widget, then a release when the trigger flag is set, and leaves no
hovered widget, the trigger flag clear, and no button in state `Hovered`; a button is
`Pressed` afterwards exactly when it was `Pressed` before and the close did not release it
(it was not the hovered widget with the trigger flag set). -/
theorem C13_no_hover_across_close [DecidableEq α] (s : VRUISettings) (m0 : VRMenuManager α)
    (frames : List (Frame α)) (mh : Bool) (hstart : m0.events = []) (hp : m0.panels ≠ [])
    (hpl : ∀ f ∈ frames, f.pluginHandlers)
    (ho : (runFrames s m0 frames).menuOpen = true) :
    (toggleMenu mh (runFrames s m0 frames)).menuOpen = false ∧
    (toggleMenu mh (runFrames s m0 frames)).hoveredWidget = none ∧
    (toggleMenu mh (runFrames s m0 frames)).triggerPressed = false ∧
    (toggleMenu mh (runFrames s m0 frames)).events =
      (runFrames s m0 frames).events ++ [Event.toggleMenu] ++
        (match (runFrames s m0 frames).hoveredWidget with
          | some h => Event.rayExit h ::
              (if (runFrames s m0 frames).triggerPressed then [Event.triggerRelease h] else [])
          | none => []) ∧
    (∀ b, getState (toggleMenu mh (runFrames s m0 frames)).events b ≠ ButtonState.Hovered) ∧
    (∀ b, getState (toggleMenu mh (runFrames s m0 frames)).events b = ButtonState.Pressed ↔
      (getState (runFrames s m0 frames).events b = ButtonState.Pressed ∧
        ¬ ((runFrames s m0 frames).hoveredWidget = some b ∧
            (runFrames s m0 frames).triggerPressed = true))) := by
  have hInv0 : HoverInv m0 := by
    intro b hb
    rw [hstart] at hb
    simp [getState] at hb
  have hInv := hoverInv_runFrames s frames m0 hpl hInv0
  have hp' : (runFrames s m0 frames).panels ≠ [] := by
    intro h
    have hl := runFrames_panels_length s frames m0 hpl
    rw [h] at hl
    exact hp (List.length_eq_zero.mp hl.symm)
  obtain ⟨c1, c2, c3, c4⟩ := toggleMenu_close mh (runFrames s m0 frames) ho hp'
  have hInv' := hoverInv_toggleMenu mh _ hInv
  refine ⟨c4, c2, c3, c1, ?_, ?_⟩
  · intro b hb
    have := hInv' b hb
    rw [c2] at this
    exact absurd this (by simp)
  · intro b
    rw [c1, getState_append, getState_append]
    obtain hh | ⟨o, hh⟩ := Option.eq_none_or_eq_some (runFrames s m0 frames).hoveredWidget
    · rw [hh]
      simp [receive]
    · rw [hh]
      by_cases hob : o = b
      · cases hst : getState (runFrames s m0 frames).events b <;>
          cases htp : (runFrames s m0 frames).triggerPressed <;>
          simp [receive, onRayExit, onTriggerRelease, setState, hob]
      · cases hst : getState (runFrames s m0 frames).events b <;>
          cases htp : (runFrames s m0 frames).triggerPressed <;>
          simp [receive, onRayExit, onTriggerRelease, setState, hob]

/-- C13 (amended), at a sample: one shown panel, one frame in which the ray enters button 0,
then the close: button 0 got its exit and no button is hovered. -/
theorem C13_no_hover_across_close_witness :
    openIdle.events = [] ∧ openIdle.panels ≠ [] ∧
    (∀ f ∈ [rayFrame (some 0) false (1 / 8)], f.pluginHandlers) ∧
    (runFrames VRUISettings.defaults openIdle [rayFrame (some 0) false (1 / 8)]).menuOpen
      = true ∧
    (toggleMenu true (runFrames VRUISettings.defaults openIdle
      [rayFrame (some 0) false (1 / 8)])).hoveredWidget = none ∧
    (∀ b, getState (toggleMenu true (runFrames VRUISettings.defaults openIdle
      [rayFrame (some 0) false (1 / 8)])).events b ≠ ButtonState.Hovered) := by
  have ho : (runFrames VRUISettings.defaults openIdle
      [rayFrame (some 0) false (1 / 8)]).menuOpen = true :=
    frameStep_menuOpen_released _ _ _ rfl rfl (rayFrame_flagHandlers _ _ _)
  have hp : openIdle.panels ≠ [] := by simp [openIdle, idle]
  have hpl : ∀ f ∈ [rayFrame (some 0) false (1 / 8)], f.pluginHandlers := by
    intro f hf
    rw [List.mem_singleton.mp hf]
    exact rayFrame_pluginHandlers _ _ _
  have h := C13_no_hover_across_close VRUISettings.defaults openIdle
    [rayFrame (some 0) false (1 / 8)] true rfl hp hpl ho
  exact ⟨rfl, hp, hpl, ho, h.2.1, h.2.2.2.2.1⟩

end VRMenuManager
namespace VRMenuManager

variable {α : Type}

/-- A frame with the grip released and the dominant hand found, menu open: the lock timer
is ticked, the hover resolved against the raw touched widget, the trigger edge processed
and the panels updated. -/
theorem frameStep_released [DecidableEq α] (s : VRUISettings) (m : VRMenuManager α)
    (fr : Frame α) (hg : fr.gripHeld = false) (hcm : fr.controlMapPresent = true)
    (hh : fr.handPresent = true) (ho : m.menuOpen = true)
    (hin : ∀ w m', fr.onPress w m' = m') :
    frameStep s m fr =
      { processTriggerInput fr.onPress (resolveHover (rawTouched s (fr.touch m.panels))
          { m with gripButtonDown := false, triggerButtonDown := fr.triggerDown,
                   gripHoldTimer := 0, gripWasHeld := false,
                   hoverLockTimer := tickLock m.hoverLockTimer fr.deltaTime }) with
        panels := m.panels.map (PanelState.update fr.deltaTime) } := by
  have ha := afterActivation_released s m fr hg hcm
  have ho1 : (afterActivation s m fr).menuOpen = true := by
    rw [ha]; exact ho
  rw [frameStep_open _ _ _ ho1, ha]
  have p5 := processTriggerInput_inert_panels fr.onPress (processTouchInput s
    { m with gripButtonDown := false, triggerButtonDown := fr.triggerDown,
             gripHoldTimer := 0, gripWasHeld := false }
    (fr.touch m.panels)) hin
  obtain ⟨_, _, _, t4, _⟩ := processTouchInput_keeps s
    { m with gripButtonDown := false, triggerButtonDown := fr.triggerDown,
             gripHoldTimer := 0, gripWasHeld := false }
    (fr.touch m.panels)
  show (_ : VRMenuManager α) = _
  rw [p5, t4]
  unfold processTouchInput
  have hh' : (fr.touch m.panels).handPresent = true := hh
  simp only [hh', Bool.not_true, Bool.false_eq_true, if_false]
  rfl

end VRMenuManager

namespace MenuSystem

open VRMenuManager

theorem openedMain_eq :
    openedMain =
      ⟨{ menuOpen := true, gripHoldTimer := 0, gripWasHeld := false, triggerPressed := false,
         gripButtonDown := false, triggerButtonDown := false, hoveredWidget := none,
         hoverLockTimer := 0,
         panels := [⟨true, true, true, kFadeDuration, true⟩, ⟨false, false, true, 0, false⟩],
         events := [Event.toggleMenu] },
       [mainPanel, otherPanel]⟩ := rfl

theorem rawTouched_openedMain :
    rawTouched VRUISettings.defaults
      ((frameOf openedMain hitFrame).touch openedMain.manager.panels) = some 7 := by
  have hg : (gatherButtons openedMain.manager.panels openedMain.registry []).map some
      = [some 7] := rfl
  simp only [rawTouched, Frame.touch, frameOf, hg, hitFrame, rayFrame, closestHitLoop,
    VRUISettings.defaults]
  norm_num

theorem hoveringMain_eq :
    hoveringMain =
      ⟨{ menuOpen := true, gripHoldTimer := 0, gripWasHeld := false, triggerPressed := false,
         gripButtonDown := false, triggerButtonDown := false, hoveredWidget := some 7,
         hoverLockTimer := kHoverLockTime,
         panels := [⟨true, true, true, 1 / 10, true⟩, ⟨false, false, true, 0, false⟩],
         events := [Event.toggleMenu, Event.rayEnter 7] },
       [mainPanel, otherPanel]⟩ := by
  unfold hoveringMain onFrameUpdate
  rw [frameStep_released _ _ _ rfl rfl rfl rfl (fun _ _ => rfl), rawTouched_openedMain,
    openedMain_eq,
    resolveHover_enter _ _ rfl]
  simp [processTriggerInput, toHovered, hitFrame, rayFrame, frameOf]
  norm_num [PanelState.update, kFadeDuration]

/-- C14, evaluated: panel "main" is active and shown and its button 7 is hovered.  After
`unregisterPanel` of "main" the hovered widget is still button 7, which is in no registered
panel; after `switchToPanel("other")` instead, "main" is deactivated and hidden, "other" is
active and shown, and the hovered widget is still button 7 of "main". -/
theorem C14_hover_outlives_panel :
    hoveringMain.manager.hoveredWidget = some 7 ∧
    inShownPanel hoveringMain 7 = true ∧
    (unregisterPanel 0 hoveringMain).manager.hoveredWidget = some 7 ∧
    (unregisterPanel 0 hoveringMain).registry.map PanelObj.name = ["other"] ∧
    inRegisteredPanel (unregisterPanel 0 hoveringMain) 7 = false ∧
    (switchToPanel true "other" hoveringMain).manager.hoveredWidget = some 7 ∧
    (switchToPanel true "other" hoveringMain).manager.panels.map
      (fun p => (p.active, p.shown)) = [(false, false), (true, true)] ∧
    inShownPanel (switchToPanel true "other" hoveringMain) 7 = false ∧
    inShownPanel (switchToPanel true "other" hoveringMain) 9 = true := by
  rw [hoveringMain_eq]
  refine ⟨rfl, rfl, rfl, rfl, rfl, ?_, ?_, ?_, ?_⟩ <;> decide

end MenuSystem

namespace VRUIPanel

variable {α : Type}

mutual
/-- `collectButtonsRecursive` appends the buttons of the subtree, in pre-order. -/
theorem collectButtonsRecursive_eq : ∀ (w : WidgetObj α) (out : List α),
    collectButtonsRecursive w out =
      out ++ (w.subtree.filter (fun n => n.cls.isButton)).map WidgetObj.self
  | .mk x c cs, out => by
    rw [collectButtonsRecursive, WidgetObj.subtree, collectChildren_eq cs]
    cases h : c.isButton <;> simp [h, List.filter_cons, WidgetObj.cls, WidgetObj.self]
/-- The loop over the children appends the buttons of their subtrees, in order. -/
theorem collectChildren_eq : ∀ (cs : List (WidgetObj α)) (out : List α),
    collectChildren cs out =
      out ++ ((WidgetObj.subtrees cs).filter (fun n => n.cls.isButton)).map WidgetObj.self
  | [], out => by simp [collectChildren, WidgetObj.subtrees]
  | c :: rest, out => by
    rw [collectChildren, collectButtonsRecursive_eq c, collectChildren_eq rest,
      WidgetObj.subtrees]
    simp
end

end VRUIPanel

namespace MenuSystem

open VRMenuManager

variable {α : Type}

theorem gatherButtons_eq [DecidableEq α] (flags : List PanelState)
    (registry : List (PanelObj α)) :
    ∀ out : List α, gatherButtons flags registry out = out ++ shownButtons flags registry := by
  induction flags generalizing registry with
  | nil => intro out; simp [gatherButtons, shownButtons]
  | cons p ps ih =>
    intro out
    cases registry with
    | nil => simp [gatherButtons, shownButtons]
    | cons r rs =>
      rw [gatherButtons, ih rs]
      by_cases h : p.active = true ∧ p.shown = true
      · simp [h, shownButtons, VRUIPanel.collectButtons, VRUIPanel.collectButtonsRecursive_eq,
          List.filter_cons]
      · have h' : (p.active && p.shown) = false := by
          cases ha : p.active <;> cases hs : p.shown <;> simp_all
        simp [h, h', shownButtons, List.filter_cons]

/-- C15 fails as stated: the panel "settings" is active and shown and holds the slider 3,
an interactive widget that is visible and is hit by the ray at distance 5, closer than the
maximum range; no candidate is gathered and the raw touched widget is none. -/
theorem C15_counterexample :
    sliderOpen.manager.panels.map (fun p => (p.active, p.shown)) = [(true, true)] ∧
    sliderOpen.registry.map (fun r => r.root.subtree.map (fun n => (n.self, n.cls)))
      = [[(0, WidgetClass.Panel), (3, WidgetClass.Slider)]] ∧
    WidgetClass.Slider.isInteractive = true ∧
    hitFrame.isVisible 3 = true ∧ hitFrame.hitTest 3 = some (XFloat.fin 5) ∧
    gatherButtons sliderOpen.manager.panels sliderOpen.registry [] = [] ∧
    rawTouched VRUISettings.defaults
      ((frameOf sliderOpen hitFrame).touch sliderOpen.manager.panels) = none :=
  ⟨rfl, rfl, rfl, rfl, rfl, rfl, rfl⟩

/-- C15, amended: `collectButtons` gathers exactly the objects of the panel's subtree whose
class is `VRUIButton` or derives from it (pressable and toggle buttons), in pre-order; the
candidates of a frame are those of the panels that are active and shown; and the raw
touched widget is always one of these buttons, visible and hit by the ray, so a slider is
never the raw touched widget. -/
theorem C15_candidates_are_buttons [DecidableEq α] (s : VRUISettings) (sys : MenuSystem α)
    (fr : Frame α) (flags : List PanelState) :
    (∀ (panel : WidgetObj α) (out : List α), VRUIPanel.collectButtons panel out =
      out ++ (panel.subtree.filter (fun n => n.cls.isButton)).map WidgetObj.self) ∧
    (∀ x, x ∈ gatherButtons flags sys.registry [] ↔
      ∃ pr ∈ flags.zip sys.registry, pr.1.active = true ∧ pr.1.shown = true ∧
        ∃ n ∈ pr.2.root.subtree, n.self = x ∧ n.cls.isButton = true) ∧
    (∀ x, rawTouched s ((frameOf sys fr).touch flags) = some x →
      fr.isVisible x = true ∧ (∃ d, fr.hitTest x = some d ∧ XFloat.fin 0 < d) ∧
      ∃ pr ∈ flags.zip sys.registry, pr.1.active = true ∧ pr.1.shown = true ∧
        ∃ n ∈ pr.2.root.subtree, n.self = x ∧ n.cls.isButton = true) := by
  have hmem : ∀ x, x ∈ gatherButtons flags sys.registry [] ↔
      ∃ pr ∈ flags.zip sys.registry, pr.1.active = true ∧ pr.1.shown = true ∧
        ∃ n ∈ pr.2.root.subtree, n.self = x ∧ n.cls.isButton = true := by
    intro x
    rw [gatherButtons_eq, List.nil_append, shownButtons]
    simp only [List.mem_flatMap, List.mem_filter, List.mem_map, Bool.and_eq_true]
    constructor
    · rintro ⟨pr, ⟨hpr, ha, hs⟩, n, ⟨hn, hb⟩, rfl⟩
      exact ⟨pr, hpr, ha, hs, n, hn, rfl, hb⟩
    · rintro ⟨pr, hpr, ha, hs, n, hn, rfl, hb⟩
      exact ⟨pr, ⟨hpr, ha, hs⟩, n, ⟨hn, hb⟩, rfl⟩
  refine ⟨fun panel out => VRUIPanel.collectButtonsRecursive_eq panel out, hmem, ?_⟩
  intro x hx
  obtain ⟨_, _, i3⟩ := closestHitLoop_spec fr.isVisible fr.hitTest
    ((gatherButtons flags sys.registry []).map some) none (XFloat.fin s.raycastMaxDistance)
  have hx' : (closestHitLoop fr.isVisible fr.hitTest
      ((gatherButtons flags sys.registry []).map some)
      (none, XFloat.fin s.raycastMaxDistance)).1 = some x := hx
  rcases i3 with ⟨e, _⟩ | ⟨w, h1, h2, h3, h4, h5, _⟩
  · rw [e] at hx'; simp at hx'
  · rw [h1] at hx'
    have hw : w = x := Option.some.inj hx'
    subst hw
    have hin : w ∈ gatherButtons flags sys.registry [] := by
      simpa using h2
    exact ⟨h3, ⟨_, h4, h5⟩, (hmem w).mp hin⟩

end MenuSystem
/-! ## Row and grid placement, reported size -/

namespace VRUIContainer

open VRUIWidget

theorem isVisible_true (w : VRUIWidget) : w.isVisible true = w.data.visible := by
  unfold VRUIWidget.isVisible
  cases w.data.visible <;> rfl

/-- Moving a widget does not change its own logical size. -/
theorem dims_setLocalPosition (sv : Bool) (pos : NiPoint3) (w : VRUIWidget) :
    (w.setLocalPosition pos).calculateLogicalDimensions sv = w.calculateLogicalDimensions sv := by
  cases w with
  | mk d cs =>
    simp only [VRUIWidget.setLocalPosition]
    rw [calculateLogicalDimensions, calculateLogicalDimensions]

theorem rowMeasure_eq (cs : List VRUIWidget) :
    ∀ acc : ℚ × Int, rowMeasure true cs acc
      = (acc.1 + (visibleWidths cs).sum, acc.2 + ((visibleWidths cs).length : Int)) := by
  induction cs with
  | nil => intro acc; simp [rowMeasure, visibleWidths]
  | cons c cs ih =>
    intro acc
    rw [rowMeasure]
    cases hv : c.data.visible with
    | false =>
      simp only [isVisible_true, hv, Bool.false_eq_true, if_false]
      rw [ih]
      simp [visibleWidths, List.filter_cons, hv]
    | true =>
      simp only [isVisible_true, hv, if_true]
      rw [ih]
      simp [visibleWidths, List.filter_cons, hv, add_assoc]
      ring

theorem placeRow_spec (sp : ℚ) (cs : List VRUIWidget) :
    ∀ (x0 : ℚ),
      visibleWidths (placeRow true sp x0 cs) = visibleWidths cs ∧
      ∀ (i : Nat) (y : VRUIWidget),
        ((placeRow true sp x0 cs).filter (fun x => x.data.visible)).get? i = some y →
        y.data.localTranslate =
          ⟨x0 + rowOffset sp (visibleWidths cs) i + (y.calculateLogicalDimensions true).x / 2,
            0, 0⟩ := by
  induction cs with
  | nil =>
    intro x0
    refine ⟨rfl, ?_⟩
    intro i y h
    simp [placeRow] at h
  | cons c cs ih =>
    intro x0
    rw [placeRow]
    cases hv : c.data.visible with
    | false =>
      simp only [isVisible_true, hv, Bool.not_false, if_true]
      obtain ⟨i1, i2⟩ := ih x0
      constructor
      · simp only [visibleWidths, List.filter_cons, hv, Bool.false_eq_true, if_false] at i1 ⊢
        exact i1
      · intro i y h
        simp only [List.filter_cons, hv, Bool.false_eq_true, if_false] at h
        have := i2 i y h
        simpa [visibleWidths, List.filter_cons, hv] using this
    | true =>
      simp only [isVisible_true, hv, Bool.not_true, Bool.false_eq_true, if_false]
      obtain ⟨i1, i2⟩ := ih (x0 + ((c.calculateLogicalDimensions true).x + sp))
      have hvis : (c.setLocalPosition
          ⟨x0 + (c.calculateLogicalDimensions true).x * (1 / 2), 0, 0⟩).data.visible = true := by
        rw [(ident_setLocalPosition _ c).2]; exact hv
      constructor
      · simp only [visibleWidths, List.filter_cons, hv, hvis, if_true, List.map_cons,
          dims_setLocalPosition] at i1 ⊢
        rw [i1]
      · intro i y h
        simp only [List.filter_cons, hvis, if_true] at h
        cases i with
        | zero =>
          simp only [List.get?_cons_zero, Option.some.injEq] at h
          subst h
          rw [dims_setLocalPosition]
          cases c with
          | mk d ds =>
            simp [VRUIWidget.setLocalPosition, rowOffset]
            ring
        | succ k =>
          simp only [List.get?_cons_succ] at h
          rw [i2 k y h]
          simp only [visibleWidths, List.filter_cons, hv, if_true, List.map_cons, rowOffset,
            List.take_succ_cons, List.sum_cons]
          congr 1
          ring

theorem rowOffset_zero (sp : ℚ) (ws : List ℚ) : rowOffset sp ws 0 = 0 := by
  simp [rowOffset]

theorem rowOffset_succ (sp : ℚ) (ws : List ℚ) (i : Nat) (a : ℚ) (h : ws.get? i = some a) :
    rowOffset sp ws (i + 1) = rowOffset sp ws i + (a + sp) := by
  induction ws generalizing i with
  | nil => simp at h
  | cons b bs ih =>
    cases i with
    | zero =>
      simp only [List.get?_cons_zero, Option.some.injEq] at h
      subst h
      simp [rowOffset]
    | succ k =>
      simp only [List.get?_cons_succ] at h
      have := ih k h
      simp only [rowOffset, List.take_succ_cons, List.map_cons, List.sum_cons] at this ⊢
      rw [this]
      ring

theorem rowOffset_length (sp : ℚ) (ws : List ℚ) :
    rowOffset sp ws ws.length = ws.sum + sp * (ws.length : ℚ) := by
  induction ws with
  | nil => simp [rowOffset]
  | cons b bs ih =>
    simp only [rowOffset, List.length_cons, List.take_succ_cons, List.map_cons,
      List.sum_cons] at ih ⊢
    rw [ih]
    push_cast
    ring

/-- The layout pass on a `HorizontalCenter` container with children: the children are laid
out, measured and placed in a row, then the container's size is updated. -/
theorem recalculateLayoutAux_row (s : VRUISettings) (f : Nat) (pv : Bool) (w : VRUIWidget)
    (c : ContainerData) (hc : w.data.container = some c) (hl : c.layout = .HorizontalCenter)
    (hne : w.children ≠ []) :
    recalculateLayoutAux s (f + 1) pv w
      = updateDimensions (w.isVisible pv)
          { w.data with container := some { c with layoutDirty := false } }
          (layoutRow (w.isVisible pv) c.spacing
            (w.children.map (recalculateLayoutAux s f (w.isVisible pv)))) := by
  rw [recalculateLayoutAux]
  simp [hc, hl, hne]

theorem layoutRow_spec (sp : ℚ) (cs : List VRUIWidget) :
    visibleWidths (layoutRow true sp cs) = visibleWidths cs ∧
    ∀ (i : Nat) (y : VRUIWidget),
      ((layoutRow true sp cs).filter (fun x => x.data.visible)).get? i = some y →
      y.data.localTranslate =
        ⟨-((visibleWidths cs).sum + sp * (((visibleWidths cs).length : ℚ) - 1)) / 2 +
          rowOffset sp (visibleWidths cs) i + (y.calculateLogicalDimensions true).x / 2,
          0, 0⟩ := by
  unfold layoutRow
  rw [rowMeasure_eq]
  simp only [zero_add]
  obtain ⟨p1, p2⟩ := placeRow_spec sp cs
    (-(if ((visibleWidths cs).length : Int) > 1 then
        (visibleWidths cs).sum + sp * ((((visibleWidths cs).length : Int) - 1 : Int) : ℚ)
      else (visibleWidths cs).sum) * (1 / 2))
  refine ⟨p1, ?_⟩
  intro i y hy
  rw [p2 i y hy]
  -- at least one visible child, so the total width has the closed form
  have hlen : 1 ≤ (visibleWidths cs).length := by
    have h := (List.get?_eq_some.mp hy).1
    have h1 : 1 ≤ _ := Nat.succ_le_of_lt (Nat.lt_of_le_of_lt (Nat.zero_le i) h)
    have h2 := congrArg List.length p1
    rw [← h2]
    exact h1.trans (le_of_eq (List.length_map _ _).symm)
  have hT : (if ((visibleWidths cs).length : Int) > 1 then
        (visibleWidths cs).sum + sp * ((((visibleWidths cs).length : Int) - 1 : Int) : ℚ)
      else (visibleWidths cs).sum)
      = (visibleWidths cs).sum + sp * (((visibleWidths cs).length : ℚ) - 1) := by
    split
    · push_cast; ring
    · have : (visibleWidths cs).length = 1 := by omega
      rw [this]; simp
  rw [hT]
  congr 1
  ring

/-- The children of an effectively visible `HorizontalCenter` container after the layout
pass: the `i`-th visible child is centred at `-T/2 + rowOffset i + w_i / 2`. -/
theorem row_positions (s : VRUISettings) (pv : Bool) (w : VRUIWidget) (c : ContainerData)
    (hc : w.data.container = some c) (hl : c.layout = .HorizontalCenter)
    (hv : w.isVisible pv = true) (i : Nat) (y : VRUIWidget)
    (hy : ((recalculateLayout s pv w).children.filter (fun x => x.data.visible)).get? i
      = some y) :
    y.data.localTranslate =
      ⟨-((visibleWidths (recalculateLayout s pv w).children).sum +
          c.spacing * (((visibleWidths (recalculateLayout s pv w).children).length : ℚ) - 1))
          / 2 +
        rowOffset c.spacing (visibleWidths (recalculateLayout s pv w).children) i +
        (y.calculateLogicalDimensions true).x / 2, 0, 0⟩ := by
  by_cases hne : w.children = []
  · exfalso
    unfold recalculateLayout at hy
    rw [recalculateLayoutAux_empty s _ pv w c hc hne] at hy
    simp at hy
  · unfold recalculateLayout at hy ⊢
    rw [recalculateLayoutAux_row s _ pv w c hc hl hne, hv] at hy ⊢
    rw [updateDimensions_children] at hy ⊢
    obtain ⟨p1, p2⟩ := layoutRow_spec c.spacing
      (w.children.map (recalculateLayoutAux s (2 * w.depth + 1) true))
    rw [p2 i y hy, p1]

theorem visibleWidths_get? (cs : List VRUIWidget) (i : Nat) (y : VRUIWidget)
    (hy : (cs.filter (fun x => x.data.visible)).get? i = some y) :
    (visibleWidths cs).get? i = some (y.calculateLogicalDimensions true).x := by
  unfold visibleWidths
  rw [List.get?_eq_getElem?] at hy ⊢
  rw [List.getElem?_map, hy]
  rfl

/-- C16: after `recalculateLayout()` on an effectively visible `HorizontalCenter` container
with spacing `s`, the `i`-th visible child, of logical width `w_i`, sits at local
X = `-T/2 + sum_{j<i} (w_j + s) + w_i/2`, Y = Z = 0, where `T = sum w + s * (m - 1)` over the
`m` visible children; the first child's left edge is at `-T/2`, the last child's right
edge at `T/2`, and the gap between neighbours is `s`. -/
theorem C16_row_centered (s : VRUISettings) (pv : Bool) (w : VRUIWidget) (c : ContainerData)
    (hc : w.data.container = some c) (hl : c.layout = .HorizontalCenter)
    (hv : w.isVisible pv = true) :
    (∀ i y, (visibleChildren (recalculateLayout s pv w)).get? i = some y →
      y.data.localTranslate =
        ⟨-(rowTotal c.spacing (visibleWidths (recalculateLayout s pv w).children)) / 2 +
          rowOffset c.spacing (visibleWidths (recalculateLayout s pv w).children) i +
          (y.calculateLogicalDimensions true).x / 2, 0, 0⟩) ∧
    (∀ y, (visibleChildren (recalculateLayout s pv w)).get? 0 = some y →
      y.data.localTranslate.x - (y.calculateLogicalDimensions true).x / 2 =
        -(rowTotal c.spacing (visibleWidths (recalculateLayout s pv w).children)) / 2) ∧
    (∀ y, (visibleChildren (recalculateLayout s pv w)).get?
        ((visibleChildren (recalculateLayout s pv w)).length - 1) = some y →
      y.data.localTranslate.x + (y.calculateLogicalDimensions true).x / 2 =
        rowTotal c.spacing (visibleWidths (recalculateLayout s pv w).children) / 2) ∧
    (∀ i y z, (visibleChildren (recalculateLayout s pv w)).get? i = some y →
      (visibleChildren (recalculateLayout s pv w)).get? (i + 1) = some z →
      (z.data.localTranslate.x - (z.calculateLogicalDimensions true).x / 2) -
        (y.data.localTranslate.x + (y.calculateLogicalDimensions true).x / 2) = c.spacing) := by
  have hpos := row_positions s pv w c hc hl hv
  refine ⟨fun i y hy => hpos i y hy, ?_, ?_, ?_⟩
  · intro y hy
    rw [hpos 0 y hy, rowOffset_zero]
    simp only [rowTotal]
    ring
  · intro y hy
    have hw := visibleWidths_get? _ _ _ hy
    have hlen : (visibleWidths (recalculateLayout s pv w).children).length
        = (visibleChildren (recalculateLayout s pv w)).length := by
      unfold visibleWidths visibleChildren
      rw [List.length_map]
    have hpos1 : 1 ≤ (visibleChildren (recalculateLayout s pv w)).length := by
      have := (List.get?_eq_some.mp hy).1
      omega
    have hsucc := rowOffset_succ c.spacing _ _ _ hw
    have hfull := rowOffset_length c.spacing
      (visibleWidths (recalculateLayout s pv w).children)
    rw [hlen] at hfull
    have he : (visibleChildren (recalculateLayout s pv w)).length - 1 + 1
        = (visibleChildren (recalculateLayout s pv w)).length := by omega
    rw [he, hfull] at hsucc
    rw [hpos _ y hy]
    simp only [rowTotal, hlen]
    linarith
  · intro i y z hy hz
    have hw := visibleWidths_get? _ _ _ hy
    have hsucc := rowOffset_succ c.spacing _ _ _ hw
    rw [hpos i y hy, hpos (i + 1) z hz, hsucc]
    simp only []
    ring

theorem recalculateLayoutAux_plain (s : VRUISettings) (f : Nat) (pv : Bool) (name : String)
    (width height : ℚ) :
    recalculateLayoutAux s f pv (plain name width height) = plain name width height := by
  cases f with
  | zero => rfl
  | succ f => rw [recalculateLayoutAux]; rfl

theorem dims_plain (sv : Bool) (name : String) (width height : ℚ) (pos : NiPoint3) :
    ((plain name width height).setLocalPosition pos).calculateLogicalDimensions sv
      = ⟨width, height⟩ := by
  rw [dims_setLocalPosition, plain, calculateLogicalDimensions]

theorem sampleRow_layout :
    recalculateLayout VRUISettings.defaults true sampleRow =
      .mk { (new "row" .HorizontalCenter 1 1).data with
            width := 7, height := 1,
            container := some { layoutDirty := false, layout := .HorizontalCenter,
                                spacing := 1, pageSize := 0, currentPage := 0 } }
        [(plain "a" 2 1).setLocalPosition ⟨-5 / 2, 0, 0⟩,
         (plain "b" 4 1).setLocalPosition ⟨3 / 2, 0, 0⟩] := by
  have hrow : layoutRow true 1 [plain "a" 2 1, plain "b" 4 1] =
      [(plain "a" 2 1).setLocalPosition ⟨-5 / 2, 0, 0⟩,
       (plain "b" 4 1).setLocalPosition ⟨3 / 2, 0, 0⟩] := by
    have ha : (plain "a" 2 1).calculateLogicalDimensions true = ⟨2, 1⟩ := by
      rw [plain, calculateLogicalDimensions]
    have hb : (plain "b" 4 1).calculateLogicalDimensions true = ⟨4, 1⟩ := by
      rw [plain, calculateLogicalDimensions]
    have va : (plain "a" 2 1).isVisible true = true := rfl
    have vb : (plain "b" 4 1).isVisible true = true := rfl
    simp only [layoutRow, rowMeasure, placeRow, va, vb, ha, hb, if_true, Bool.not_true,
      Bool.false_eq_true, if_false]
    norm_num
  have hdim : (VRUIWidget.mk
      { (new "row" .HorizontalCenter 1 1).data with
        container := some { layoutDirty := false, layout := .HorizontalCenter,
                            spacing := 1, pageSize := 0, currentPage := 0 } }
      [(plain "a" 2 1).setLocalPosition ⟨-5 / 2, 0, 0⟩,
       (plain "b" 4 1).setLocalPosition ⟨3 / 2, 0, 0⟩]).calculateLogicalDimensions true
      = ⟨7, 1⟩ := by
    have va : ((plain "a" 2 1).setLocalPosition ⟨-5 / 2, 0, 0⟩).isVisible true = true := rfl
    have vb : ((plain "b" 4 1).setLocalPosition ⟨3 / 2, 0, 0⟩).isVisible true = true := rfl
    have pa : ((plain "a" 2 1).setLocalPosition ⟨-5 / 2, 0, 0⟩).data.localTranslate
        = ⟨-5 / 2, 0, 0⟩ := rfl
    have pb : ((plain "b" 4 1).setLocalPosition ⟨3 / 2, 0, 0⟩).data.localTranslate
        = ⟨3 / 2, 0, 0⟩ := rfl
    rw [calculateLogicalDimensions]
    simp only [new, boundsLoop, va, vb, pa, pb, dims_plain, Bool.not_true, Bool.false_eq_true,
      if_false, if_true, List.isEmpty_cons]
    norm_num
  show recalculateLayoutAux _ (3 + 1) true sampleRow = _
  rw [recalculateLayoutAux_row _ 3 true sampleRow
    { layoutDirty := true, layout := .HorizontalCenter, spacing := 1, pageSize := 0,
      currentPage := 0 } rfl rfl (by simp [sampleRow, addChild])]
  have hch : sampleRow.children.map
      (recalculateLayoutAux VRUISettings.defaults 3 (sampleRow.isVisible true))
      = [plain "a" 2 1, plain "b" 4 1] := by
    simp [sampleRow, addChild, new, recalculateLayoutAux_plain]
  have hvis : sampleRow.isVisible true = true := rfl
  rw [hch, hvis, hrow]
  have hupd : updateDimensions true
      { (new "row" .HorizontalCenter 1 1).data with
        container := some { layoutDirty := false, layout := .HorizontalCenter,
                            spacing := 1, pageSize := 0, currentPage := 0 } }
      [(plain "a" 2 1).setLocalPosition ⟨-5 / 2, 0, 0⟩,
       (plain "b" 4 1).setLocalPosition ⟨3 / 2, 0, 0⟩] =
      .mk { (new "row" .HorizontalCenter 1 1).data with
            width := 7, height := 1,
            container := some { layoutDirty := false, layout := .HorizontalCenter,
                                spacing := 1, pageSize := 0, currentPage := 0 } }
        [(plain "a" 2 1).setLocalPosition ⟨-5 / 2, 0, 0⟩,
         (plain "b" 4 1).setLocalPosition ⟨3 / 2, 0, 0⟩] := by
    unfold updateDimensions
    rw [hdim]
  exact hupd

/-- C16, at the sample of the specification: widths 2 and 4 with spacing 1 give the total
width 7 and the centres -2.5 and 1.5. -/
theorem C16_row_centered_witness :
    sampleRow.isVisible true = true ∧
    visibleWidths (recalculateLayout VRUISettings.defaults true sampleRow).children = [2, 4] ∧
    rowTotal 1 [2, 4] = 7 ∧
    (∀ i y, (visibleChildren (recalculateLayout VRUISettings.defaults true sampleRow)).get? i
        = some y →
      y.data.localTranslate =
        ⟨-7 / 2 + rowOffset 1 [2, 4] i + (y.calculateLogicalDimensions true).x / 2, 0, 0⟩) ∧
    (-7 / 2 + rowOffset 1 [2, 4] 0 + 2 / 2 : ℚ) = -5 / 2 ∧
    (-7 / 2 + rowOffset 1 [2, 4] 1 + 4 / 2 : ℚ) = 3 / 2 ∧
    (recalculateLayout VRUISettings.defaults true sampleRow).children.map
      (fun y => y.data.localTranslate) = [⟨-5 / 2, 0, 0⟩, ⟨3 / 2, 0, 0⟩] := by
  have hw : visibleWidths (recalculateLayout VRUISettings.defaults true sampleRow).children
      = [2, 4] := by
    rw [sampleRow_layout]
    have va : ((plain "a" 2 1).setLocalPosition ⟨-5 / 2, 0, 0⟩).data.visible = true := rfl
    have vb : ((plain "b" 4 1).setLocalPosition ⟨3 / 2, 0, 0⟩).data.visible = true := rfl
    simp only [visibleWidths, children_mk, List.filter_cons, va, vb, if_true, List.filter_nil,
      List.map_cons, List.map_nil, dims_plain]
  have hT : rowTotal 1 [2, 4] = 7 := by norm_num [rowTotal]
  have h := (C16_row_centered VRUISettings.defaults true sampleRow
    { layoutDirty := true, layout := .HorizontalCenter, spacing := 1, pageSize := 0,
      currentPage := 0 } rfl rfl rfl).1
  rw [hw, hT] at h
  refine ⟨rfl, hw, hT, h, ?_, ?_, ?_⟩
  · norm_num [rowOffset]
  · norm_num [rowOffset]
  · rw [sampleRow_layout]
    rfl

end VRUIContainer
namespace VRUIContainer

open VRUIWidget

theorem placeGrid_get? (s : VRUISettings) (sp : ℚ) (n : Int) (first : VRUIWidget)
    (a b : Int) (cs : List VRUIWidget) :
    ∀ (idx j : Nat), (placeGrid s sp n first a b idx cs).get? j =
      (cs.get? j).map (fun x =>
        if a ≤ ((idx + j : Nat) : Int) ∧ ((idx + j : Nat) : Int) < b then
          x.setLocalPosition (gridCell s sp n first (((idx + j : Nat) : Int) - a))
        else x) := by
  induction cs with
  | nil => intro idx j; simp [placeGrid]
  | cons c cs ih =>
    intro idx j
    rw [placeGrid]
    cases j with
    | zero => simp
    | succ k =>
      simp only [List.get?_cons_succ]
      rw [ih (idx + 1) k]
      have : idx + 1 + k = idx + (k + 1) := by omega
      rw [this]

/-- The grid cell of the `i`-th page child without column mirroring, in closed form. -/
theorem gridCell_eq (s : VRUISettings) (sp : ℚ) (m : Nat) (first : VRUIWidget) (i : Nat)
    (hinv : s.invertGridX = false) :
    gridCell s sp (m : Int) first (i : Int) =
      ⟨-(gridSpan (gridCols m : ℚ) (first.data.width * s.buttonMeshScale) sp) / 2 +
          first.data.width * s.buttonMeshScale / 2 +
          ((i % 3 : Nat) : ℚ) * (first.data.width * s.buttonMeshScale + sp),
        0,
        gridSpan (gridRows m : ℚ) (first.data.height * s.buttonMeshScale) sp / 2 -
          first.data.height * s.buttonMeshScale / 2 -
          ((i / 3 : Nat) : ℚ) * (first.data.height * s.buttonMeshScale + sp)⟩ := by
  have hr : Int.tdiv (i : Int) gridColumns = ((i / 3 : Nat) : Int) := by
    simp [gridColumns, Int.tdiv_eq_ediv (Int.natCast_nonneg i)]
  have hm : Int.tmod (i : Int) gridColumns = ((i % 3 : Nat) : Int) := by
    simp [gridColumns, Int.tmod_eq_emod (Int.natCast_nonneg i) (by norm_num : (0 : Int) ≤ 3)]
  have hcols : (min (m : Int) gridColumns) = ((gridCols m : Nat) : Int) := by
    simp [gridColumns, gridCols]
  unfold gridCell
  simp only [hinv, hr, hm, hcols, Bool.false_eq_true, if_false]
  simp only [gridSpan, gridRows, gridColumns]
  simp only [Int.cast_natCast, Int.cast_sub, Int.cast_one, Int.cast_ofNat]
  congr 1
  · ring
  · ring

theorem startIndex_nonneg (c : ContainerData) (hpage : 0 ≤ c.currentPage) :
    0 ≤ startIndex c := by
  unfold startIndex
  split
  · exact Int.mul_nonneg hpage (by omega)
  · exact le_refl _

theorem endIndex_le (c : ContainerData) (n : Int) : endIndex c n ≤ n := by
  unfold endIndex
  split
  · exact min_le_right _ _
  · exact le_refl _

theorem width_setLocalPosition (pos : NiPoint3) (w : VRUIWidget) :
    (w.setLocalPosition pos).data.width = w.data.width ∧
    (w.setLocalPosition pos).data.height = w.data.height ∧
    (w.setLocalPosition pos).data.localTranslate = pos := by
  cases w; exact ⟨rfl, rfl, rfl⟩

/-- The children of a Grid container after the layout pass: the `i`-th child of the page is
placed in the grid cell `i`, measured with the first child of the page. -/
theorem grid_positions (s : VRUISettings) (pv : Bool) (w : VRUIWidget) (c : ContainerData)
    (hc : w.data.container = some c) (hl : c.layout = .Grid)
    (hb : pageOutOfBounds c w.children.length = false) (hpage : 0 ≤ c.currentPage)
    (i : Nat) (hi : i < pageCount c w.children.length) :
    ∃ first0 first y,
      (recalculateLayout s pv w).children.get? (startIndex c).toNat = some first ∧
      (recalculateLayout s pv w).children.get? ((startIndex c).toNat + i) = some y ∧
      first.data.width = first0.data.width ∧ first.data.height = first0.data.height ∧
      y.data.localTranslate =
        gridCell s c.spacing ((pageCount c w.children.length : Nat) : Int) first0 (i : Int) := by
  have ha := startIndex_nonneg c hpage
  have hbn := endIndex_le c (w.children.length : Int)
  unfold pageCount at hi
  have hpos : 0 < endIndex c (w.children.length : Int) - startIndex c := by omega
  have hne : w.children ≠ [] := by
    intro h
    rw [h] at hbn hpos
    simp only [List.length_nil, Nat.cast_zero] at hbn hpos
    omega
  have hcount : ((pageCount c w.children.length : Nat) : Int)
      = endIndex c (w.children.length : Int) - startIndex c := by
    unfold pageCount
    omega
  unfold recalculateLayout
  rw [recalculateLayoutAux_grid s _ pv w c hc hl hne hb, updateDimensions_children]
  -- the laid-out children and the page shown
  generalize hcs : w.children.map (recalculateLayoutAux s (2 * w.depth + 1) (w.isVisible pv))
    = cs
  have hlen : cs.length = w.children.length := by rw [← hcs, List.length_map]
  have hs : startIndex { c with layoutDirty := false } = startIndex c := rfl
  have he : ∀ n, endIndex { c with layoutDirty := false } n = endIndex c n := fun _ => rfl
  unfold layoutGrid
  simp only [hs, he, hlen]
  have hmax : max 0 (endIndex c (w.children.length : Int) - startIndex c)
      = endIndex c (w.children.length : Int) - startIndex c := max_eq_right (le_of_lt hpos)
  rw [hmax, if_neg (ne_of_gt hpos)]
  have hshown : (showPage (startIndex c) (endIndex c (w.children.length : Int)) 0 cs).length
      = w.children.length := by rw [length_showPage, hlen]
  have hfirst : (startIndex c).toNat
      < (showPage (startIndex c) (endIndex c (w.children.length : Int)) 0 cs).length := by
    rw [hshown]; omega
  have hith : (startIndex c).toNat + i
      < (showPage (startIndex c) (endIndex c (w.children.length : Int)) 0 cs).length := by
    rw [hshown]; omega
  rw [List.get?_eq_get hfirst]
  simp only [placeGrid_get?, List.get?_eq_get hfirst, List.get?_eq_get hith, Option.map_some',
    Nat.zero_add]
  refine ⟨(showPage (startIndex c) (endIndex c (w.children.length : Int)) 0 cs).get
    ⟨(startIndex c).toNat, hfirst⟩, _, _, rfl, rfl, ?_, ?_, ?_⟩
  · split
    · exact (width_setLocalPosition _ _).1
    · rfl
  · split
    · exact (width_setLocalPosition _ _).2.1
    · rfl
  · have hin : startIndex c ≤ ((((startIndex c).toNat + i) : Nat) : Int) ∧
        ((((startIndex c).toNat + i) : Nat) : Int)
          < endIndex c (w.children.length : Int) := by
      constructor <;> omega
    rw [if_pos hin, (width_setLocalPosition _ _).2.2, hcount]
    congr 1
    omega

end VRUIContainer
namespace VRUIContainer

open VRUIWidget

/-- The layout pass on a `VerticalDown` container with children. -/
theorem recalculateLayoutAux_column (s : VRUISettings) (f : Nat) (pv : Bool) (w : VRUIWidget)
    (c : ContainerData) (hc : w.data.container = some c) (hl : c.layout = .VerticalDown)
    (hne : w.children ≠ []) :
    recalculateLayoutAux s (f + 1) pv w
      = updateDimensions (w.isVisible pv)
          { w.data with container := some { c with layoutDirty := false } }
          (placeColumn (w.isVisible pv) c.spacing true 0
            (w.children.map (recalculateLayoutAux s f (w.isVisible pv)))) := by
  rw [recalculateLayoutAux]
  simp [hc, hl, hne]

theorem filledBox_eq :
    filledBox =
      .mk { (new "box" .VerticalDown (3 / 10) 1).data with
            width := 3, height := 2,
            container := some { layoutDirty := false, layout := .VerticalDown,
                                spacing := 3 / 10, pageSize := 0, currentPage := 0 } }
        [(plain "a" 3 2).setLocalPosition ⟨0, 0, -1⟩] := by
  have hcol : placeColumn true (3 / 10) true 0 [plain "a" 3 2] =
      [(plain "a" 3 2).setLocalPosition ⟨0, 0, -1⟩] := by
    have ha : (plain "a" 3 2).calculateLogicalDimensions true = ⟨3, 2⟩ := by
      rw [plain, calculateLogicalDimensions]
    have va : (plain "a" 3 2).isVisible true = true := rfl
    simp only [placeColumn, va, ha, if_true, Bool.not_true, Bool.false_eq_true, if_false]
    norm_num
  have hdim : (VRUIWidget.mk
      { (new "box" .VerticalDown (3 / 10) 1).data with
        container := some { layoutDirty := false, layout := .VerticalDown,
                            spacing := 3 / 10, pageSize := 0, currentPage := 0 } }
      [(plain "a" 3 2).setLocalPosition ⟨0, 0, -1⟩]).calculateLogicalDimensions true
      = ⟨3, 2⟩ := by
    have va : ((plain "a" 3 2).setLocalPosition ⟨0, 0, -1⟩).isVisible true = true := rfl
    have pa : ((plain "a" 3 2).setLocalPosition ⟨0, 0, -1⟩).data.localTranslate
        = ⟨0, 0, -1⟩ := rfl
    rw [calculateLogicalDimensions]
    simp only [new, boundsLoop, va, pa, dims_plain, Bool.not_true, Bool.false_eq_true,
      if_false, if_true, List.isEmpty_cons]
    norm_num
  have hupd : updateDimensions true
      { (new "box" .VerticalDown (3 / 10) 1).data with
        container := some { layoutDirty := false, layout := .VerticalDown,
                            spacing := 3 / 10, pageSize := 0, currentPage := 0 } }
      [(plain "a" 3 2).setLocalPosition ⟨0, 0, -1⟩] =
      .mk { (new "box" .VerticalDown (3 / 10) 1).data with
            width := 3, height := 2,
            container := some { layoutDirty := false, layout := .VerticalDown,
                                spacing := 3 / 10, pageSize := 0, currentPage := 0 } }
        [(plain "a" 3 2).setLocalPosition ⟨0, 0, -1⟩] := by
    unfold updateDimensions
    rw [hdim]
  show recalculateLayoutAux _ (3 + 1) true
    (addChild (plain "a" 3 2) (new "box" .VerticalDown (3 / 10) 1)) = _
  rw [recalculateLayoutAux_column _ 3 true
    (addChild (plain "a" 3 2) (new "box" .VerticalDown (3 / 10) 1))
    { layoutDirty := true, layout := .VerticalDown, spacing := 3 / 10, pageSize := 0,
      currentPage := 0 } rfl rfl (by simp [addChild])]
  have hch : (addChild (plain "a" 3 2) (new "box" .VerticalDown (3 / 10) 1)).children.map
      (recalculateLayoutAux VRUISettings.defaults 3
        ((addChild (plain "a" 3 2) (new "box" .VerticalDown (3 / 10) 1)).isVisible true))
      = [plain "a" 3 2] := by
    simp [addChild, new, recalculateLayoutAux_plain]
  have hvis : (addChild (plain "a" 3 2) (new "box" .VerticalDown (3 / 10) 1)).isVisible true
      = true := rfl
  rw [hch, hvis, hcol]
  exact hupd

/-- C18, evaluated on an emptied container: a column gets one child of size 3 by 2 through
`addElement` and reports the size 3 by 2; after `removeElement` of that child the layout
pass returns before the dimension update, so the column has no child, its bounding box
(`calculateLogicalDimensions`) is 0 by 0, and it still reports 3 by 2. -/
theorem C18_emptied_container_keeps_size :
    (filledBox.data.width, filledBox.data.height) = (3, 2) ∧
    emptiedBox.children = [] ∧
    emptiedBox.calculateLogicalDimensions true = ⟨0, 0⟩ ∧
    (emptiedBox.data.width, emptiedBox.data.height) = (3, 2) ∧
    (emptiedBox.data.width, emptiedBox.data.height) ≠ (0, 0) := by
  have he : emptiedBox =
      .mk { (new "box" .VerticalDown (3 / 10) 1).data with
            width := 3, height := 2,
            container := some { layoutDirty := false, layout := .VerticalDown,
                                spacing := 3 / 10, pageSize := 0, currentPage := 0 } } [] := by
    unfold emptiedBox removeElement recalculateLayout
    rw [filledBox_eq]
    show recalculateLayoutAux _ (1 + 1) true _ = _
    exact recalculateLayoutAux_empty _ 1 true
      (removeChild 0 (.mk { (new "box" .VerticalDown (3 / 10) 1).data with
            width := 3, height := 2,
            container := some { layoutDirty := false, layout := .VerticalDown,
                                spacing := 3 / 10, pageSize := 0, currentPage := 0 } }
        [(plain "a" 3 2).setLocalPosition ⟨0, 0, -1⟩]))
      { layoutDirty := false, layout := .VerticalDown, spacing := 3 / 10, pageSize := 0,
        currentPage := 0 } rfl rfl
  refine ⟨by rw [filledBox_eq]; rfl, by rw [he]; rfl, ?_, by rw [he]; rfl, ?_⟩
  · rw [he, calculateLogicalDimensions]
    rfl
  · rw [he]
    norm_num

theorem updateDimensions_reports (sv : Bool) (d : WidgetData) (cs : List VRUIWidget)
    (c : ContainerData) (hd : d.container = some c) :
    (⟨(updateDimensions sv d cs).data.width, (updateDimensions sv d cs).data.height⟩ : NiPoint2)
      = (updateDimensions sv d cs).calculateLogicalDimensions sv := by
  unfold updateDimensions
  simp only [data_mk]
  rw [calculateLogicalDimensions, calculateLogicalDimensions]
  simp only [hd]

/-- On a container with at least one child, the size reported after `recalculateLayout()` is
the bounding box that `calculateLogicalDimensions()` computes from the laid-out children. -/
theorem recalculateLayout_reports_bounds (s : VRUISettings) (pv : Bool) (w : VRUIWidget)
    (c : ContainerData) (hc : w.data.container = some c) (hne : w.children ≠ []) :
    (⟨(recalculateLayout s pv w).data.width, (recalculateLayout s pv w).data.height⟩ : NiPoint2)
      = (recalculateLayout s pv w).calculateLogicalDimensions (w.isVisible pv) := by
  unfold recalculateLayout
  have hne' : ∀ f v, w.children.map (recalculateLayoutAux s f v) ≠ [] := by
    intro f v h
    exact hne (List.map_eq_nil_iff.mp h)
  cases hl : c.layout with
  | HorizontalCenter =>
    rw [recalculateLayoutAux_row s _ pv w c hc hl hne]
    exact updateDimensions_reports _ _ _ _ rfl
  | VerticalDown =>
    rw [recalculateLayoutAux_column s _ pv w c hc hl hne]
    exact updateDimensions_reports _ _ _ _ rfl
  | VerticalUp =>
    have : recalculateLayoutAux s (2 * w.depth + 1 + 1) pv w
        = updateDimensions (w.isVisible pv)
          { w.data with container := some { c with layoutDirty := false } }
          (placeColumn (w.isVisible pv) c.spacing false 0
            (w.children.map (recalculateLayoutAux s (2 * w.depth + 1) (w.isVisible pv)))) := by
      rw [recalculateLayoutAux]
      simp [hc, hl, hne]
    rw [this]
    exact updateDimensions_reports _ _ _ _ rfl
  | Free =>
    have : recalculateLayoutAux s (2 * w.depth + 1 + 1) pv w
        = updateDimensions (w.isVisible pv)
          { w.data with container := some { c with layoutDirty := false } }
          (w.children.map (recalculateLayoutAux s (2 * w.depth + 1) (w.isVisible pv))) := by
      rw [recalculateLayoutAux]
      simp [hc, hl, hne]
    rw [this]
    exact updateDimensions_reports _ _ _ _ rfl
  | Grid =>
    cases hb : pageOutOfBounds c w.children.length with
    | false =>
      rw [recalculateLayoutAux_grid s _ pv w c hc hl hne hb]
      exact updateDimensions_reports _ _ _ _ rfl
    | true =>
      rw [recalculateLayoutAux_reset s _ pv w c hc hl hne hb]
      have hb0 : pageOutOfBounds { c with layoutDirty := false, currentPage := 0 }
          ((VRUIWidget.mk { w.data with
              container := some { c with layoutDirty := false, currentPage := 0 } }
            (w.children.map (recalculateLayoutAux s (2 * w.depth + 1)
              (w.isVisible pv)))).children.length : Nat) = false := by
        simp [pageOutOfBounds]
      rw [recalculateLayoutAux_grid s (2 * w.depth) pv
        (VRUIWidget.mk { w.data with
            container := some { c with layoutDirty := false, currentPage := 0 } }
          (w.children.map (recalculateLayoutAux s (2 * w.depth + 1) (w.isVisible pv))))
        { c with layoutDirty := false, currentPage := 0 } rfl hl (hne' _ _) hb0]
      exact updateDimensions_reports _ _ _ _ rfl

end VRUIContainer

namespace Heap

/-- C19, evaluated: widget 2 is a child of widget 0 and is then added to widget 1.  It is in
the children list of widget 1 and its parent reference is widget 1, but it is still in the
children list of widget 0 as well: it appears in two children lists, and in one of them its
parent is not the owner of the list.  A later `removeChild` on widget 0 finds it there and
clears its parent reference although widget 1 still lists it. -/
theorem C19_reparent_keeps_old_entry :
    ((addChild 0 2 fresh) 0).children = [2] ∧ ((addChild 0 2 fresh) 2).parent = some 0 ∧
    (reparented 1).children = [2] ∧ (reparented 2).parent = some 1 ∧
    (reparented 0).children = [2] ∧
    (2 ∈ (reparented 0).children ∧ (reparented 2).parent ≠ some 0) ∧
    ((removeChild 0 2 reparented) 1).children = [2] ∧
    ((removeChild 0 2 reparented) 2).parent = none := by
  decide

end Heap

namespace VRUIWidget

mutual
theorem findWidgetByName_eq (name : String) : ∀ w : VRUIWidget,
    findWidgetByName name w = (preorder w).find? (fun x => decide (x.data.name = name))
  | mk d cs => by
    rw [findWidgetByName, preorder, List.find?_cons]
    by_cases h : d.name = name
    · simp [h, VRUIWidget.data]
    · simp only [h, if_false, VRUIWidget.data, decide_False]
      exact findInChildren_eq name cs
theorem findInChildren_eq (name : String) : ∀ cs : List VRUIWidget,
    findInChildren name cs = (preorderList cs).find? (fun x => decide (x.data.name = name))
  | [] => by simp [findInChildren, preorderList]
  | c :: rest => by
    rw [findInChildren, preorderList, List.find?_append, findWidgetByName_eq name c,
      findInChildren_eq name rest]
    cases (preorder c).find? (fun x => decide (x.data.name = name)) <;> rfl
end

/-- C20: `findWidgetByName(name)` returns the first widget of the tree, in pre-order, whose
name equals `name`: every widget before it in pre-order has another name; and it returns
none exactly when no widget of the tree has that name. -/
theorem C20_findWidgetByName_preorder (name : String) (w : VRUIWidget) :
    findWidgetByName name w = (preorder w).find? (fun x => decide (x.data.name = name)) ∧
    (∀ found, findWidgetByName name w = some found →
      found.data.name = name ∧
      ∃ before after, preorder w = before ++ found :: after ∧
        ∀ x ∈ before, x.data.name ≠ name) ∧
    (findWidgetByName name w = none ↔ ∀ x ∈ preorder w, x.data.name ≠ name) := by
  refine ⟨findWidgetByName_eq name w, ?_, ?_⟩
  · intro found h
    rw [findWidgetByName_eq, List.find?_eq_some] at h
    obtain ⟨hn, before, after, hsplit, hb⟩ := h
    refine ⟨by simpa using hn, before, after, hsplit, ?_⟩
    intro x hx
    simpa using hb x hx
  · rw [findWidgetByName_eq, List.find?_eq_none]
    simp

end VRUIWidget

namespace VRUIWidget

/-- On the sample tree the search for "ok" returns the widget of width 1 under "row", which
comes first in pre-order, and the search for an absent name returns none. -/
theorem findWidgetByName_named :
    (findWidgetByName "ok" named).map (fun x => x.data.width) = some 1 ∧
    (preorder named).map (fun x => x.data.name) = ["menu", "row", "ok", "ok", "ok"] ∧
    (findWidgetByName "cancel" named).isNone = true := by
  refine ⟨?_, ?_, ?_⟩
  · simp [findWidgetByName, findInChildren, named, VRUIContainer.plain]
  · simp [preorder, preorderList, named, VRUIContainer.plain, VRUIWidget.data]
  · simp [findWidgetByName, findInChildren, named, VRUIContainer.plain]

end VRUIWidget

namespace Heap

/-- What `addChild` does establish: the child is in the children list of the new parent and
its parent reference is the new parent. -/
theorem addChild_links (self child : Nat) (h : Heap) (hne : self ≠ child) :
    child ∈ ((addChild self child h) self).children ∧
    ((addChild self child h) child).parent = some self := by
  have hne' : ¬ child = self := fun e => hne e.symm
  simp [addChild, set, hne, hne']

end Heap

/-! ## The hovered widget and the shown panels -/

namespace MenuSystem

open VRMenuManager

variable {α : Type}

theorem shownButtons_nil_left (registry : List (PanelObj α)) :
    shownButtons [] registry = [] := by
  simp [shownButtons]

theorem shownButtons_nil_right (flags : List PanelState) :
    shownButtons flags ([] : List (PanelObj α)) = [] := by
  simp [shownButtons]

theorem shownButtons_cons (p : PanelState) (ps : List PanelState) (r : PanelObj α)
    (rs : List (PanelObj α)) :
    shownButtons (p :: ps) (r :: rs) =
      (if p.active ∧ p.shown then
        (r.root.subtree.filter (fun n => n.cls.isButton)).map WidgetObj.self else []) ++
      shownButtons ps rs := by
  by_cases h : p.active = true ∧ p.shown = true
  · simp [shownButtons, List.filter_cons, h]
  · have h' : (p.active && p.shown) = false := by
      cases ha : p.active <;> cases hs : p.shown <;> simp_all
    simp [shownButtons, List.filter_cons, h, h']

/-- A panel method that keeps the active flag and does not hide an active, shown panel keeps
every button among the shown ones. -/
theorem mem_shownButtons_map (f : PanelState → PanelState)
    (hf : ∀ p, (f p).active = p.active ∧ (p.active = true → p.shown = true → (f p).shown = true))
    (x : α) : ∀ (flags : List PanelState) (registry : List (PanelObj α)),
      x ∈ shownButtons flags registry → x ∈ shownButtons (flags.map f) registry := by
  intro flags
  induction flags with
  | nil => intro registry h; simp [shownButtons_nil_left] at h
  | cons p ps ih =>
    intro registry h
    cases registry with
    | nil => simp [shownButtons_nil_right] at h
    | cons r rs =>
      rw [List.map_cons, shownButtons_cons]
      rw [shownButtons_cons] at h
      rcases List.mem_append.mp h with h1 | h1
      · apply List.mem_append_left
        by_cases hp : p.active = true ∧ p.shown = true
        · have : (f p).active = true ∧ (f p).shown = true :=
            ⟨(hf p).1.trans hp.1, (hf p).2 hp.1 hp.2⟩
          rw [if_pos this]
          rw [if_pos hp] at h1
          exact h1
        · rw [if_neg hp] at h1
          simp at h1
      · exact List.mem_append_right _ (ih rs h1)

theorem update_flags (dt : ℚ) (p : PanelState) :
    (PanelState.update dt p).active = p.active ∧ (PanelState.update dt p).shown = p.shown := by
  unfold PanelState.update
  split
  · simp only []
    split
    · split <;> exact ⟨rfl, rfl⟩
    · exact ⟨rfl, rfl⟩
  · exact ⟨rfl, rfl⟩

/-- The open branch of the panel loop shows the active panels and leaves the others. -/
theorem togglePanels_open_panels [DecidableEq α] (mh : Bool) (ps done : List PanelState)
    (m : VRMenuManager α) (ho : m.menuOpen = true) :
    (togglePanels mh ps done m).panels = done ++ ps.map (fun p =>
      if p.active then (if mh then { p with attached := true } else p).show else p) := by
  induction ps generalizing done with
  | nil => simp [togglePanels]
  | cons p rest ih =>
    rw [togglePanels]
    simp only [ho, if_true]
    cases hp : p.active with
    | true => simp [ih, hp]
    | false => simp [ih, hp]

theorem hoverShown_congr (registry : List (PanelObj α)) (m m2 : VRMenuManager α)
    (h : HoverShown ⟨m, registry⟩) (hh : m2.hoveredWidget = m.hoveredWidget)
    (hp : m2.panels = m.panels) : HoverShown ⟨m2, registry⟩ := by
  obtain ⟨h1, h2⟩ := h
  refine ⟨?_, ?_⟩
  · show m2.panels.length = registry.length
    rw [hp]; exact h1
  · intro x hx
    show x ∈ shownButtons m2.panels registry
    rw [hp]
    exact h2 x (hh ▸ hx)

theorem hoverShown_map (registry : List (PanelObj α)) (m : VRMenuManager α)
    (f : PanelState → PanelState)
    (hf : ∀ p, (f p).active = p.active ∧ (p.active = true → p.shown = true → (f p).shown = true))
    (h : HoverShown ⟨m, registry⟩) :
    HoverShown ⟨{ m with panels := m.panels.map f }, registry⟩ := by
  obtain ⟨h1, h2⟩ := h
  refine ⟨?_, ?_⟩
  · show (m.panels.map f).length = registry.length
    rw [List.length_map]; exact h1
  · intro x hx
    exact mem_shownButtons_map f hf x _ _ (h2 x hx)

theorem hoverShown_cleared (registry : List (PanelObj α)) (m : VRMenuManager α)
    (hl : m.panels.length = registry.length) (hh : m.hoveredWidget = none) :
    HoverShown ⟨m, registry⟩ :=
  ⟨hl, fun x hx => by rw [show (MenuSystem.mk m registry).manager.hoveredWidget = none from hh] at hx; cases hx⟩

theorem show_flags (mh : Bool) (p : PanelState) :
    ((if mh then { p with attached := true } else p).show).active = p.active ∧
    (p.active = true → ((if mh then { p with attached := true } else p).show).shown = true) := by
  cases mh <;> by_cases hp : p.active = true <;> simp [PanelState.show, hp]

theorem hoverShown_toggleMenu [DecidableEq α] (registry : List (PanelObj α)) (mh : Bool)
    (m : VRMenuManager α) (h : HoverShown ⟨m, registry⟩) :
    HoverShown ⟨VRMenuManager.toggleMenu mh m, registry⟩ := by
  obtain ⟨k1, k2, _, k4⟩ := toggleMenu_keeps mh m
  have hl : (VRMenuManager.toggleMenu mh m).panels.length = registry.length := k2.trans h.1
  cases ho : m.menuOpen with
  | false =>
    obtain ⟨_, _, _, f4, _⟩ := toggleMenu_fields mh m
    have hopen : (VRMenuManager.toggleMenu mh m).menuOpen = true := by rw [f4, ho]; rfl
    obtain ⟨_, kh, _⟩ := k4 hopen
    have hp : (VRMenuManager.toggleMenu mh m).panels = m.panels.map (fun p =>
        if p.active then (if mh then { p with attached := true } else p).show else p) := by
      unfold VRMenuManager.toggleMenu
      rw [togglePanels_open_panels mh m.panels [] _ (by simp [ho])]
      simp
    refine ⟨hl, ?_⟩
    intro x hx
    show x ∈ shownButtons (VRMenuManager.toggleMenu mh m).panels registry
    rw [hp]
    refine mem_shownButtons_map _ ?_ x _ _ (h.2 x (kh ▸ hx))
    intro p
    by_cases hpa : p.active = true
    · rw [if_pos hpa]
      exact ⟨(show_flags mh p).1, fun _ _ => (show_flags mh p).2 hpa⟩
    · rw [if_neg hpa]
      exact ⟨rfl, fun _ hs => hs⟩
  | true =>
    by_cases hp : m.panels = []
    · rw [toggleMenu_noPanels mh m hp]
      exact hoverShown_congr registry m _ h rfl rfl
    · exact hoverShown_cleared registry _ hl (toggleMenu_close mh m ho hp).2.1

theorem hoverShown_processActivationInput [DecidableEq α] (registry : List (PanelObj α))
    (s : VRUISettings) (cm mh : Bool) (dt : ℚ) (m : VRMenuManager α)
    (h : HoverShown ⟨m, registry⟩) :
    HoverShown ⟨processActivationInput s cm mh dt m, registry⟩ := by
  obtain ⟨t, w, e | e⟩ := processActivationInput_cases s cm mh dt m
  · rw [e]; exact hoverShown_congr registry m _ h rfl rfl
  · rw [e]
    exact hoverShown_toggleMenu registry mh _ (hoverShown_congr registry m _ h rfl rfl)

/-- The raw touched widget is one of the gathered buttons. -/
theorem rawTouched_mem [DecidableEq α] (s : VRUISettings) (fr : TouchFrame α) (x : α)
    (h : rawTouched s fr = some x) : some x ∈ fr.allButtons := by
  obtain ⟨_, _, h3⟩ := closestHitLoop_spec fr.isVisible fr.hitTest fr.allButtons none
    (XFloat.fin s.raycastMaxDistance)
  unfold rawTouched at h
  rcases h3 with ⟨e, _⟩ | ⟨w, e, hw, _⟩
  · rw [e] at h; cases h
  · rw [e] at h
    cases h
    exact hw

theorem resolveHover_hovered [DecidableEq α] (t : Option α) (m : VRMenuManager α) :
    (resolveHover t m).hoveredWidget = m.hoveredWidget ∨ (resolveHover t m).hoveredWidget = t := by
  obtain ⟨x, e | ⟨_, e⟩⟩ := resolveHover_cases t m
  · rw [e]; exact Or.inl rfl
  · rw [e]; exact Or.inr rfl

theorem hoverShown_processTouchInput [DecidableEq α] (sys : MenuSystem α) (s : VRUISettings)
    (fr : VRMenuManager.Frame α) (m : VRMenuManager α) (h : HoverShown ⟨m, sys.registry⟩) :
    HoverShown ⟨processTouchInput s m ((frameOf sys fr).touch m.panels), sys.registry⟩ := by
  obtain ⟨_, _, _, kp, _⟩ := processTouchInput_keeps s m ((frameOf sys fr).touch m.panels)
  refine ⟨?_, ?_⟩
  · show (processTouchInput s m _).panels.length = _
    rw [kp]; exact h.1
  · intro x hx
    show x ∈ shownButtons (processTouchInput s m _).panels sys.registry
    rw [kp]
    have hx2 : (processTouchInput s m ((frameOf sys fr).touch m.panels)).hoveredWidget = some x :=
      hx
    unfold processTouchInput at hx2
    split at hx2
    · exact h.2 x hx2
    · rcases resolveHover_hovered (rawTouched s ((frameOf sys fr).touch m.panels)) _ with e | e
      · rw [e] at hx2
        exact h.2 x hx2
      · rw [e] at hx2
        have hm := rawTouched_mem s _ x hx2
        have hg : ((frameOf sys fr).touch m.panels).allButtons =
            (shownButtons m.panels sys.registry).map some := by
          show (gatherButtons m.panels sys.registry []).map some = _
          rw [gatherButtons_eq]; simp
        rw [hg] at hm
        simpa using hm

theorem hoverShown_frameStep [DecidableEq α] (s : VRUISettings) (fr : VRMenuManager.Frame α)
    (sys : MenuSystem α)
    (hfr : ∀ (w : α) (m : VRMenuManager α),
      fr.onPress w m = m ∨ ∃ mh : Bool, fr.onPress w m = VRMenuManager.toggleMenu mh m)
    (h : HoverShown sys) : HoverShown (onFrameUpdate s fr sys) := by
  have h0 : HoverShown ⟨sys.manager, sys.registry⟩ := h
  have ha : HoverShown ⟨afterActivation s sys.manager (frameOf sys fr), sys.registry⟩ :=
    hoverShown_processActivationInput sys.registry s _ _ _ _
      (hoverShown_congr sys.registry sys.manager _ h0 rfl rfl)
  have hu : ∀ p, (PanelState.update fr.deltaTime p).active = p.active ∧
      (p.active = true → p.shown = true → (PanelState.update fr.deltaTime p).shown = true) :=
    fun p => ⟨(update_flags _ p).1, fun _ hs => (update_flags _ p).2.trans hs⟩
  show HoverShown ⟨frameStep s sys.manager (frameOf sys fr), sys.registry⟩
  cases ho : (afterActivation s sys.manager (frameOf sys fr)).menuOpen with
  | true =>
    rw [frameStep_open s _ _ ho]
    have ht := hoverShown_processTouchInput sys s fr _ ha
    have he := hoverShown_congr sys.registry _
      (afterEdge (processTouchInput s (afterActivation s sys.manager (frameOf sys fr))
        ((frameOf sys fr).touch (afterActivation s sys.manager (frameOf sys fr)).panels)))
      ht rfl rfl
    have hq : HoverShown ⟨processTriggerInput (frameOf sys fr).onPress
        (processTouchInput s (afterActivation s sys.manager (frameOf sys fr))
          ((frameOf sys fr).touch (afterActivation s sys.manager (frameOf sys fr)).panels)),
        sys.registry⟩ := by
      rw [processTriggerInput_eq]
      split
      · rename_i w _
        rcases hfr w (afterEdge (processTouchInput s
          (afterActivation s sys.manager (frameOf sys fr))
          ((frameOf sys fr).touch
            (afterActivation s sys.manager (frameOf sys fr)).panels))) with e | ⟨mh, e⟩
        · have e' : (frameOf sys fr).onPress w (afterEdge (processTouchInput s
              (afterActivation s sys.manager (frameOf sys fr))
              ((frameOf sys fr).touch
                (afterActivation s sys.manager (frameOf sys fr)).panels))) = _ := e
          rw [e']; exact he
        · have e' : (frameOf sys fr).onPress w (afterEdge (processTouchInput s
              (afterActivation s sys.manager (frameOf sys fr))
              ((frameOf sys fr).touch
                (afterActivation s sys.manager (frameOf sys fr)).panels))) = _ := e
          rw [e']; exact hoverShown_toggleMenu sys.registry mh _ he
      · exact he
    exact hoverShown_map sys.registry _ _ hu hq
  | false =>
    rw [frameStep_closed s _ _ ho]
    exact hoverShown_map sys.registry _ _ hu ha

theorem hoverShown_registerPanel (panel : PanelObj α) (flags : PanelState) (sys : MenuSystem α)
    (h : HoverShown sys) : HoverShown (registerPanel panel flags sys) := by
  obtain ⟨h1, h2⟩ := h
  refine ⟨?_, ?_⟩
  · show (sys.manager.panels ++ [flags]).length = (sys.registry ++ [panel]).length
    simp [h1]
  · intro x hx
    have hx2 := h2 x hx
    show x ∈ shownButtons (sys.manager.panels ++ [flags]) (sys.registry ++ [panel])
    unfold shownButtons at hx2 ⊢
    rw [List.zip_append h1, List.filter_append, List.flatMap_append]
    exact List.mem_append_left _ hx2

/-- Along every history of `registerPanel`, `toggleMenu` and `onFrameUpdate` calls that starts
with nothing hovered, the hovered widget is a button of a registered panel that is active and
shown.  (`unregisterPanel` and `switchToPanel` are not among these calls.) -/
theorem hoverShown_reach [DecidableEq α] (s : VRUISettings) (sys : MenuSystem α)
    (h : Reach s sys) : HoverShown sys := by
  induction h with
  | start registry flags hl => exact hoverShown_cleared registry _ hl rfl
  | registerPanel sys panel flags _ ih => exact hoverShown_registerPanel panel flags sys ih
  | toggleMenu sys mh _ ih => exact hoverShown_toggleMenu sys.registry mh sys.manager ih
  | onFrameUpdate sys fr hfr _ ih => exact hoverShown_frameStep s fr sys hfr ih

/-- The sample system `hoveringMain` is such a history, so its hovered button 7 is among the
shown buttons; after `unregisterPanel` of "main" the property is lost. -/
theorem hoverShown_hoveringMain :
    Reach VRUISettings.defaults hoveringMain ∧ HoverShown hoveringMain ∧
    ¬ HoverShown (unregisterPanel 0 hoveringMain) := by
  have hr : Reach VRUISettings.defaults hoveringMain :=
    Reach.onFrameUpdate _ _ (fun _ _ => Or.inl rfl) (Reach.toggleMenu _ _ (Reach.registerPanel _ _ _
      (Reach.registerPanel _ _ _ (Reach.start [] [] rfl))))
  refine ⟨hr, hoverShown_reach _ _ hr, ?_⟩
  intro h
  have h7 := h.2 7 (by rw [hoveringMain_eq]; rfl)
  rw [hoveringMain_eq] at h7
  revert h7
  decide

end MenuSystem

/-! ## Panel life cycle and the active panel -/

theorem PanelOp.run_inv (p : PanelState) (op : PanelOp)
    (h : p.shown = true → p.active = true) :
    (op.run p).shown = true → (op.run p).active = true := by
  cases op with
  | showPanel =>
    by_cases ha : p.active = true
    · simp [PanelOp.run, PanelState.show, ha]
    · simpa [PanelOp.run, PanelState.show, ha] using h
  | hidePanel =>
    by_cases hs : p.shown = true
    · simp [PanelOp.run, PanelState.hide, hs]
    · simp [PanelOp.run, PanelState.hide, hs]
  | setActive a =>
    cases a with
    | true => simp [PanelOp.run, PanelState.setActive]
    | false =>
      by_cases hs : p.shown = true
      · simp [PanelOp.run, PanelState.setActive, PanelState.hide, hs]
      · simp [PanelOp.run, PanelState.setActive, PanelState.hide, hs]

theorem PanelState.runOps_inv (ops : List PanelOp) :
    ∀ p : PanelState, (p.shown = true → p.active = true) →
      (p.runOps ops).shown = true → (p.runOps ops).active = true := by
  induction ops with
  | nil => intro p h; exact h
  | cons op ops ih =>
    intro p h
    exact ih (op.run p) (PanelOp.run_inv p op h)

/-- C30: in every panel state reached from the constructor (`_active = true`,
`_shown = false`) through `show()`, `hide()` and `setActive(b)`, `isShown()` implies
`isActive()`.  In such a state `show()` on an inactive panel leaves it not shown, and
`setActive(false)` leaves any panel not shown and inactive. -/
theorem C30_shown_implies_active (ops : List PanelOp) :
    ((VRMenuManager.freshPanel.runOps ops).shown = true →
      (VRMenuManager.freshPanel.runOps ops).active = true) ∧
    ((VRMenuManager.freshPanel.runOps ops).active = false →
      (VRMenuManager.freshPanel.runOps ops).show = VRMenuManager.freshPanel.runOps ops ∧
      (VRMenuManager.freshPanel.runOps ops).show.shown = false) ∧
    (∀ p : PanelState, (p.setActive false).shown = false ∧ (p.setActive false).active = false) := by
  have hinv := PanelState.runOps_inv ops VRMenuManager.freshPanel (by decide)
  refine ⟨hinv, ?_, ?_⟩
  · intro ha
    have hshow : (VRMenuManager.freshPanel.runOps ops).show
        = VRMenuManager.freshPanel.runOps ops := by
      simp [PanelState.show, ha]
    refine ⟨hshow, ?_⟩
    rw [hshow]
    cases hs : (VRMenuManager.freshPanel.runOps ops).shown with
    | false => rfl
    | true => rw [hinv hs] at ha; cases ha
  · intro p
    by_cases hs : p.shown = true
    · simp [PanelState.setActive, PanelState.hide, hs]
    · simp [PanelState.setActive, PanelState.hide, hs]
namespace MenuSystem

open VRMenuManager

variable {α : Type}

theorem findPanels_target_none (panelName : String) (rs : List (PanelObj α))
    (h : ∀ r ∈ rs, r.name ≠ panelName) :
    ∀ (idx : Nat) (ps : List PanelState) (acc : Option Nat × Option Nat),
      (findPanels panelName idx ps rs acc).1 = acc.1 := by
  induction rs with
  | nil => intro idx ps acc; cases ps <;> simp [findPanels]
  | cons r rs ih =>
    intro idx ps acc
    cases ps with
    | nil => simp [findPanels]
    | cons p ps =>
      obtain ⟨t, c⟩ := acc
      rw [findPanels, ih (fun x hx => h x (List.mem_cons_of_mem _ hx))]
      simp [h r (List.mem_cons_self _ _)]

/-- The current panel found by `switchToPanel` is an active panel, and none is found only
when no panel is active. -/
theorem findPanels_current (panelName : String) :
    ∀ (ps : List PanelState) (rs : List (PanelObj α)) (idx : Nat)
      (acc : Option Nat × Option Nat), ps.length = rs.length →
      ((findPanels panelName idx ps rs acc).2 = acc.2 ∧ ∀ p ∈ ps, p.active = false) ∨
      ∃ i p, (findPanels panelName idx ps rs acc).2 = some (idx + i) ∧
        ps.get? i = some p ∧ p.active = true := by
  intro ps
  induction ps with
  | nil =>
    intro rs idx acc _
    left
    cases rs <;> simp [findPanels]
  | cons p ps ih =>
    intro rs idx acc hl
    cases rs with
    | nil => simp at hl
    | cons r rs =>
      obtain ⟨t, c⟩ := acc
      rw [findPanels]
      have hl2 : ps.length = rs.length := by simpa using hl
      rcases ih rs (idx + 1) (if r.name = panelName then some idx else t,
          if p.active = true then some idx else c) hl2 with ⟨e, hall⟩ | ⟨i, q, e, hq, ha⟩
      · by_cases hp : p.active = true
        · right
          refine ⟨0, p, ?_, rfl, hp⟩
          rw [e]; simp [hp]
        · left
          refine ⟨?_, ?_⟩
          · rw [e]; simp [hp]
          · intro x hx
            rcases List.mem_cons.mp hx with rfl | hx
            · simpa using hp
            · exact hall x hx
      · right
        refine ⟨i + 1, q, ?_, ?_, ha⟩
        · rw [e]; congr 1; omega
        · simpa using hq

theorem length_applyAt (f : PanelState → PanelState) :
    ∀ (i : Nat) (ps : List PanelState), (applyAt f i ps).length = ps.length := by
  intro i ps
  induction ps generalizing i with
  | nil => simp [applyAt]
  | cons p ps ih => cases i <;> simp [applyAt, ih]

theorem countP_applyAt_le (q : PanelState → Bool) (f : PanelState → PanelState) :
    ∀ (i : Nat) (ps : List PanelState),
      List.countP q (applyAt f i ps) ≤ List.countP q ps + 1 := by
  intro i ps
  induction ps generalizing i with
  | nil => simp [applyAt]
  | cons p ps ih =>
    cases i with
    | zero =>
      simp only [applyAt, List.countP_cons]
      split <;> split <;> omega
    | succ i =>
      simp only [applyAt, List.countP_cons]
      have := ih i
      omega

theorem countP_applyAt_same (q : PanelState → Bool) (f : PanelState → PanelState)
    (hf : ∀ p, q (f p) = q p) :
    ∀ (i : Nat) (ps : List PanelState), List.countP q (applyAt f i ps) = List.countP q ps := by
  intro i ps
  induction ps generalizing i with
  | nil => simp [applyAt]
  | cons p ps ih =>
    cases i with
    | zero => simp only [applyAt, List.countP_cons, hf]
    | succ i => simp only [applyAt, List.countP_cons, ih i]

theorem countP_applyAt_drop (q : PanelState → Bool) (f : PanelState → PanelState)
    (hf : ∀ p, q (f p) = false) :
    ∀ (i : Nat) (ps : List PanelState) (p : PanelState), ps.get? i = some p → q p = true →
      List.countP q (applyAt f i ps) + 1 = List.countP q ps := by
  intro i ps
  induction ps generalizing i with
  | nil => intro p h; simp at h
  | cons x ps ih =>
    intro p h hq
    cases i with
    | zero =>
      have hx : x = p := by simpa using h
      subst hx
      simp [applyAt, List.countP_cons, hf, hq]
    | succ i =>
      have h2 : ps.get? i = some p := by simpa using h
      simp only [applyAt, List.countP_cons]
      have := ih i p h2 hq
      omega

theorem togglePanels_active [DecidableEq α] (mh : Bool) (ps : List PanelState) :
    ∀ (done : List PanelState) (m : VRMenuManager α),
      (togglePanels mh ps done m).panels.map (fun p => p.active)
        = (done ++ ps).map (fun p => p.active) := by
  induction ps with
  | nil => intro done m; simp [togglePanels]
  | cons p rest ih =>
    intro done m
    rw [togglePanels]
    split
    · split
      · rw [ih]; simp
      · rw [ih]
        cases mh <;> by_cases hp : p.active = true <;> simp [PanelState.show, hp]
    · rw [ih]
      by_cases hs : p.shown = true <;> simp [PanelState.hide, hs]

theorem activeCount_eq_of_map {sys sys2 : MenuSystem α}
    (h : sys2.manager.panels.map (fun p => p.active) = sys.manager.panels.map (fun p => p.active)) :
    activeCount sys2 = activeCount sys := by
  have e : ∀ l : List PanelState,
      List.countP (fun p => p.active) l = List.countP id (l.map (fun p => p.active)) := by
    intro l
    rw [List.countP_map]
    rfl
  unfold activeCount
  rw [e, e, h]

theorem activeCount_toggleMenu [DecidableEq α] (mh : Bool) (sys : MenuSystem α) :
    activeCount (toggleMenu mh sys) = activeCount sys := by
  apply activeCount_eq_of_map
  show (VRMenuManager.toggleMenu mh sys.manager).panels.map _ = _
  unfold VRMenuManager.toggleMenu
  rw [togglePanels_active]
  simp

theorem activeCount_unregisterPanel (it : Nat) (sys : MenuSystem α) :
    activeCount (unregisterPanel it sys) ≤ activeCount sys := by
  unfold unregisterPanel
  split
  · exact List.Sublist.countP_le _ (List.eraseIdx_sublist _ _)
  · exact le_refl _

theorem switchToPanel_registry [DecidableEq α] (mh : Bool) (panelName : String)
    (sys : MenuSystem α) :
    (switchToPanel mh panelName sys).registry = sys.registry ∧
    (switchToPanel mh panelName sys).manager.panels.length = sys.manager.panels.length := by
  unfold switchToPanel
  generalize findPanels panelName 0 sys.manager.panels sys.registry (none, none) = fp
  obtain ⟨t, c⟩ := fp
  cases t with
  | none => exact ⟨rfl, rfl⟩
  | some target =>
    simp only []
    split
    · refine ⟨rfl, ?_⟩
      simp only []
      split <;> cases c <;> simp [length_applyAt]
    · exact ⟨rfl, rfl⟩

theorem show_active (mh : Bool) (p : PanelState) :
    ((if mh then { p with attached := true } else p).show).active = p.active := by
  cases mh <;> by_cases hp : p.active = true <;> simp [PanelState.show, hp]

theorem deactivate_active (p : PanelState) :
    ({ ((p.setActive false).hide) with attached := false } : PanelState).active = false := by
  by_cases hs : p.shown = true <;> simp [PanelState.setActive, PanelState.hide, hs]

/-- `switchToPanel` keeps "at most one registered panel is active". -/
theorem activeCount_switchToPanel [DecidableEq α] (mh : Bool) (panelName : String)
    (sys : MenuSystem α) (hl : sys.manager.panels.length = sys.registry.length)
    (h : activeCount sys ≤ 1) : activeCount (switchToPanel mh panelName sys) ≤ 1 := by
  have hcur := findPanels_current panelName sys.manager.panels sys.registry 0 (none, none) hl
  unfold switchToPanel
  generalize findPanels panelName 0 sys.manager.panels sys.registry (none, none) = fp at hcur
  obtain ⟨t, c⟩ := fp
  cases t with
  | none => exact h
  | some target =>
    simp only []
    split
    · -- the panels after the current one is deactivated: none is active
      have h1 : List.countP (fun p => p.active)
          (match c with
            | some current =>
              applyAt (fun p => { ((p.setActive false).hide) with attached := false }) current
                sys.manager.panels
            | none => sys.manager.panels) = 0 := by
        cases c with
        | none =>
          rcases hcur with ⟨_, hall⟩ | ⟨i, p, e, _, _⟩
          · simp only []
            rw [List.countP_eq_zero]
            intro p hp
            simp [hall p hp]
          · simp at e
        | some current =>
          rcases hcur with ⟨e, _⟩ | ⟨i, p, e, hp, ha⟩
          · simp at e
          · simp only [Option.some.injEq] at e
            have hi : current = i := by omega
            subst hi
            have key := countP_applyAt_drop (fun p => p.active)
              (fun p => { ((p.setActive false).hide) with attached := false })
              deactivate_active current sys.manager.panels p hp ha
            have h0 : ∀ n : Nat, n + 1 = activeCount sys → n = 0 := by
              intro n hn; omega
            exact h0 _ key
      unfold activeCount
      simp only []
      split
      · refine le_trans (le_of_eq (countP_applyAt_same (fun p => p.active) _
          (show_active mh) target _)) ?_
        refine le_trans (countP_applyAt_le (fun p => p.active) _ target _) ?_
        exact Nat.succ_le_succ (le_of_eq h1)
      · refine le_trans (countP_applyAt_le (fun p => p.active) _ target _) ?_
        exact Nat.succ_le_succ (le_of_eq h1)
    · exact h

theorem activeCount_registerPanel (panel : PanelObj α) (flags : PanelState)
    (sys : MenuSystem α) :
    activeCount (registerPanel panel flags sys)
      = activeCount sys + (if flags.active then 1 else 0) := by
  unfold activeCount registerPanel
  simp [List.countP_append, List.countP_cons]

/-- The guarded histories keep the flags and the panel objects aligned and at most one
panel active. -/
theorem managed_inv [DecidableEq α] (sys : MenuSystem α) (h : Managed sys) :
    sys.manager.panels.length = sys.registry.length ∧ activeCount sys ≤ 1 := by
  induction h with
  | start => exact ⟨rfl, by simp [activeCount, idle]⟩
  | registerPanel sys panel flags hg _ ih =>
    refine ⟨by simp [registerPanel, ih.1], ?_⟩
    rw [activeCount_registerPanel]
    by_cases ha : flags.active = true
    · rw [hg ha]; simp [ha]
    · simp only [ha]; simpa using ih.2
  | unregisterPanel sys it _ ih =>
    refine ⟨?_, le_trans (activeCount_unregisterPanel it sys) ih.2⟩
    unfold unregisterPanel
    split
    · simp [List.length_eraseIdx, ih.1]
    · exact ih.1
  | switchToPanel sys mh name _ ih =>
    obtain ⟨r1, r2⟩ := switchToPanel_registry mh name sys
    exact ⟨by rw [r1, r2]; exact ih.1, activeCount_switchToPanel mh name sys ih.1 ih.2⟩
  | toggleMenu sys mh _ ih =>
    refine ⟨?_, by rw [activeCount_toggleMenu]; exact ih.2⟩
    show (VRMenuManager.toggleMenu mh sys.manager).panels.length = sys.registry.length
    rw [(toggleMenu_keeps mh sys.manager).2.1]
    exact ih.1

/-- C21, refuted as stated: two panels that are registered as their constructor leaves them
(`_active = true`) are both active. -/
theorem C21_counterexample :
    VRMenuManager.freshPanel.active = true ∧
    twoFresh.manager.panels.map (fun p => p.active) = [true, true] ∧
    activeCount twoFresh = 2 := by
  refine ⟨rfl, rfl, rfl⟩

/-- C21, as the code has it: `registerPanel` takes the panel with the flag it has.  When every
panel that is registered while a registered panel is active has been deactivated before, then
in every state reached through `registerPanel`, `unregisterPanel`, `switchToPanel` and
`toggleMenu` at most one registered panel is active (and every registered panel has its
flags). -/
theorem C21_at_most_one_active [DecidableEq α] (sys : MenuSystem α) (h : Managed sys) :
    activeCount sys ≤ 1 ∧ sys.manager.panels.length = sys.registry.length :=
  ⟨(managed_inv sys h).2, (managed_inv sys h).1⟩

/-- C21 at a sample: "main" registered active, "other" registered inactive, the menu opened,
the active panel switched to "other". -/
theorem C21_at_most_one_active_witness :
    Managed switchedToOther ∧
    (activeCount switchedToOther ≤ 1 ∧
      switchedToOther.manager.panels.length = switchedToOther.registry.length) :=
  have hm : Managed switchedToOther :=
    Managed.switchToPanel _ _ _ (Managed.toggleMenu _ _ (Managed.registerPanel _ _ _
      (fun h => absurd h (by decide))
      (Managed.registerPanel _ _ _ (fun _ => rfl) Managed.start)))
  ⟨hm, C21_at_most_one_active switchedToOther hm⟩

/-- C22: `switchToPanel(name)` with a name that no registered panel carries changes nothing:
the controller state after the call (the flags of every panel, `_menuOpen`, the hovered
widget, `_triggerPressed` and the rest) is the state before it. -/
theorem C22_switch_unknown_name [DecidableEq α] (mh : Bool) (panelName : String)
    (sys : MenuSystem α) (h : ∀ r ∈ sys.registry, r.name ≠ panelName) :
    switchToPanel mh panelName sys = sys := by
  have ht := findPanels_target_none panelName sys.registry h 0 sys.manager.panels (none, none)
  unfold switchToPanel
  generalize findPanels panelName 0 sys.manager.panels sys.registry (none, none) = fp at ht
  obtain ⟨t, c⟩ := fp
  simp only at ht
  subst ht
  rfl

/-- C22 at a sample: with button 7 of "main" hovered, `switchToPanel("missing")` leaves the
state as it is. -/
theorem C22_switch_unknown_name_witness :
    (∀ r ∈ hoveringMain.registry, r.name ≠ "missing") ∧
    switchToPanel true "missing" hoveringMain = hoveringMain :=
  ⟨by decide, C22_switch_unknown_name true "missing" hoveringMain (by decide)⟩

end MenuSystem

/-! ## Slider -/

namespace VRUISlider

theorem clamp_mem (v lo hi : ℚ) (h : lo ≤ hi) : lo ≤ clamp v lo hi ∧ clamp v lo hi ≤ hi := by
  unfold clamp
  split
  · exact ⟨le_refl _, h⟩
  · split
    · exact ⟨h, le_refl _⟩
    · constructor <;> linarith

theorem clamp_of_mem (v lo hi : ℚ) (h1 : lo ≤ v) (h2 : v ≤ hi) : clamp v lo hi = v := by
  unfold clamp
  rw [if_neg (not_lt.mpr h1), if_neg (not_lt.mpr h2)]

theorem isFloat_tolerance : F32.IsFloat tolerance := by
  have h := F32.isFloat_rep 13743895 (-37) (by norm_num) (by norm_num)
  have e : ((13743895 : ℤ) : ℚ) * 2 ^ (-37 : ℤ) = tolerance := by
    norm_num [tolerance]
  rwa [e] at h

/-- A difference that is not negative rounds to a `float` above `0.0001f` exactly when it
is at least the midpoint `0.0001f + 2^-38`. -/
theorem round_gt_tolerance_of_nonneg (d : ℚ) (hd : 0 ≤ d) :
    tolerance < F32.round d ↔ toleranceEdge ≤ d := by
  constructor
  · intro h
    by_contra hlt
    push_neg at hlt
    by_cases h1 : d ≤ tolerance
    · exact absurd (F32.round_le_of_le isFloat_tolerance h1) (not_le.mpr h)
    · push_neg at h1
      unfold tolerance at h1
      unfold toleranceEdge at hlt
      have hr : F32.round d = tolerance :=
        F32.round_eval (-14) 13743895 _ (by norm_num)
          (by rw [abs_of_nonneg hd]; norm_num; linarith)
          (by rw [abs_of_nonneg hd]; norm_num; linarith)
          (by rw [abs_lt]; norm_num; constructor <;> linarith)
          (by norm_num [tolerance])
      rw [hr] at h
      exact lt_irrefl _ h
  · intro h
    unfold toleranceEdge at h
    have hnext : F32.IsFloat (13743896 / 137438953472 : ℚ) := by
      have h := F32.isFloat_rep 13743896 (-37) (by norm_num) (by norm_num)
      have e : ((13743896 : ℤ) : ℚ) * 2 ^ (-37 : ℤ) = 13743896 / 137438953472 := by
        norm_num
      rwa [e] at h
    by_cases h1 : (13743896 / 137438953472 : ℚ) ≤ d
    · have := F32.le_round_of_le hnext h1
      unfold tolerance
      linarith
    · push_neg at h1
      rcases eq_or_lt_of_le h with he | hlt
      · have hr : F32.round d = (13743895 + 1) * 2 ^ ((-14 : ℤ) - 23) :=
          F32.round_eq_of_tie_odd (-14) 13743895 (by norm_num)
            (by rw [← he]; norm_num [abs_of_pos])
            (by rw [← he]; norm_num [abs_of_pos])
            (by rw [← he]; norm_num) (by norm_num)
        rw [hr]
        norm_num [tolerance]
      · have hr : F32.round d = 13743896 / 137438953472 :=
          F32.round_eval (-14) 13743896 _ (by norm_num)
            (by rw [abs_of_nonneg hd]; norm_num; linarith)
            (by rw [abs_of_nonneg hd]; norm_num; linarith)
            (by rw [abs_lt]; norm_num; constructor <;> linarith)
            (by norm_num)
        rw [hr]
        norm_num [tolerance]

/-- The guard of `setValue` in exact terms: the `float` difference exceeds `0.0001f` in
magnitude exactly when the difference is at least `0.0001f + 2^-38` in magnitude. -/
theorem round_gt_tolerance_iff (d : ℚ) :
    tolerance < |F32.round d| ↔ toleranceEdge ≤ |d| := by
  rcases le_total 0 d with hd | hd
  · rw [abs_of_nonneg hd, abs_of_nonneg (F32.round_nonneg hd)]
    exact round_gt_tolerance_of_nonneg d hd
  · rw [abs_of_nonpos hd, abs_of_nonpos (F32.round_nonpos hd), ← F32.round_neg]
    exact round_gt_tolerance_of_nonneg (-d) (by linarith)

theorem toleranceEdge_gt : (1 / 10000 : ℚ) < toleranceEdge := by
  norm_num [toleranceEdge]

/-- Method `setValue` by cases: within the tolerance nothing changes; beyond it the clamped
value is stored and, when asked for and installed, the callback is invoked with it. -/
theorem setValue_cases (v : ℚ) (tc : Bool) (sl : VRUISlider) :
    (|F32.round (sl.currentValue - clamp v sl.minValue sl.maxValue)| ≤ tolerance ∧
      setValue v tc sl = sl) ∨
    (tolerance < |F32.round (sl.currentValue - clamp v sl.minValue sl.maxValue)| ∧
      setValue v tc sl =
        { sl with currentValue := clamp v sl.minValue sl.maxValue,
                  valueChanged := sl.valueChanged ++
                    (if tc ∧ sl.hasOnValueChanged then [clamp v sl.minValue sl.maxValue]
                     else []) }) := by
  by_cases h : tolerance < |F32.round (sl.currentValue - clamp v sl.minValue sl.maxValue)|
  · right
    refine ⟨h, ?_⟩
    unfold setValue
    simp only [gt_iff_lt, h, if_true]
    by_cases hc : tc = true ∧ sl.hasOnValueChanged = true
    · simp [hc]
    · simp only [hc, if_false]
      simp
  · left
    refine ⟨not_lt.mp h, ?_⟩
    unfold setValue
    simp only [gt_iff_lt, h, if_false]

/-- C23, refuted as stated: the constructor stores the default value as given, and `setValue`
keeps a stored value whose `float` difference to the clamped input is at most `0.0001f`.
On a slider over [0, 1] constructed with the default `1.00005f`, `setValue(2)` leaves the
stored value at `1.00005f`, above the maximum. -/
theorem C23_counterexample :
    justAbove.minValue ≤ justAbove.maxValue ∧
    (setValue 2 true justAbove).getValue = 8389027 / 8388608 ∧
    ¬ ((setValue 2 true justAbove).getValue ≤ justAbove.maxValue) := by
  have h : setValue 2 true justAbove = justAbove := by
    rcases setValue_cases 2 true justAbove with ⟨_, e⟩ | ⟨hlt, _⟩
    · exact e
    · exfalso
      rw [round_gt_tolerance_iff] at hlt
      revert hlt
      norm_num [justAbove, new, clamp, abs_of_pos, toleranceEdge]
  rw [h]
  norm_num [justAbove, new, getValue]

/-- The bound 1/10000 on the excess does not hold: on the slider `nearTolerance`, whose
stored value exceeds the maximum by `109951163 * 2^-40 > 1/10000`, the `float` difference
rounds to `0.0001f` and `setValue(1)` keeps the stored value. -/
theorem setValue_nearTolerance :
    nearTolerance.minValue ≤ nearTolerance.maxValue ∧
    (setValue 1 true nearTolerance).getValue = 1717987 / 17179869184 ∧
    nearTolerance.maxValue + 1 / 10000 < (setValue 1 true nearTolerance).getValue := by
  have h : setValue 1 true nearTolerance = nearTolerance := by
    rcases setValue_cases 1 true nearTolerance with ⟨_, e⟩ | ⟨hlt, _⟩
    · exact e
    · exfalso
      rw [round_gt_tolerance_iff] at hlt
      revert hlt
      norm_num [nearTolerance, new, clamp, abs_of_pos, toleranceEdge]
  rw [h]
  norm_num [nearTolerance, new, getValue]

/-- C23, as the code has it: on a slider with `min <= max`, after `setValue(v)` the stored
value is within [min, max] when it was so before the call, and whenever the call changed it;
in every case it is within `0.0001f + 2^-38` of [min, max] (the bound is the least
difference whose `float` value exceeds `0.0001f`). -/
theorem C23_setValue_in_range (sl : VRUISlider) (v : ℚ) (tc : Bool)
    (h : sl.minValue ≤ sl.maxValue) :
    (sl.minValue ≤ sl.getValue → sl.getValue ≤ sl.maxValue →
      sl.minValue ≤ (setValue v tc sl).getValue ∧ (setValue v tc sl).getValue ≤ sl.maxValue) ∧
    ((setValue v tc sl).getValue ≠ sl.getValue →
      sl.minValue ≤ (setValue v tc sl).getValue ∧ (setValue v tc sl).getValue ≤ sl.maxValue) ∧
    sl.minValue - toleranceEdge < (setValue v tc sl).getValue ∧
    (setValue v tc sl).getValue < sl.maxValue + toleranceEdge ∧
    (setValue v tc sl).minValue = sl.minValue ∧ (setValue v tc sl).maxValue = sl.maxValue := by
  obtain ⟨c1, c2⟩ := clamp_mem v sl.minValue sl.maxValue h
  have hpos : (0 : ℚ) < toleranceEdge := by norm_num [toleranceEdge]
  rcases setValue_cases v tc sl with ⟨hle, e⟩ | ⟨_, e⟩
  · rw [e]
    have hlt : |sl.currentValue - clamp v sl.minValue sl.maxValue| < toleranceEdge := by
      by_contra hge
      exact absurd ((round_gt_tolerance_iff _).mpr (not_lt.mp hge)) (not_lt.mpr hle)
    obtain ⟨a1, a2⟩ := abs_lt.mp hlt
    unfold getValue
    refine ⟨fun h1 h2 => ⟨h1, h2⟩, fun hne => absurd rfl hne, ?_, ?_, rfl, rfl⟩ <;> linarith
  · rw [e]
    unfold getValue
    refine ⟨fun _ _ => ⟨c1, c2⟩, fun _ => ⟨c1, c2⟩, ?_, ?_, rfl, rfl⟩
    · show sl.minValue - toleranceEdge < clamp v sl.minValue sl.maxValue
      linarith
    · show clamp v sl.minValue sl.maxValue < sl.maxValue + toleranceEdge
      linarith

/-- C23 at a sample: a slider over [0, 1] at 1/2, `setValue(2)`. -/
theorem C23_setValue_in_range_witness :
    halfWay.minValue ≤ halfWay.maxValue ∧
    (halfWay.minValue ≤ (setValue 2 true halfWay).getValue ∧
      (setValue 2 true halfWay).getValue ≤ halfWay.maxValue) :=
  have h : halfWay.minValue ≤ halfWay.maxValue := by
    norm_num [halfWay, setOnValueChanged, new]
  ⟨h, (C23_setValue_in_range halfWay 2 true h).1
    (by norm_num [halfWay, setOnValueChanged, new, getValue])
    (by norm_num [halfWay, setOnValueChanged, new, getValue])⟩

/-- C24, refuted as stated: on a slider over [0, 1] constructed with the default value 5,
`setValue(getValue())` stores 1 and invokes the callback with 1. -/
theorem C24_counterexample :
    farAbove.getValue = 5 ∧
    (setValue farAbove.getValue true farAbove).getValue = 1 ∧
    (setValue farAbove.getValue true farAbove).valueChanged = [1] := by
  rcases setValue_cases farAbove.getValue true farAbove with ⟨hle, _⟩ | ⟨_, e⟩
  · exfalso
    have hgt := (round_gt_tolerance_iff
      (farAbove.currentValue - clamp farAbove.getValue farAbove.minValue farAbove.maxValue)).mpr
      (by norm_num [farAbove, setOnValueChanged, new, clamp, getValue, abs_of_pos,
        toleranceEdge])
    exact absurd hgt (not_lt.mpr hle)
  · rw [e]
    norm_num [farAbove, setOnValueChanged, new, clamp, getValue]

/-- C24, as the code has it.  When the stored value is within [min, max] (as after every
`setValue` that stored a value, on a slider with `min <= max`), `setValue(getValue())`
leaves the slider as it is and invokes no callback.  For every slider state and every
input `v`, `setValue(v)` invokes the callback exactly when the `float` difference of the
stored value and the clamped `v` exceeds `0.0001f` in magnitude, the callback was asked for
and one is installed; it is then invoked once, with the clamped value, which is also
stored.  The `float` difference exceeds `0.0001f` exactly when the difference is at least
`0.0001f + 2^-38` in magnitude, and then the difference exceeds 1/10000.  When it does not,
the slider is unchanged. -/
theorem C24_round_trip (sl : VRUISlider) (tc : Bool) :
    (sl.minValue ≤ sl.getValue → sl.getValue ≤ sl.maxValue →
      setValue sl.getValue tc sl = sl) ∧
    (∀ v tc2, (setValue v tc2 sl).valueChanged = sl.valueChanged ++
      (if tolerance < |F32.round (sl.getValue - clamp v sl.minValue sl.maxValue)| ∧
          tc2 = true ∧ sl.hasOnValueChanged = true
        then [clamp v sl.minValue sl.maxValue] else [])) ∧
    (∀ v, tolerance < |F32.round (sl.getValue - clamp v sl.minValue sl.maxValue)| ↔
      toleranceEdge ≤ |sl.getValue - clamp v sl.minValue sl.maxValue|) ∧
    (∀ v, tolerance < |F32.round (sl.getValue - clamp v sl.minValue sl.maxValue)| →
      1 / 10000 < |sl.getValue - clamp v sl.minValue sl.maxValue|) ∧
    (∀ v tc2, ¬ tolerance < |F32.round (sl.getValue - clamp v sl.minValue sl.maxValue)| →
      setValue v tc2 sl = sl) ∧
    (∀ v tc2, tolerance < |F32.round (sl.getValue - clamp v sl.minValue sl.maxValue)| →
      (setValue v tc2 sl).getValue = clamp v sl.minValue sl.maxValue) := by
  unfold getValue at *
  refine ⟨?_, ?_, ?_, ?_, ?_, ?_⟩
  · intro hlo hhi
    rcases setValue_cases sl.currentValue tc sl with ⟨_, e⟩ | ⟨hlt, _⟩
    · exact e
    · exfalso
      rw [clamp_of_mem _ _ _ hlo hhi, sub_self, F32.round_zero, abs_zero] at hlt
      norm_num [tolerance] at hlt
  · intro v tc2
    rcases setValue_cases v tc2 sl with ⟨hle, e⟩ | ⟨hlt, e⟩
    · rw [e, if_neg (fun h => absurd h.1 (not_lt.mpr hle)), List.append_nil]
    · rw [e]
      by_cases hc : tc2 = true ∧ sl.hasOnValueChanged = true
      · rw [if_pos hc, if_pos ⟨hlt, hc.1, hc.2⟩]
      · rw [if_neg hc, if_neg (fun h => hc ⟨h.2.1, h.2.2⟩)]
  · intro v
    exact round_gt_tolerance_iff _
  · intro v hgt
    exact lt_of_lt_of_le toleranceEdge_gt ((round_gt_tolerance_iff _).mp hgt)
  · intro v tc2 hle
    rcases setValue_cases v tc2 sl with ⟨_, e⟩ | ⟨hlt, _⟩
    · exact e
    · exact absurd hlt hle
  · intro v tc2 hlt
    rcases setValue_cases v tc2 sl with ⟨hle, _⟩ | ⟨_, e⟩
    · exact absurd hlt (not_lt.mpr hle)
    · rw [e]

/-- C24 at a sample: a slider over [0, 1] at 1/2, round trip. -/
theorem C24_round_trip_witness :
    halfWay.minValue ≤ halfWay.getValue ∧ halfWay.getValue ≤ halfWay.maxValue ∧
    setValue halfWay.getValue true halfWay = halfWay :=
  have h1 : halfWay.minValue ≤ halfWay.getValue := by
    norm_num [halfWay, setOnValueChanged, new, getValue]
  have h2 : halfWay.getValue ≤ halfWay.maxValue := by
    norm_num [halfWay, setOnValueChanged, new, getValue]
  ⟨h1, h2, (C24_round_trip halfWay true).1 h1 h2⟩

end VRUISlider

/-! ## Toggle button -/

namespace VRUIToggleButton

theorem flipped_succ (b : Bool) (k : Nat) : flipped b (k + 1) = !flipped b k := by
  unfold flipped
  rcases Nat.mod_two_eq_zero_or_one k with h | h
  · have : (k + 1) % 2 = 1 := by omega
    simp [h, this]
  · have : (k + 1) % 2 = 0 := by omega
    simp [h, this]

/-- One press with the default wiring. -/
theorem onTriggerPress_wired (b : VRUIToggleButton)
    (hw : b.onPressHandler = PressHandler.handlePress) :
    onTriggerPress b =
      { b with state := ButtonState.Pressed, toggled := !b.toggled,
               toggleCalls := b.toggleCalls ++ (if b.hasOnToggle then [!b.toggled] else []) } := by
  have hs : VRUIButton.onTriggerPress b.state = ButtonState.Pressed := by
    cases h : b.state <;> simp [VRUIButton.onTriggerPress, VRUIButton.setState]
  unfold onTriggerPress handlePress
  simp only [hw, hs]
  cases b.hasOnToggle <;> simp

/-- The button after `n` presses with the default wiring. -/
theorem pressed_wired (n : Nat) (b : VRUIToggleButton)
    (hw : b.onPressHandler = PressHandler.handlePress) :
    (pressed n b).onPressHandler = PressHandler.handlePress ∧
    (pressed n b).hasOnToggle = b.hasOnToggle ∧
    (pressed n b).toggled = flipped b.toggled n ∧
    (pressed n b).toggleCalls = b.toggleCalls ++
      (if b.hasOnToggle then (List.range n).map (fun k => flipped b.toggled (k + 1)) else []) ∧
    (0 < n → (pressed n b).state = ButtonState.Pressed) := by
  induction n with
  | zero => simp [pressed, flipped, hw]
  | succ n ih =>
    obtain ⟨i1, i2, i3, i4, _⟩ := ih
    have e : pressed (n + 1) b = onTriggerPress (pressed n b) := by
      unfold pressed
      rw [Function.iterate_succ_apply']
    rw [e, onTriggerPress_wired _ i1]
    refine ⟨i1, i2, ?_, ?_, fun _ => rfl⟩
    · show (!(pressed n b).toggled) = _
      rw [i3, flipped_succ]
    · show (pressed n b).toggleCalls ++ _ = _
      rw [i4, i2, i3]
      cases b.hasOnToggle with
      | false => simp
      | true => simp [List.range_succ, flipped_succ]

/-- C25: a toggle button constructed with the initial state `b`, with a toggle callback
installed and the press handler as the constructor wired it: after `n` calls of
`onTriggerPress`, `isToggled()` is `b` for even `n` and `!b` for odd `n`, and the toggle
callback has been invoked `n` times, the `k`-th time with the state after `k` presses, which
is the new state.  (Without a toggle callback the flag flips alike and nothing is
invoked.) -/
theorem C25_toggle_parity (b : Bool) (n : Nat) :
    (pressed n (setOnToggleHandler (new b))).isToggled = (if n % 2 = 0 then b else !b) ∧
    (pressed n (setOnToggleHandler (new b))).toggleCalls.length = n ∧
    (∀ k, k < n →
      (pressed n (setOnToggleHandler (new b))).toggleCalls.get? k =
        some (pressed (k + 1) (setOnToggleHandler (new b))).isToggled) ∧
    (pressed n (setOnToggleHandler (new b))).toggleCalls =
      (List.range n).map (fun k => if k % 2 = 0 then !b else b) ∧
    (pressed n (new b)).isToggled = (if n % 2 = 0 then b else !b) ∧
    (pressed n (new b)).toggleCalls = [] := by
  obtain ⟨_, _, i3, i4, _⟩ := pressed_wired n (setOnToggleHandler (new b)) rfl
  obtain ⟨_, _, j3, j4, _⟩ := pressed_wired n (new b) rfl
  have hcalls : (pressed n (setOnToggleHandler (new b))).toggleCalls =
      (List.range n).map (fun k => flipped b (k + 1)) := by
    rw [i4]; simp [setOnToggleHandler, new]
  refine ⟨i3, ?_, ?_, ?_, j3, ?_⟩
  · rw [hcalls]; simp
  · intro k hk
    obtain ⟨_, _, k3, _, _⟩ := pressed_wired (k + 1) (setOnToggleHandler (new b)) rfl
    rw [hcalls, isToggled, k3]
    simp [List.getElem?_range hk, setOnToggleHandler, new]
  · rw [hcalls]
    apply List.map_congr_left
    intro k _
    rw [flipped_succ]
    unfold flipped
    rcases Nat.mod_two_eq_zero_or_one k with h | h <;> simp [h]
  · rw [j4]; simp [new]

end VRUIToggleButton

/-! ## Entrance animation -/

namespace VRUIWidget

theorem data_update (dt : ℚ) (w : VRUIWidget) : (update dt w).data = animate dt w.data := by
  cases w with
  | mk d cs => rw [update]; rfl

theorem data_startScaleAnimation (delay : Int) (w : VRUIWidget) :
    (w.startScaleAnimation delay).data =
      { w.data with animDelayFrames := delay, animProgress := 0, localScale := 0 } := by
  cases w; rfl

theorem runUpdates_append (w : VRUIWidget) (a b : List ℚ) :
    runUpdates w (a ++ b) = runUpdates (runUpdates w a) b := by
  unfold runUpdates
  rw [List.foldl_append]

theorem runUpdates_concat (w : VRUIWidget) (a : List ℚ) (dt : ℚ) :
    runUpdates w (a ++ [dt]) = update dt (runUpdates w a) := by
  rw [runUpdates_append]; rfl

/-- While the delay counter is positive, an update decrements it and holds scale 0. -/
theorem animate_waiting (dt : ℚ) (d : WidgetData) (h : 0 < d.animDelayFrames) :
    animate dt d = { d with animDelayFrames := d.animDelayFrames - 1, localScale := 0 } := by
  unfold animate
  rw [if_pos h]

/-- With the delay elapsed, an update advances the progress by `4 * dt`, capped at 1, and
applies the eased scale; at progress 1 it changes nothing. -/
theorem animate_running (dt : ℚ) (d : WidgetData) (h : d.animDelayFrames ≤ 0) :
    (d.animProgress < 1 →
      animate dt d =
        { d with animProgress := min 1 (d.animProgress + 4 * dt),
                 localScale := d.baseScale * (1 - (1 - min 1 (d.animProgress + 4 * dt)) ^ 3) }) ∧
    (1 ≤ d.animProgress → animate dt d = d) := by
  unfold animate
  rw [if_neg (not_lt.mpr h)]
  constructor
  · intro hp
    rw [if_pos hp]
    have e : (if d.animProgress + dt * 4 > 1 then 1 else d.animProgress + dt * 4)
        = min 1 (d.animProgress + 4 * dt) := by
      rw [mul_comm dt 4]
      by_cases hc : d.animProgress + 4 * dt > 1
      · rw [if_pos hc, min_eq_left (le_of_lt hc)]
      · rw [if_neg hc, min_eq_right (not_lt.mp hc)]
    simp only [e]
  · intro hp
    rw [if_neg (not_lt.mpr hp)]

/-- The first `k <= d` updates after `startScaleAnimation(d)`. -/
theorem runUpdates_waiting (w : VRUIWidget) (d : Int) (pre : List ℚ)
    (hk : (pre.length : Int) ≤ d) :
    (runUpdates (w.startScaleAnimation d) pre).data =
      { w.data with animDelayFrames := d - pre.length, animProgress := 0, localScale := 0 } := by
  induction pre using List.reverseRecOn with
  | nil => simp [runUpdates, data_startScaleAnimation]
  | append_singleton pre dt ih =>
    have hlen : ((pre ++ [dt]).length : Int) = pre.length + 1 := by simp
    rw [hlen] at hk ⊢
    rw [runUpdates_concat, data_update, ih (by omega), animate_waiting _ _ (by simp; omega)]
    simp only [WidgetData.mk.injEq, true_and, and_true]
    omega

theorem easing_animate (base dt : ℚ) (d : WidgetData) (hdt : 0 ≤ dt) (h : Easing base d) :
    Easing base (animate dt d) ∧
    (animate dt d).animProgress = min 1 (d.animProgress + 4 * dt) ∧
    d.animProgress ≤ (animate dt d).animProgress ∧
    (d.animProgress = 1 → animate dt d = d) := by
  obtain ⟨h1, h2, h3, h4, h5⟩ := h
  obtain ⟨r1, r2⟩ := animate_running dt d (le_of_eq h1)
  by_cases hp : d.animProgress < 1
  · rw [r1 hp]
    have hm1 : min 1 (d.animProgress + 4 * dt) ≤ 1 := min_le_left _ _
    have hm2 : d.animProgress ≤ min 1 (d.animProgress + 4 * dt) :=
      le_min h3 (by linarith)
    refine ⟨⟨h1, le_trans h2 hm2, hm1, h4, ?_⟩, rfl, hm2, fun e => ?_⟩
    · show d.baseScale * _ = _
      rw [h4]
    · rw [e] at hp; exact absurd hp (lt_irrefl _)
  · have hp1 : d.animProgress = 1 := le_antisymm h3 (not_lt.mp hp)
    rw [r2 (not_lt.mp hp)]
    refine ⟨⟨h1, h2, h3, h4, h5⟩, ?_, le_refl _, fun _ => rfl⟩
    rw [hp1, min_eq_left (by linarith)]

theorem easing_runUpdates (base : ℚ) (post : List ℚ) (hpost : ∀ x ∈ post, 0 ≤ x) :
    ∀ w : VRUIWidget, Easing base w.data → Easing base (runUpdates w post).data := by
  induction post with
  | nil => intro w h; exact h
  | cons dt post ih =>
    intro w h
    show Easing base (runUpdates (update dt w) post).data
    apply ih (fun x hx => hpost x (List.mem_cons_of_mem _ hx))
    rw [data_update]
    exact (easing_animate base dt w.data (hpost dt (List.mem_cons_self _ _)) h).1

/-- C26: after `startScaleAnimation(d)` with `d >= 0` on a widget with base scale `B`: each
of the first `d` calls of `update` decrements the delay counter by one and leaves the
progress and the applied scale at 0.  Every later call with `dt >= 0`, after any number of
such calls, sets the progress to `min(1, progress + 4 * dt)` and leaves the applied scale at
`B * (1 - (1 - progress)^3)`; the progress is within [0, 1] and does not decrease; at
progress 1 the applied scale is `B`, and a call on a widget at progress 1 leaves its members
as they are. -/
theorem C26_entrance_animation (w : VRUIWidget) (d : Int) (pre post : List ℚ) (dt : ℚ)
    (hpre : (pre.length : Int) = d) (hpost : ∀ x ∈ post, 0 ≤ x) (hdt : 0 ≤ dt) :
    (∀ k, k ≤ pre.length →
      (runUpdates (w.startScaleAnimation d) (pre.take k)).data.animDelayFrames = d - k ∧
      (runUpdates (w.startScaleAnimation d) (pre.take k)).data.animProgress = 0 ∧
      (runUpdates (w.startScaleAnimation d) (pre.take k)).data.localScale = 0) ∧
    (update dt (runUpdates (w.startScaleAnimation d) (pre ++ post))).data.animDelayFrames = 0 ∧
    (update dt (runUpdates (w.startScaleAnimation d) (pre ++ post))).data.animProgress =
      min 1 ((runUpdates (w.startScaleAnimation d) (pre ++ post)).data.animProgress + 4 * dt) ∧
    (update dt (runUpdates (w.startScaleAnimation d) (pre ++ post))).data.localScale =
      w.data.baseScale * (1 - (1 -
        (update dt (runUpdates (w.startScaleAnimation d) (pre ++ post))).data.animProgress) ^ 3) ∧
    0 ≤ (update dt (runUpdates (w.startScaleAnimation d) (pre ++ post))).data.animProgress ∧
    (update dt (runUpdates (w.startScaleAnimation d) (pre ++ post))).data.animProgress ≤ 1 ∧
    (runUpdates (w.startScaleAnimation d) (pre ++ post)).data.animProgress ≤
      (update dt (runUpdates (w.startScaleAnimation d) (pre ++ post))).data.animProgress ∧
    ((update dt (runUpdates (w.startScaleAnimation d) (pre ++ post))).data.animProgress = 1 →
      (update dt (runUpdates (w.startScaleAnimation d) (pre ++ post))).data.localScale =
        w.data.baseScale) ∧
    ((runUpdates (w.startScaleAnimation d) (pre ++ post)).data.animProgress = 1 →
      (update dt (runUpdates (w.startScaleAnimation d) (pre ++ post))).data =
        (runUpdates (w.startScaleAnimation d) (pre ++ post)).data) := by
  constructor
  · intro k hk
    have hlen : (pre.take k).length = k := by simp [hk]
    rw [runUpdates_waiting w d (pre.take k) (by rw [hlen]; omega), hlen]
    exact ⟨rfl, rfl, rfl⟩
  · -- at the end of the delay the widget starts easing from progress 0
    have h0 : Easing w.data.baseScale (runUpdates (w.startScaleAnimation d) pre).data := by
      rw [runUpdates_waiting w d pre (le_of_eq hpre)]
      refine ⟨?_, le_refl _, by norm_num, rfl, ?_⟩
      · show d - (pre.length : Int) = 0
        omega
      · show (0 : ℚ) = _
        norm_num
    have h1 : Easing w.data.baseScale (runUpdates (w.startScaleAnimation d) (pre ++ post)).data := by
      rw [runUpdates_append]
      exact easing_runUpdates _ post hpost _ h0
    obtain ⟨⟨e1, e2, e3, _, e5⟩, a2, a3, a4⟩ := easing_animate _ dt _ hdt h1
    rw [data_update]
    refine ⟨e1, a2, e5, e2, e3, a3, fun hp => ?_, a4⟩
    rw [e5, hp]
    norm_num

/-- C26 at a sample: a widget of base scale 1, `startScaleAnimation(2)`, frames of 0.1 s: the
two delay frames, one easing frame, and the frame observed. -/
theorem C26_entrance_animation_witness :
    (((([1 / 10, 1 / 10] : List ℚ).length : Nat) : Int) = 2) ∧
    (∀ x ∈ ([1 / 10] : List ℚ), 0 ≤ x) ∧ (0 : ℚ) ≤ 1 / 10 ∧
    (update (1 / 10) (runUpdates ((VRUIContainer.plain "a" 3 2).startScaleAnimation 2)
        ([1 / 10, 1 / 10] ++ [1 / 10]))).data.animProgress =
      min 1 ((runUpdates ((VRUIContainer.plain "a" 3 2).startScaleAnimation 2)
        ([1 / 10, 1 / 10] ++ [1 / 10])).data.animProgress + 4 * (1 / 10)) :=
  have h1 : ((([1 / 10, 1 / 10] : List ℚ).length : Nat) : Int) = 2 := rfl
  have h2 : ∀ x ∈ ([1 / 10] : List ℚ), 0 ≤ x := by
    intro x hx
    rw [List.mem_singleton.mp hx]
    norm_num
  have h3 : (0 : ℚ) ≤ 1 / 10 := by norm_num
  ⟨h1, h2, h3,
    (C26_entrance_animation (VRUIContainer.plain "a" 3 2) 2 [1 / 10, 1 / 10] [1 / 10] (1 / 10)
      h1 h2 h3).2.2.1⟩

end VRUIWidget

/-! ## Grid: column mirroring -/

namespace VRUIContainer

open VRUIWidget

/-- The grid cell of the `i`-th page child with column mirroring, in closed form: the column
is counted from the last occupied column, `min(m, 3) - 1 - (i mod 3)`. -/
theorem gridCell_mirrored (s : VRUISettings) (sp : ℚ) (m : Nat) (first : VRUIWidget) (i : Nat)
    (hinv : s.invertGridX = true) (hi : i < m) :
    gridCell s sp (m : Int) first (i : Int) =
      ⟨cellX m (first.data.width * s.buttonMeshScale) sp (gridCols m - 1 - i % 3), 0,
        cellZ m (first.data.height * s.buttonMeshScale) sp i⟩ := by
  have hr : Int.tdiv (i : Int) gridColumns = ((i / 3 : Nat) : Int) := by
    simp [gridColumns, Int.tdiv_eq_ediv (Int.natCast_nonneg i)]
  have hm : Int.tmod (i : Int) gridColumns = ((i % 3 : Nat) : Int) := by
    simp [gridColumns, Int.tmod_eq_emod (Int.natCast_nonneg i) (by norm_num : (0 : Int) ≤ 3)]
  have hcols : (min (m : Int) gridColumns) = ((gridCols m : Nat) : Int) := by
    simp [gridColumns, gridCols]
  have hk : gridCols m - 1 - i % 3 < 3 := by unfold gridCols; omega
  have hle : i % 3 + 1 ≤ gridCols m := by unfold gridCols; omega
  have hcol : (((gridCols m : Nat) : Int) - 1 - ((i % 3 : Nat) : Int))
      = ((gridCols m - 1 - i % 3 : Nat) : Int) := by omega
  unfold gridCell
  simp only [hinv, hr, hm, hcols, if_true, hcol]
  simp only [cellX, cellZ, gridSpan, gridRows, gridColumns, Nat.mod_eq_of_lt hk]
  simp only [Int.cast_natCast, Int.cast_sub, Int.cast_one, Int.cast_ofNat]
  congr 1
  · ring
  · ring

/-- The grid cell without column mirroring, with the closed forms `cellX` and `cellZ`. -/
theorem gridCell_unmirrored (s : VRUISettings) (sp : ℚ) (m : Nat) (first : VRUIWidget) (i : Nat)
    (hinv : s.invertGridX = false) :
    gridCell s sp (m : Int) first (i : Int) =
      ⟨cellX m (first.data.width * s.buttonMeshScale) sp i, 0,
        cellZ m (first.data.height * s.buttonMeshScale) sp i⟩ := by
  rw [gridCell_eq s sp m first i hinv]
  rfl

/-- The children of a Grid container after the layout pass with column mirroring. -/
theorem grid_mirrored_positions (s : VRUISettings) (pv : Bool) (w : VRUIWidget)
    (c : ContainerData) (hc : w.data.container = some c) (hl : c.layout = .Grid)
    (hinv : s.invertGridX = true)
    (hb : pageOutOfBounds c w.children.length = false) (hpage : 0 ≤ c.currentPage)
    (i : Nat) (hi : i < pageCount c w.children.length) :
    ∃ first y,
      (recalculateLayout s pv w).children.get? (startIndex c).toNat = some first ∧
      (recalculateLayout s pv w).children.get? ((startIndex c).toNat + i) = some y ∧
      y.data.localTranslate =
        ⟨cellX (pageCount c w.children.length) (first.data.width * s.buttonMeshScale)
            c.spacing (gridCols (pageCount c w.children.length) - 1 - i % 3), 0,
          cellZ (pageCount c w.children.length) (first.data.height * s.buttonMeshScale)
            c.spacing i⟩ ∧
      y.data.localTranslate =
        ⟨(gridCell { s with invertGridX := false } c.spacing
            ((pageCount c w.children.length : Nat) : Int) first
            ((gridCols (pageCount c w.children.length) - 1 - i % 3 : Nat) : Int)).x, 0,
          (gridCell { s with invertGridX := false } c.spacing
            ((pageCount c w.children.length : Nat) : Int) first (i : Int)).z⟩ := by
  obtain ⟨first0, first, y, h1, h2, hw, hh, hy⟩ := grid_positions s pv w c hc hl hb hpage i hi
  rw [gridCell_mirrored s c.spacing _ first0 i hinv hi, ← hw, ← hh] at hy
  refine ⟨first, y, h1, h2, hy, ?_⟩
  rw [hy, gridCell_unmirrored _ c.spacing _ first _ rfl, gridCell_unmirrored _ c.spacing _ first _ rfl]

theorem size_setVisible (v : Bool) (w : VRUIWidget) :
    (w.setVisible v).data.width = w.data.width ∧ (w.setVisible v).data.height = w.data.height := by
  cases w; exact ⟨rfl, rfl⟩

theorem size_showPage (a b : Int) (idx : Nat) (cs : List VRUIWidget) :
    (showPage a b idx cs).map (fun w => (w.data.width, w.data.height))
      = cs.map (fun w => (w.data.width, w.data.height)) := by
  induction cs generalizing idx with
  | nil => rfl
  | cons c cs ih =>
    unfold showPage
    split <;> simp [ih, size_setVisible]

theorem size_placeGrid (s : VRUISettings) (sp : ℚ) (m : Int) (first : VRUIWidget)
    (a b : Int) (idx : Nat) (cs : List VRUIWidget) :
    (placeGrid s sp m first a b idx cs).map (fun w => (w.data.width, w.data.height))
      = cs.map (fun w => (w.data.width, w.data.height)) := by
  induction cs generalizing idx with
  | nil => rfl
  | cons c cs ih =>
    unfold placeGrid
    split <;> simp [ih, width_setLocalPosition]

theorem size_layoutGrid (s : VRUISettings) (c : ContainerData) (cs : List VRUIWidget) :
    (layoutGrid s c cs).map (fun w => (w.data.width, w.data.height))
      = cs.map (fun w => (w.data.width, w.data.height)) := by
  unfold layoutGrid
  simp only []
  split
  · exact size_showPage _ _ _ _
  · split
    · exact size_showPage _ _ _ _
    · rw [size_placeGrid]
      exact size_showPage _ _ _ _

/-- The slots of `sampleGrid` keep their size 3 by 1.5 in a layout pass. -/
theorem sampleGrid_slot_size (s : VRUISettings) (pv : Bool) (pageSize page : Int) (n : Nat)
    (hb : pageOutOfBounds (sampleGridData pageSize page) (n : Int) = false) (hn : n ≠ 0)
    (j : Nat) (y : VRUIWidget)
    (hy : (recalculateLayout s pv (sampleGrid pageSize page n)).children.get? j = some y) :
    y.data.width = 3 ∧ y.data.height = 3 / 2 := by
  have hlen : (sampleGrid pageSize page n).children.length = n := by simp [sampleGrid]
  have hne : (sampleGrid pageSize page n).children ≠ [] := by
    intro h
    rw [h] at hlen
    exact hn hlen.symm
  have hmap : ∀ f v, (sampleGrid pageSize page n).children.map (recalculateLayoutAux s f v)
      = List.replicate n (plain "slot" 3 (3 / 2)) := by
    intro f v
    simp [sampleGrid, recalculateLayoutAux_plain]
  unfold recalculateLayout at hy
  rw [recalculateLayoutAux_grid s _ pv (sampleGrid pageSize page n) (sampleGridData pageSize page)
    rfl rfl hne (by rw [hlen]; exact hb), updateDimensions_children, hmap] at hy
  have hsz := size_layoutGrid s { sampleGridData pageSize page with layoutDirty := false }
    (List.replicate n (plain "slot" 3 (3 / 2)))
  have hget := congrArg (fun l => l.get? j) hsz
  simp only [List.get?_eq_getElem?, List.getElem?_map] at hget hy
  rw [hy, List.getElem?_replicate] at hget
  by_cases hj : j < n
  · rw [if_pos hj] at hget
    simp only [Option.map_some', Option.some.injEq, Prod.mk.injEq] at hget
    exact ⟨hget.1, hget.2⟩
  · rw [if_neg hj] at hget
    cases hget

/-- C27, refuted as stated: on a page of two children (default settings, mirroring on) the
first page child is placed at X = 9/50, the X of column 1 = `min(2, 3) - 1 - 0` of the
non-mirrored layout; the column `3 - 1 - 0 = 2` that the fixed column count gives has
X = 27/50, outside the two occupied columns. -/
theorem C27_counterexample :
    VRUISettings.defaults.invertGridX = true ∧
    pageCount (sampleGridData 9 0) (sampleGrid 9 0 2).children.length = 2 ∧
    ∃ y, (recalculateLayout VRUISettings.defaults true (sampleGrid 9 0 2)).children.get? 0 = some y ∧
      y.data.localTranslate.x = 9 / 50 ∧
      (gridCell unmirrored (3 / 10) 2 y 1).x = 9 / 50 ∧
      (gridCell unmirrored (3 / 10) 2 y ((gridColumns - 1 - Int.tmod 0 gridColumns : Int))).x
        = 27 / 50 := by
  have hb : pageOutOfBounds (sampleGridData 9 0) (sampleGrid 9 0 2).children.length
      = false := by decide
  have hm : pageCount (sampleGridData 9 0) (sampleGrid 9 0 2).children.length = 2 := by decide
  obtain ⟨first, y, h1, h2, h3, _⟩ := grid_mirrored_positions VRUISettings.defaults true
    (sampleGrid 9 0 2) (sampleGridData 9 0) rfl rfl rfl hb (by decide) 0 (by rw [hm]; decide)
  have hs : (startIndex (sampleGridData 9 0)).toNat = 0 := by decide
  rw [hs] at h1 h2
  have hfy : first = y := by
    rw [h1] at h2
    exact Option.some.inj h2
  subst hfy
  obtain ⟨hw, _⟩ := sampleGrid_slot_size VRUISettings.defaults true 9 0 2 (by decide) (by decide)
    0 first h1
  rw [hm, hw] at h3
  refine ⟨rfl, hm, first, h1, ?_, ?_, ?_⟩
  · rw [h3]
    norm_num [cellX, gridSpan, gridCols, VRUISettings.defaults, sampleGridData]
  · have e : gridCell unmirrored (3 / 10) 2 first 1 = _ :=
      gridCell_unmirrored unmirrored (3 / 10) 2 first 1 rfl
    rw [e, hw]
    norm_num [cellX, gridSpan, gridCols, unmirrored, VRUISettings.defaults]
  · have e : gridCell unmirrored (3 / 10) 2 first 2 = _ :=
      gridCell_unmirrored unmirrored (3 / 10) 2 first 2 rfl
    have hk : (gridColumns - 1 - Int.tmod 0 gridColumns : Int) = 2 := by decide
    rw [hk, e, hw]
    norm_num [cellX, gridSpan, gridCols, unmirrored, VRUISettings.defaults]

/-- C27, as the code has it: with `invertGridX` set, on a page of `m >= 1` children the `i`-th
page child is placed in the column `cols - 1 - c`, where `c = i mod 3` and
`cols = min(m, 3)` is the number of occupied columns of the page (the fixed column count 3
only when the page has at least 3 children).  Its X is the X that the non-mirrored layout
gives to column `cols - 1 - c` (in closed form `cellX`, and as the source's cell computation
with mirroring off), its Y is 0, and its Z is the Z of the non-mirrored layout for index
`i`. -/
theorem C27_grid_mirrored (s : VRUISettings) (pv : Bool) (w : VRUIWidget) (c : ContainerData)
    (hc : w.data.container = some c) (hl : c.layout = .Grid)
    (hinv : s.invertGridX = true)
    (hb : pageOutOfBounds c w.children.length = false) (hpage : 0 ≤ c.currentPage)
    (i : Nat) (hi : i < pageCount c w.children.length) :
    ∃ first y,
      (recalculateLayout s pv w).children.get? (startIndex c).toNat = some first ∧
      (recalculateLayout s pv w).children.get? ((startIndex c).toNat + i) = some y ∧
      y.data.localTranslate =
        ⟨cellX (pageCount c w.children.length) (first.data.width * s.buttonMeshScale)
            c.spacing (gridCols (pageCount c w.children.length) - 1 - i % 3), 0,
          cellZ (pageCount c w.children.length) (first.data.height * s.buttonMeshScale)
            c.spacing i⟩ ∧
      y.data.localTranslate =
        ⟨(gridCell { s with invertGridX := false } c.spacing
            ((pageCount c w.children.length : Nat) : Int) first
            ((gridCols (pageCount c w.children.length) - 1 - i % 3 : Nat) : Int)).x, 0,
          (gridCell { s with invertGridX := false } c.spacing
            ((pageCount c w.children.length : Nat) : Int) first (i : Int)).z⟩ ∧
      gridCols (pageCount c w.children.length) = min (pageCount c w.children.length) 3 ∧
      (3 ≤ pageCount c w.children.length →
        gridCols (pageCount c w.children.length) - 1 - i % 3 = 3 - 1 - i % 3) := by
  obtain ⟨first, y, h1, h2, h3, h4⟩ := grid_mirrored_positions s pv w c hc hl hinv hb hpage i hi
  refine ⟨first, y, h1, h2, h3, h4, rfl, ?_⟩
  intro h
  unfold gridCols
  omega

/-- C27 at a sample: a Grid of four children on one page, default settings (mirroring on);
the fourth child (row 1, column 0) is placed in column 2. -/
theorem C27_grid_mirrored_witness :
    VRUISettings.defaults.invertGridX = true ∧
    pageOutOfBounds (sampleGridData 9 0) (sampleGrid 9 0 4).children.length = false ∧
    3 < pageCount (sampleGridData 9 0) (sampleGrid 9 0 4).children.length ∧
    ∃ first y,
      (recalculateLayout VRUISettings.defaults true (sampleGrid 9 0 4)).children.get? 0
        = some first ∧
      (recalculateLayout VRUISettings.defaults true (sampleGrid 9 0 4)).children.get? 3
        = some y ∧
      y.data.localTranslate =
        ⟨cellX 4 (first.data.width * (2 / 100)) (3 / 10) 2, 0,
          cellZ 4 (first.data.height * (2 / 100)) (3 / 10) 3⟩ := by
  have hb : pageOutOfBounds (sampleGridData 9 0) (sampleGrid 9 0 4).children.length
      = false := by decide
  have hi : 3 < pageCount (sampleGridData 9 0) (sampleGrid 9 0 4).children.length := by
    decide
  obtain ⟨first, y, h1, h2, h3, _⟩ := C27_grid_mirrored VRUISettings.defaults true
    (sampleGrid 9 0 4) (sampleGridData 9 0) rfl rfl rfl hb (by decide) 3 hi
  exact ⟨rfl, hb, hi, first, y, h1, h2, h3⟩

end VRUIContainer

/-! ## Layout pass: termination and the page reset -/

namespace VRUIContainer

open VRUIWidget

theorem allSome_map {β γ : Type} (g : β → Option γ) (h : β → γ) (l : List β)
    (hg : ∀ x ∈ l, g x = some (h x)) : allSome (l.map g) = some (l.map h) := by
  induction l with
  | nil => rfl
  | cons x xs ih =>
    rw [List.map_cons, hg x (List.mem_cons_self _ _), allSome,
      ih (fun y hy => hg y (List.mem_cons_of_mem _ hy))]
    rfl

theorem resetDue_page_zero (w : VRUIWidget) (h : getCurrentPage w = 0) : resetDue w = false := by
  unfold resetDue
  unfold getCurrentPage at h
  cases hc : w.data.container with
  | none => rfl
  | some c =>
    rw [hc] at h
    simp only at h
    simp [pageOutOfBounds, h]

theorem resetDue_iff (w : VRUIWidget) (c : ContainerData) (hc : w.data.container = some c) :
    resetDue w = true ↔
      c.layout = .Grid ∧ w.children ≠ [] ∧ pageOutOfBounds c (w.children.length : Int) = true := by
  unfold resetDue
  simp [hc, List.isEmpty_iff, and_assoc]

/-- With enough bound for the nesting of the tree, the bounded run returns the result of the
layout pass and reports one reset exactly when the call takes the page-reset branch.  A call
that does not take the reset branch needs one unit less. -/
theorem recalculateLayoutFuel_eq (s : VRUISettings) (f : Nat) :
    ∀ (pv : Bool) (w : VRUIWidget),
      (2 * w.depth + 2 ≤ f ∨ (2 * w.depth + 1 ≤ f ∧ resetDue w = false)) →
      recalculateLayoutFuel s f pv w
        = some (recalculateLayoutAux s f pv w, if resetDue w then 1 else 0) := by
  induction f using Nat.strong_induction_on with
  | _ f ih =>
    intro pv w hf
    obtain ⟨e, rfl⟩ : ∃ e, f = e + 1 := ⟨f - 1, by omega⟩
    have hall : ∀ v, allSome (w.children.map
        (fun child => (recalculateLayoutFuel s e v child).map Prod.fst))
        = some (w.children.map (recalculateLayoutAux s e v)) := by
      intro v
      apply allSome_map
      intro c hc
      have := depth_lt_of_mem _ c hc
      rw [← depth_eq] at this
      rw [ih e (by omega) v c (Or.inl (by omega))]
      rfl
    cases hcont : w.data.container with
    | none =>
      rw [recalculateLayoutFuel, recalculateLayoutAux]
      simp [hcont, resetDue]
    | some c =>
      have hrd := resetDue_iff w c hcont
      by_cases hne : w.children = []
      · have hr : resetDue w = false := by
          cases h : resetDue w with
          | false => rfl
          | true => exact absurd hne (hrd.mp h).2.1
        rw [recalculateLayoutAux_empty s e pv w c hcont hne, recalculateLayoutFuel]
        simp only [hcont]
        rw [hall]
        simp [hne, hr]
      · have hmne : w.children.map (recalculateLayoutAux s e (w.isVisible pv)) ≠ [] := by
          simpa using hne
        have hemp : (w.children.map (recalculateLayoutAux s e (w.isVisible pv))).isEmpty
            = false := by
          cases h : w.children.map (recalculateLayoutAux s e (w.isVisible pv)) with
          | nil => exact absurd h hmne
          | cons _ _ => rfl
        by_cases hl : c.layout = .Grid
        · cases hb : pageOutOfBounds c w.children.length
          · have hr : resetDue w = false := by
              cases h : resetDue w with
              | false => rfl
              | true => rw [(hrd.mp h).2.2] at hb; cases hb
            rw [recalculateLayoutAux_grid s e pv w c hcont hl hne hb, recalculateLayoutFuel]
            simp only [hcont]
            rw [hall]
            simp only [hemp, hl, hr, Bool.false_eq_true, if_false]
            split
            · rename_i h
              rw [List.length_map] at h
              have h2 : pageOutOfBounds c w.children.length = true := h
              rw [hb] at h2
              cases h2
            · rfl
          · have hr : resetDue w = true := hrd.mpr ⟨hl, hne, hb⟩
            have hfuel : 2 * w.depth + 1 ≤ e := by
              rcases hf with h | ⟨_, h⟩
              · omega
              · rw [hr] at h; cases h
            -- the re-run starts from page 0: it does not reset again
            have hrerun : ∀ w2 : VRUIWidget, getCurrentPage w2 = 0 → 2 * w2.depth + 1 ≤ e →
                recalculateLayoutFuel s e pv w2 = some (recalculateLayoutAux s e pv w2, 0) := by
              intro w2 h0 hd
              rw [ih e (by omega) pv w2 (Or.inr ⟨hd, resetDue_page_zero _ h0⟩),
                resetDue_page_zero _ h0]
              rfl
            rw [recalculateLayoutAux_reset s e pv w c hcont hl hne hb, recalculateLayoutFuel]
            simp only [hcont]
            rw [hall]
            simp only [hemp, hl, hr, Bool.false_eq_true, if_false]
            split
            · rw [hrerun _ ?_ ?_]
              · rfl
              · rfl
              · rw [depth_eq, children_mk,
                  depthList_map _ _ (fun x _ => depth_recalculateLayoutAux s e _ x), ← depth_eq]
                exact hfuel
            · rename_i h
              rw [List.length_map] at h
              have h2 : ¬ pageOutOfBounds c w.children.length = true := h
              exact absurd hb h2
        · have hr : resetDue w = false := by
            cases h : resetDue w with
            | false => rfl
            | true => exact absurd (hrd.mp h).1 hl
          rw [recalculateLayoutFuel, recalculateLayoutAux]
          simp only [hcont]
          rw [hall]
          simp only [hemp, hr]
          cases hlay : c.layout <;> first
            | exact absurd hlay hl
            | simp

/-- C28: `recalculateLayout()` returns on every widget tree: run with a bound of
`2 * depth + 2` or more on the depth of nested calls, every call returns, with the result of
the layout pass.  The call takes the page-reset branch at most once: once when the widget
is a Grid container with children whose page is out of bounds (the page is then 0
afterwards), never otherwise; and a run that starts from page 0, as the re-run after a
reset does, takes the reset branch zero times. -/
theorem C28_layout_terminates (s : VRUISettings) (pv : Bool) (w : VRUIWidget) :
    ∃ n : Nat, n ≤ 1 ∧ (n = 1 ↔ resetDue w = true) ∧
      (∀ fuel, 2 * w.depth + 2 ≤ fuel →
        recalculateLayoutFuel s fuel pv w = some (recalculateLayout s pv w, n)) ∧
      (resetDue w = true → getCurrentPage (recalculateLayout s pv w) = 0) ∧
      (getCurrentPage w = 0 → n = 0) ∧
      (∀ (w2 : VRUIWidget) (fuel : Nat), getCurrentPage w2 = 0 → 2 * w2.depth + 1 ≤ fuel →
        ∃ r, recalculateLayoutFuel s fuel pv w2 = some (r, 0)) := by
  refine ⟨if resetDue w then 1 else 0, ?_, ?_, ?_, ?_, ?_, ?_⟩
  · split <;> omega
  · cases resetDue w <;> simp
  · intro fuel hf
    rw [recalculateLayoutFuel_eq s fuel pv w (Or.inl hf),
      recalculateLayoutAux_fuel_stable s pv w fuel hf]
  · intro hr
    cases hc : w.data.container with
    | none => simp [resetDue, hc] at hr
    | some c =>
      obtain ⟨h1, h2, h3⟩ := (resetDue_iff w c hc).mp hr
      have hlen : w.children.length ≠ 0 := by
        intro h
        exact h2 (List.length_eq_zero.mp h)
      have := getCurrentPage_recalculateLayoutAux s (2 * w.depth) pv w c hc
      rw [if_pos ⟨h1, hlen, h3⟩] at this
      exact this
  · intro h0
    rw [resetDue_page_zero w h0]
    rfl
  · intro w2 fuel h0 hf
    refine ⟨recalculateLayoutAux s fuel pv w2, ?_⟩
    rw [recalculateLayoutFuel_eq s fuel pv w2 (Or.inr ⟨hf, resetDue_page_zero w2 h0⟩),
      resetDue_page_zero w2 h0]
    rfl

/-- A Grid of one slot with page size 1 turned to page 1: the call takes the reset branch. -/
theorem resetDue_sampleGrid : resetDue (sampleGrid 1 1 1) = true := by decide

end VRUIContainer

/-! ## Layout pass: repeated calls -/

namespace VRUIContainer

open VRUIWidget

/-- One layout call on a container with children whose page is within bounds: the children
are laid out, placed, and the dimensions updated. -/
theorem recalculateLayoutAux_step (s : VRUISettings) (f : Nat) (pv : Bool) (w : VRUIWidget)
    (c : ContainerData) (hc : w.data.container = some c) (hne : w.children ≠ [])
    (hb : c.layout = .Grid → pageOutOfBounds c w.children.length = false) :
    recalculateLayoutAux s (f + 1) pv w
      = updateDimensions (w.isVisible pv)
          { w.data with container := some { c with layoutDirty := false } }
          (place s (w.isVisible pv) { c with layoutDirty := false }
            (w.children.map (recalculateLayoutAux s f (w.isVisible pv)))) := by
  by_cases hl : c.layout = .Grid
  · rw [recalculateLayoutAux_grid s f pv w c hc hl hne (hb hl)]
    simp only [place, hl]
  · rw [recalculateLayoutAux]
    simp only [hc]
    rw [if_neg (by simpa using hne)]
    cases hlay : c.layout <;> first
      | exact absurd hlay hl
      | simp only [place, hlay]

/-- The children of a widget are laid out with any fuel of `2 * depth` or more as by
`recalculateLayout`. -/
theorem map_recalculateLayoutAux (s : VRUISettings) (f : Nat) (v : Bool) (w : VRUIWidget)
    (hf : 2 * w.depth ≤ f) :
    w.children.map (recalculateLayoutAux s f v) = w.children.map (recalculateLayout s v) := by
  apply List.map_congr_left
  intro c hc
  have := depth_lt_of_mem _ c hc
  rw [← depth_eq] at this
  exact recalculateLayoutAux_fuel_stable s v c f (by omega)

theorem recalculateLayout_plain (s : VRUISettings) (pv : Bool) (w : VRUIWidget)
    (hc : w.data.container = none) : recalculateLayout s pv w = w := by
  unfold recalculateLayout
  rw [recalculateLayoutAux]
  simp [hc]

theorem recalculateLayout_empty (s : VRUISettings) (pv : Bool) (w : VRUIWidget)
    (c : ContainerData) (hc : w.data.container = some c) (hne : w.children = []) :
    recalculateLayout s pv w
      = .mk { w.data with container := some { c with layoutDirty := false } } [] :=
  recalculateLayoutAux_empty s _ pv w c hc hne

/-- `recalculateLayout` on a container with children whose page is within bounds. -/
theorem recalculateLayout_step (s : VRUISettings) (pv : Bool) (w : VRUIWidget)
    (c : ContainerData) (hc : w.data.container = some c) (hne : w.children ≠ [])
    (hb : c.layout = .Grid → pageOutOfBounds c w.children.length = false) :
    recalculateLayout s pv w
      = updateDimensions (w.isVisible pv)
          { w.data with container := some { c with layoutDirty := false } }
          (place s (w.isVisible pv) { c with layoutDirty := false }
            (w.children.map (recalculateLayout s (w.isVisible pv)))) := by
  unfold recalculateLayout
  rw [recalculateLayoutAux_step s _ pv w c hc hne hb,
    map_recalculateLayoutAux s _ _ w (by omega)]
  rfl

/-- A layout call on a container with children on page 0, with fuel for its children. -/
theorem recalculateLayoutAux_tail (s : VRUISettings) (f : Nat) (pv : Bool) (w : VRUIWidget)
    (c : ContainerData) (hc : w.data.container = some c) (h0 : c.currentPage = 0)
    (hne : w.children ≠ []) (hf : 2 * w.depth ≤ f) :
    recalculateLayoutAux s (f + 1) pv w
      = updateDimensions (w.isVisible pv)
          { w.data with container := some { c with layoutDirty := false } }
          (place s (w.isVisible pv) { c with layoutDirty := false }
            (w.children.map (recalculateLayout s (w.isVisible pv)))) := by
  rw [recalculateLayoutAux_step s f pv w c hc hne (fun _ => by simp [pageOutOfBounds, h0]),
    map_recalculateLayoutAux s f _ w hf]

/-- `recalculateLayout` on a Grid whose page is out of bounds: the page is set to 0 and the
call runs again, on the children as the first run laid them out. -/
theorem recalculateLayout_reset (s : VRUISettings) (pv : Bool) (w : VRUIWidget)
    (c : ContainerData) (hc : w.data.container = some c) (hl : c.layout = .Grid)
    (hne : w.children ≠ []) (hb : pageOutOfBounds c w.children.length = true) :
    recalculateLayout s pv w
      = updateDimensions (w.isVisible pv)
          { w.data with container := some { c with layoutDirty := false, currentPage := 0 } }
          (place s (w.isVisible pv) { c with layoutDirty := false, currentPage := 0 }
            ((w.children.map (recalculateLayout s (w.isVisible pv))).map
              (recalculateLayout s (w.isVisible pv)))) := by
  have hd : 1 ≤ w.depth := by
    cases hw : w.children with
    | nil => exact absurd hw hne
    | cons x xs =>
      have := depth_lt_of_mem w.children x (by rw [hw]; exact List.mem_cons_self _ _)
      rw [← depth_eq] at this
      omega
  obtain ⟨k, hk⟩ : ∃ k, 2 * w.depth = k + 1 := ⟨2 * w.depth - 1, by omega⟩
  have e1 : recalculateLayout s pv w = recalculateLayoutAux s (k + 1 + 1 + 1) pv w := by
    unfold recalculateLayout
    rw [hk]
  rw [e1, recalculateLayoutAux_reset s _ pv w c hc hl hne hb,
    map_recalculateLayoutAux s _ _ w (by omega)]
  refine (recalculateLayoutAux_tail s (k + 1) pv _
    { c with layoutDirty := false, currentPage := 0 } ?_ rfl ?_ ?_).trans ?_
  · rfl
  · rw [children_mk]
    simpa using hne
  · rw [depth_eq, children_mk]
    unfold recalculateLayout
    rw [depthList_map _ _ (fun x _ => depth_recalculateLayoutAux s _ _ x), ← depth_eq]
    omega
  · rfl


theorem setLocalPosition_twice (p q : NiPoint3) (x : VRUIWidget) :
    (x.setLocalPosition p).setLocalPosition q = x.setLocalPosition q := by
  cases x; rfl

theorem isVisible_setLocalPosition (v : Bool) (p : NiPoint3) (x : VRUIWidget) :
    (x.setLocalPosition p).isVisible v = x.isVisible v := by
  cases x; rfl

theorem rowMeasure_placeRow (sv : Bool) (sp : ℚ) (cs : List VRUIWidget) :
    ∀ (x0 : ℚ) (acc : ℚ × Int),
      rowMeasure sv (placeRow sv sp x0 cs) acc = rowMeasure sv cs acc := by
  induction cs with
  | nil => intro x0 acc; rfl
  | cons c cs ih =>
    intro x0 acc
    unfold placeRow
    by_cases hv : c.isVisible sv = true
    · simp only [hv, Bool.not_true, Bool.false_eq_true, if_false]
      rw [rowMeasure, rowMeasure]
      simp only [isVisible_setLocalPosition, hv, if_true, dims_setLocalPosition]
      exact ih _ _
    · have hv' : c.isVisible sv = false := by simpa using hv
      simp only [hv', Bool.not_false, if_true]
      rw [rowMeasure, rowMeasure]
      simp only [hv', Bool.false_eq_true, if_false]
      exact ih _ _

theorem placeRow_idem (sv : Bool) (sp : ℚ) (cs : List VRUIWidget) :
    ∀ x0 : ℚ, placeRow sv sp x0 (placeRow sv sp x0 cs) = placeRow sv sp x0 cs := by
  induction cs with
  | nil => intro x0; rfl
  | cons c cs ih =>
    intro x0
    by_cases hv : c.isVisible sv = true
    · have e : placeRow sv sp x0 (c :: cs) =
          c.setLocalPosition ⟨x0 + (c.calculateLogicalDimensions (c.isVisible sv)).x * (1 / 2),
            0, 0⟩ ::
          placeRow sv sp (x0 + ((c.calculateLogicalDimensions (c.isVisible sv)).x + sp)) cs := by
        rw [placeRow]
        simp only [hv, Bool.not_true, Bool.false_eq_true, if_false]
      rw [e, placeRow]
      simp only [isVisible_setLocalPosition, hv, Bool.not_true, Bool.false_eq_true, if_false,
        dims_setLocalPosition, setLocalPosition_twice, ih]
    · have hv' : c.isVisible sv = false := by simpa using hv
      have e : placeRow sv sp x0 (c :: cs) = c :: placeRow sv sp x0 cs := by
        rw [placeRow]
        simp only [hv', Bool.not_false, if_true]
      rw [e, placeRow]
      simp only [hv', Bool.not_false, if_true, ih]

theorem layoutRow_idem (sv : Bool) (sp : ℚ) (cs : List VRUIWidget) :
    layoutRow sv sp (layoutRow sv sp cs) = layoutRow sv sp cs := by
  unfold layoutRow
  simp only [rowMeasure_placeRow]
  exact placeRow_idem sv sp cs _

theorem placeColumn_idem (sv : Bool) (sp : ℚ) (down : Bool) (cs : List VRUIWidget) :
    ∀ z0 : ℚ, placeColumn sv sp down z0 (placeColumn sv sp down z0 cs)
      = placeColumn sv sp down z0 cs := by
  induction cs with
  | nil => intro z0; rfl
  | cons c cs ih =>
    intro z0
    by_cases hv : c.isVisible sv = true
    · cases down with
      | true =>
        have e : placeColumn sv sp true z0 (c :: cs) =
            c.setLocalPosition ⟨0, 0,
              z0 - (c.calculateLogicalDimensions (c.isVisible sv)).y * (1 / 2)⟩ ::
            placeColumn sv sp true
              (z0 - ((c.calculateLogicalDimensions (c.isVisible sv)).y + sp)) cs := by
          rw [placeColumn]
          simp only [hv, Bool.not_true, Bool.false_eq_true, if_false, if_true]
        rw [e, placeColumn]
        simp only [isVisible_setLocalPosition, hv, Bool.not_true, Bool.false_eq_true, if_false,
          if_true, dims_setLocalPosition, setLocalPosition_twice, ih]
      | false =>
        have e : placeColumn sv sp false z0 (c :: cs) =
            c.setLocalPosition ⟨0, 0,
              z0 + (c.calculateLogicalDimensions (c.isVisible sv)).y * (1 / 2)⟩ ::
            placeColumn sv sp false
              (z0 + ((c.calculateLogicalDimensions (c.isVisible sv)).y + sp)) cs := by
          rw [placeColumn]
          simp only [hv, Bool.not_true, Bool.false_eq_true, if_false]
        rw [e, placeColumn]
        simp only [isVisible_setLocalPosition, hv, Bool.not_true, Bool.false_eq_true, if_false,
          dims_setLocalPosition, setLocalPosition_twice, ih]
    · have hv' : c.isVisible sv = false := by simpa using hv
      have e : placeColumn sv sp down z0 (c :: cs) = c :: placeColumn sv sp down z0 cs := by
        rw [placeColumn]
        simp only [hv', Bool.not_false, if_true]
      rw [e, placeColumn]
      simp only [hv', Bool.not_false, if_true, ih]

theorem showPage_idem (a b : Int) (cs : List VRUIWidget) :
    ∀ idx : Nat, showPage a b idx (showPage a b idx cs) = showPage a b idx cs := by
  induction cs with
  | nil => intro idx; rfl
  | cons c cs ih =>
    intro idx
    cases c with
    | mk d ds =>
      rw [showPage]
      split
      · rw [showPage, if_pos (by assumption), ih]
        rfl
      · rw [showPage, if_neg (by assumption), ih]
        rfl

theorem showPage_placeGrid (s : VRUISettings) (sp : ℚ) (n : Int) (first : VRUIWidget)
    (a b : Int) (cs : List VRUIWidget) :
    ∀ idx : Nat, showPage a b idx (placeGrid s sp n first a b idx cs)
      = placeGrid s sp n first a b idx (showPage a b idx cs) := by
  induction cs with
  | nil => intro idx; rfl
  | cons c cs ih =>
    intro idx
    cases c with
    | mk d ds =>
      rw [placeGrid, showPage]
      split
      · rw [showPage, if_pos (by assumption), placeGrid, if_pos (by assumption), ih]
        rfl
      · rw [showPage, if_neg (by assumption), placeGrid, if_neg (by assumption), ih]

/-- The grid cell depends on the first page child through its reported size only. -/
theorem gridCell_congr (s : VRUISettings) (sp : ℚ) (n : Int) (f1 f2 : VRUIWidget) (i : Int)
    (hw : f2.data.width = f1.data.width) (hh : f2.data.height = f1.data.height) :
    gridCell s sp n f2 i = gridCell s sp n f1 i := by
  unfold gridCell
  rw [hw, hh]

theorem placeGrid_twice (s : VRUISettings) (sp : ℚ) (n : Int) (f1 f2 : VRUIWidget)
    (a b : Int) (hw : f2.data.width = f1.data.width) (hh : f2.data.height = f1.data.height)
    (cs : List VRUIWidget) :
    ∀ idx : Nat, placeGrid s sp n f2 a b idx (placeGrid s sp n f1 a b idx cs)
      = placeGrid s sp n f1 a b idx cs := by
  induction cs with
  | nil => intro idx; rfl
  | cons c cs ih =>
    intro idx
    rw [placeGrid]
    split
    · rw [placeGrid, if_pos (by assumption), ih, setLocalPosition_twice,
        gridCell_congr s sp n f1 f2 _ hw hh]
    · rw [placeGrid, if_neg (by assumption), ih]


theorem length_placeGrid (s : VRUISettings) (sp : ℚ) (n : Int) (first : VRUIWidget)
    (a b : Int) (cs : List VRUIWidget) :
    ∀ idx : Nat, (placeGrid s sp n first a b idx cs).length = cs.length := by
  induction cs with
  | nil => intro idx; rfl
  | cons c cs ih => intro idx; rw [placeGrid]; simp [ih]

theorem length_layoutGrid (s : VRUISettings) (c : ContainerData) (cs : List VRUIWidget) :
    (layoutGrid s c cs).length = cs.length :=
  length_of_name (name_layoutGrid s c cs)

/-- The Grid case, run on its own result, changes nothing. -/
theorem layoutGrid_idem (s : VRUISettings) (c : ContainerData) (cs : List VRUIWidget) :
    layoutGrid s c (layoutGrid s c cs) = layoutGrid s c cs := by
  have hlen := length_layoutGrid s c cs
  generalize hR : layoutGrid s c cs = R at hlen
  unfold layoutGrid at hR ⊢
  simp only [] at hR ⊢
  rw [hlen]
  by_cases hN : max 0 (endIndex c (cs.length : Int) - startIndex c) = 0
  · rw [if_pos hN] at hR ⊢
    rw [← hR, showPage_idem]
  · rw [if_neg hN] at hR ⊢
    cases hfirst : (showPage (startIndex c) (endIndex c (cs.length : Int)) 0 cs).get?
        (startIndex c).toNat with
    | none =>
      rw [hfirst] at hR
      simp only [] at hR
      rw [← hR, showPage_idem, hfirst]
    | some first =>
      rw [hfirst] at hR
      simp only [] at hR
      have hshow : showPage (startIndex c) (endIndex c (cs.length : Int)) 0 R = R := by
        rw [← hR, showPage_placeGrid, showPage_idem]
      rw [hshow]
      have hget : R.get? (startIndex c).toNat =
          some (if startIndex c ≤ (((0 + (startIndex c).toNat : Nat)) : Int) ∧
                  (((0 + (startIndex c).toNat : Nat)) : Int) < endIndex c (cs.length : Int) then
                first.setLocalPosition (gridCell s c.spacing
                  (max 0 (endIndex c (cs.length : Int) - startIndex c)) first
                  ((((0 + (startIndex c).toNat : Nat)) : Int) - startIndex c))
              else first) := by
        rw [← hR, placeGrid_get?, hfirst]
        rfl
      rw [hget]
      simp only []
      rw [← hR]
      apply placeGrid_twice
      · split
        · exact (width_setLocalPosition _ _).1
        · rfl
      · split
        · exact (width_setLocalPosition _ _).2.1
        · rfl

theorem place_idem (s : VRUISettings) (sv : Bool) (c : ContainerData) (cs : List VRUIWidget) :
    place s sv c (place s sv c cs) = place s sv c cs := by
  unfold place
  cases c.layout with
  | HorizontalCenter => exact layoutRow_idem sv c.spacing cs
  | VerticalDown => exact placeColumn_idem sv c.spacing true cs 0
  | VerticalUp => exact placeColumn_idem sv c.spacing false cs 0
  | Grid => exact layoutGrid_idem s c cs
  | Free => rfl

theorem length_place (s : VRUISettings) (sv : Bool) (c : ContainerData) (cs : List VRUIWidget) :
    (place s sv c cs).length = cs.length := by
  unfold place
  cases c.layout with
  | HorizontalCenter => exact length_of_name (name_of_ident (ident_layoutRow sv c.spacing cs))
  | VerticalDown => exact length_of_name (name_of_ident (ident_placeColumn sv c.spacing true 0 cs))
  | VerticalUp => exact length_of_name (name_of_ident (ident_placeColumn sv c.spacing false 0 cs))
  | Grid => exact length_layoutGrid s c cs
  | Free => rfl

/-- The dimension update, run on its own result, changes nothing. -/
theorem updateDimensions_idem (sv : Bool) (d : WidgetData) (cs : List VRUIWidget) :
    updateDimensions sv (updateDimensions sv d cs).data cs = updateDimensions sv d cs := by
  unfold updateDimensions
  cases hc : d.container with
  | none => simp [calculateLogicalDimensions, hc, VRUIWidget.data]
  | some c => simp [calculateLogicalDimensions, hc, VRUIWidget.data]


theorem updateDimensions_setLocalPosition (sv : Bool) (d : WidgetData) (p : NiPoint3)
    (cs : List VRUIWidget) :
    updateDimensions sv { d with localTranslate := p } cs
      = (updateDimensions sv d cs).setLocalPosition p := by
  unfold updateDimensions
  cases hc : d.container with
  | none => simp [calculateLogicalDimensions, hc, VRUIWidget.setLocalPosition]
  | some c => simp [calculateLogicalDimensions, hc, VRUIWidget.setLocalPosition]

/-- A layout call does not read the widget's own position: it commutes with
`setLocalPosition` on the widget. -/
theorem recalculateLayoutAux_setLocalPosition (s : VRUISettings) (f : Nat) :
    ∀ (pv : Bool) (p : NiPoint3) (x : VRUIWidget),
      recalculateLayoutAux s f pv (x.setLocalPosition p)
        = (recalculateLayoutAux s f pv x).setLocalPosition p := by
  induction f with
  | zero => intro pv p x; rfl
  | succ f ih =>
    intro pv p x
    cases x with
    | mk d cs =>
      cases hc : d.container with
      | none =>
        rw [recalculateLayoutAux, recalculateLayoutAux]
        simp [hc, VRUIWidget.setLocalPosition, VRUIWidget.data]
      | some c =>
        by_cases hne : cs = []
        · subst hne
          rw [recalculateLayoutAux_empty s f pv ((VRUIWidget.mk d []).setLocalPosition p) c hc rfl,
            recalculateLayoutAux_empty s f pv (VRUIWidget.mk d []) c hc rfl]
          rfl
        · by_cases hb : c.layout = .Grid ∧ pageOutOfBounds c (cs.length : Int) = true
          · rw [recalculateLayoutAux_reset s f pv ((VRUIWidget.mk d cs).setLocalPosition p) c hc
                hb.1 hne hb.2,
              recalculateLayoutAux_reset s f pv (VRUIWidget.mk d cs) c hc hb.1 hne hb.2]
            exact ih pv p (VRUIWidget.mk
              { d with container := some { c with layoutDirty := false, currentPage := 0 } }
              (cs.map (recalculateLayoutAux s f ((VRUIWidget.mk d cs).isVisible pv))))
          · have hb' : c.layout = .Grid → pageOutOfBounds c (cs.length : Int) = false := by
              intro hl
              cases h : pageOutOfBounds c (cs.length : Int) with
              | false => rfl
              | true => exact absurd ⟨hl, h⟩ hb
            rw [recalculateLayoutAux_step s f pv ((VRUIWidget.mk d cs).setLocalPosition p) c hc
                hne hb',
              recalculateLayoutAux_step s f pv (VRUIWidget.mk d cs) c hc hne hb']
            exact updateDimensions_setLocalPosition ((VRUIWidget.mk d cs).isVisible pv)
              { d with container := some { c with layoutDirty := false } } p _

theorem depth_setLocalPosition (p : NiPoint3) (x : VRUIWidget) :
    (x.setLocalPosition p).depth = x.depth := by
  cases x; rfl

theorem recalculateLayout_setLocalPosition (s : VRUISettings) (pv : Bool) (p : NiPoint3)
    (x : VRUIWidget) :
    recalculateLayout s pv (x.setLocalPosition p)
      = (recalculateLayout s pv x).setLocalPosition p := by
  unfold recalculateLayout
  rw [depth_setLocalPosition, recalculateLayoutAux_setLocalPosition]

theorem map_placeRow_fix (F : VRUIWidget → VRUIWidget) (sv : Bool) (sp : ℚ)
    (hcomm : ∀ x p, F (x.setLocalPosition p) = (F x).setLocalPosition p)
    (cs : List VRUIWidget) (hF : ∀ x ∈ cs, F x = x) :
    ∀ x0 : ℚ, (placeRow sv sp x0 cs).map F = placeRow sv sp x0 cs := by
  induction cs with
  | nil => intro x0; rfl
  | cons c cs ih =>
    intro x0
    have hc := hF c (List.mem_cons_self _ _)
    have ih' := ih (fun x hx => hF x (List.mem_cons_of_mem _ hx))
    rw [placeRow]
    split
    · rw [List.map_cons, hc, ih']
    · rw [List.map_cons, hcomm, hc, ih']

theorem map_placeColumn_fix (F : VRUIWidget → VRUIWidget) (sv : Bool) (sp : ℚ) (down : Bool)
    (hcomm : ∀ x p, F (x.setLocalPosition p) = (F x).setLocalPosition p)
    (cs : List VRUIWidget) (hF : ∀ x ∈ cs, F x = x) :
    ∀ z0 : ℚ, (placeColumn sv sp down z0 cs).map F = placeColumn sv sp down z0 cs := by
  induction cs with
  | nil => intro z0; rfl
  | cons c cs ih =>
    intro z0
    have hc := hF c (List.mem_cons_self _ _)
    have ih' := ih (fun x hx => hF x (List.mem_cons_of_mem _ hx))
    rw [placeColumn]
    split
    · rw [List.map_cons, hc, ih']
    · split
      · rw [List.map_cons, hcomm, hc, ih']
      · rw [List.map_cons, hcomm, hc, ih']

theorem container_setVisible (v : Bool) (x : VRUIWidget) :
    (x.setVisible v).data.container = x.data.container := by
  cases x; rfl

theorem container_setLocalPosition (p : NiPoint3) (x : VRUIWidget) :
    (x.setLocalPosition p).data.container = x.data.container := by
  cases x; rfl

theorem plain_showPage (a b : Int) (cs : List VRUIWidget)
    (h : ∀ x ∈ cs, x.data.container = none) :
    ∀ idx : Nat, ∀ y ∈ showPage a b idx cs, y.data.container = none := by
  induction cs with
  | nil => intro idx y hy; simp [showPage] at hy
  | cons c cs ih =>
    intro idx y hy
    rw [showPage] at hy
    rcases List.mem_cons.mp hy with e | e
    · rw [e]
      split
      · rw [container_setVisible, container_setVisible]
        exact h c (List.mem_cons_self _ _)
      · rw [container_setVisible]
        exact h c (List.mem_cons_self _ _)
    · exact ih (fun x hx => h x (List.mem_cons_of_mem _ hx)) _ y e

theorem plain_placeGrid (s : VRUISettings) (sp : ℚ) (n : Int) (first : VRUIWidget)
    (a b : Int) (cs : List VRUIWidget) (h : ∀ x ∈ cs, x.data.container = none) :
    ∀ idx : Nat, ∀ y ∈ placeGrid s sp n first a b idx cs, y.data.container = none := by
  induction cs with
  | nil => intro idx y hy; simp [placeGrid] at hy
  | cons c cs ih =>
    intro idx y hy
    rw [placeGrid] at hy
    rcases List.mem_cons.mp hy with e | e
    · rw [e]
      split
      · rw [container_setLocalPosition]
        exact h c (List.mem_cons_self _ _)
      · exact h c (List.mem_cons_self _ _)
    · exact ih (fun x hx => h x (List.mem_cons_of_mem _ hx)) _ y e

theorem plain_layoutGrid (s : VRUISettings) (c : ContainerData) (cs : List VRUIWidget)
    (h : ∀ x ∈ cs, x.data.container = none) :
    ∀ y ∈ layoutGrid s c cs, y.data.container = none := by
  unfold layoutGrid
  simp only []
  split
  · exact plain_showPage _ _ cs h 0
  · split
    · exact plain_showPage _ _ cs h 0
    · exact plain_placeGrid _ _ _ _ _ _ _ (plain_showPage _ _ cs h 0) 0

theorem map_fix {β : Type} (F : β → β) (l : List β) (h : ∀ x ∈ l, F x = x) : l.map F = l := by
  induction l with
  | nil => rfl
  | cons x xs ih =>
    rw [List.map_cons, h x (List.mem_cons_self _ _),
      ih (fun y hy => h y (List.mem_cons_of_mem _ hy))]

theorem gridsFlatList_mem (cs : List VRUIWidget) (h : gridsFlat.gridsFlatList cs = true) :
    ∀ x ∈ cs, gridsFlat x = true := by
  induction cs with
  | nil => intro x hx; simp at hx
  | cons y ys ih =>
    rw [gridsFlat.gridsFlatList] at h
    simp only [Bool.and_eq_true] at h
    intro x hx
    rcases List.mem_cons.mp hx with e | e
    · rw [e]; exact h.1
    · exact ih h.2 x e

/-- What `gridsFlat` says of a container. -/
theorem gridsFlat_children (w : VRUIWidget) (c : ContainerData)
    (hc : w.data.container = some c) (h : gridsFlat w = true) :
    (c.layout = .Grid → ∀ x ∈ w.children, x.data.container = none) ∧
    ∀ x ∈ w.children, gridsFlat x = true := by
  cases w with
  | mk d cs =>
    have hc' : d.container = some c := hc
    rw [gridsFlat] at h
    simp only [hc', Bool.and_eq_true, Bool.or_eq_true, decide_eq_true_eq] at h
    obtain ⟨h1, h2⟩ := h
    refine ⟨?_, gridsFlatList_mem cs h2⟩
    intro hl x hx
    rcases h1 with h1 | h1
    · exact absurd hl h1
    · have := List.all_eq_true.mp h1 x hx
      simpa using this


/-- A container that was just laid out (page within bounds, children placed and themselves
fixed by the layout pass) is left as it is by another layout call. -/
theorem recalculateLayout_placed (s : VRUISettings) (pv : Bool) (d : WidgetData)
    (c1 : ContainerData) (cs : List VRUIWidget)
    (hd : d.container = some c1) (hdirty : c1.layoutDirty = false) (hne : cs ≠ [])
    (hb : c1.layout = .Grid → pageOutOfBounds c1 (cs.length : Int) = false)
    (hfix : (place s ((VRUIWidget.mk d cs).isVisible pv) c1 cs).map
        (recalculateLayout s ((VRUIWidget.mk d cs).isVisible pv))
      = place s ((VRUIWidget.mk d cs).isVisible pv) c1 cs) :
    recalculateLayout s pv
        (updateDimensions ((VRUIWidget.mk d cs).isVisible pv) d
          (place s ((VRUIWidget.mk d cs).isVisible pv) c1 cs))
      = updateDimensions ((VRUIWidget.mk d cs).isVisible pv) d
          (place s ((VRUIWidget.mk d cs).isVisible pv) c1 cs) := by
  generalize hsv : (VRUIWidget.mk d cs).isVisible pv = sv at hfix ⊢
  have hc1 : ({ c1 with layoutDirty := false } : ContainerData) = c1 := by
    cases c1
    simp only at hdirty
    subst hdirty
    rfl
  have hvis : (updateDimensions sv d (place s sv c1 cs)).isVisible pv = sv := by
    rw [← hsv]
    rfl
  have hne2 : (updateDimensions sv d (place s sv c1 cs)).children ≠ [] := by
    rw [updateDimensions_children]
    intro h
    have := length_place s sv c1 cs
    rw [h] at this
    exact hne (List.length_eq_zero.mp this.symm)
  have hb2 : c1.layout = .Grid → pageOutOfBounds c1
      ((updateDimensions sv d (place s sv c1 cs)).children.length : Int) = false := by
    intro hl
    rw [updateDimensions_children, length_place]
    exact hb hl
  rw [recalculateLayout_step s pv _ c1 (by rw [updateDimensions_container]; exact hd) hne2 hb2,
    hvis, hc1, updateDimensions_children, hfix, place_idem]
  have hdata : ({ (updateDimensions sv d (place s sv c1 cs)).data with container := some c1 }
      : WidgetData) = (updateDimensions sv d (place s sv c1 cs)).data := by
    have : (updateDimensions sv d (place s sv c1 cs)).data.container = some c1 := by
      rw [updateDimensions_container]; exact hd
    rw [← this]
  rw [hdata, updateDimensions_idem]

/-- The placed children are fixed by the layout pass when the laid-out children are, for the
layout modes other than Grid; for Grid, when the children are not containers. -/
theorem map_place_fix (s : VRUISettings) (sv : Bool) (c : ContainerData)
    (cs : List VRUIWidget)
    (hF : ∀ x ∈ cs, recalculateLayout s sv x = x)
    (hflat : c.layout = .Grid → ∀ x ∈ cs, x.data.container = none) :
    (place s sv c cs).map (recalculateLayout s sv) = place s sv c cs := by
  unfold place
  cases hl : c.layout with
  | HorizontalCenter =>
    exact map_placeRow_fix _ sv c.spacing (fun x p => recalculateLayout_setLocalPosition s sv p x)
      cs hF _
  | VerticalDown =>
    exact map_placeColumn_fix _ sv c.spacing true
      (fun x p => recalculateLayout_setLocalPosition s sv p x) cs hF _
  | VerticalUp =>
    exact map_placeColumn_fix _ sv c.spacing false
      (fun x p => recalculateLayout_setLocalPosition s sv p x) cs hF _
  | Grid =>
    apply map_fix
    intro y hy
    exact recalculateLayout_plain s sv y (plain_layoutGrid s c cs (hflat hl) y hy)
  | Free => exact map_fix _ cs hF

/-- One level of the induction: a container whose children are fixed by a second layout call
is fixed by a second layout call. -/
theorem recalculateLayout_idem_step (s : VRUISettings) (w : VRUIWidget)
    (hflat : gridsFlat w = true)
    (hch : ∀ x ∈ w.children, ∀ v,
      recalculateLayout s v (recalculateLayout s v x) = recalculateLayout s v x) (pv : Bool) :
    recalculateLayout s pv (recalculateLayout s pv w) = recalculateLayout s pv w := by
  cases hc : w.data.container with
  | none => rw [recalculateLayout_plain s pv w hc, recalculateLayout_plain s pv w hc]
  | some c =>
    by_cases hne : w.children = []
    · rw [recalculateLayout_empty s pv w c hc hne]
      exact recalculateLayout_empty s pv _ { c with layoutDirty := false } rfl rfl
    · obtain ⟨hgrid, _⟩ := gridsFlat_children w c hc hflat
      -- the laid-out children, fixed by another call
      have hfixed : ∀ x ∈ w.children.map (recalculateLayout s (w.isVisible pv)),
          recalculateLayout s (w.isVisible pv) x = x := by
        intro x hx
        obtain ⟨x0, hx0, rfl⟩ := List.mem_map.mp hx
        exact hch x0 hx0 _
      have hmapfix : (w.children.map (recalculateLayout s (w.isVisible pv))).map
          (recalculateLayout s (w.isVisible pv))
          = w.children.map (recalculateLayout s (w.isVisible pv)) := map_fix _ _ hfixed
      have hplain : c.layout = .Grid →
          ∀ x ∈ w.children.map (recalculateLayout s (w.isVisible pv)),
            x.data.container = none := by
        intro hl x hx
        obtain ⟨x0, hx0, rfl⟩ := List.mem_map.mp hx
        rw [recalculateLayout_plain s _ x0 (hgrid hl x0 hx0)]
        exact hgrid hl x0 hx0
      have hne2 : w.children.map (recalculateLayout s (w.isVisible pv)) ≠ [] := by
        simpa using hne
      by_cases hb : c.layout = .Grid ∧ pageOutOfBounds c (w.children.length : Int) = true
      · rw [recalculateLayout_reset s pv w c hc hb.1 hne hb.2, hmapfix]
        exact recalculateLayout_placed s pv
          { w.data with container := some { c with layoutDirty := false, currentPage := 0 } }
          { c with layoutDirty := false, currentPage := 0 } _ rfl rfl hne2
          (fun _ => by simp [pageOutOfBounds])
          (map_place_fix s _ _ _ hfixed hplain)
      · have hb' : c.layout = .Grid → pageOutOfBounds c (w.children.length : Int) = false := by
          intro hl
          cases h : pageOutOfBounds c (w.children.length : Int) with
          | false => rfl
          | true => exact absurd ⟨hl, h⟩ hb
        rw [recalculateLayout_step s pv w c hc hne hb']
        exact recalculateLayout_placed s pv
          { w.data with container := some { c with layoutDirty := false } }
          { c with layoutDirty := false } _ rfl rfl hne2
          (fun hl => by rw [List.length_map]; exact hb' hl)
          (map_place_fix s _ _ _ hfixed hplain)

/-- Two layout calls in a row leave a tree whose Grid containers hold no containers as one
call leaves it. -/
theorem recalculateLayout_idem (s : VRUISettings) (n : Nat) :
    ∀ w : VRUIWidget, w.depth ≤ n → gridsFlat w = true → ∀ pv,
      recalculateLayout s pv (recalculateLayout s pv w) = recalculateLayout s pv w := by
  induction n with
  | zero =>
    intro w hd hflat pv
    apply recalculateLayout_idem_step s w hflat
    intro x hx
    have := depth_lt_of_mem _ x hx
    rw [← depth_eq] at this
    omega
  | succ n ih =>
    intro w hd hflat pv
    cases hc : w.data.container with
    | none => rw [recalculateLayout_plain s pv w hc, recalculateLayout_plain s pv w hc]
    | some c =>
      apply recalculateLayout_idem_step s w hflat
      intro x hx v
      have := depth_lt_of_mem _ x hx
      rw [← depth_eq] at this
      exact ih x (by omega) ((gridsFlat_children w c hc hflat).2 x hx) v


theorem showPage_get? (a b : Int) (cs : List VRUIWidget) :
    ∀ (idx j : Nat), (showPage a b idx cs).get? j =
      (cs.get? j).map (fun x =>
        if a ≤ ((idx + j : Nat) : Int) ∧ ((idx + j : Nat) : Int) < b then
          (x.setVisible false).setVisible true
        else x.setVisible false) := by
  induction cs with
  | nil => intro idx j; simp [showPage]
  | cons c cs ih =>
    intro idx j
    rw [showPage]
    cases j with
    | zero => simp
    | succ k =>
      simp only [List.get?_cons_succ]
      rw [ih (idx + 1) k]
      have : idx + 1 + k = idx + (k + 1) := by omega
      rw [this]

/-- A child outside the current page is hidden by the Grid case and not placed. -/
theorem layoutGrid_get?_off (s : VRUISettings) (c : ContainerData) (cs : List VRUIWidget)
    (j : Nat)
    (hj : ¬ (startIndex c ≤ (j : Int) ∧ (j : Int) < endIndex c (cs.length : Int))) :
    (layoutGrid s c cs).get? j = (cs.get? j).map (fun x => x.setVisible false) := by
  have hshow : (showPage (startIndex c) (endIndex c (cs.length : Int)) 0 cs).get? j
      = (cs.get? j).map (fun x => x.setVisible false) := by
    rw [showPage_get?]
    simp only [Nat.zero_add, if_neg hj]
  unfold layoutGrid
  simp only []
  split
  · exact hshow
  · split
    · exact hshow
    · rw [placeGrid_get?, hshow]
      simp only [Nat.zero_add, if_neg hj, Option.map_map]
      rfl

/-- The child of a Grid container at a position outside the current page, after the layout
pass: it was laid out as the container's visibility had it, and then hidden. -/
theorem grid_child_off (s : VRUISettings) (pv : Bool) (w : VRUIWidget) (c : ContainerData)
    (hc : w.data.container = some c) (hl : c.layout = .Grid) (hne : w.children ≠ [])
    (hb : pageOutOfBounds c w.children.length = false) (j : Nat)
    (hj : ¬ (startIndex c ≤ (j : Int) ∧ (j : Int) < endIndex c (w.children.length : Int))) :
    (recalculateLayout s pv w).children.get? j
      = (w.children.get? j).map
          (fun x => (recalculateLayout s (w.isVisible pv) x).setVisible false) := by
  rw [recalculateLayout_step s pv w c hc hne (fun _ => hb), updateDimensions_children]
  have hp : place s (w.isVisible pv) { c with layoutDirty := false }
      (w.children.map (recalculateLayout s (w.isVisible pv)))
      = layoutGrid s { c with layoutDirty := false }
          (w.children.map (recalculateLayout s (w.isVisible pv))) := by
    unfold place
    simp only [hl]
  rw [hp, layoutGrid_get?_off s _ _ j (by rw [List.length_map]; exact hj)]
  simp only [List.get?_eq_getElem?, List.getElem?_map, Option.map_map]
  rfl

theorem isVisible_false (x : VRUIWidget) : x.isVisible false = false := by
  unfold VRUIWidget.isVisible
  cases x.data.visible <;> rfl

theorem boundsLoop_hidden (cs : List VRUIWidget) :
    ∀ b : Bounds, boundsLoop false cs b = b := by
  induction cs with
  | nil => intro b; rw [boundsLoop]
  | cons c cs ih =>
    intro b
    rw [boundsLoop]
    simp only [isVisible_false, Bool.not_false, if_true]
    exact ih b

/-- A container that is laid out while it is not visible reports the size 0 by 0: none of
its children counts as visible. -/
theorem recalculateLayout_hidden_size (s : VRUISettings) (pv : Bool) (w : VRUIWidget)
    (c : ContainerData) (hc : w.data.container = some c) (hl : c.layout ≠ .Grid)
    (hne : w.children ≠ []) (hv : w.isVisible pv = false) :
    (recalculateLayout s pv w).data.width = 0 ∧ (recalculateLayout s pv w).data.height = 0 := by
  rw [recalculateLayout_step s pv w c hc hne (fun h => absurd h hl), hv]
  unfold updateDimensions
  rw [calculateLogicalDimensions]
  simp only [boundsLoop_hidden]
  constructor <;> split <;> rfl


/-- The layout pass on a visible row holding one widget of size 3 by 2. -/
theorem rowOfOne_layout (s : VRUISettings) (name : String) :
    recalculateLayout s true (rowOfOne name) =
      .mk { (new name .HorizontalCenter 0 1).data with
            width := 3, height := 2,
            container := some { layoutDirty := false, layout := .HorizontalCenter,
                                spacing := 0, pageSize := 0, currentPage := 0 } }
        [(plain "a" 3 2).setLocalPosition ⟨0, 0, 0⟩] := by
  have hrow : layoutRow true 0 [plain "a" 3 2] = [(plain "a" 3 2).setLocalPosition ⟨0, 0, 0⟩] := by
    have ha : (plain "a" 3 2).calculateLogicalDimensions true = ⟨3, 2⟩ := by
      rw [plain, calculateLogicalDimensions]
    have va : (plain "a" 3 2).isVisible true = true := rfl
    simp only [layoutRow, rowMeasure, placeRow, va, ha, if_true, Bool.not_true,
      Bool.false_eq_true, if_false]
    norm_num
  have hdim : (VRUIWidget.mk
      { (new name .HorizontalCenter 0 1).data with
        container := some { layoutDirty := false, layout := .HorizontalCenter,
                            spacing := 0, pageSize := 0, currentPage := 0 } }
      [(plain "a" 3 2).setLocalPosition ⟨0, 0, 0⟩]).calculateLogicalDimensions true
      = ⟨3, 2⟩ := by
    have va : ((plain "a" 3 2).setLocalPosition ⟨0, 0, 0⟩).isVisible true = true := rfl
    have pa : ((plain "a" 3 2).setLocalPosition ⟨0, 0, 0⟩).data.localTranslate
        = ⟨0, 0, 0⟩ := rfl
    rw [calculateLogicalDimensions]
    simp only [new, boundsLoop, va, pa, dims_plain, Bool.not_true, Bool.false_eq_true,
      if_false, if_true, List.isEmpty_cons]
    norm_num
  have hstep := recalculateLayout_step s true (rowOfOne name)
    { layoutDirty := true, layout := .HorizontalCenter, spacing := 0, pageSize := 0,
      currentPage := 0 } rfl (by simp [rowOfOne, addChild]) (fun h => by cases h)
  rw [hstep]
  have hch : (rowOfOne name).children.map (recalculateLayout s ((rowOfOne name).isVisible true))
      = [plain "a" 3 2] := by
    simp [rowOfOne, addChild, new, recalculateLayout_plain, plain]
  rw [hch]
  have hvis : (rowOfOne name).isVisible true = true := rfl
  rw [hvis]
  unfold place
  simp only []
  rw [hrow]
  unfold updateDimensions
  have hd : ({ (rowOfOne name).data with
      container := some { layoutDirty := false, layout := .HorizontalCenter,
                          spacing := 0, pageSize := 0, currentPage := 0 } } : WidgetData)
      = { (new name .HorizontalCenter 0 1).data with
          container := some { layoutDirty := false, layout := .HorizontalCenter,
                              spacing := 0, pageSize := 0, currentPage := 0 } } := rfl
  simp only [hd, hdim]
  rfl


/-- C29, refuted as stated: a Grid with page size 1 holding two row containers, everything
visible as constructed.  The first `recalculateLayout()` lays out the second row while it is
visible (it reports width 3) and then hides it as off-page; the second call lays it out
while hidden, and it reports width 0.  So the second call changes a reported width. -/
theorem C29_counterexample :
    ∃ y1 y2,
      (recalculateLayout VRUISettings.defaults true pagedRows).children.get? 1 = some y1 ∧
      (recalculateLayout VRUISettings.defaults true
        (recalculateLayout VRUISettings.defaults true pagedRows)).children.get? 1 = some y2 ∧
      y1.data.width = 3 ∧ y2.data.width = 0 ∧
      recalculateLayout VRUISettings.defaults true
          (recalculateLayout VRUISettings.defaults true pagedRows)
        ≠ recalculateLayout VRUISettings.defaults true pagedRows := by
  have hne : pagedRows.children ≠ [] := by simp [pagedRows]
  have hb : pageOutOfBounds
      { layoutDirty := true, layout := .Grid, spacing := 3 / 10, pageSize := 1, currentPage := 0 }
      (pagedRows.children.length : Int) = false := by decide
  -- the second row after the first call
  have h1 := grid_child_off VRUISettings.defaults true pagedRows
    { layoutDirty := true, layout := .Grid, spacing := 3 / 10, pageSize := 1, currentPage := 0 }
    rfl rfl hne hb 1 (by decide)
  have hv : pagedRows.isVisible true = true := rfl
  have hget : pagedRows.children.get? 1 = some (rowOfOne "row1") := rfl
  rw [hv, hget, Option.map_some'] at h1
  -- the second row as the first call laid it out
  obtain ⟨r1, hr1⟩ : ∃ r1, r1 = recalculateLayout VRUISettings.defaults true (rowOfOne "row1") :=
    ⟨_, rfl⟩
  rw [← hr1] at h1
  have hr1w : r1.data.width = 3 := by rw [hr1, rowOfOne_layout]; rfl
  have hr1c : r1.data.container = some ⟨false, .HorizontalCenter, 0, 0, 0⟩ := by
    rw [hr1, rowOfOne_layout]; rfl
  have hr1n : r1.children ≠ [] := by rw [hr1, rowOfOne_layout]; simp
  -- the container after the first call
  have hstep := recalculateLayout_step VRUISettings.defaults true pagedRows
    { layoutDirty := true, layout := .Grid, spacing := 3 / 10, pageSize := 1, currentPage := 0 }
    rfl hne (fun _ => hb)
  have hc2 : (recalculateLayout VRUISettings.defaults true pagedRows).data.container
      = some { layoutDirty := false, layout := .Grid, spacing := 3 / 10, pageSize := 1,
               currentPage := 0 } := by
    rw [hstep]; rfl
  have hlen : (recalculateLayout VRUISettings.defaults true pagedRows).children.length = 2 := by
    rw [hstep, updateDimensions_children, length_place, List.length_map]
    rfl
  have hne2 : (recalculateLayout VRUISettings.defaults true pagedRows).children ≠ [] := by
    intro h
    rw [h] at hlen
    cases hlen
  have hv2 : (recalculateLayout VRUISettings.defaults true pagedRows).isVisible true = true := by
    rw [hstep]; rfl
  have h2 := grid_child_off VRUISettings.defaults true
    (recalculateLayout VRUISettings.defaults true pagedRows)
    { layoutDirty := false, layout := .Grid, spacing := 3 / 10, pageSize := 1, currentPage := 0 }
    hc2 rfl hne2 (by rw [hlen]; decide) 1 (by rw [hlen]; decide)
  rw [h1, hv2, Option.map_some'] at h2
  -- laid out while hidden, the row reports the size 0 by 0
  have hhid : (r1.setVisible false).isVisible true = false := by
    cases r1; rfl
  have hsize := recalculateLayout_hidden_size VRUISettings.defaults true (r1.setVisible false)
    { layoutDirty := false, layout := .HorizontalCenter, spacing := 0, pageSize := 0,
      currentPage := 0 } (by rw [container_setVisible]; exact hr1c) (by decide)
    (by rw [children_setVisible]; exact hr1n) hhid
  have hw1 : (r1.setVisible false).data.width = 3 := by
    rw [(size_setVisible _ _).1]; exact hr1w
  have hw2 : ((recalculateLayout VRUISettings.defaults true (r1.setVisible false)).setVisible
      false).data.width = 0 := by
    rw [(size_setVisible _ _).1]; exact hsize.1
  refine ⟨_, _, h1, h2, hw1, hw2, ?_⟩
  intro heq
  rw [heq, h1] at h2
  have hw := congrArg (fun o => o.map (fun y => y.data.width)) h2
  simp only [Option.map_some', Option.some.injEq] at hw
  rw [hw1, hw2] at hw
  norm_num at hw

/-- C29, as the code has it: on every widget tree in which the Grid containers hold no
containers (any nesting of the other layout modes, any page sizes, page indices and
visibility flags), `recalculateLayout()` called twice in a row leaves the tree exactly as one
call leaves it: every position, visibility flag, reported size and current page.  (A
container inside a Grid is laid out before the Grid shows or hides it, so a second call can
lay it out differently.) -/
theorem C29_layout_idempotent (s : VRUISettings) (pv : Bool) (w : VRUIWidget)
    (hflat : gridsFlat w = true) :
    recalculateLayout s pv (recalculateLayout s pv w) = recalculateLayout s pv w :=
  recalculateLayout_idem s w.depth w (le_refl _) hflat pv

/-- C29 at a sample: a column holding a row of two widgets and a Grid of four slots. -/
theorem C29_layout_idempotent_witness :
    gridsFlat nestedMenu = true ∧
    recalculateLayout VRUISettings.defaults true
        (recalculateLayout VRUISettings.defaults true nestedMenu)
      = recalculateLayout VRUISettings.defaults true nestedMenu :=
  ⟨by decide, C29_layout_idempotent VRUISettings.defaults true nestedMenu (by decide)⟩

/-- The sample `pagedRows` of the refutation has containers inside its Grid. -/
theorem gridsFlat_pagedRows : gridsFlat pagedRows = false := by decide

end VRUIContainer

end vrui
